import Mathlib

/-!
# YASB bootloader (Renesas S5D9): a shallow embedding and its verification

The development follows the C sources of the bootloader:

* `sha256_hal.c`   : `sha256_hash`, the streaming adapter over the block-only hash driver;
* `image_verify.c` : `verify_image`;
* `port.c`         : the slot manager (blank check, erase, program);
* `bootloader.c`   : `boot`, the decision engine.

Machine integers are natural numbers reduced modulo `2^32` (or `2^8`) wherever the C code
can overflow.  Memory is one 32-bit address space of bytes, shared by the two slots.  The
drivers of the board support package (hash, ECC, flash) are not part of the repository:
they are parameters.  Uninitialised locals (`temp_data`, `hash`, `blank_status`,
`flash_page_buffer`) start with an arbitrary content that is a parameter as well.  A run
records the driver calls, the `verify_image` calls and the final transfer of control in an
event trace.  The build modelled is the one of `port.h` as it stands: `PK_S5D9` defined,
`UPDATE_USES_QSPI_FLASH` not defined.
-/

namespace YASB

/-! ## Constants (`port.h`, `bootloader.h`, `sha256_hal.h`, SSP error codes) -/

def SSP_SUCCESS : Nat := 0
def SSP_ERR_ASSERTION : Nat := 1

def VERIFY_SUCCESS : Nat := 0x5A3C
def VERIFY_FAIL : Nat := 0

/-- The bytes of the string "YASB". -/
def MAGIC_NUMBER : List Nat := [0x59, 0x41, 0x53, 0x42]
def MAGIC_NUMBER_LEN : Nat := 4

def ECC_256_SIGNATURE_R_LENGTH_WORDS : Nat := 8
def ECC_256_SIGNATURE_S_LENGTH_WORDS : Nat := 8
def SIGNATURE_LEN : Nat := 2 * ECC_256_SIGNATURE_R_LENGTH_WORDS
def SIGNATURE_LEN_BYTES : Nat := 4 * SIGNATURE_LEN
def IMAGE_HEADER_SIZE : Nat := 0x100

def INTERNAL_FLASH_START_ADDRESS : Nat := 0
def TOTAL_INTERNAL_FLASH_SIZE : Nat := 0x00200000
def MAIN_IMAGE_START_ADDRESS : Nat := 0x00010000
def MAIN_IMAGE_ERASE_BLOCK_SIZE : Nat := 32 * 1024
def MAIN_FLASH_PROGRAMMING_PAGE_SIZE : Nat := 128
def MAIN_IMAGE_MAX_SIZE : Nat := (TOTAL_INTERNAL_FLASH_SIZE - MAIN_IMAGE_START_ADDRESS) / 2
def UPDATE_IMAGE_START_ADDRESS : Nat := MAIN_IMAGE_START_ADDRESS + MAIN_IMAGE_MAX_SIZE
def UPDATE_IMAGE_ERASE_BLOCK_SIZE : Nat := 32 * 1024
def UPDATE_IMAGE_MAX_SIZE : Nat := MAIN_IMAGE_MAX_SIZE
def ERASED_STATE : Nat := 0xFF

def SHA256_DIGEST_SIZE_BYTES : Nat := 32
def SHA256_BLOCK_SIZE_BYTES : Nat := 64

/-- Offsets of the fields of `bootloader_image_header_t`. -/
def OFFSET_magic_number : Nat := 0
def OFFSET_signature : Nat := 4
def OFFSET_length : Nat := 4 + SIGNATURE_LEN_BYTES
def OFFSET_version : Nat := 4 + SIGNATURE_LEN_BYTES + 4

/-! ## Memory and buffers -/

/-- One byte-addressed memory; only the addresses below `2^32` are ever looked at. -/
abbrev Mem := Nat → Nat

/-- A `uint32_t` value. -/
def wrap32 (x : Nat) : Nat := x % 4294967296

/-- The byte at a (32-bit) address. -/
def rd8 (mem : Mem) (a : Nat) : Nat := mem (wrap32 a) % 256

/-- The `n` bytes starting at address `a`. -/
def readBytes (mem : Mem) (a n : Nat) : List Nat :=
  (List.range n).map (fun i => rd8 mem (a + i))

/-- A little-endian `uint32_t` field. -/
def rd32 (mem : Mem) (a : Nat) : Nat :=
  rd8 mem a + 256 * rd8 mem (a + 1) + 65536 * rd8 mem (a + 2) + 16777216 * rd8 mem (a + 3)

/-- A local array (stack buffer), byte indexed; its initial content is arbitrary. -/
abbrev Buf := Nat → Nat

def memset (buf : Buf) (off val n : Nat) : Buf :=
  fun i => if off ≤ i ∧ i < off + n then val else buf i

def memcpy (buf : Buf) (off : Nat) (src : List Nat) : Buf :=
  fun i => if off ≤ i ∧ i < off + src.length then src.getD (i - off) 0 else buf i

/-- The first `n` bytes of a buffer. -/
def bufBytes (buf : Buf) (n : Nat) : List Nat := (List.range n).map buf

/-! ## `sha256_hal.c` -/

def sha256_initial_values : List Nat :=
  [0x6a, 0x09, 0xe6, 0x67, 0xbb, 0x67, 0xae, 0x85,
   0x3c, 0x6e, 0xf3, 0x72, 0xa5, 0x4f, 0xf5, 0x3a,
   0x51, 0x0e, 0x52, 0x7f, 0x9b, 0x05, 0x68, 0x8c,
   0x1f, 0x83, 0xd9, 0xab, 0x5b, 0xe0, 0xcd, 0x19]

/-- The `hashUpdate` entry of the hash driver: from the bytes handed over (`num_words * 4`
of them) and the running digest to an error code and the new digest. -/
abbrev HashUpdate := List Nat → List Nat → Nat × List Nat

/-- The `for` loop of the unaligned path: `n` iterations are left, `i` is the loop
counter.  Returns the error code, `temp_data` and `hash_digest`. -/
def sha256_hash_loop (hashUpdate : HashUpdate) (mem : Mem) (p_input : Nat) :
    Nat → Nat → Buf → List Nat → Nat × Buf × List Nat
  | 0, _, temp_data, hash_digest => (SSP_SUCCESS, temp_data, hash_digest)
  | n + 1, i, temp_data, hash_digest =>
    let temp_data1 := memcpy temp_data 0 (readBytes mem (wrap32 (p_input + i)) SHA256_BLOCK_SIZE_BYTES)
    let r := hashUpdate (bufBytes temp_data1 SHA256_BLOCK_SIZE_BYTES) hash_digest
    if r.1 ≠ SSP_SUCCESS then (r.1, temp_data1, hash_digest)
    else sha256_hash_loop hashUpdate mem p_input n (i + SHA256_BLOCK_SIZE_BYTES) temp_data1 r.2

/-- Lines 99-110: the eight bytes of the bit length, stored at offset 56 of `temp_data`. -/
def store_bit_length (temp_data : Buf) (length : Nat) : Buf :=
  let off := SHA256_BLOCK_SIZE_BYTES - 8
  -- (uint32_t)((uint64_t)(length << 3) >> 32) : the shift is done on 32 bits
  let hi := wrap32 ((wrap32 (length * 8) % 18446744073709551616) / 4294967296)
  let t0 := memset temp_data (off + 0) ((hi / 16777216) % 256) 1
  let t1 := memset t0 (off + 1) ((hi / 65536) % 256) 1
  let t2 := memset t1 (off + 2) ((hi / 256) % 256) 1
  let t3 := memset t2 (off + 3) (hi % 256) 1
  -- (uint32_t)((uint64_t)length << 3)
  let lo := wrap32 ((length * 8) % 18446744073709551616)
  let t4 := memset t3 (off + 4) ((lo / 16777216) % 256) 1
  let t5 := memset t4 (off + 5) ((lo / 65536) % 256) 1
  let t6 := memset t5 (off + 6) ((lo / 256) % 256) 1
  memset t6 (off + 7) (lo % 256) 1

/-- The function `sha256_hash`.  `temp_data` is the uninitialised scratch array, `p_hash`
the content of the output buffer before the call; the result is the error code and the
content of the output buffer after the call. -/
def sha256_hash (hashUpdate : HashUpdate) (mem : Mem) (p_input length : Nat)
    (temp_data : Buf) (p_hash : List Nat) : Nat × List Nat :=
  let bytes_to_hash := (length / SHA256_BLOCK_SIZE_BYTES) * SHA256_BLOCK_SIZE_BYTES
  let remaining_bytes := length % SHA256_BLOCK_SIZE_BYTES
  let hash_digest := sha256_initial_values
  let whole : Nat × Buf × List Nat :=
    if p_input &&& 0x03 = 0 then
      let r := hashUpdate (readBytes mem p_input bytes_to_hash) hash_digest
      (r.1, temp_data, r.2)
    else
      sha256_hash_loop hashUpdate mem p_input (bytes_to_hash / SHA256_BLOCK_SIZE_BYTES) 0
        temp_data hash_digest
  if whole.1 ≠ SSP_SUCCESS then (whole.1, p_hash)
  else
    let hash_digest1 := whole.2.2
    let temp_data1 :=
      if remaining_bytes ≠ 0 then
        memcpy whole.2.1 0 (readBytes mem (wrap32 (p_input + bytes_to_hash)) remaining_bytes)
      else whole.2.1
    -- the terminator
    let temp_data2 := memset temp_data1 remaining_bytes 0x80 1
    if SHA256_BLOCK_SIZE_BYTES - remaining_bytes - 1 ≥ 8 then
      let temp_data3 := memset temp_data2 (remaining_bytes + 1) 0
        (SHA256_BLOCK_SIZE_BYTES - remaining_bytes - 1 - 8)
      let temp_data4 := store_bit_length temp_data3 length
      let r := hashUpdate (bufBytes temp_data4 SHA256_BLOCK_SIZE_BYTES) hash_digest1
      if r.1 ≠ SSP_SUCCESS then (r.1, p_hash) else (SSP_SUCCESS, r.2)
    else
      let temp_data3 := memset temp_data2 (remaining_bytes + 1) 0
        (SHA256_BLOCK_SIZE_BYTES - remaining_bytes - 1)
      let r0 := hashUpdate (bufBytes temp_data3 SHA256_BLOCK_SIZE_BYTES) hash_digest1
      if r0.1 ≠ SSP_SUCCESS then (r0.1, p_hash)
      else
        let temp_data4 := memset temp_data3 0 0 (SHA256_BLOCK_SIZE_BYTES - 8)
        let temp_data5 := store_bit_length temp_data4 length
        let r := hashUpdate (bufBytes temp_data5 SHA256_BLOCK_SIZE_BYTES) r0.2
        if r.1 ≠ SSP_SUCCESS then (r.1, p_hash) else (SSP_SUCCESS, r.2)

/-! ## `image_verify.c`, `keys.c` -/

/-- Curve parameters a, b, p, n of secp256k1. -/
def domain : List Nat :=
  [0x00, 0x00, 0x00, 0x00, 0x00, 0x00, 0x00, 0x00, 0x00, 0x00, 0x00, 0x00,
   0x00, 0x00, 0x00, 0x00, 0x00, 0x00, 0x00, 0x00, 0x00, 0x00, 0x00, 0x00,
   0x00, 0x00, 0x00, 0x00, 0x00, 0x00, 0x00, 0x00,
   0x00, 0x00, 0x00, 0x00, 0x00, 0x00, 0x00, 0x00, 0x00, 0x00, 0x00, 0x00,
   0x00, 0x00, 0x00, 0x00, 0x00, 0x00, 0x00, 0x00, 0x00, 0x00, 0x00, 0x00,
   0x00, 0x00, 0x00, 0x00, 0x00, 0x00, 0x00, 0x07,
   0xFF, 0xFF, 0xFF, 0xFF, 0xFF, 0xFF, 0xFF, 0xFF, 0xFF, 0xFF, 0xFF, 0xFF,
   0xFF, 0xFF, 0xFF, 0xFF, 0xFF, 0xFF, 0xFF, 0xFF, 0xFF, 0xFF, 0xFF, 0xFF,
   0xFF, 0xFF, 0xFF, 0xFE, 0xFF, 0xFF, 0xFC, 0x2F,
   0xFF, 0xFF, 0xFF, 0xFF, 0xFF, 0xFF, 0xFF, 0xFF, 0xFF, 0xFF, 0xFF, 0xFF,
   0xFF, 0xFF, 0xFF, 0xFE, 0xBA, 0xAE, 0xDC, 0xE6, 0xAF, 0x48, 0xA0, 0x3B,
   0xBF, 0xD2, 0x5E, 0x8C, 0xD0, 0x36, 0x41, 0x41]

/-- Base point G, uncompressed. -/
def generator_point : List Nat :=
  [0x79, 0xBE, 0x66, 0x7E, 0xF9, 0xDC, 0xBB, 0xAC, 0x55, 0xA0, 0x62, 0x95,
   0xCE, 0x87, 0x0B, 0x07, 0x02, 0x9B, 0xFC, 0xDB, 0x2D, 0xCE, 0x28, 0xD9,
   0x59, 0xF2, 0x81, 0x5B, 0x16, 0xF8, 0x17, 0x98,
   0x48, 0x3a, 0xda, 0x77, 0x26, 0xa3, 0xc4, 0x65, 0x5d, 0xa4, 0xfb, 0xfc,
   0x0e, 0x11, 0x08, 0xa8, 0xfd, 0x17, 0xb4, 0x48, 0xa6, 0x85, 0x54, 0x19,
   0x9c, 0x47, 0xd0, 0x8f, 0xfb, 0x10, 0xd4, 0xb8]

def g_public_key : List Nat :=
  [0x3a, 0xec, 0xde, 0x7d, 0xac, 0xb9, 0x9b, 0xbc, 0xd9, 0x0b, 0x95, 0xaa, 0xb5, 0x07, 0x94, 0x9f,
   0xf7, 0x37, 0xac, 0x28, 0x14, 0x75, 0x46, 0x64, 0xb0, 0x6a, 0x31, 0x17, 0x24, 0x42, 0x64, 0x2d,
   0xf2, 0xc8, 0xa7, 0xfc, 0x33, 0xa4, 0x5e, 0x41, 0xe2, 0x75, 0x8c, 0x8a, 0xba, 0x76, 0x57, 0x54,
   0x0f, 0xbe, 0x7d, 0x6b, 0xa6, 0x36, 0xda, 0x4b, 0x29, 0x3a, 0xb4, 0xeb, 0x62, 0xc3, 0x29, 0xa0]

/-- The `verify` entry of the ECC driver: domain parameters, generator point, public key,
message digest, signature r, signature s; returns an error code. -/
abbrev EccVerify := List Nat → List Nat → List Nat → List Nat → List Nat → List Nat → Nat

/-- The crypto services `verify_image` consumes, and the arbitrary initial content of the
two local arrays involved (`temp_data` of `sha256_hash`, `hash` of `verify_image`). -/
structure Crypto where
  hashUpdate : HashUpdate
  eccVerify : EccVerify
  temp_data : Buf
  hash : List Nat

/-- A call that `verify_image` makes to a service. -/
inductive ServiceCall where
  | sha256_hash (p_input length : Nat)
  | ecc_verify (digest r s : List Nat)
  deriving DecidableEq

/-- The function `verify_image`: the result and the service calls made, in order. -/
def verify_image (c : Crypto) (mem : Mem) (p_image_header : Nat) (p_public_key : List Nat) :
    Nat × List ServiceCall :=
  if readBytes mem p_image_header MAGIC_NUMBER_LEN ≠ MAGIC_NUMBER then (VERIFY_FAIL, [])
  else
    let length := rd32 mem (p_image_header + OFFSET_length)
    let new_image_length := wrap32 (length + 4 + SIGNATURE_LEN_BYTES + 4)
    if new_image_length > MAIN_IMAGE_MAX_SIZE then (VERIFY_FAIL, [])
    else
      let p_input := wrap32 (p_image_header + OFFSET_length)
      let h := sha256_hash c.hashUpdate mem p_input (wrap32 (length + 4)) c.temp_data c.hash
      let hash := h.2
      let r := readBytes mem (p_image_header + OFFSET_signature) (4 * ECC_256_SIGNATURE_R_LENGTH_WORDS)
      let s := readBytes mem (p_image_header + OFFSET_signature + 4 * ECC_256_SIGNATURE_R_LENGTH_WORDS)
        (4 * ECC_256_SIGNATURE_S_LENGTH_WORDS)
      let err := c.eccVerify domain generator_point p_public_key hash r s
      (if err ≠ SSP_SUCCESS then VERIFY_FAIL else VERIFY_SUCCESS,
        [ServiceCall.sha256_hash p_input (wrap32 (length + 4)), ServiceCall.ecc_verify hash r s])

/-! ## `port.c` -/

/-- The flash driver (`flash_api_t`), over a driver state `σ`.  `write` is handed the bytes
found at its source pointer; `blankCheck` answers whether the result is
`FLASH_RESULT_BLANK`. -/
structure flash_api_t (σ : Type) where
  flash_open : σ → Nat × σ
  flash_close : σ → Nat × σ
  erase : Nat → Nat → σ → Mem → Nat × σ × Mem
  write : List Nat → Nat → σ → Mem → Nat × σ × Mem
  blankCheck : Nat → Nat → σ → Mem → Nat × σ × Bool

/-- What a run does that can be observed from outside. -/
inductive Event where
  | flash_open
  | flash_close
  | flash_erase (address num_blocks : Nat)
  | flash_write (data : List Nat) (dest : Nat)
  | flash_blankCheck (address num_bytes : Nat)
  | verify_image (p_image_header res : Nat)
  | boot_main_application
  | NVIC_SystemReset
  deriving DecidableEq

/-- Memory, driver state and the events so far. -/
structure World (σ : Type) where
  mem : Mem
  drv : σ
  trace : List Event

variable {σ : Type}

def call_open (api : flash_api_t σ) (w : World σ) : Nat × World σ :=
  let r := api.flash_open w.drv
  (r.1, { w with drv := r.2, trace := w.trace ++ [Event.flash_open] })

def call_close (api : flash_api_t σ) (w : World σ) : Nat × World σ :=
  let r := api.flash_close w.drv
  (r.1, { w with drv := r.2, trace := w.trace ++ [Event.flash_close] })

def call_erase (api : flash_api_t σ) (address num_blocks : Nat) (w : World σ) : Nat × World σ :=
  let r := api.erase address num_blocks w.drv w.mem
  (r.1, { mem := r.2.2, drv := r.2.1, trace := w.trace ++ [Event.flash_erase address num_blocks] })

def call_write (api : flash_api_t σ) (data : List Nat) (dest : Nat) (w : World σ) : Nat × World σ :=
  let r := api.write data dest w.drv w.mem
  (r.1, { mem := r.2.2, drv := r.2.1, trace := w.trace ++ [Event.flash_write data dest] })

def call_blankCheck (api : flash_api_t σ) (address num_bytes : Nat) (w : World σ) :
    Nat × Bool × World σ :=
  let r := api.blankCheck address num_bytes w.drv w.mem
  (r.1, r.2.2, { w with drv := r.2.1, trace := w.trace ++ [Event.flash_blankCheck address num_bytes] })

def erase_main_image_area (api : flash_api_t σ) (w : World σ) : Nat × World σ :=
  let o := call_open api w
  if o.1 ≠ SSP_SUCCESS then o
  else
    let e := call_erase api MAIN_IMAGE_START_ADDRESS (MAIN_IMAGE_MAX_SIZE / MAIN_IMAGE_ERASE_BLOCK_SIZE) o.2
    let c := call_close api e.2
    (e.1, c.2)

/-- The function `flash_main_image_from_update_area`; `flash_page_buffer` is the initial
content of the local page buffer. -/
def flash_main_image_from_update_area (api : flash_api_t σ) (flash_page_buffer : Buf)
    (update_area_start_addr length : Nat) (w : World σ) : Nat × World σ :=
  if update_area_start_addr = 0 ∨ length = 0 then (SSP_ERR_ASSERTION, w)
  else
    let o := call_open api w
    if o.1 ≠ SSP_SUCCESS then o
    else
      let page_overflow := length % MAIN_FLASH_PROGRAMMING_PAGE_SIZE
      let bytes_to_program := if page_overflow ≠ 0 then length - page_overflow else length
      let w1 := call_write api (readBytes o.2.mem update_area_start_addr bytes_to_program)
        MAIN_IMAGE_START_ADDRESS o.2
      let w2 : Nat × World σ :=
        if w1.1 = SSP_SUCCESS then
          if page_overflow > 0 then
            let buf1 := memset flash_page_buffer 0 0xFF MAIN_FLASH_PROGRAMMING_PAGE_SIZE
            let buf2 := memcpy buf1 0
              (readBytes w1.2.mem (wrap32 (update_area_start_addr + bytes_to_program)) page_overflow)
            call_write api (bufBytes buf2 MAIN_FLASH_PROGRAMMING_PAGE_SIZE)
              (wrap32 (MAIN_IMAGE_START_ADDRESS + bytes_to_program)) w1.2
          else w1
        else w1
      let c := call_close api w2.2
      (w2.1, c.2)

/-- The function `erase_update_image_area`, in the build without `UPDATE_USES_QSPI_FLASH`. -/
def erase_update_image_area (api : flash_api_t σ) (update_area_start_addr : Nat) (w : World σ) :
    Nat × World σ :=
  if update_area_start_addr = 0 then (SSP_ERR_ASSERTION, w)
  else
    if ¬ (update_area_start_addr < INTERNAL_FLASH_START_ADDRESS + TOTAL_INTERNAL_FLASH_SIZE) then
      (SSP_ERR_ASSERTION, w)
    else
      let o := call_open api w
      if o.1 ≠ SSP_SUCCESS then o
      else
        let e := call_erase api update_area_start_addr
          (UPDATE_IMAGE_MAX_SIZE / UPDATE_IMAGE_ERASE_BLOCK_SIZE) o.2
        let c := call_close api e.2
        (e.1, c.2)

/-- The function `blank_check_image_area`, in the build without `UPDATE_USES_QSPI_FLASH`;
`blank_check_result` is the value of `*p_blank_check_result` before the call (the pointer
itself is never `NULL` in this program).  Returns the error code, the value of
`*p_blank_check_result` after the call and the world. -/
def blank_check_image_area (api : flash_api_t σ) (area_start_addr : Nat)
    (blank_check_result : Bool) (w : World σ) : Nat × Bool × World σ :=
  if area_start_addr = 0 then (SSP_ERR_ASSERTION, blank_check_result, w)
  else
    if ¬ (area_start_addr < INTERNAL_FLASH_START_ADDRESS + TOTAL_INTERNAL_FLASH_SIZE) then
      (SSP_SUCCESS, false, w)
    else
      let o := call_open api w
      if o.1 ≠ SSP_SUCCESS then (o.1, false, o.2)
      else
        let b := call_blankCheck api area_start_addr UPDATE_IMAGE_MAX_SIZE o.2
        let result := if b.1 ≠ SSP_SUCCESS then false else (if b.2.1 then true else false)
        let c := call_close api b.2.2
        (b.1, result, c.2)

/-! ## `bootloader.c` -/

/-- How a run of `boot` ends: in `boot_main_application`, in a `while(1)` loop, in
`NVIC_SystemReset`, or by returning to `hal_entry`. -/
inductive Outcome where
  | boot_main_application
  | halt
  | NVIC_SystemReset
  | returned
  deriving DecidableEq

/-- The branch of `boot` a run takes, named by the comments of the code: "Blank check
failed", "Update area blank", "No - invalid update image", "Yes - version number good",
"No - version number bad". -/
inductive Branch where
  | blank_check_failed
  | update_area_blank
  | invalid_update_image
  | version_number_good
  | version_number_bad
  deriving DecidableEq

/-- The environment of `boot`: the drivers, and the arbitrary initial content of the
uninitialised locals (`blank_status` of `boot`, `flash_page_buffer` of the programming
function). -/
structure Env (σ : Type) where
  crypto : Crypto
  flash : flash_api_t σ
  blank_status : Bool
  flash_page_buffer : Buf

structure BootResult (σ : Type) where
  world : World σ
  outcome : Outcome
  branch : Branch

/-- A call `verify_image(slot, g_public_key)` made by `boot`. -/
def call_verify_image (e : Env σ) (p_image_header : Nat) (w : World σ) : Nat × World σ :=
  let r := (verify_image e.crypto w.mem p_image_header g_public_key).1
  (r, { w with trace := w.trace ++ [Event.verify_image p_image_header r] })

def call_boot_main_application (w : World σ) : World σ :=
  { w with trace := w.trace ++ [Event.boot_main_application] }

def call_NVIC_SystemReset (w : World σ) : World σ :=
  { w with trace := w.trace ++ [Event.NVIC_SystemReset] }

/-- The tail shared by four branches of `boot`: verify MAIN, then boot it or stop. -/
def boot_verified_main (e : Env σ) (b : Branch) (w : World σ) : BootResult σ :=
  let v := call_verify_image e MAIN_IMAGE_START_ADDRESS w
  if v.1 = VERIFY_SUCCESS then ⟨call_boot_main_application v.2, Outcome.boot_main_application, b⟩
  else ⟨v.2, Outcome.halt, b⟩

/-- The function `boot`. -/
def boot (e : Env σ) (w : World σ) : BootResult σ :=
  let bc := blank_check_image_area e.flash UPDATE_IMAGE_START_ADDRESS e.blank_status w
  if bc.1 = SSP_SUCCESS then
    if bc.2.1 = false then
      let vu := call_verify_image e UPDATE_IMAGE_START_ADDRESS bc.2.2
      if vu.1 = VERIFY_SUCCESS then
        let bm := blank_check_image_area e.flash MAIN_IMAGE_START_ADDRESS false vu.2
        let main_area_blank_status := bm.2.1
        -- main_application_version, and the world after computing it
        let mv : Nat × World σ :=
          if bm.1 = SSP_SUCCESS then
            if main_area_blank_status = false then
              let vm := call_verify_image e MAIN_IMAGE_START_ADDRESS bm.2.2
              if vm.1 = VERIFY_SUCCESS then
                (rd32 vm.2.mem (MAIN_IMAGE_START_ADDRESS + OFFSET_version), vm.2)
              else (0, vm.2)
            else (0, bm.2.2)
          else (0, bm.2.2)
        let main_application_version := mv.1
        if rd32 mv.2.mem (UPDATE_IMAGE_START_ADDRESS + OFFSET_version) ≥ main_application_version then
          let er : Nat × World σ :=
            if main_area_blank_status = false then erase_main_image_area e.flash mv.2
            else (SSP_SUCCESS, mv.2)
          if er.1 = SSP_SUCCESS then
            let update_size := wrap32
              (rd32 er.2.mem (UPDATE_IMAGE_START_ADDRESS + OFFSET_length) + SIGNATURE_LEN_BYTES
                + MAGIC_NUMBER_LEN + 4)
            let fl := flash_main_image_from_update_area e.flash e.flash_page_buffer
              UPDATE_IMAGE_START_ADDRESS update_size er.2
            if fl.1 = SSP_SUCCESS then
              let v := call_verify_image e MAIN_IMAGE_START_ADDRESS fl.2
              if v.1 = VERIFY_SUCCESS then
                let eu := erase_update_image_area e.flash UPDATE_IMAGE_START_ADDRESS v.2
                ⟨call_boot_main_application eu.2, Outcome.boot_main_application,
                  Branch.version_number_good⟩
              else
                ⟨call_NVIC_SystemReset v.2, Outcome.NVIC_SystemReset, Branch.version_number_good⟩
            else ⟨fl.2, Outcome.returned, Branch.version_number_good⟩
          else ⟨er.2, Outcome.returned, Branch.version_number_good⟩
        else
          let eu := erase_update_image_area e.flash UPDATE_IMAGE_START_ADDRESS mv.2
          boot_verified_main e Branch.version_number_bad eu.2
      else
        let eu := erase_update_image_area e.flash UPDATE_IMAGE_START_ADDRESS vu.2
        boot_verified_main e Branch.invalid_update_image eu.2
    else
      boot_verified_main e Branch.update_area_blank bc.2.2
  else
    boot_verified_main e Branch.blank_check_failed bc.2.2

/-! ## Driver models and the specification side -/

/-- Every call to the entry points of the flash driver whose result `boot` looks at
(open, erase, write, blankCheck) succeeds. -/
def FlashOk (api : flash_api_t σ) : Prop :=
  (∀ s, (api.flash_open s).1 = SSP_SUCCESS) ∧
  (∀ a n s m, (api.erase a n s m).1 = SSP_SUCCESS) ∧
  (∀ d a s m, (api.write d a s m).1 = SSP_SUCCESS) ∧
  (∀ a n s m, (api.blankCheck a n s m).1 = SSP_SUCCESS)

/-- Memory after storing `data` from address `dest` on (addresses are 32-bit). -/
def storeBytes (mem : Mem) (dest : Nat) (data : List Nat) : Mem :=
  fun a =>
    if (wrap32 a + 4294967296 - wrap32 dest) % 4294967296 < data.length then
      data.getD ((wrap32 a + 4294967296 - wrap32 dest) % 4294967296) 0
    else mem a

/-- Memory after erasing `num_bytes` bytes from `address` on. -/
def eraseBytes (mem : Mem) (address num_bytes : Nat) : Mem :=
  fun a =>
    if (wrap32 a + 4294967296 - wrap32 address) % 4294967296 < num_bytes then ERASED_STATE
    else mem a

/-- A flash driver stores the bytes it is asked to write, and nothing else. -/
def WriteStores (api : flash_api_t σ) : Prop :=
  ∀ d a s m, (api.write d a s m).2.2 = storeBytes m a d

/-- A flash driver erases whole 32 KiB blocks to the erased state, and nothing else. -/
def EraseErases (api : flash_api_t σ) : Prop :=
  ∀ a n s m, (api.erase a n s m).2.2 = eraseBytes m a (n * MAIN_IMAGE_ERASE_BLOCK_SIZE)

/-- The flash model of the end-to-end scenarios: every call succeeds, erase sets the
erased range to 0xFF, write stores the given bytes, blank check reads the range. -/
def idealFlash : flash_api_t Unit where
  flash_open := fun s => (SSP_SUCCESS, s)
  flash_close := fun s => (SSP_SUCCESS, s)
  erase := fun a n s m => (SSP_SUCCESS, s, eraseBytes m a (n * MAIN_IMAGE_ERASE_BLOCK_SIZE))
  write := fun d a s m => (SSP_SUCCESS, s, storeBytes m a d)
  blankCheck := fun a n s m => (SSP_SUCCESS, s, (readBytes m a n).all (fun b => b == ERASED_STATE))

/-- A `hashUpdate` over whole 64-byte blocks equals the successive single-block calls
(the first failing block ends the call). -/
def HashUpdateBlockwise (hashUpdate : HashUpdate) : Prop :=
  (∀ s, hashUpdate [] s = (SSP_SUCCESS, s)) ∧
  (∀ b rest s, b.length = SHA256_BLOCK_SIZE_BYTES → rest.length % SHA256_BLOCK_SIZE_BYTES = 0 →
    hashUpdate (b ++ rest) s =
      if (hashUpdate b s).1 = SSP_SUCCESS then hashUpdate rest (hashUpdate b s).2
      else hashUpdate b s)

/-- Every single-block `hashUpdate` call succeeds. -/
def HashUpdateSucceeds (hashUpdate : HashUpdate) : Prop :=
  ∀ b s, b.length = SHA256_BLOCK_SIZE_BYTES → (hashUpdate b s).1 = SSP_SUCCESS

/-- The block compression primitive of a hash driver: one 64-byte block into the running
state. -/
def compress (hashUpdate : HashUpdate) (state block : List Nat) : List Nat :=
  (hashUpdate block state).2

/-- The 64-bit big-endian encoding. -/
def be64 (n : Nat) : List Nat :=
  [n / 72057594037927936 % 256, n / 281474976710656 % 256, n / 1099511627776 % 256,
   n / 4294967296 % 256, n / 16777216 % 256, n / 65536 % 256, n / 256 % 256, n % 256]

/-- The standard padded message `m || 0x80 || 0x00...0x00 || be64(8 * L)`, the number of
zero bytes being the least that makes the total a multiple of 64. -/
def sha256_pad (m : List Nat) : List Nat :=
  m ++ [0x80] ++ List.replicate ((64 - (m.length + 9) % 64) % 64) 0 ++ be64 (8 * m.length)

/-- The first `n` consecutive 64-byte blocks of a byte sequence. -/
def blocksOf : Nat → List Nat → List (List Nat)
  | 0, _ => []
  | n + 1, l => l.take 64 :: blocksOf n (l.drop 64)

/-- The consecutive whole 64-byte blocks of a byte sequence. -/
def blocks64 (l : List Nat) : List (List Nat) := blocksOf (l.length / 64) l

/-- The digest the specification asks for: the compression primitive folded over the
blocks of the padded message, from the fixed initial state. -/
def sha256_spec (hashUpdate : HashUpdate) (m : List Nat) : List Nat :=
  (blocks64 (sha256_pad m)).foldl (compress hashUpdate) sha256_initial_values

/-- A hash driver that appends what it is given to the running state: its final state
shows every block compressed, in order. -/
def recordingHash : HashUpdate := fun data s => (SSP_SUCCESS, s ++ data)

/-- A signature service that accepts everything. -/
def acceptAll : EccVerify := fun _ _ _ _ _ _ => SSP_SUCCESS

/-- A signature service that rejects everything (`SSP_ERR_CRYPTO_VERIFY_FAIL`-like). -/
def rejectAll : EccVerify := fun _ _ _ _ _ _ => 1

def cryptoAcceptAll : Crypto := ⟨recordingHash, acceptAll, fun _ => 0, []⟩

def cryptoRejectAll : Crypto := ⟨recordingHash, rejectAll, fun _ => 0, []⟩

/-- The decisions of the engine (specification, section 3). -/
inductive Decision where
  | BootMain
  | ApplyUpdateThenBootMain
  | DiscardUpdateThenBootMain
  deriving DecidableEq

/-- The decision table of the specification (section 4.4), rows one to six. -/
def decision_table (up_blank up_valid main_blank main_valid : Bool) (up_version main_version : Nat) :
    Decision :=
  if up_blank then Decision.BootMain
  else if ¬ up_valid then Decision.DiscardUpdateThenBootMain
  else if main_blank then Decision.ApplyUpdateThenBootMain
  else if ¬ main_valid then Decision.ApplyUpdateThenBootMain
  else if up_version ≥ main_version then Decision.ApplyUpdateThenBootMain
  else Decision.DiscardUpdateThenBootMain

/-- The decision a branch of `boot` stands for. -/
def Branch.decision : Branch → Decision
  | Branch.blank_check_failed => Decision.BootMain
  | Branch.update_area_blank => Decision.BootMain
  | Branch.invalid_update_image => Decision.DiscardUpdateThenBootMain
  | Branch.version_number_good => Decision.ApplyUpdateThenBootMain
  | Branch.version_number_bad => Decision.DiscardUpdateThenBootMain

/-- A header: magic, 64 signature bytes (zero), length, version, all little-endian. -/
def headerBytes (length version : Nat) : List Nat :=
  MAGIC_NUMBER ++ List.replicate 64 0 ++
    [length % 256, length / 256 % 256, length / 65536 % 256, length / 16777216 % 256] ++
    [version % 256, version / 256 % 256, version / 65536 % 256, version / 16777216 % 256]

/-- A memory with the given bytes at `base` and `fill` everywhere else. -/
def memWith (base : Nat) (bytes : List Nat) (fill : Nat) : Mem :=
  fun a => if base ≤ a ∧ a < base + bytes.length then bytes.getD (a - base) fill else fill

/-- A slot content whose header declares the length `0xFFFFFFB8`, version 5. -/
def mem_overflow : Mem :=
  memWith UPDATE_IMAGE_START_ADDRESS (headerBytes 4294967224 5) 0

/-- A memory of zero bytes: no magic anywhere. -/
def mem_zero : Mem := fun _ => 0

/-- A world over the ideal flash model. -/
def worldOf (mem : Mem) : World Unit := ⟨mem, (), []⟩

/-- A MAIN slot holding a small image: length 8, version 3. -/
def mem_small_main : Mem :=
  memWith MAIN_IMAGE_START_ADDRESS (headerBytes 8 3) 0

/-- The environment of the end-to-end scenarios: ideal flash, recording hash, a signature
service that accepts. -/
def env_ideal : Env Unit := ⟨cryptoAcceptAll, idealFlash, false, fun _ => 0⟩

/-- UPDATE holds an image of version 5, MAIN an image of version 3 (both of length 8). -/
def mem_update5_main3 : Mem :=
  fun a =>
    if UPDATE_IMAGE_START_ADDRESS ≤ a then
      memWith UPDATE_IMAGE_START_ADDRESS (headerBytes 8 5) 0xFF a
    else memWith MAIN_IMAGE_START_ADDRESS (headerBytes 8 3) 0xFF a

/-- A memory whose byte at address `a` is `a mod 251`. -/
def mem_pattern : Mem := fun a => a % 251

/-- A memory holding 1 at address `0xFF80` and 2 everywhere else. -/
def mem_alias : Mem := fun a => if a = 65408 then 1 else 2

/-- Successive single-block `hashUpdate` calls; the first failing call ends the run. -/
def hashBlocks (hashUpdate : HashUpdate) : List (List Nat) → List Nat → Nat × List Nat
  | [], s => (SSP_SUCCESS, s)
  | b :: bs, s =>
    if (hashUpdate b s).1 = SSP_SUCCESS then hashBlocks hashUpdate bs (hashUpdate b s).2
    else hashUpdate b s

/-- The eight bytes that `store_bit_length` puts at offsets 56..63. -/
def bit_length_bytes (length : Nat) : List Nat :=
  (List.range 8).map (fun i => store_bit_length (fun _ => 0) length (56 + i))

/-- The padded message as `sha256_hash` builds it: like `sha256_pad`, with the length
bytes that the code computes. -/
def sha256_hash_padded (m : List Nat) : List Nat :=
  m ++ [0x80] ++ List.replicate ((64 - (m.length + 9) % 64) % 64) 0 ++ bit_length_bytes m.length

/-- The memory `mem_pattern` moved up by one address. -/
def mem_pattern_shifted : Mem := fun a => (a - 1) % 251

/-- UPDATE holds a header of version 5 declaring the length `0xFFFFFFB8`, MAIN an image of
version 3 and length 8. -/
def mem_wrapped_update : Mem :=
  fun a =>
    if UPDATE_IMAGE_START_ADDRESS ≤ a then
      memWith UPDATE_IMAGE_START_ADDRESS (headerBytes 4294967224 5) 0xFF a
    else memWith MAIN_IMAGE_START_ADDRESS (headerBytes 8 3) 0xFF a

/-- UPDATE holds an image of version 2, MAIN an image of version 3 (both of length 8). -/
def mem_update2_main3 : Mem :=
  fun a =>
    if UPDATE_IMAGE_START_ADDRESS ≤ a then
      memWith UPDATE_IMAGE_START_ADDRESS (headerBytes 8 2) 0xFF a
    else memWith MAIN_IMAGE_START_ADDRESS (headerBytes 8 3) 0xFF a

/-- UPDATE holds an image of version 2 and length 8, MAIN a header of version 3 declaring
the length `0xFFFFFFB8`. -/
def mem_wrapped_main : Mem :=
  fun a =>
    if UPDATE_IMAGE_START_ADDRESS ≤ a then
      memWith UPDATE_IMAGE_START_ADDRESS (headerBytes 8 2) 0xFF a
    else memWith MAIN_IMAGE_START_ADDRESS (headerBytes 4294967224 3) 0xFF a

/-- What the recording hash driver leaves in the digest buffer when `verify_image` hashes
the slot at `p`: the initial values followed by every byte compressed. -/
def digest_of (mem : Mem) (p : Nat) : List Nat :=
  sha256_initial_values ++
    sha256_hash_padded (readBytes mem (wrap32 (p + OFFSET_length))
      (wrap32 (rd32 mem (p + OFFSET_length) + 4)))

/-- A signature service that accepts the digests of the two images of `mem_wrapped_main`
as they are stored, and no other digest. -/
def acceptSigned : EccVerify := fun _ _ _ digest _ _ =>
  if digest = digest_of mem_wrapped_main MAIN_IMAGE_START_ADDRESS ∨
      digest = digest_of mem_wrapped_main UPDATE_IMAGE_START_ADDRESS then SSP_SUCCESS
  else 1

def cryptoSigned : Crypto := ⟨recordingHash, acceptSigned, fun _ => 0, []⟩

/-- The environment of the wrapped-MAIN scenario: ideal flash, recording hash, a signature
service that accepts the two stored images only. -/
def env_signed : Env Unit := ⟨cryptoSigned, idealFlash, false, fun _ => 0⟩

/-! ## The blocks of `boot`, one by one -/

/-- Line 16 of `boot`: the blank check of UPDATE. -/
def boot_blank_update (e : Env σ) (w : World σ) : Nat × Bool × World σ :=
  blank_check_image_area e.flash UPDATE_IMAGE_START_ADDRESS e.blank_status w

/-- Line 23 of `boot`: `verify_image` on UPDATE. -/
def boot_verify_update (e : Env σ) (w : World σ) : Nat × World σ :=
  call_verify_image e UPDATE_IMAGE_START_ADDRESS (boot_blank_update e w).2.2

/-- Line 31 of `boot`: the blank check of MAIN (`main_area_blank_status` starts as `false`). -/
def boot_blank_main (e : Env σ) (w : World σ) : Nat × Bool × World σ :=
  blank_check_image_area e.flash MAIN_IMAGE_START_ADDRESS false (boot_verify_update e w).2

/-- Lines 27 to 79 of `boot`: `main_application_version`, and the world once it is set. -/
def boot_main_version (e : Env σ) (w : World σ) : Nat × World σ :=
  let bm := boot_blank_main e w
  if bm.1 = SSP_SUCCESS then
    if bm.2.1 = false then
      let vm := call_verify_image e MAIN_IMAGE_START_ADDRESS bm.2.2
      if vm.1 = VERIFY_SUCCESS then
        (rd32 vm.2.mem (MAIN_IMAGE_START_ADDRESS + OFFSET_version), vm.2)
      else (0, vm.2)
    else (0, bm.2.2)
  else (0, bm.2.2)

/-- Lines 88 to 92 of `boot`: MAIN is erased unless it was found blank. -/
def boot_erase_main (e : Env σ) (main_area_blank_status : Bool) (w : World σ) : Nat × World σ :=
  if main_area_blank_status = false then erase_main_image_area e.flash w else (SSP_SUCCESS, w)

/-- Line 97 of `boot`: `update_size`, computed from the length field of UPDATE. -/
def update_size (mem : Mem) : Nat :=
  wrap32 (rd32 mem (UPDATE_IMAGE_START_ADDRESS + OFFSET_length) + SIGNATURE_LEN_BYTES
    + MAGIC_NUMBER_LEN + 4)

/-- Lines 100 to 118 of `boot`: what follows the programming of MAIN, whose result is
`fl`. -/
def boot_after_flash (e : Env σ) (fl : Nat × World σ) : BootResult σ :=
  if fl.1 = SSP_SUCCESS then
    let v := call_verify_image e MAIN_IMAGE_START_ADDRESS fl.2
    if v.1 = VERIFY_SUCCESS then
      let eu := erase_update_image_area e.flash UPDATE_IMAGE_START_ADDRESS v.2
      ⟨call_boot_main_application eu.2, Outcome.boot_main_application, Branch.version_number_good⟩
    else ⟨call_NVIC_SystemReset v.2, Outcome.NVIC_SystemReset, Branch.version_number_good⟩
  else ⟨fl.2, Outcome.returned, Branch.version_number_good⟩

/-- Lines 86 to 119 of `boot`: the block "Yes - version number good". -/
def boot_apply (e : Env σ) (main_area_blank_status : Bool) (w : World σ) : BootResult σ :=
  let er := boot_erase_main e main_area_blank_status w
  if er.1 = SSP_SUCCESS then
    boot_after_flash e
      (flash_main_image_from_update_area e.flash e.flash_page_buffer UPDATE_IMAGE_START_ADDRESS
        (update_size er.2.mem) er.2)
  else ⟨er.2, Outcome.returned, Branch.version_number_good⟩

/-- Lines 123 to 140 and 145 to 160 of `boot`: erase UPDATE, then verify MAIN and boot it
or stop. -/
def boot_discard (e : Env σ) (b : Branch) (w : World σ) : BootResult σ :=
  boot_verified_main e b (erase_update_image_area e.flash UPDATE_IMAGE_START_ADDRESS w).2

/-! ## Traces -/

/-- An erase or a program call of the flash driver. -/
def Event.isMutation : Event → Bool
  | Event.flash_erase _ _ => true
  | Event.flash_write _ _ => true
  | _ => false

/-- The trace `tr2` continues `tr1` with events that all satisfy `P`. -/
def Extends (P : Event → Prop) (tr1 tr2 : List Event) : Prop :=
  ∃ evs, tr2 = tr1 ++ evs ∧ ∀ ev, ev ∈ evs → P ev

/-- The events of a run of `boot` from the world `w`. -/
def run_events (e : Env σ) (w : World σ) : List Event :=
  (boot e w).world.trace.drop w.trace.length

/-- A flash driver whose open succeeds and whose blank check succeeds and reports whether
every byte of the range reads as erased. -/
def BlankCheckReads (api : flash_api_t σ) : Prop :=
  (∀ s, (api.flash_open s).1 = SSP_SUCCESS) ∧
  ∀ a n s m, (api.blankCheck a n s m).1 = SSP_SUCCESS ∧
    (api.blankCheck a n s m).2.2 = (readBytes m a n).all (fun b => b == ERASED_STATE)

/-- UPDATE is erased, MAIN holds an image of version 3 and length 8. -/
def mem_blank_update_main3 : Mem :=
  memWith MAIN_IMAGE_START_ADDRESS (headerBytes 8 3) 0xFF

/-- The ideal flash model, except that every erase call fails and changes nothing. -/
def eraseFailFlash : flash_api_t Unit where
  flash_open := fun s => (SSP_SUCCESS, s)
  flash_close := fun s => (SSP_SUCCESS, s)
  erase := fun _ _ s m => (1, s, m)
  write := fun d a s m => (SSP_SUCCESS, s, storeBytes m a d)
  blankCheck := fun a n s m => (SSP_SUCCESS, s, (readBytes m a n).all (fun b => b == ERASED_STATE))

def env_erase_fails : Env Unit := ⟨cryptoAcceptAll, eraseFailFlash, false, fun _ => 0⟩

/-- The ideal flash model, except that the blank check of the area starting at `addr`
fails. -/
def blankCheckFailAt (addr : Nat) : flash_api_t Unit where
  flash_open := fun s => (SSP_SUCCESS, s)
  flash_close := fun s => (SSP_SUCCESS, s)
  erase := fun a n s m => (SSP_SUCCESS, s, eraseBytes m a (n * MAIN_IMAGE_ERASE_BLOCK_SIZE))
  write := fun d a s m => (SSP_SUCCESS, s, storeBytes m a d)
  blankCheck := fun a n s m =>
    if a = addr then (1, s, false)
    else (SSP_SUCCESS, s, (readBytes m a n).all (fun b => b == ERASED_STATE))

/-- The blank check of MAIN fails; the signature service accepts. -/
def env_main_blank_check_fails : Env Unit :=
  ⟨cryptoAcceptAll, blankCheckFailAt MAIN_IMAGE_START_ADDRESS, false, fun _ => 0⟩

/-- The blank check of UPDATE fails; the signature service accepts. -/
def env_update_blank_check_fails : Env Unit :=
  ⟨cryptoAcceptAll, blankCheckFailAt UPDATE_IMAGE_START_ADDRESS, false, fun _ => 0⟩

/-- UPDATE holds an image of version 5 and length 8; MAIN holds zero bytes, hence no
magic. -/
def mem_update5_main_invalid : Mem :=
  memWith UPDATE_IMAGE_START_ADDRESS (headerBytes 8 5) 0

/-- The reads of a `version` field that a run of `boot` makes, in order (line 43 for MAIN,
line 84 for UPDATE): the header that is read, the value read and the world at that
point. -/
def boot_version_reads (e : Env σ) (w : World σ) : List (Nat × Nat × World σ) :=
  if (boot_blank_update e w).1 = SSP_SUCCESS then
    if (boot_blank_update e w).2.1 = false then
      if (boot_verify_update e w).1 = VERIFY_SUCCESS then
        let bm := boot_blank_main e w
        let main_read : List (Nat × Nat × World σ) :=
          if bm.1 = SSP_SUCCESS then
            if bm.2.1 = false then
              let vm := call_verify_image e MAIN_IMAGE_START_ADDRESS bm.2.2
              if vm.1 = VERIFY_SUCCESS then
                [(MAIN_IMAGE_START_ADDRESS,
                  rd32 vm.2.mem (MAIN_IMAGE_START_ADDRESS + OFFSET_version), vm.2)]
              else []
            else []
          else []
        main_read ++
          [(UPDATE_IMAGE_START_ADDRESS,
            rd32 (boot_main_version e w).2.mem (UPDATE_IMAGE_START_ADDRESS + OFFSET_version),
            (boot_main_version e w).2)]
      else []
    else []
  else []

/-! ## `port.c` in the build with `UPDATE_USES_QSPI_FLASH` -/

/-- The QSPI driver (`qspi_api_t`), over the driver state `σ`: `erase` takes the device
address and the byte count, `statusGet` answers the error code and the value it leaves in
`in_progress`. -/
structure qspi_api_t (σ : Type) where
  qspi_open : σ → Nat × σ
  qspi_close : σ → Nat × σ
  erase : Nat → Nat → σ → Mem → Nat × σ × Mem
  statusGet : σ → Nat × σ × Bool

/-- The driver calls of the build with the QSPI flash: those of the flash driver and those
of the QSPI driver. -/
inductive QEvent where
  | flash (ev : Event)
  | qspi_open
  | qspi_close
  | qspi_erase (address byte_count : Nat)
  | qspi_statusGet
  deriving DecidableEq

/-- Memory, driver state and the driver calls so far, in the build with the QSPI flash. -/
structure QWorld (σ : Type) where
  mem : Mem
  drv : σ
  trace : List QEvent

/-- The pointer `p_blank_check_result` is `NULL` or points to a `bool`: the function
`blank_check_image_area` of the build without `UPDATE_USES_QSPI_FLASH`, with its first
test. -/
def blank_check_image_area_ptr (api : flash_api_t σ) (area_start_addr : Nat)
    (p_blank_check_result : Option Bool) (w : World σ) : Nat × Option Bool × World σ :=
  match p_blank_check_result with
  | none => (SSP_ERR_ASSERTION, none, w)
  | some b0 =>
    let r := blank_check_image_area api area_start_addr b0 w
    (r.1, some r.2.1, r.2.2)

namespace QSPI

def MAIN_IMAGE_MAX_SIZE : Nat := TOTAL_INTERNAL_FLASH_SIZE - MAIN_IMAGE_START_ADDRESS
def UPDATE_IMAGE_START_ADDRESS : Nat := 0x60000000
def FLASH_PROGRAMMING_PAGE_SIZE : Nat := 256
def UPDATE_IMAGE_ERASE_BLOCK_SIZE : Nat := 32 * 1024
def UPDATE_IMAGE_MAX_SIZE : Nat := MAIN_IMAGE_MAX_SIZE

def call_qspi_open (qspi : qspi_api_t σ) (w : QWorld σ) : Nat × QWorld σ :=
  let r := qspi.qspi_open w.drv
  (r.1, { w with drv := r.2, trace := w.trace ++ [QEvent.qspi_open] })

def call_qspi_close (qspi : qspi_api_t σ) (w : QWorld σ) : Nat × QWorld σ :=
  let r := qspi.qspi_close w.drv
  (r.1, { w with drv := r.2, trace := w.trace ++ [QEvent.qspi_close] })

def call_qspi_erase (qspi : qspi_api_t σ) (address byte_count : Nat) (w : QWorld σ) :
    Nat × QWorld σ :=
  let r := qspi.erase address byte_count w.drv w.mem
  (r.1, { mem := r.2.2, drv := r.2.1,
          trace := w.trace ++ [QEvent.qspi_erase address byte_count] })

def call_statusGet (qspi : qspi_api_t σ) (w : QWorld σ) : Nat × Bool × QWorld σ :=
  let r := qspi.statusGet w.drv
  (r.1, r.2.2, { w with drv := r.2.1, trace := w.trace ++ [QEvent.qspi_statusGet] })

/-- The world of the flash driver calls made from a world of the QSPI build, and back. -/
def toWorld (w : QWorld σ) : World σ := ⟨w.mem, w.drv, []⟩

def ofWorld (w : QWorld σ) (v : World σ) : QWorld σ :=
  ⟨v.mem, v.drv, w.trace ++ v.trace.map QEvent.flash⟩

/-- Lines 180 to 188: the loop `while (true == in_progress)`, entered with `in_progress`
true.  It ends when `statusGet` returns an error (the `break`) or leaves `in_progress`
false; `none` stands for a loop still running after `fuel` polls. -/
def wait_erase (qspi : qspi_api_t σ) : Nat → QWorld σ → Option (Nat × QWorld σ)
  | 0, _ => none
  | fuel + 1, w =>
    let r := call_statusGet qspi w
    if r.1 ≠ SSP_SUCCESS then some (r.1, r.2.2)
    else if r.2.1 = true then wait_erase qspi fuel r.2.2
    else some (r.1, r.2.2)

/-- Lines 171 to 191: the `for` loop, with `n` blocks still to do, `p_erase_addr` and the
current value of `err`.  The `break` of line 176 leaves this loop; the `break` of line 186
leaves only the inner `while`, after which line 190 advances the address and the `for` loop
goes on. -/
def erase_blocks (qspi : qspi_api_t σ) (fuel : Nat) :
    Nat → Nat → Nat → QWorld σ → Option (Nat × QWorld σ)
  | 0, _, err, w => some (err, w)
  | n + 1, p_erase_addr, _, w =>
    let e := call_qspi_erase qspi p_erase_addr UPDATE_IMAGE_ERASE_BLOCK_SIZE w
    if e.1 ≠ SSP_SUCCESS then some (e.1, e.2)
    else
      match wait_erase qspi fuel e.2 with
      | none => none
      | some s => erase_blocks qspi fuel n (wrap32 (p_erase_addr + UPDATE_IMAGE_ERASE_BLOCK_SIZE))
          s.1 s.2

/-- The function `erase_update_image_area` in the build with `UPDATE_USES_QSPI_FLASH`;
each wait for the end of an erase may take `fuel` polls. -/
def erase_update_image_area (api : flash_api_t σ) (qspi : qspi_api_t σ) (fuel : Nat)
    (update_area_start_addr : Nat) (w : QWorld σ) : Option (Nat × QWorld σ) :=
  if update_area_start_addr = 0 then some (SSP_ERR_ASSERTION, w)
  else
    if ¬ (update_area_start_addr < INTERNAL_FLASH_START_ADDRESS + TOTAL_INTERNAL_FLASH_SIZE) then
      let o := call_qspi_open qspi w
      if o.1 ≠ SSP_SUCCESS then some o
      else
        match erase_blocks qspi fuel (UPDATE_IMAGE_MAX_SIZE / UPDATE_IMAGE_ERASE_BLOCK_SIZE)
            update_area_start_addr o.1 o.2 with
        | none => none
        | some r =>
          let c := call_qspi_close qspi r.2
          some (r.1, c.2)
    else
      let o := call_open api (toWorld w)
      if o.1 ≠ SSP_SUCCESS then some (o.1, ofWorld w o.2)
      else
        let e := call_erase api update_area_start_addr
          (UPDATE_IMAGE_MAX_SIZE / UPDATE_IMAGE_ERASE_BLOCK_SIZE) o.2
        let c := call_close api e.2
        some (e.1, ofWorld w c.2)

/-- Lines 261 to 273: the scan of `n` more bytes from `p_src` on; the answer is what is left
in `*p_blank_check_result`, set to `true` before the loop. -/
def blank_scan (mem : Mem) : Nat → Nat → Bool
  | 0, _ => true
  | n + 1, p_src =>
    if rd8 mem p_src ≠ ERASED_STATE then false else blank_scan mem n (wrap32 (p_src + 1))

/-- The function `blank_check_image_area` in the build with `UPDATE_USES_QSPI_FLASH`; the
pointer `p_blank_check_result` is `NULL` (`none`) or points to a `bool` of the given value.
Returns the error code, what the pointer points to after the call, and the world. -/
def blank_check_image_area (api : flash_api_t σ) (area_start_addr : Nat)
    (p_blank_check_result : Option Bool) (w : World σ) : Nat × Option Bool × World σ :=
  match p_blank_check_result with
  | none => (SSP_ERR_ASSERTION, none, w)
  | some b0 =>
    if area_start_addr = 0 then (SSP_ERR_ASSERTION, some b0, w)
    else
      if ¬ (area_start_addr < INTERNAL_FLASH_START_ADDRESS + TOTAL_INTERNAL_FLASH_SIZE) then
        (SSP_SUCCESS, some (blank_scan w.mem UPDATE_IMAGE_MAX_SIZE area_start_addr), w)
      else
        let o := call_open api w
        if o.1 ≠ SSP_SUCCESS then (o.1, some false, o.2)
        else
          let b := call_blankCheck api area_start_addr UPDATE_IMAGE_MAX_SIZE o.2
          let result := if b.1 ≠ SSP_SUCCESS then false else (if b.2.1 then true else false)
          let c := call_close api b.2.2
          (b.1, some result, c.2)

end QSPI

/-- A flash driver that succeeds and changes nothing, over any driver state. -/
def flashStub (σ : Type) : flash_api_t σ where
  flash_open := fun s => (SSP_SUCCESS, s)
  flash_close := fun s => (SSP_SUCCESS, s)
  erase := fun _ _ s m => (SSP_SUCCESS, s, m)
  write := fun _ _ s m => (SSP_SUCCESS, s, m)
  blankCheck := fun _ _ s _ => (SSP_SUCCESS, s, false)

/-- A QSPI driver whose first `statusGet` call returns an error and whose other calls all
succeed; the driver state counts the `statusGet` calls, and an erase is over at the first
successful poll. -/
def qspiFirstPollFails : qspi_api_t Nat where
  qspi_open := fun s => (SSP_SUCCESS, s)
  qspi_close := fun s => (SSP_SUCCESS, s)
  erase := fun a n s m => (SSP_SUCCESS, s, eraseBytes m a n)
  statusGet := fun s => if s = 0 then (1, s + 1, true) else (SSP_SUCCESS, s + 1, false)

/-- A QSPI driver whose erase of the block at `addr` returns an error and whose other calls
all succeed. -/
def qspiEraseFailsAt (addr : Nat) : qspi_api_t Unit where
  qspi_open := fun s => (SSP_SUCCESS, s)
  qspi_close := fun s => (SSP_SUCCESS, s)
  erase := fun a n s m => if a = addr then (1, s, m) else (SSP_SUCCESS, s, eraseBytes m a n)
  statusGet := fun s => (SSP_SUCCESS, s, false)

/-- The number of erase calls of the QSPI driver in a trace. -/
def qspi_erase_count (tr : List QEvent) : Nat :=
  (tr.filter (fun ev => match ev with
    | QEvent.qspi_erase _ _ => true
    | _ => false)).length

/-- A hash driver whose `hashUpdate` fails and leaves the running digest as it is. -/
def failingHash : HashUpdate := fun _ s => (1, s)

/-- Thirty-two bytes found on the stack where `verify_image` has its local `hash`. -/
def stale_digest : List Nat := List.replicate 32 0xA5

/-- A signature service that accepts the digest `stale_digest` and no other. -/
def acceptStale : EccVerify := fun _ _ _ digest _ _ =>
  if digest = stale_digest then SSP_SUCCESS else 1

/-- The hash driver fails; the local `hash` of `verify_image` holds `stale_digest`. -/
def cryptoHashFails : Crypto := ⟨failingHash, acceptStale, fun _ => 0, stale_digest⟩

/-- A MAIN slot holding a header of length 0 and the given version, zero bytes elsewhere. -/
def mem_length0 (version : Nat) : Mem :=
  memWith MAIN_IMAGE_START_ADDRESS (headerBytes 0 version) 0

/-- The memory `mem_small_main` with another byte at offset 0x100 of MAIN, the first byte of
the initial stack pointer. -/
def mem_small_main_other_vector : Mem :=
  fun a => if a = MAIN_IMAGE_START_ADDRESS + IMAGE_HEADER_SIZE then 0x42 else mem_small_main a

/-- The bytes that `verify_image` hands to `sha256_hash` for the header at `p` (line 112):
`length + 4` bytes, in 32-bit arithmetic, from the length field on. -/
def signed_bytes (mem : Mem) (p : Nat) : List Nat :=
  readBytes mem (wrap32 (p + OFFSET_length)) (wrap32 (rd32 mem (p + OFFSET_length) + 4))

/-- The addresses of the two words that `boot_main_application` loads from the image: the
initial stack pointer (line 223) and the reset vector (lines 209 and 225). -/
def boot_main_application_loads : List Nat :=
  [MAIN_IMAGE_START_ADDRESS + IMAGE_HEADER_SIZE, MAIN_IMAGE_START_ADDRESS + IMAGE_HEADER_SIZE + 4]

/-- Lines 93-100 of `boot`: the call that programs MAIN from UPDATE, made when the erase
step before it returned `SSP_SUCCESS`. -/
def boot_flash_main (e : Env σ) (main_area_blank_status : Bool) (w : World σ) : Nat × World σ :=
  flash_main_image_from_update_area e.flash e.flash_page_buffer UPDATE_IMAGE_START_ADDRESS
    (update_size (boot_erase_main e main_area_blank_status w).2.mem)
    (boot_erase_main e main_area_blank_status w).2

/-- A run in which `boot_main_application` is reached only at the very end, after a
`verify_image(MAIN)` that returned `VERIFY_SUCCESS` and was followed by nothing but the
erase of UPDATE. -/
def BootsVerified (evs : List Event) : Prop :=
  Event.boot_main_application ∉ evs ∨
  ∃ pre1 mid, evs = pre1 ++ Event.verify_image MAIN_IMAGE_START_ADDRESS VERIFY_SUCCESS ::
      (mid ++ [Event.boot_main_application]) ∧
    Event.boot_main_application ∉ pre1 ∧
    ∀ ev, ev ∈ mid → ev = Event.flash_open ∨ ev = Event.flash_close ∨
      ev = Event.flash_erase UPDATE_IMAGE_START_ADDRESS
        (UPDATE_IMAGE_MAX_SIZE / UPDATE_IMAGE_ERASE_BLOCK_SIZE)

/-- Both slots erased: every byte of the address space reads 0xFF. -/
def mem_all_erased : Mem := fun _ => ERASED_STATE

/-- UPDATE holds a header of version 5 declaring the length `0xFFFFFFFC`, MAIN an image of
version 3 and length 8. -/
def mem_short_update : Mem :=
  fun a =>
    if UPDATE_IMAGE_START_ADDRESS ≤ a then
      memWith UPDATE_IMAGE_START_ADDRESS (headerBytes 4294967292 5) 0xFF a
    else memWith MAIN_IMAGE_START_ADDRESS (headerBytes 8 3) 0xFF a

/-- A signature service that accepts the digests of the two images of `mem_short_update`
as they are stored, and no other digest. -/
def acceptStored : EccVerify := fun _ _ _ digest _ _ =>
  if digest = digest_of mem_short_update MAIN_IMAGE_START_ADDRESS ∨
      digest = digest_of mem_short_update UPDATE_IMAGE_START_ADDRESS then SSP_SUCCESS
  else 1

def cryptoStored : Crypto := ⟨recordingHash, acceptStored, fun _ => 0, []⟩

/-- The environment of the scenario `mem_short_update`: ideal flash, recording hash, a
signature service that accepts the two stored images only. -/
def env_stored : Env Unit := ⟨cryptoStored, idealFlash, false, fun _ => 0⟩

/-! ## Verification -/

/-! ### Constants -/

theorem MAIN_IMAGE_MAX_SIZE_eq : MAIN_IMAGE_MAX_SIZE = 1015808 := by decide

theorem UPDATE_IMAGE_START_ADDRESS_eq : UPDATE_IMAGE_START_ADDRESS = 1081344 := by decide

/-! ### `verify_image` -/

/-- C4: a slot whose first four bytes are not the magic is rejected, whatever the other
bytes are, and neither `sha256_hash` nor the signature service is called. -/
theorem verify_image_bad_magic (c : Crypto) (mem : Mem) (p_image_header : Nat)
    (p_public_key : List Nat)
    (hmagic : readBytes mem p_image_header MAGIC_NUMBER_LEN ≠ MAGIC_NUMBER) :
    verify_image c mem p_image_header p_public_key = (VERIFY_FAIL, []) := by
  unfold verify_image
  rw [if_pos hmagic]

theorem verify_image_bad_magic_witness :
    readBytes mem_zero MAIN_IMAGE_START_ADDRESS MAGIC_NUMBER_LEN ≠ MAGIC_NUMBER ∧
    verify_image cryptoAcceptAll mem_zero MAIN_IMAGE_START_ADDRESS g_public_key
      = (VERIFY_FAIL, []) :=
  ⟨by decide, verify_image_bad_magic cryptoAcceptAll mem_zero MAIN_IMAGE_START_ADDRESS
    g_public_key (by decide)⟩

/-- What `verify_image` does for a slot with the magic whose length field `L` satisfies
`L + 72 ≤ MAIN_IMAGE_MAX_SIZE`: it calls `sha256_hash` on the `L + 4` bytes from the length
field (offset 68) on, hands the digest buffer, whatever `sha256_hash` left in it, with
r = bytes 4..35 and s = bytes 36..67 to the signature service, and returns
`VERIFY_SUCCESS` if and only if the service accepts that buffer; otherwise it returns
`VERIFY_FAIL`.  It also returns `VERIFY_FAIL`, calling no service, when the magic is wrong
and when the declared total, as the code computes it in 32 bits, exceeds
`MAIN_IMAGE_MAX_SIZE`.  The buffer is the digest of the bytes only when every `hashUpdate`
call succeeded. -/
theorem verify_image_iff_signature (c : Crypto) (mem : Mem) (p_image_header : Nat)
    (p_public_key : List Nat) :
    (readBytes mem p_image_header 4 = MAGIC_NUMBER →
      rd32 mem (p_image_header + 68) + 72 ≤ MAIN_IMAGE_MAX_SIZE →
      (verify_image c mem p_image_header p_public_key).2 =
        [ServiceCall.sha256_hash (wrap32 (p_image_header + 68)) (rd32 mem (p_image_header + 68) + 4),
         ServiceCall.ecc_verify
          (sha256_hash c.hashUpdate mem (wrap32 (p_image_header + 68))
            (rd32 mem (p_image_header + 68) + 4) c.temp_data c.hash).2
          (readBytes mem (p_image_header + 4) 32) (readBytes mem (p_image_header + 36) 32)] ∧
      ((verify_image c mem p_image_header p_public_key).1 = VERIFY_SUCCESS ↔
        c.eccVerify domain generator_point p_public_key
          (sha256_hash c.hashUpdate mem (wrap32 (p_image_header + 68))
            (rd32 mem (p_image_header + 68) + 4) c.temp_data c.hash).2
          (readBytes mem (p_image_header + 4) 32) (readBytes mem (p_image_header + 36) 32)
          = SSP_SUCCESS) ∧
      ((verify_image c mem p_image_header p_public_key).1 ≠ VERIFY_SUCCESS →
        (verify_image c mem p_image_header p_public_key).1 = VERIFY_FAIL)) ∧
    (readBytes mem p_image_header 4 ≠ MAGIC_NUMBER →
      verify_image c mem p_image_header p_public_key = (VERIFY_FAIL, [])) ∧
    (wrap32 (rd32 mem (p_image_header + 68) + 72) > MAIN_IMAGE_MAX_SIZE →
      verify_image c mem p_image_header p_public_key = (VERIFY_FAIL, [])) := by
  refine ⟨?_, ?_, ?_⟩
  · intro hmagic hlen
    have hM : MAIN_IMAGE_MAX_SIZE = 1015808 := by decide
    have h1 : wrap32 (rd32 mem (p_image_header + 68) + 4 + 64 + 4) ≤ MAIN_IMAGE_MAX_SIZE := by
      unfold wrap32; omega
    have h2 : wrap32 (rd32 mem (p_image_header + 68) + 4) = rd32 mem (p_image_header + 68) + 4 := by
      unfold wrap32; omega
    unfold verify_image
    simp only [MAGIC_NUMBER_LEN, OFFSET_length, OFFSET_signature, SIGNATURE_LEN_BYTES,
      SIGNATURE_LEN, ECC_256_SIGNATURE_R_LENGTH_WORDS, ECC_256_SIGNATURE_S_LENGTH_WORDS,
      Nat.reduceMul, Nat.reduceAdd, hmagic, ne_eq, not_true_eq_false, if_false, gt_iff_lt,
      not_lt.mpr h1, h2]
    by_cases hv : c.eccVerify domain generator_point p_public_key
        (sha256_hash c.hashUpdate mem (wrap32 (p_image_header + 68))
          (rd32 mem (p_image_header + 68) + 4) c.temp_data c.hash).2
        (readBytes mem (p_image_header + 4) 32) (readBytes mem (p_image_header + 36) 32)
          = SSP_SUCCESS
    · simp [hv, VERIFY_SUCCESS, VERIFY_FAIL]
    · simp [hv, VERIFY_SUCCESS, VERIFY_FAIL]
  · intro hmagic
    have hmagic2 : readBytes mem p_image_header MAGIC_NUMBER_LEN ≠ MAGIC_NUMBER := hmagic
    unfold verify_image
    rw [if_pos hmagic2]
  · intro hlen
    have h1 : wrap32 (rd32 mem (p_image_header + OFFSET_length) + 4 + SIGNATURE_LEN_BYTES + 4)
        > MAIN_IMAGE_MAX_SIZE := by
      have h2 : rd32 mem (p_image_header + OFFSET_length) + 4 + SIGNATURE_LEN_BYTES + 4
          = rd32 mem (p_image_header + 68) + 72 := by
        have ho : OFFSET_length = 68 := by decide
        have hs : SIGNATURE_LEN_BYTES = 64 := by decide
        rw [ho, hs]
      rw [h2]
      exact hlen
    unfold verify_image
    by_cases hmagic : readBytes mem p_image_header MAGIC_NUMBER_LEN ≠ MAGIC_NUMBER
    · rw [if_pos hmagic]
    · rw [if_neg hmagic, if_pos h1]

theorem verify_image_iff_signature_witness :
    readBytes mem_small_main MAIN_IMAGE_START_ADDRESS 4 = MAGIC_NUMBER ∧
    rd32 mem_small_main (MAIN_IMAGE_START_ADDRESS + 68) + 72 ≤ MAIN_IMAGE_MAX_SIZE ∧
    (verify_image cryptoAcceptAll mem_small_main MAIN_IMAGE_START_ADDRESS g_public_key).1
      = VERIFY_SUCCESS :=
  ⟨by decide, by decide,
    ((verify_image_iff_signature cryptoAcceptAll mem_small_main MAIN_IMAGE_START_ADDRESS
      g_public_key).1 (by decide) (by decide)).2.1.mpr rfl⟩

/-- C3, at the failing input: with the length field `0xFFFFFFB8` the declared total
`L + 72` wraps to 0 in 32-bit arithmetic, the size check passes although `L + 12` exceeds
the slot capacity, `sha256_hash` is called on `0xFFFFFFBC` bytes and the image is accepted
when the signature service accepts. -/
theorem verify_image_length_wraps :
    rd32 mem_overflow (UPDATE_IMAGE_START_ADDRESS + 68) = 4294967224 ∧
    4294967224 + 12 > MAIN_IMAGE_MAX_SIZE ∧
    ServiceCall.sha256_hash (UPDATE_IMAGE_START_ADDRESS + 68) 4294967228 ∈
      (verify_image cryptoAcceptAll mem_overflow UPDATE_IMAGE_START_ADDRESS g_public_key).2 ∧
    (verify_image cryptoAcceptAll mem_overflow UPDATE_IMAGE_START_ADDRESS g_public_key).1
      = VERIFY_SUCCESS := by
  have hmagic : readBytes mem_overflow UPDATE_IMAGE_START_ADDRESS MAGIC_NUMBER_LEN = MAGIC_NUMBER := by
    decide
  have hlen : rd32 mem_overflow (UPDATE_IMAGE_START_ADDRESS + OFFSET_length) = 4294967224 := by
    decide
  refine ⟨hlen, by decide, ?_, ?_⟩
  · unfold verify_image
    simp only [hmagic, hlen, ne_eq, not_true_eq_false, if_false]
    rw [if_neg (by decide)]
    simp only [List.mem_cons]
    left
    decide
  · unfold verify_image
    simp only [hmagic, hlen, ne_eq, not_true_eq_false, if_false]
    rw [if_neg (by decide)]
    simp [cryptoAcceptAll, acceptAll, SSP_SUCCESS]

/-! ### `port.c` -/

/-- C9: with a zero source address or a zero length the programming function returns
`SSP_ERR_ASSERTION` and calls no driver entry: memory, driver state and event trace are
unchanged. -/
theorem flash_main_image_rejects_zero (api : flash_api_t σ) (flash_page_buffer : Buf)
    (update_area_start_addr length : Nat) (w : World σ)
    (h : update_area_start_addr = 0 ∨ length = 0) :
    flash_main_image_from_update_area api flash_page_buffer update_area_start_addr length w
      = (SSP_ERR_ASSERTION, w) := by
  unfold flash_main_image_from_update_area
  rw [if_pos h]

theorem flash_main_image_rejects_zero_witness :
    flash_main_image_from_update_area idealFlash (fun _ => 0) UPDATE_IMAGE_START_ADDRESS 0
      (worldOf mem_zero) = (SSP_ERR_ASSERTION, worldOf mem_zero) :=
  flash_main_image_rejects_zero idealFlash (fun _ => 0) UPDATE_IMAGE_START_ADDRESS 0
    (worldOf mem_zero) (Or.inr rfl)

/-! ### Frame lemmas for the slot manager -/

theorem blank_check_image_area_mem (api : flash_api_t σ) (a : Nat) (b0 : Bool) (w : World σ) :
    (blank_check_image_area api a b0 w).2.2.mem = w.mem := by
  unfold blank_check_image_area call_open call_blankCheck call_close
  by_cases h0 : a = 0
  · simp [h0]
  · by_cases h1 : a < INTERNAL_FLASH_START_ADDRESS + TOTAL_INTERNAL_FLASH_SIZE
    · by_cases h2 : (api.flash_open w.drv).1 = SSP_SUCCESS <;> simp [h0, h1, h2]
    · simp [h0, h1]

theorem blank_check_image_area_ok (api : flash_api_t σ) (hok : FlashOk api) (a : Nat) (b0 : Bool)
    (w : World σ) (ha : a ≠ 0) : (blank_check_image_area api a b0 w).1 = SSP_SUCCESS := by
  unfold blank_check_image_area call_open call_blankCheck call_close
  by_cases h1 : a < INTERNAL_FLASH_START_ADDRESS + TOTAL_INTERNAL_FLASH_SIZE
  · simp [ha, h1, hok.1, hok.2.2.2]
  · simp [ha, h1]

theorem call_verify_image_mem (e : Env σ) (p : Nat) (w : World σ) :
    (call_verify_image e p w).2.mem = w.mem := rfl

theorem call_verify_image_fst (e : Env σ) (p : Nat) (w : World σ) :
    (call_verify_image e p w).1 = (verify_image e.crypto w.mem p g_public_key).1 := rfl

theorem erase_update_image_area_trace (api : flash_api_t σ) (hok : FlashOk api) (w : World σ) :
    Event.flash_erase UPDATE_IMAGE_START_ADDRESS (UPDATE_IMAGE_MAX_SIZE / UPDATE_IMAGE_ERASE_BLOCK_SIZE)
      ∈ (erase_update_image_area api UPDATE_IMAGE_START_ADDRESS w).2.trace := by
  unfold erase_update_image_area call_open call_erase call_close
  have h0 : UPDATE_IMAGE_START_ADDRESS ≠ 0 := by decide
  have h1 : UPDATE_IMAGE_START_ADDRESS < INTERNAL_FLASH_START_ADDRESS + TOTAL_INTERNAL_FLASH_SIZE := by
    decide
  simp [h0, h1, hok.1]

theorem boot_verified_main_outcome (e : Env σ) (b : Branch) (w : World σ) :
    (boot_verified_main e b w).branch = b ∧
    (boot_verified_main e b w).outcome =
      (if (verify_image e.crypto w.mem MAIN_IMAGE_START_ADDRESS g_public_key).1 = VERIFY_SUCCESS
        then Outcome.boot_main_application else Outcome.halt) ∧
    ∀ ev, ev ∈ w.trace → ev ∈ (boot_verified_main e b w).world.trace := by
  simp only [boot_verified_main, call_verify_image_fst]
  by_cases h : (verify_image e.crypto w.mem MAIN_IMAGE_START_ADDRESS g_public_key).1 = VERIFY_SUCCESS
  · simp only [h, if_true, true_and]
    intro ev hev
    simp [call_boot_main_application, call_verify_image, hev]
  · simp only [h, if_false, true_and]
    intro ev hev
    simp [call_verify_image, hev]

/-! ### `boot`: the decision table -/

/-- C1: when every blank-check, erase and program driver call succeeds, `boot` follows the
decision table.  UPDATE blank: MAIN is booted if `verify_image(MAIN)` passes, else halt.
UPDATE not blank and rejected: UPDATE is erased, then MAIN is booted if it verifies, else
halt.  UPDATE accepted and MAIN blank, or rejected, or `UPDATE.version ≥ MAIN.version`: the
apply branch, which never ends in the halt loop.  UPDATE accepted, MAIN accepted, `UPDATE.version < MAIN.version`: the discard
branch (erase UPDATE, then boot MAIN if it verifies, else halt).  In all cases the branch
taken stands for the decision of the table of the specification. -/
theorem boot_decision_table (e : Env σ) (w : World σ) (hok : FlashOk e.flash) :
    let bu := blank_check_image_area e.flash UPDATE_IMAGE_START_ADDRESS e.blank_status w
    let wu := (call_verify_image e UPDATE_IMAGE_START_ADDRESS bu.2.2).2
    let bm := blank_check_image_area e.flash MAIN_IMAGE_START_ADDRESS false wu
    let up_valid := (verify_image e.crypto w.mem UPDATE_IMAGE_START_ADDRESS g_public_key).1
    let main_valid := (verify_image e.crypto w.mem MAIN_IMAGE_START_ADDRESS g_public_key).1
    let up_version := rd32 w.mem (UPDATE_IMAGE_START_ADDRESS + 72)
    let main_version := rd32 w.mem (MAIN_IMAGE_START_ADDRESS + 72)
    let erased := fun (v : World σ) => (erase_update_image_area e.flash UPDATE_IMAGE_START_ADDRESS v).2
    (bu.2.1 = true →
      (boot e w).branch = Branch.update_area_blank ∧
      (boot e w).outcome =
        if main_valid = VERIFY_SUCCESS then Outcome.boot_main_application else Outcome.halt) ∧
    (bu.2.1 = false → up_valid ≠ VERIFY_SUCCESS →
      (boot e w).branch = Branch.invalid_update_image ∧
      Event.flash_erase UPDATE_IMAGE_START_ADDRESS 31 ∈ (boot e w).world.trace ∧
      (boot e w).outcome =
        if (verify_image e.crypto (erased wu).mem MAIN_IMAGE_START_ADDRESS g_public_key).1
            = VERIFY_SUCCESS
        then Outcome.boot_main_application else Outcome.halt) ∧
    (bu.2.1 = false → up_valid = VERIFY_SUCCESS →
      (bm.2.1 = true ∨ main_valid ≠ VERIFY_SUCCESS ∨ up_version ≥ main_version) →
      (boot e w).branch = Branch.version_number_good ∧ (boot e w).outcome ≠ Outcome.halt) ∧
    (bu.2.1 = false → up_valid = VERIFY_SUCCESS → bm.2.1 = false →
      main_valid = VERIFY_SUCCESS → up_version < main_version →
      (boot e w).branch = Branch.version_number_bad ∧
      Event.flash_erase UPDATE_IMAGE_START_ADDRESS 31 ∈ (boot e w).world.trace ∧
      (boot e w).outcome =
        if (verify_image e.crypto
              (erased (call_verify_image e MAIN_IMAGE_START_ADDRESS bm.2.2).2).mem
              MAIN_IMAGE_START_ADDRESS g_public_key).1 = VERIFY_SUCCESS
        then Outcome.boot_main_application else Outcome.halt) ∧
    (boot e w).branch.decision =
      decision_table bu.2.1 (decide (up_valid = VERIFY_SUCCESS)) bm.2.1
        (decide (main_valid = VERIFY_SUCCESS)) up_version main_version := by
  intro bu wu bm up_valid main_valid up_version main_version erased
  have hbu : bu.1 = SSP_SUCCESS :=
    blank_check_image_area_ok e.flash hok _ _ _ (by decide)
  have hbumem : bu.2.2.mem = w.mem := blank_check_image_area_mem _ _ _ _
  have hwumem : wu.mem = w.mem := hbumem
  have hbm : bm.1 = SSP_SUCCESS :=
    blank_check_image_area_ok e.flash hok _ _ _ (by decide)
  have hbmmem : bm.2.2.mem = w.mem := (blank_check_image_area_mem _ _ _ _).trans hwumem
  have hvu : (call_verify_image e UPDATE_IMAGE_START_ADDRESS bu.2.2).1 = up_valid := by
    show (verify_image e.crypto bu.2.2.mem _ _).1 = _
    rw [hbumem]
  have hvm : (call_verify_image e MAIN_IMAGE_START_ADDRESS bm.2.2).1 = main_valid := by
    show (verify_image e.crypto bm.2.2.mem _ _).1 = _
    rw [hbmmem]
  have hvmmem : (call_verify_image e MAIN_IMAGE_START_ADDRESS bm.2.2).2.mem = w.mem := hbmmem
  have h31 : UPDATE_IMAGE_MAX_SIZE / UPDATE_IMAGE_ERASE_BLOCK_SIZE = 31 := by decide
  have hoff : OFFSET_version = 72 := by decide
  -- the four ways through the version test
  have key_blank : bu.2.1 = true → boot e w = boot_verified_main e Branch.update_area_blank bu.2.2 := by
    intro hb
    show (if bu.1 = SSP_SUCCESS then (if bu.2.1 = false then _ else _) else _) = _
    rw [if_pos hbu, if_neg (by simp [hb])]
  have key_invalid : bu.2.1 = false → up_valid ≠ VERIFY_SUCCESS →
      boot e w = boot_verified_main e Branch.invalid_update_image (erased wu) := by
    intro hb hv
    show (if bu.1 = SSP_SUCCESS then (if bu.2.1 = false then
      (if (call_verify_image e UPDATE_IMAGE_START_ADDRESS bu.2.2).1 = VERIFY_SUCCESS then _ else _)
      else _) else _) = _
    rw [if_pos hbu, if_pos hb, hvu, if_neg hv]
  -- `main_application_version` and the world in which the versions are compared
  let mv : Nat × World σ :=
    if bm.1 = SSP_SUCCESS then
      if bm.2.1 = false then
        let vm := call_verify_image e MAIN_IMAGE_START_ADDRESS bm.2.2
        if vm.1 = VERIFY_SUCCESS then
          (rd32 vm.2.mem (MAIN_IMAGE_START_ADDRESS + OFFSET_version), vm.2)
        else (0, vm.2)
      else (0, bm.2.2)
    else (0, bm.2.2)
  have hmvmem : mv.2.mem = w.mem := by
    show (if bm.1 = SSP_SUCCESS then (if bm.2.1 = false then
      (if (call_verify_image e MAIN_IMAGE_START_ADDRESS bm.2.2).1 = VERIFY_SUCCESS then _ else _)
      else _) else _ : Nat × World σ).2.mem = _
    split_ifs <;> assumption
  have hmv1 : mv.1 = if bm.2.1 = false ∧ main_valid = VERIFY_SUCCESS then main_version else 0 := by
    show (if bm.1 = SSP_SUCCESS then (if bm.2.1 = false then
      (if (call_verify_image e MAIN_IMAGE_START_ADDRESS bm.2.2).1 = VERIFY_SUCCESS then _ else _)
      else _) else _ : Nat × World σ).1 = _
    rw [if_pos hbm, hvm]
    by_cases h1 : bm.2.1 = false
    · by_cases h2 : main_valid = VERIFY_SUCCESS
      · rw [if_pos h1, if_pos h2, if_pos ⟨h1, h2⟩]
        show rd32 (call_verify_image e MAIN_IMAGE_START_ADDRESS bm.2.2).2.mem _ = _
        rw [hvmmem, hoff]
      · rw [if_pos h1, if_neg h2, if_neg (fun h => h2 h.2)]
    · rw [if_neg h1, if_neg (fun h => h1 h.1)]
  have key_valid : bu.2.1 = false → up_valid = VERIFY_SUCCESS →
      boot e w =
        if rd32 mv.2.mem (UPDATE_IMAGE_START_ADDRESS + OFFSET_version) ≥ mv.1 then
          (let er : Nat × World σ :=
            if bm.2.1 = false then erase_main_image_area e.flash mv.2 else (SSP_SUCCESS, mv.2)
           if er.1 = SSP_SUCCESS then
            let update_size := wrap32
              (rd32 er.2.mem (UPDATE_IMAGE_START_ADDRESS + OFFSET_length) + SIGNATURE_LEN_BYTES
                + MAGIC_NUMBER_LEN + 4)
            let fl := flash_main_image_from_update_area e.flash e.flash_page_buffer
              UPDATE_IMAGE_START_ADDRESS update_size er.2
            if fl.1 = SSP_SUCCESS then
              let v := call_verify_image e MAIN_IMAGE_START_ADDRESS fl.2
              if v.1 = VERIFY_SUCCESS then
                let eu := erase_update_image_area e.flash UPDATE_IMAGE_START_ADDRESS v.2
                ⟨call_boot_main_application eu.2, Outcome.boot_main_application,
                  Branch.version_number_good⟩
              else
                ⟨call_NVIC_SystemReset v.2, Outcome.NVIC_SystemReset, Branch.version_number_good⟩
            else ⟨fl.2, Outcome.returned, Branch.version_number_good⟩
           else ⟨er.2, Outcome.returned, Branch.version_number_good⟩)
        else boot_verified_main e Branch.version_number_bad (erased mv.2) := by
    intro hb hv
    show (if bu.1 = SSP_SUCCESS then (if bu.2.1 = false then
      (if (call_verify_image e UPDATE_IMAGE_START_ADDRESS bu.2.2).1 = VERIFY_SUCCESS then _ else _)
      else _) else _) = _
    rw [if_pos hbu, if_pos hb, hvu, if_pos hv]
  refine ⟨?_, ?_, ?_, ?_, ?_⟩
  · intro hb
    rw [key_blank hb]
    have := boot_verified_main_outcome e Branch.update_area_blank bu.2.2
    rw [hbumem] at this
    exact ⟨this.1, this.2.1⟩
  · intro hb hv
    rw [key_invalid hb hv]
    have := boot_verified_main_outcome e Branch.invalid_update_image (erased wu)
    refine ⟨this.1, this.2.2 _ ?_, this.2.1⟩
    have := erase_update_image_area_trace e.flash hok wu
    rwa [h31] at this
  · intro hb hv hcond
    have hge : rd32 mv.2.mem (UPDATE_IMAGE_START_ADDRESS + OFFSET_version) ≥ mv.1 := by
      rw [hmvmem, hmv1]
      split
      · rename_i hc
        rcases hcond with h | h | h
        · simp [hc.1] at h
        · exact absurd hc.2 h
        · exact h
      · exact Nat.zero_le _
    rw [key_valid hb hv, if_pos hge]
    simp only []
    split_ifs <;> exact ⟨rfl, fun h => Outcome.noConfusion h⟩
  · intro hb hv hmb hmvld hlt
    have hlt2 : ¬ rd32 mv.2.mem (UPDATE_IMAGE_START_ADDRESS + OFFSET_version) ≥ mv.1 := by
      rw [hmvmem, hmv1, if_pos ⟨hmb, hmvld⟩]
      exact Nat.not_le.mpr hlt
    have hmv2 : mv.2 = (call_verify_image e MAIN_IMAGE_START_ADDRESS bm.2.2).2 := by
      show (if bm.1 = SSP_SUCCESS then (if bm.2.1 = false then
        (if (call_verify_image e MAIN_IMAGE_START_ADDRESS bm.2.2).1 = VERIFY_SUCCESS then _ else _)
        else _) else _ : Nat × World σ).2 = _
      rw [if_pos hbm, if_pos hmb, hvm, if_pos hmvld]
    rw [key_valid hb hv, if_neg hlt2, hmv2]
    have := boot_verified_main_outcome e Branch.version_number_bad
      (erased (call_verify_image e MAIN_IMAGE_START_ADDRESS bm.2.2).2)
    refine ⟨this.1, this.2.2 _ ?_, this.2.1⟩
    have := erase_update_image_area_trace e.flash hok (call_verify_image e MAIN_IMAGE_START_ADDRESS bm.2.2).2
    rwa [h31] at this
  · by_cases hb : bu.2.1 = true
    · rw [key_blank hb, (boot_verified_main_outcome _ _ _).1]
      simp [decision_table, Branch.decision, hb]
    · have hb : bu.2.1 = false := by simpa using hb
      by_cases hv : up_valid = VERIFY_SUCCESS
      · by_cases hge : rd32 mv.2.mem (UPDATE_IMAGE_START_ADDRESS + OFFSET_version) ≥ mv.1
        · have hbr : (boot e w).branch = Branch.version_number_good := by
            rw [key_valid hb hv, if_pos hge]
            simp only []
            split_ifs <;> rfl
          rw [hbr]
          rw [hmvmem, hmv1] at hge
          by_cases hmb : bm.2.1 = false
          · by_cases hmvld : main_valid = VERIFY_SUCCESS
            · rw [if_pos ⟨hmb, hmvld⟩, hoff] at hge
              have hge2 : main_version ≤ up_version := hge
              simp [decision_table, Branch.decision, hb, hv, hmb, hmvld, hge2]
            · simp [decision_table, Branch.decision, hb, hv, hmb, hmvld]
          · have hmb : bm.2.1 = true := by simpa using hmb
            simp [decision_table, Branch.decision, hb, hv, hmb]
        · have hbr : (boot e w).branch = Branch.version_number_bad := by
            rw [key_valid hb hv, if_neg hge, (boot_verified_main_outcome _ _ _).1]
          rw [hbr]
          rw [hmvmem, hmv1] at hge
          by_cases hc : bm.2.1 = false ∧ main_valid = VERIFY_SUCCESS
          · rw [if_pos hc, hoff] at hge
            have hge2 : ¬ main_version ≤ up_version := hge
            simp [decision_table, Branch.decision, hb, hv, hc.1, hc.2, hge2]
          · rw [if_neg hc] at hge
            exact absurd (Nat.zero_le _) hge
      · rw [key_invalid hb hv, (boot_verified_main_outcome _ _ _).1]
        simp [decision_table, Branch.decision, hb, hv]

theorem idealFlash_ok : FlashOk idealFlash :=
  ⟨fun _ => rfl, fun _ _ _ _ => rfl, fun _ _ _ _ => rfl, fun _ _ _ _ => rfl⟩

theorem boot_decision_table_witness :
    FlashOk idealFlash ∧
    (boot env_ideal (worldOf mem_update5_main3)).branch.decision =
      decision_table
        (blank_check_image_area idealFlash UPDATE_IMAGE_START_ADDRESS false
          (worldOf mem_update5_main3)).2.1
        (decide ((verify_image cryptoAcceptAll mem_update5_main3 UPDATE_IMAGE_START_ADDRESS
          g_public_key).1 = VERIFY_SUCCESS))
        (blank_check_image_area idealFlash MAIN_IMAGE_START_ADDRESS false
          (call_verify_image env_ideal UPDATE_IMAGE_START_ADDRESS
            (blank_check_image_area idealFlash UPDATE_IMAGE_START_ADDRESS false
              (worldOf mem_update5_main3)).2.2).2).2.1
        (decide ((verify_image cryptoAcceptAll mem_update5_main3 MAIN_IMAGE_START_ADDRESS
          g_public_key).1 = VERIFY_SUCCESS))
        (rd32 mem_update5_main3 (UPDATE_IMAGE_START_ADDRESS + 72))
        (rd32 mem_update5_main3 (MAIN_IMAGE_START_ADDRESS + 72)) :=
  ⟨⟨fun _ => rfl, fun _ _ _ _ => rfl, fun _ _ _ _ => rfl, fun _ _ _ _ => rfl⟩,
    (boot_decision_table env_ideal (worldOf mem_update5_main3)
      ⟨fun _ => rfl, fun _ _ _ _ => rfl, fun _ _ _ _ => rfl, fun _ _ _ _ => rfl⟩).2.2.2.2⟩

/-! ### Bytes, buffers and memory -/

theorem readBytes_length (mem : Mem) (a n : Nat) : (readBytes mem a n).length = n := by
  simp [readBytes]

theorem bufBytes_length (f : Buf) (n : Nat) : (bufBytes f n).length = n := by
  simp [bufBytes]

theorem rd8_lt (mem : Mem) (a : Nat) : rd8 mem a < 256 := Nat.mod_lt _ (by decide)

theorem rd8_wrap32_add (mem : Mem) (a i : Nat) : rd8 mem (wrap32 a + i) = rd8 mem (a + i) := by
  unfold rd8 wrap32
  congr 2
  omega

theorem readBytes_wrap32 (mem : Mem) (a n : Nat) : readBytes mem (wrap32 a) n = readBytes mem a n := by
  unfold readBytes
  congr 1
  funext i
  exact rd8_wrap32_add mem a i

theorem readBytes_getD (mem : Mem) (a n i : Nat) (h : i < n) :
    (readBytes mem a n).getD i 0 = rd8 mem (a + i) := by
  rw [List.getD_eq_getElem _ _ (by rw [readBytes_length]; exact h)]
  simp [readBytes]

theorem getD_replicate_lt (n x d i : Nat) (h : i < n) : (List.replicate n x).getD i d = x := by
  rw [List.getD_eq_getElem _ _ (by simpa using h)]
  simp

theorem bufBytes_eq_of_getD (f : Buf) (l : List Nat) (n : Nat) (hl : l.length = n)
    (h : ∀ i, i < n → f i = l.getD i 0) : bufBytes f n = l := by
  apply List.ext_getElem
  · rw [bufBytes_length, hl]
  · intro i h1 h2
    rw [bufBytes_length] at h1
    have := h i h1
    rw [List.getD_eq_getElem _ _ h2] at this
    simp [bufBytes, this]

/-- The page buffer after `memset` to 0xFF and `memcpy` of the remainder. -/
theorem page_buffer_bytes (buf : Buf) (tail : List Nat) (h : tail.length ≤ 128) :
    bufBytes (memcpy (memset buf 0 0xFF 128) 0 tail) 128
      = tail ++ List.replicate (128 - tail.length) 0xFF := by
  apply bufBytes_eq_of_getD
  · simp; omega
  · intro i hi
    by_cases hlt : i < tail.length
    · rw [List.getD_append _ _ _ _ hlt]
      simp [memcpy, hlt]
    · rw [List.getD_append_right _ _ _ _ (by omega), getD_replicate_lt _ _ _ _ (by omega)]
      simp [memcpy, memset, hlt, hi]

theorem rd8_storeBytes (mem : Mem) (dest : Nat) (data : List Nat) (a : Nat) :
    rd8 (storeBytes mem dest data) a =
      if (wrap32 a + 4294967296 - wrap32 dest) % 4294967296 < data.length then
        data.getD ((wrap32 a + 4294967296 - wrap32 dest) % 4294967296) 0 % 256
      else rd8 mem a := by
  have hw : wrap32 (wrap32 a) = wrap32 a := by unfold wrap32; omega
  unfold rd8 storeBytes
  rw [hw]
  split <;> rfl

/-! ### `flash_main_image_from_update_area` -/

/-- C8 (amended): for a non-zero source address and a length `L > 0` with
`r = L mod 128 ≠ 0`, when the driver calls succeed and the first write leaves the last `r`
source bytes as they were, the function opens the driver, writes the `L - r` leading source
bytes at `MAIN_IMAGE_START_ADDRESS`, writes exactly one 128-byte page at
`MAIN_IMAGE_START_ADDRESS + (L - r)` made of the source bytes `L-r .. L-1` followed by
`128 - r` bytes 0xFF, closes the driver and returns `SSP_SUCCESS`; on a flash whose write
stores its bytes, `MAIN[0..L)` then equals the source and `MAIN[L .. L - r + 128)` reads
0xFF. -/
theorem flash_main_image_partial_page (api : flash_api_t σ) (hok : FlashOk api)
    (flash_page_buffer : Buf) (src L : Nat) (w : World σ)
    (hsrc : src ≠ 0) (hL : 0 < L) (hL32 : L < 4294967296) (hr : L % 128 ≠ 0)
    (htail : ∀ i, i < L % 128 →
      rd8 (api.write (readBytes w.mem src (L - L % 128)) MAIN_IMAGE_START_ADDRESS
            (api.flash_open w.drv).2 w.mem).2.2 (src + (L - L % 128) + i)
        = rd8 w.mem (src + (L - L % 128) + i)) :
    (flash_main_image_from_update_area api flash_page_buffer src L w).1 = SSP_SUCCESS ∧
    (flash_main_image_from_update_area api flash_page_buffer src L w).2.trace =
      w.trace ++
        [Event.flash_open,
         Event.flash_write (readBytes w.mem src (L - L % 128)) MAIN_IMAGE_START_ADDRESS,
         Event.flash_write
          ((readBytes w.mem src L).drop (L - L % 128) ++ List.replicate (128 - L % 128) 0xFF)
          (wrap32 (MAIN_IMAGE_START_ADDRESS + (L - L % 128))),
         Event.flash_close] ∧
    (WriteStores api →
      (∀ i, i < L →
        rd8 (flash_main_image_from_update_area api flash_page_buffer src L w).2.mem
          (MAIN_IMAGE_START_ADDRESS + i) = rd8 w.mem (src + i)) ∧
      (∀ i, L ≤ i → i < L - L % 128 + 128 →
        rd8 (flash_main_image_from_update_area api flash_page_buffer src L w).2.mem
          (MAIN_IMAGE_START_ADDRESS + i) = 0xFF)) := by
  obtain ⟨hopen, -, hwrite, -⟩ := hok
  have hrlt : L % 128 < 128 := Nat.mod_lt _ (by decide)
  have hrle : L % 128 ≤ L := Nat.mod_le _ _
  -- the remainder, as read after the first write, is the remainder of the source
  have htail2 :
      readBytes (api.write (readBytes w.mem src (L - L % 128)) MAIN_IMAGE_START_ADDRESS
          (api.flash_open w.drv).2 w.mem).2.2 (wrap32 (src + (L - L % 128))) (L % 128)
        = (readBytes w.mem src L).drop (L - L % 128) := by
    apply List.ext_getElem
    · simp [readBytes_length]; omega
    · intro i h1 h2
      rw [readBytes_length] at h1
      have h3 := htail i h1
      simp only [readBytes, List.getElem_map, List.getElem_range, List.getElem_drop,
        rd8_wrap32_add] at h3 ⊢
      rw [h3, Nat.add_assoc]
  have hpage : bufBytes (memcpy (memset flash_page_buffer 0 0xFF 128) 0
        ((readBytes w.mem src L).drop (L - L % 128))) 128
      = (readBytes w.mem src L).drop (L - L % 128) ++ List.replicate (128 - L % 128) 0xFF := by
    have hlen : ((readBytes w.mem src L).drop (L - L % 128)).length = L % 128 := by
      simp [readBytes_length]; omega
    have := page_buffer_bytes flash_page_buffer ((readBytes w.mem src L).drop (L - L % 128))
      (by omega)
    rw [hlen] at this
    exact this
  have hrun : flash_main_image_from_update_area api flash_page_buffer src L w =
      (SSP_SUCCESS,
        (call_close api (call_write api
          ((readBytes w.mem src L).drop (L - L % 128) ++ List.replicate (128 - L % 128) 0xFF)
          (wrap32 (MAIN_IMAGE_START_ADDRESS + (L - L % 128)))
          (call_write api (readBytes w.mem src (L - L % 128)) MAIN_IMAGE_START_ADDRESS
            (call_open api w).2).2).2).2) := by
    unfold flash_main_image_from_update_area
    have h0 : ¬ (src = 0 ∨ L = 0) := by omega
    have ho : (call_open api w).1 = SSP_SUCCESS := hopen _
    have homem : (call_open api w).2.mem = w.mem := rfl
    have hw1 : ∀ d a v, (call_write api d a v).1 = SSP_SUCCESS := fun d a v => hwrite _ _ _ _
    simp only [MAIN_FLASH_PROGRAMMING_PAGE_SIZE, h0, if_false, ho, ne_eq, not_true_eq_false, hr,
      not_false_eq_true, if_true, hw1, homem, gt_iff_lt, Nat.pos_of_ne_zero hr]
    have hm1 : (call_write api (readBytes w.mem src (L - L % 128)) MAIN_IMAGE_START_ADDRESS
        (call_open api w).2).2.mem
        = (api.write (readBytes w.mem src (L - L % 128)) MAIN_IMAGE_START_ADDRESS
            (api.flash_open w.drv).2 w.mem).2.2 := rfl
    rw [hm1, htail2, hpage]
  rw [hrun]
  refine ⟨rfl, ?_, ?_⟩
  · simp [call_close, call_write, call_open]
  · intro hstore
    have hmem : (call_close api (call_write api
          ((readBytes w.mem src L).drop (L - L % 128) ++ List.replicate (128 - L % 128) 0xFF)
          (wrap32 (MAIN_IMAGE_START_ADDRESS + (L - L % 128)))
          (call_write api (readBytes w.mem src (L - L % 128)) MAIN_IMAGE_START_ADDRESS
            (call_open api w).2).2).2).2.mem
        = storeBytes (storeBytes w.mem MAIN_IMAGE_START_ADDRESS (readBytes w.mem src (L - L % 128)))
            (wrap32 (MAIN_IMAGE_START_ADDRESS + (L - L % 128)))
            ((readBytes w.mem src L).drop (L - L % 128) ++ List.replicate (128 - L % 128) 0xFF) := by
      simp only [call_close, call_write, call_open, hstore _ _ _ _]
    simp only [hmem]
    have hlen2 : ((readBytes w.mem src L).drop (L - L % 128)
        ++ List.replicate (128 - L % 128) 0xFF).length = 128 := by
      simp [readBytes_length]; omega
    have hdiv : L - L % 128 = 128 * (L / 128) := by
      have := Nat.div_add_mod L 128
      omega
    constructor
    · intro i hi
      rw [rd8_storeBytes, hlen2]
      by_cases hlo : i < L - L % 128
      · have hoff : ¬ (wrap32 (MAIN_IMAGE_START_ADDRESS + i) + 4294967296
            - wrap32 (wrap32 (MAIN_IMAGE_START_ADDRESS + (L - L % 128)))) % 4294967296 < 128 := by
          unfold wrap32 MAIN_IMAGE_START_ADDRESS
          omega
        rw [if_neg hoff, rd8_storeBytes, readBytes_length]
        have hoff2 : (wrap32 (MAIN_IMAGE_START_ADDRESS + i) + 4294967296
            - wrap32 MAIN_IMAGE_START_ADDRESS) % 4294967296 = i := by
          unfold wrap32 MAIN_IMAGE_START_ADDRESS
          omega
        rw [hoff2, if_pos hlo, readBytes_getD _ _ _ _ hlo]
        exact Nat.mod_eq_of_lt (rd8_lt _ _)
      · have hoff : (wrap32 (MAIN_IMAGE_START_ADDRESS + i) + 4294967296
            - wrap32 (wrap32 (MAIN_IMAGE_START_ADDRESS + (L - L % 128)))) % 4294967296
            = i - (L - L % 128) := by
          unfold wrap32 MAIN_IMAGE_START_ADDRESS
          omega
        rw [hoff, if_pos (by omega)]
        rw [List.getD_append _ _ _ _ (by simp [readBytes_length]; omega)]
        rw [List.getD_eq_getElem _ _ (by simp [readBytes_length]; omega)]
        simp only [readBytes, List.getElem_drop, List.getElem_map, List.getElem_range]
        have : L - L % 128 + (i - (L - L % 128)) = i := by omega
        rw [this]
        exact Nat.mod_eq_of_lt (rd8_lt _ _)
    · intro i h1 h2
      rw [rd8_storeBytes, hlen2]
      have hoff : (wrap32 (MAIN_IMAGE_START_ADDRESS + i) + 4294967296
          - wrap32 (wrap32 (MAIN_IMAGE_START_ADDRESS + (L - L % 128)))) % 4294967296
          = i - (L - L % 128) := by
        unfold wrap32 MAIN_IMAGE_START_ADDRESS
        omega
      rw [hoff, if_pos (by omega)]
      rw [List.getD_append_right _ _ _ _ (by simp [readBytes_length]; omega)]
      rw [getD_replicate_lt _ _ _ _ (by simp [readBytes_length]; omega)]

theorem flash_main_image_partial_page_witness :
    (flash_main_image_from_update_area idealFlash (fun _ => 0) UPDATE_IMAGE_START_ADDRESS 129
      (worldOf mem_pattern)).1 = SSP_SUCCESS ∧
    rd8 (flash_main_image_from_update_area idealFlash (fun _ => 0) UPDATE_IMAGE_START_ADDRESS 129
      (worldOf mem_pattern)).2.mem (MAIN_IMAGE_START_ADDRESS + 128)
      = rd8 mem_pattern (UPDATE_IMAGE_START_ADDRESS + 128) ∧
    rd8 (flash_main_image_from_update_area idealFlash (fun _ => 0) UPDATE_IMAGE_START_ADDRESS 129
      (worldOf mem_pattern)).2.mem (MAIN_IMAGE_START_ADDRESS + 129) = 0xFF :=
  have h := flash_main_image_partial_page idealFlash
    ⟨fun _ => rfl, fun _ _ _ _ => rfl, fun _ _ _ _ => rfl, fun _ _ _ _ => rfl⟩
    (fun _ => 0) UPDATE_IMAGE_START_ADDRESS 129 (worldOf mem_pattern)
    (by decide) (by decide) (by decide) (by decide)
    (by
      intro i hi
      have hi0 : i = 0 := by omega
      subst hi0
      simp only [idealFlash, worldOf]
      rw [rd8_storeBytes, readBytes_length, UPDATE_IMAGE_START_ADDRESS_eq,
        if_neg (by unfold wrap32 MAIN_IMAGE_START_ADDRESS; omega)])
  ⟨h.1, (h.2.2 (fun _ _ _ _ => rfl)).1 128 (by decide),
    (h.2.2 (fun _ _ _ _ => rfl)).2 129 (by decide) (by decide)⟩

set_option maxRecDepth 100000 in
/-- C8, as stated, fails when the source overlaps the MAIN range: from source address
`0xFF80` with length 129 the last byte is read at `0x10000` after the first write has
stored there, so `MAIN[128]` is the first source byte and not the last one. -/
theorem flash_main_image_overlapping_source :
    (65408 ≠ 0 ∧ 0 < 129 ∧ 129 % 128 ≠ 0) ∧
    (flash_main_image_from_update_area idealFlash (fun _ => 0) 65408 129 (worldOf mem_alias)).1
      = SSP_SUCCESS ∧
    rd8 (flash_main_image_from_update_area idealFlash (fun _ => 0) 65408 129
      (worldOf mem_alias)).2.mem (MAIN_IMAGE_START_ADDRESS + 128) = 1 ∧
    rd8 mem_alias (65408 + 128) = 2 := by
  refine ⟨by decide, rfl, ?_, by decide⟩
  decide

/-! ### `sha256_hash` -/

theorem readBytes_take (mem : Mem) (a n k : Nat) (h : k ≤ n) :
    (readBytes mem a n).take k = readBytes mem a k := by
  unfold readBytes
  rw [← List.map_take, List.take_range, Nat.min_eq_left h]

theorem readBytes_drop (mem : Mem) (a n k : Nat) :
    (readBytes mem a n).drop k = readBytes mem (a + k) (n - k) := by
  apply List.ext_getElem
  · simp [readBytes_length]
  · intro i h1 h2
    simp only [readBytes, List.getElem_drop, List.getElem_map, List.getElem_range]
    rw [Nat.add_assoc]

theorem bufBytes_memcpy (buf : Buf) (l : List Nat) : bufBytes (memcpy buf 0 l) l.length = l := by
  apply bufBytes_eq_of_getD _ _ _ rfl
  intro i hi
  simp [memcpy, hi]

theorem hashBlocks_append (hu : HashUpdate) (A B : List (List Nat)) (s : List Nat) :
    hashBlocks hu (A ++ B) s =
      if (hashBlocks hu A s).1 = SSP_SUCCESS then hashBlocks hu B (hashBlocks hu A s).2
      else hashBlocks hu A s := by
  induction A generalizing s with
  | nil => simp [hashBlocks]
  | cons b bs ih =>
    simp only [List.cons_append, hashBlocks]
    by_cases h : (hu b s).1 = SSP_SUCCESS
    · simp only [h, if_true]
      exact ih _
    · simp only [h, if_false]

theorem blocksOf_append (a b : Nat) (l1 l2 : List Nat) (h : l1.length = 64 * a) :
    blocksOf (a + b) (l1 ++ l2) = blocksOf a l1 ++ blocksOf b l2 := by
  induction a generalizing l1 with
  | zero =>
    have : l1 = [] := List.length_eq_zero.mp (by simpa using h)
    subst this
    simp [blocksOf]
  | succ n ih =>
    have hlen : 64 ≤ l1.length := by omega
    rw [Nat.add_right_comm]
    simp only [blocksOf]
    rw [List.take_append_of_le_length hlen, List.drop_append_of_le_length hlen]
    rw [ih (l1.drop 64) (by simp; omega)]
    rfl

/-- A multi-block call of a blockwise driver is the run of the single-block calls. -/
theorem hashUpdate_blocks (hu : HashUpdate) (hb : HashUpdateBlockwise hu) (n : Nat) (l : List Nat)
    (s : List Nat) (h : l.length = 64 * n) : hu l s = hashBlocks hu (blocksOf n l) s := by
  induction n generalizing l s with
  | zero =>
    have : l = [] := List.length_eq_zero.mp (by simpa using h)
    subst this
    simpa [blocksOf, hashBlocks] using hb.1 s
  | succ n ih =>
    have hl : l = l.take 64 ++ l.drop 64 := (List.take_append_drop 64 l).symm
    have h1 : (l.take 64).length = SHA256_BLOCK_SIZE_BYTES := by
      simp [SHA256_BLOCK_SIZE_BYTES]; omega
    have h2 : (l.drop 64).length = 64 * n := by simp; omega
    have h3 : (l.drop 64).length % SHA256_BLOCK_SIZE_BYTES = 0 := by
      rw [h2]; simp [SHA256_BLOCK_SIZE_BYTES]
    simp only [blocksOf, hashBlocks]
    rw [← ih (l.drop 64) _ h2]
    conv_lhs => rw [hl]
    rw [hb.2 _ _ s h1 h3]

/-- The loop of the unaligned path is the run of the single-block calls over the blocks
read from memory. -/
theorem sha256_hash_loop_blocks (hu : HashUpdate) (mem : Mem) (p n i : Nat) (tmp : Buf)
    (hd : List Nat) :
    (sha256_hash_loop hu mem p n i tmp hd).1
      = (hashBlocks hu (blocksOf n (readBytes mem (p + i) (64 * n))) hd).1 ∧
    ((sha256_hash_loop hu mem p n i tmp hd).1 = SSP_SUCCESS →
      (sha256_hash_loop hu mem p n i tmp hd).2.2
        = (hashBlocks hu (blocksOf n (readBytes mem (p + i) (64 * n))) hd).2) := by
  induction n generalizing i tmp hd with
  | zero => simp [sha256_hash_loop, blocksOf, hashBlocks]
  | succ n ih =>
    have hblk : bufBytes (memcpy tmp 0 (readBytes mem (wrap32 (p + i)) SHA256_BLOCK_SIZE_BYTES))
        SHA256_BLOCK_SIZE_BYTES = readBytes mem (p + i) 64 := by
      have h64 : SHA256_BLOCK_SIZE_BYTES = 64 := rfl
      have := bufBytes_memcpy tmp (readBytes mem (wrap32 (p + i)) 64)
      rw [readBytes_length] at this
      rw [h64, this, readBytes_wrap32]
    have htake : (readBytes mem (p + i) (64 * (n + 1))).take 64 = readBytes mem (p + i) 64 :=
      readBytes_take _ _ _ _ (by omega)
    have hdrop : (readBytes mem (p + i) (64 * (n + 1))).drop 64
        = readBytes mem (p + (i + SHA256_BLOCK_SIZE_BYTES)) (64 * n) := by
      rw [readBytes_drop]
      congr 1
    simp only [sha256_hash_loop, blocksOf, hashBlocks, hblk, htake, hdrop]
    by_cases h : (hu (readBytes mem (p + i) 64) hd).1 = SSP_SUCCESS
    · simp only [h, ne_eq, not_true_eq_false, if_false, if_true]
      exact ih _ _ _
    · simp only [h, ne_eq, not_false_eq_true, if_true, if_false, true_and]
      intro h'
      exact h'.elim

theorem bit_length_bytes_length (L : Nat) : (bit_length_bytes L).length = 8 := by
  simp [bit_length_bytes]

theorem store_bit_length_apply (buf : Buf) (L i : Nat) :
    store_bit_length buf L i =
      if 56 ≤ i ∧ i < 64 then (bit_length_bytes L).getD (i - 56) 0 else buf i := by
  by_cases h : 56 ≤ i ∧ i < 64
  · rw [if_pos h]
    obtain ⟨k, rfl⟩ : ∃ k, i = 56 + k := ⟨i - 56, by omega⟩
    have hk : k < 8 := by omega
    interval_cases k <;>
      simp [store_bit_length, bit_length_bytes, memset, SHA256_BLOCK_SIZE_BYTES, List.range_succ]
  · rw [if_neg h]
    simp only [store_bit_length, memset, SHA256_BLOCK_SIZE_BYTES]
    repeat rw [if_neg (by omega)]

theorem memset_in (buf : Buf) (off v n i : Nat) (h : off ≤ i ∧ i < off + n) :
    memset buf off v n i = v := by
  simp only [memset]
  rw [if_pos h]

theorem memset_out (buf : Buf) (off v n i : Nat) (h : ¬ (off ≤ i ∧ i < off + n)) :
    memset buf off v n i = buf i := by
  simp only [memset]
  rw [if_neg h]

theorem memcpy_in (buf : Buf) (l : List Nat) (i : Nat) (h : i < l.length) :
    memcpy buf 0 l i = l.getD i 0 := by
  simp only [memcpy]
  rw [if_pos ⟨Nat.zero_le _, by omega⟩, Nat.sub_zero]

theorem getD_padding (t z b : List Nat) (i : Nat) :
    (t ++ [0x80] ++ z ++ b).getD i 0 =
      if i < t.length then t.getD i 0
      else if i = t.length then 0x80
      else if i < t.length + 1 + z.length then z.getD (i - t.length - 1) 0
      else b.getD (i - t.length - 1 - z.length) 0 := by
  by_cases h1 : i < t.length
  · rw [if_pos h1, List.getD_append _ _ _ _ (by simp; omega),
      List.getD_append _ _ _ _ (by simp; omega), List.getD_append _ _ _ _ h1]
  · rw [if_neg h1]
    by_cases h2 : i = t.length
    · rw [if_pos h2, List.getD_append _ _ _ _ (by simp; omega),
        List.getD_append _ _ _ _ (by simp; omega), List.getD_append_right _ _ _ _ (by omega)]
      simp [h2]
    · rw [if_neg h2]
      by_cases h3 : i < t.length + 1 + z.length
      · rw [if_pos h3, List.getD_append _ _ _ _ (by simp; omega),
          List.getD_append_right _ _ _ _ (by simp; omega)]
        simp [Nat.sub_sub]
      · rw [if_neg h3, List.getD_append_right _ _ _ _ (by simp; omega)]
        congr 1
        simp
        omega

/-- The last block when the terminator leaves room for the bit length. -/
theorem final_block_short (T : Buf) (t : List Nat) (L : Nat) (ht : t.length ≤ 55) :
    bufBytes (store_bit_length
      (memset (memset (if t.length ≠ 0 then memcpy T 0 t else T) t.length 0x80 1)
        (t.length + 1) 0 (64 - t.length - 1 - 8)) L) 64
      = t ++ [0x80] ++ List.replicate (55 - t.length) 0 ++ bit_length_bytes L := by
  apply bufBytes_eq_of_getD
  · simp [bit_length_bytes_length]; omega
  · intro i hi
    rw [getD_padding, store_bit_length_apply, List.length_replicate]
    by_cases h0 : 56 ≤ i
    · rw [if_pos ⟨h0, hi⟩, if_neg (by omega), if_neg (by omega), if_neg (by omega)]
      congr 1
      omega
    · have h56 : ¬ (56 ≤ i ∧ i < 64) := by omega
      rw [if_neg h56]
      by_cases h1 : i < t.length
      · rw [if_pos h1]
        have : t.length ≠ 0 := by omega
        rw [memset_out _ _ _ _ _ (by omega), memset_out _ _ _ _ _ (by omega), if_pos this,
          memcpy_in _ _ _ h1]
      · rw [if_neg h1]
        by_cases h2 : i = t.length
        · rw [if_pos h2, memset_out _ _ _ _ _ (by omega), memset_in _ _ _ _ _ (by omega)]
        · have h3 : i < t.length + 1 + (55 - t.length) := by omega
          rw [if_neg h2, if_pos h3, getD_replicate_lt _ _ _ _ (by omega),
            memset_in _ _ _ _ _ (by omega)]

/-- The last but one block when the bit length does not fit after the terminator. -/
theorem final_block_long_first (T : Buf) (t : List Nat) (ht : 56 ≤ t.length) (ht2 : t.length < 64) :
    bufBytes (memset (memset (if t.length ≠ 0 then memcpy T 0 t else T) t.length 0x80 1)
        (t.length + 1) 0 (64 - t.length - 1)) 64
      = t ++ [0x80] ++ List.replicate (63 - t.length) 0 ++ [] := by
  apply bufBytes_eq_of_getD
  · simp; omega
  · intro i hi
    rw [getD_padding, List.length_replicate]
    by_cases h1 : i < t.length
    · rw [if_pos h1]
      have : t.length ≠ 0 := by omega
      rw [memset_out _ _ _ _ _ (by omega), memset_out _ _ _ _ _ (by omega), if_pos this,
        memcpy_in _ _ _ h1]
    · rw [if_neg h1]
      by_cases h2 : i = t.length
      · rw [if_pos h2, memset_out _ _ _ _ _ (by omega), memset_in _ _ _ _ _ (by omega)]
      · have h3 : i < t.length + 1 + (63 - t.length) := by omega
        rw [if_neg h2, if_pos h3, getD_replicate_lt _ _ _ _ (by omega),
          memset_in _ _ _ _ _ (by omega)]

/-- The last block when the bit length does not fit after the terminator. -/
theorem final_block_long_second (T : Buf) (L : Nat) :
    bufBytes (store_bit_length (memset T 0 0 (64 - 8)) L) 64
      = List.replicate 56 0 ++ bit_length_bytes L := by
  apply bufBytes_eq_of_getD
  · simp [bit_length_bytes_length]
  · intro i hi
    rw [store_bit_length_apply]
    by_cases h0 : 56 ≤ i
    · rw [if_pos ⟨h0, hi⟩, List.getD_append_right _ _ _ _ (by simp; omega)]
      simp
    · have h1 : ¬ (56 ≤ i ∧ i < 64) := by omega
      rw [if_neg h1, List.getD_append _ _ _ _ (by simp; omega),
        getD_replicate_lt _ _ _ _ (by omega), memset_in _ _ _ _ _ (by omega)]

theorem blocksOf_one (X : List Nat) (h : X.length = 64) : blocksOf 1 X = [X] := by
  simp [blocksOf, List.take_of_length_le (Nat.le_of_eq h)]

theorem blocksOf_two (X Y : List Nat) (hX : X.length = 64) (hY : Y.length = 64) :
    blocksOf 2 (X ++ Y) = [X, Y] := by
  have := blocksOf_append 1 1 X Y (by omega)
  rw [blocksOf_one X hX, blocksOf_one Y hY] at this
  exact this

/-- The blocks of the padded message that the code builds: the whole blocks of the
message, then one or two final blocks. -/
theorem blocks64_sha256_hash_padded (m : List Nat) :
    blocks64 (sha256_hash_padded m) =
      blocksOf (m.length / 64) (m.take (64 * (m.length / 64))) ++
        (if m.length % 64 ≤ 55 then
          [m.drop (64 * (m.length / 64)) ++ [0x80] ++ List.replicate (55 - m.length % 64) 0
            ++ bit_length_bytes m.length]
        else
          [m.drop (64 * (m.length / 64)) ++ [0x80] ++ List.replicate (63 - m.length % 64) 0 ++ [],
           List.replicate 56 0 ++ bit_length_bytes m.length]) := by
  have hdm := Nat.div_add_mod m.length 64
  have hrlt : m.length % 64 < 64 := Nat.mod_lt _ (by decide)
  have hW : (m.take (64 * (m.length / 64))).length = 64 * (m.length / 64) := by
    simp; omega
  have ht : (m.drop (64 * (m.length / 64))).length = m.length % 64 := by
    simp; omega
  have hm : m = m.take (64 * (m.length / 64)) ++ m.drop (64 * (m.length / 64)) :=
    (List.take_append_drop _ _).symm
  by_cases hr : m.length % 64 ≤ 55
  · rw [if_pos hr]
    have hk : (64 - (m.length + 9) % 64) % 64 = 55 - m.length % 64 := by omega
    have hX : (m.drop (64 * (m.length / 64)) ++ [0x80] ++ List.replicate (55 - m.length % 64) 0
        ++ bit_length_bytes m.length).length = 64 := by
      simp [ht, bit_length_bytes_length]; omega
    have hpad : sha256_hash_padded m = m.take (64 * (m.length / 64)) ++
        (m.drop (64 * (m.length / 64)) ++ [0x80] ++ List.replicate (55 - m.length % 64) 0
          ++ bit_length_bytes m.length) := by
      unfold sha256_hash_padded
      rw [hk]
      simp only [List.append_assoc]
      conv_rhs => rw [← List.append_assoc, List.take_append_drop]
    have hlen : (sha256_hash_padded m).length / 64 = m.length / 64 + 1 := by
      rw [hpad, List.length_append, hW, hX]
      omega
    unfold blocks64
    rw [hlen, hpad, blocksOf_append _ _ _ _ hW, blocksOf_one _ hX]
  · rw [if_neg hr]
    have hk : (64 - (m.length + 9) % 64) % 64 = (63 - m.length % 64) + 56 := by omega
    have hX : (m.drop (64 * (m.length / 64)) ++ [0x80] ++ List.replicate (63 - m.length % 64) 0
        ++ []).length = 64 := by
      simp [ht]; omega
    have hY : (List.replicate 56 0 ++ bit_length_bytes m.length).length = 64 := by
      simp [bit_length_bytes_length]
    have hpad : sha256_hash_padded m = m.take (64 * (m.length / 64)) ++
        ((m.drop (64 * (m.length / 64)) ++ [0x80] ++ List.replicate (63 - m.length % 64) 0 ++ [])
          ++ (List.replicate 56 0 ++ bit_length_bytes m.length)) := by
      unfold sha256_hash_padded
      rw [hk, List.replicate_add]
      simp only [List.append_assoc, List.append_nil]
      conv_rhs => rw [← List.append_assoc, List.take_append_drop]
    have hlen : (sha256_hash_padded m).length / 64 = m.length / 64 + 2 := by
      rw [hpad, List.length_append, List.length_append, hW, hX, hY]
      omega
    unfold blocks64
    rw [hlen, hpad, blocksOf_append _ _ _ _ hW, blocksOf_two _ _ hX hY]

theorem final_block_short_of (T : Buf) (t : List Nat) (L r : Nat) (hr : t.length = r)
    (hle : r ≤ 55) :
    bufBytes (store_bit_length
      (memset (memset (if r ≠ 0 then memcpy T 0 t else T) r 0x80 1) (r + 1) 0 (64 - r - 1 - 8)) L) 64
      = t ++ [0x80] ++ List.replicate (55 - r) 0 ++ bit_length_bytes L := by
  subst hr
  exact final_block_short T t L hle

theorem final_block_long_first_of (T : Buf) (t : List Nat) (r : Nat) (hr : t.length = r)
    (h1 : 56 ≤ r) (h2 : r < 64) :
    bufBytes (memset (memset (if r ≠ 0 then memcpy T 0 t else T) r 0x80 1) (r + 1) 0 (64 - r - 1)) 64
      = t ++ [0x80] ++ List.replicate (63 - r) 0 ++ [] := by
  subst hr
  exact final_block_long_first T t h1 h2

/-- What `sha256_hash` computes with a blockwise driver, on either path: the run of the
single-block calls over the blocks of the padded message that the code builds. -/
theorem sha256_hash_eq (hu : HashUpdate) (hb : HashUpdateBlockwise hu) (mem : Mem) (p L : Nat)
    (tmp : Buf) (ph : List Nat) :
    sha256_hash hu mem p L tmp ph =
      if (hashBlocks hu (blocks64 (sha256_hash_padded (readBytes mem p L)))
            sha256_initial_values).1 ≠ SSP_SUCCESS then
        ((hashBlocks hu (blocks64 (sha256_hash_padded (readBytes mem p L)))
            sha256_initial_values).1, ph)
      else
        (SSP_SUCCESS, (hashBlocks hu (blocks64 (sha256_hash_padded (readBytes mem p L)))
            sha256_initial_values).2) := by
  have hdm := Nat.div_add_mod L 64
  have hrlt : L % 64 < 64 := Nat.mod_lt _ (by decide)
  have hbth : L / 64 * 64 = 64 * (L / 64) := Nat.mul_comm _ _
  have hW : (readBytes mem p L).take (64 * (L / 64)) = readBytes mem p (64 * (L / 64)) :=
    readBytes_take _ _ _ _ (by omega)
  have ht : (readBytes mem p L).drop (64 * (L / 64))
      = readBytes mem (wrap32 (p + 64 * (L / 64))) (L % 64) := by
    rw [readBytes_drop, readBytes_wrap32]
    congr 1
    omega
  have htlen : (readBytes mem (wrap32 (p + 64 * (L / 64))) (L % 64)).length = L % 64 :=
    readBytes_length _ _ _
  rw [blocks64_sha256_hash_padded, readBytes_length, hW, ht, hashBlocks_append]
  unfold sha256_hash
  lift_lets
  intro bytes_to_hash remaining_bytes hash_digest r_aligned whole hash_digest1 temp_data1
    temp_data2 temp_data3 temp_data4 r temp_data3b r0 temp_data4b temp_data5 r1
  have hbytes : bytes_to_hash = 64 * (L / 64) := hbth
  have hrem : remaining_bytes = L % 64 := rfl
  -- the whole blocks, on either path
  have hwhole : whole.1 = (hashBlocks hu (blocksOf (L / 64) (readBytes mem p (64 * (L / 64))))
        sha256_initial_values).1 ∧
      (whole.1 = SSP_SUCCESS → whole.2.2 =
        (hashBlocks hu (blocksOf (L / 64) (readBytes mem p (64 * (L / 64))))
          sha256_initial_values).2) := by
    by_cases ha : p &&& 0x03 = 0
    · have hwa : whole = (r_aligned.1, tmp, r_aligned.2) := if_pos ha
      have hra : r_aligned = hashBlocks hu (blocksOf (L / 64) (readBytes mem p (64 * (L / 64))))
          sha256_initial_values := by
        show hu (readBytes mem p bytes_to_hash) sha256_initial_values = _
        rw [hbytes]
        exact hashUpdate_blocks hu hb _ _ _ (readBytes_length _ _ _)
      rw [hwa, hra]
      exact ⟨rfl, fun _ => rfl⟩
    · have hwa : whole = sha256_hash_loop hu mem p (bytes_to_hash / SHA256_BLOCK_SIZE_BYTES) 0 tmp
          hash_digest := if_neg ha
      have hn : bytes_to_hash / SHA256_BLOCK_SIZE_BYTES = L / 64 := by
        rw [hbytes]
        exact Nat.mul_div_cancel_left _ (by decide)
      rw [hwa, hn]
      exact sha256_hash_loop_blocks hu mem p (L / 64) 0 tmp sha256_initial_values
  obtain ⟨hw1, hw2⟩ := hwhole
  by_cases hok : whole.1 = SSP_SUCCESS
  · have hd1 : hash_digest1 = (hashBlocks hu (blocksOf (L / 64) (readBytes mem p (64 * (L / 64))))
        sha256_initial_values).2 := hw2 hok
    rw [← hw1, ← hd1]
    rw [if_neg (not_not.mpr hok), if_pos hok]
    by_cases hr : L % 64 ≤ 55
    · have hcond : SHA256_BLOCK_SIZE_BYTES - remaining_bytes - 1 ≥ 8 := by
        show 64 - L % 64 - 1 ≥ 8
        omega
      have hblock : bufBytes temp_data4 SHA256_BLOCK_SIZE_BYTES =
          readBytes mem (wrap32 (p + 64 * (L / 64))) (L % 64) ++ [0x80]
            ++ List.replicate (55 - L % 64) 0 ++ bit_length_bytes L := by
        have := final_block_short_of whole.2.1
          (readBytes mem (wrap32 (p + 64 * (L / 64))) (L % 64)) L (L % 64) htlen hr
        rw [← this, ← hbytes]
        rfl
      have hrr : r = hu (readBytes mem (wrap32 (p + 64 * (L / 64))) (L % 64) ++ [0x80]
            ++ List.replicate (55 - L % 64) 0 ++ bit_length_bytes L) hash_digest1 := by
        show hu (bufBytes temp_data4 SHA256_BLOCK_SIZE_BYTES) hash_digest1 = _
        rw [hblock]
      rw [if_pos hcond, if_pos hr, hrr]
      simp only [hashBlocks]
      split_ifs <;> simp_all
    · have hcond : ¬ SHA256_BLOCK_SIZE_BYTES - remaining_bytes - 1 ≥ 8 := by
        show ¬ 64 - L % 64 - 1 ≥ 8
        omega
      have hblock1 : bufBytes temp_data3b SHA256_BLOCK_SIZE_BYTES =
          readBytes mem (wrap32 (p + 64 * (L / 64))) (L % 64) ++ [0x80]
            ++ List.replicate (63 - L % 64) 0 ++ [] := by
        have := final_block_long_first_of whole.2.1
          (readBytes mem (wrap32 (p + 64 * (L / 64))) (L % 64)) (L % 64) htlen (by omega) hrlt
        rw [← this, ← hbytes]
        rfl
      have hblock2 : bufBytes temp_data5 SHA256_BLOCK_SIZE_BYTES =
          List.replicate 56 0 ++ bit_length_bytes L :=
        final_block_long_second temp_data3b L
      have hr0 : r0 = hu (readBytes mem (wrap32 (p + 64 * (L / 64))) (L % 64) ++ [0x80]
            ++ List.replicate (63 - L % 64) 0 ++ []) hash_digest1 := by
        show hu (bufBytes temp_data3b SHA256_BLOCK_SIZE_BYTES) hash_digest1 = _
        rw [hblock1]
      have hr1 : r1 = hu (List.replicate 56 0 ++ bit_length_bytes L) r0.2 := by
        show hu (bufBytes temp_data5 SHA256_BLOCK_SIZE_BYTES) r0.2 = _
        rw [hblock2]
      rw [if_neg hcond, if_neg hr, hr1, hr0]
      simp only [hashBlocks]
      split_ifs <;> simp_all
  · rw [← hw1, if_pos hok, if_neg hok, ← hw1, if_pos hok]

theorem bit_length_bytes_eq_be64 (L : Nat) (hL : L < 536870912) :
    bit_length_bytes L = be64 (8 * L) := by
  simp only [bit_length_bytes, be64, List.range_succ, List.range_zero, List.nil_append,
    List.cons_append, List.map_cons, List.map_nil, store_bit_length, memset, wrap32,
    SHA256_BLOCK_SIZE_BYTES]
  norm_num
  refine ⟨?_, ?_, ?_, ?_, ?_, ?_, ?_, ?_⟩ <;> omega

theorem sha256_hash_padded_eq_pad (m : List Nat) (h : m.length < 536870912) :
    sha256_hash_padded m = sha256_pad m := by
  unfold sha256_hash_padded sha256_pad
  rw [bit_length_bytes_eq_be64 _ h]

theorem blocksOf_length (n : Nat) (l : List Nat) (h : 64 * n ≤ l.length) :
    ∀ b ∈ blocksOf n l, b.length = 64 := by
  induction n generalizing l with
  | zero => simp [blocksOf]
  | succ n ih =>
    intro b hbm
    simp only [blocksOf, List.mem_cons] at hbm
    rcases hbm with rfl | hbm
    · simp; omega
    · exact ih (l.drop 64) (by simp; omega) b hbm

theorem blocks64_length (l : List Nat) : ∀ b ∈ blocks64 l, b.length = 64 :=
  blocksOf_length _ _ (Nat.mul_div_le _ _)

theorem hashBlocks_succeeds (hu : HashUpdate) (hs : HashUpdateSucceeds hu) (bs : List (List Nat))
    (s : List Nat) (h : ∀ b ∈ bs, b.length = 64) :
    hashBlocks hu bs s = (SSP_SUCCESS, bs.foldl (compress hu) s) := by
  induction bs generalizing s with
  | nil => rfl
  | cons b bs ih =>
    have h1 : (hu b s).1 = SSP_SUCCESS := hs b s (h b (List.mem_cons_self _ _))
    simp only [hashBlocks, h1, if_true, List.foldl_cons]
    exact ih _ (fun c hc => h c (List.mem_cons_of_mem _ hc))

/-- C5: for a message of `L < 2^29` bytes, when every `hashUpdate` call succeeds (the driver
working block by block), `sha256_hash` returns `SSP_SUCCESS` and the digest obtained by
folding the block compression primitive, from the fixed initial state, over the 64-byte
blocks of `m || 0x80 || 0x00.. || be64(8 * L)`; the padded size is the least multiple of 64
that is at least `L + 9`; for `L = 0` there is the single block 0x80 followed by 63 zero
bytes. -/
theorem sha256_hash_standard (hu : HashUpdate) (hb : HashUpdateBlockwise hu)
    (hs : HashUpdateSucceeds hu) (mem : Mem) (p L : Nat) (tmp : Buf) (ph : List Nat)
    (hL : L < 536870912) :
    sha256_hash hu mem p L tmp ph = (SSP_SUCCESS, sha256_spec hu (readBytes mem p L)) ∧
    (sha256_pad (readBytes mem p L)).length % 64 = 0 ∧
    L + 9 ≤ (sha256_pad (readBytes mem p L)).length ∧
    (sha256_pad (readBytes mem p L)).length < L + 9 + 64 ∧
    blocks64 (sha256_pad []) = [0x80 :: List.replicate 63 0] := by
  refine ⟨?_, ?_, ?_, ?_, by decide⟩
  · rw [sha256_hash_eq hu hb, sha256_hash_padded_eq_pad _ (by rw [readBytes_length]; exact hL),
      hashBlocks_succeeds hu hs _ _ (blocks64_length _)]
    simp [sha256_spec]
  all_goals
    simp only [sha256_pad, be64, List.length_append, List.length_replicate, readBytes_length,
      List.length_cons, List.length_nil]
    omega

theorem sha256_hash_standard_witness :
    sha256_hash recordingHash mem_pattern 65604 12 (fun _ => 0) []
      = (SSP_SUCCESS, sha256_spec recordingHash (readBytes mem_pattern 65604 12)) :=
  (sha256_hash_standard recordingHash
    ⟨fun s => by simp [recordingHash],
     fun b rest s _ _ => by simp [recordingHash, SSP_SUCCESS]⟩
    (fun _ _ _ => rfl) mem_pattern 65604 12 (fun _ => 0) [] (by decide)).1

/-- C6: with a driver for which a `hashUpdate` over n blocks equals n successive
single-block calls, `sha256_hash` gives the same result from a 4-byte aligned start
address (one call over all whole blocks in place) and from an unaligned one (one call per
block, staged through the scratch buffer), whenever the two byte sequences are equal. -/
theorem sha256_hash_aligned_eq_unaligned (hu : HashUpdate) (hb : HashUpdateBlockwise hu)
    (mem1 mem2 : Mem) (p1 p2 L : Nat) (tmp1 tmp2 : Buf) (ph : List Nat)
    (_ha1 : p1 &&& 0x03 = 0) (_ha2 : p2 &&& 0x03 ≠ 0)
    (hsame : readBytes mem1 p1 L = readBytes mem2 p2 L) :
    sha256_hash hu mem1 p1 L tmp1 ph = sha256_hash hu mem2 p2 L tmp2 ph := by
  rw [sha256_hash_eq hu hb, sha256_hash_eq hu hb, hsame]

set_option maxRecDepth 100000 in
theorem sha256_hash_aligned_eq_unaligned_witness :
    sha256_hash recordingHash mem_pattern 65604 70 (fun _ => 0) []
      = sha256_hash recordingHash mem_pattern_shifted 65605 70 (fun _ => 1) [] :=
  sha256_hash_aligned_eq_unaligned recordingHash
    ⟨fun s => by simp [recordingHash],
     fun b rest s _ _ => by simp [recordingHash, SSP_SUCCESS]⟩
    mem_pattern mem_pattern_shifted 65604 65605 70 (fun _ => 0) (fun _ => 1) []
    (by decide) (by decide) (by decide)

theorem recordingHash_blockwise : HashUpdateBlockwise recordingHash :=
  ⟨fun s => by simp [recordingHash],
   fun b rest s _ _ => by simp [recordingHash, SSP_SUCCESS]⟩

theorem hashBlocks_recordingHash (n : Nat) (l s : List Nat) :
    hashBlocks recordingHash (blocksOf n l) s = (SSP_SUCCESS, s ++ l.take (64 * n)) := by
  induction n generalizing l s with
  | zero => simp [blocksOf, hashBlocks]
  | succ n ih =>
    have h1 : (recordingHash (l.take 64) s).1 = SSP_SUCCESS := rfl
    simp only [blocksOf, hashBlocks, h1, if_true]
    rw [ih]
    have h2 : 64 * (n + 1) = 64 + 64 * n := by omega
    rw [h2, List.take_add]
    simp [recordingHash]

/-- With the recording driver the output of `sha256_hash` is the initial state followed
by every byte compressed, in order. -/
theorem sha256_hash_recordingHash (mem : Mem) (p L : Nat) (tmp : Buf) (ph : List Nat) :
    sha256_hash recordingHash mem p L tmp ph =
      (SSP_SUCCESS, sha256_initial_values ++ sha256_hash_padded (readBytes mem p L)) := by
  have hlen : 64 * ((sha256_hash_padded (readBytes mem p L)).length / 64)
      = (sha256_hash_padded (readBytes mem p L)).length := by
    have : (sha256_hash_padded (readBytes mem p L)).length % 64 = 0 := by
      simp only [sha256_hash_padded, List.length_append, List.length_replicate, readBytes_length,
        List.length_cons, List.length_nil, bit_length_bytes_length]
      omega
    have := Nat.div_add_mod (sha256_hash_padded (readBytes mem p L)).length 64
    omega
  rw [sha256_hash_eq recordingHash recordingHash_blockwise]
  unfold blocks64
  rw [hashBlocks_recordingHash, hlen, List.take_length]
  simp

/-- C7, at the failing input `L = 2^29`: the bytes that `sha256_hash` has compressed end
with the block 0x80, 55 zero bytes and eight zero length bytes, whereas the 64-bit
big-endian encoding of the bit count `8 * L = 2^32` is 00 00 00 01 00 00 00 00: the upper
word `L >> 29` is lost. -/
theorem sha256_hash_bit_length_upper_word_lost (mem : Mem) (p : Nat) (tmp : Buf) (ph : List Nat) :
    (sha256_hash recordingHash mem p 536870912 tmp ph).2 =
      sha256_initial_values ++ (readBytes mem p 536870912 ++ [0x80] ++ List.replicate 55 0
        ++ [0, 0, 0, 0, 0, 0, 0, 0]) ∧
    be64 (8 * 536870912) = [0, 0, 0, 1, 0, 0, 0, 0] := by
  refine ⟨?_, by decide⟩
  rw [sha256_hash_recordingHash]
  have h1 : bit_length_bytes 536870912 = [0, 0, 0, 0, 0, 0, 0, 0] := by decide
  simp only [sha256_hash_padded, readBytes_length, h1]

/-! ### `boot` on the ideal flash -/

theorem verify_image_acceptAll (mem : Mem) (p : Nat) (key : List Nat)
    (hmagic : readBytes mem p MAGIC_NUMBER_LEN = MAGIC_NUMBER)
    (hlen : wrap32 (rd32 mem (p + OFFSET_length) + 4 + SIGNATURE_LEN_BYTES + 4) ≤ MAIN_IMAGE_MAX_SIZE) :
    (verify_image cryptoAcceptAll mem p key).1 = VERIFY_SUCCESS := by
  unfold verify_image
  simp only [hmagic, ne_eq, not_true_eq_false, if_false, gt_iff_lt, not_lt.mpr hlen]
  simp [cryptoAcceptAll, acceptAll, SSP_SUCCESS]

theorem readBytes_all_false (mem : Mem) (a n : Nat) (hn : 0 < n) (h : rd8 mem a ≠ ERASED_STATE) :
    (readBytes mem a n).all (fun b => b == ERASED_STATE) = false := by
  rw [List.all_eq_false]
  refine ⟨rd8 mem a, ?_, by simpa using h⟩
  unfold readBytes
  rw [List.mem_map]
  exact ⟨0, List.mem_range.mpr hn, rfl⟩

theorem call_open_ideal (w : World Unit) :
    call_open idealFlash w = (SSP_SUCCESS, ⟨w.mem, (), w.trace ++ [Event.flash_open]⟩) := rfl

theorem call_close_ideal (w : World Unit) :
    call_close idealFlash w = (SSP_SUCCESS, ⟨w.mem, (), w.trace ++ [Event.flash_close]⟩) := rfl

theorem call_erase_ideal (a n : Nat) (w : World Unit) :
    call_erase idealFlash a n w =
      (SSP_SUCCESS, ⟨eraseBytes w.mem a (n * MAIN_IMAGE_ERASE_BLOCK_SIZE), (),
        w.trace ++ [Event.flash_erase a n]⟩) := rfl

theorem call_write_ideal (d : List Nat) (a : Nat) (w : World Unit) :
    call_write idealFlash d a w =
      (SSP_SUCCESS, ⟨storeBytes w.mem a d, (), w.trace ++ [Event.flash_write d a]⟩) := rfl

theorem call_blankCheck_ideal (a n : Nat) (w : World Unit) :
    call_blankCheck idealFlash a n w =
      (SSP_SUCCESS, (readBytes w.mem a n).all (fun b => b == ERASED_STATE),
        ⟨w.mem, (), w.trace ++ [Event.flash_blankCheck a n]⟩) := rfl

theorem blank_check_image_area_ideal (a : Nat) (b0 : Bool) (w : World Unit) (h0 : a ≠ 0)
    (h1 : a < INTERNAL_FLASH_START_ADDRESS + TOTAL_INTERNAL_FLASH_SIZE) :
    blank_check_image_area idealFlash a b0 w =
      (SSP_SUCCESS, (readBytes w.mem a UPDATE_IMAGE_MAX_SIZE).all (fun b => b == ERASED_STATE),
        ⟨w.mem, (), w.trace ++ [Event.flash_open, Event.flash_blankCheck a UPDATE_IMAGE_MAX_SIZE,
          Event.flash_close]⟩) := by
  unfold blank_check_image_area
  rw [if_neg h0, if_neg (not_not.mpr h1)]
  generalize UPDATE_IMAGE_MAX_SIZE = n
  simp only [call_open_ideal, call_blankCheck_ideal, call_close_ideal, ne_eq, not_true_eq_false,
    if_false, List.append_assoc, List.singleton_append]
  cases (readBytes w.mem a n).all (fun b => b == ERASED_STATE) <;> rfl

theorem erase_main_image_area_ideal (w : World Unit) :
    erase_main_image_area idealFlash w =
      (SSP_SUCCESS,
        ⟨eraseBytes w.mem MAIN_IMAGE_START_ADDRESS 1015808, (),
          w.trace ++ [Event.flash_open, Event.flash_erase MAIN_IMAGE_START_ADDRESS 31,
            Event.flash_close]⟩) := by
  unfold erase_main_image_area
  generalize hn : MAIN_IMAGE_MAX_SIZE / MAIN_IMAGE_ERASE_BLOCK_SIZE = n
  simp only [call_open_ideal, call_erase_ideal, call_close_ideal, ne_eq, not_true_eq_false,
    if_false, List.append_assoc, List.singleton_append]
  have hn31 : n = 31 := by rw [← hn]; decide
  have hk : n * MAIN_IMAGE_ERASE_BLOCK_SIZE = 1015808 := by rw [hn31]; decide
  rw [hk, hn31]
  simp only [List.cons_append, List.nil_append]

theorem erase_update_image_area_ideal (w : World Unit) :
    erase_update_image_area idealFlash UPDATE_IMAGE_START_ADDRESS w =
      (SSP_SUCCESS,
        ⟨eraseBytes w.mem UPDATE_IMAGE_START_ADDRESS 1015808, (),
          w.trace ++ [Event.flash_open, Event.flash_erase UPDATE_IMAGE_START_ADDRESS 31,
            Event.flash_close]⟩) := by
  have h0 : UPDATE_IMAGE_START_ADDRESS ≠ 0 := by decide
  have h1 : UPDATE_IMAGE_START_ADDRESS < INTERNAL_FLASH_START_ADDRESS + TOTAL_INTERNAL_FLASH_SIZE := by
    decide
  unfold erase_update_image_area
  rw [if_neg h0, if_neg (not_not.mpr h1)]
  generalize hn : UPDATE_IMAGE_MAX_SIZE / UPDATE_IMAGE_ERASE_BLOCK_SIZE = n
  simp only [call_open_ideal, call_erase_ideal, call_close_ideal, ne_eq, not_true_eq_false,
    if_false, List.append_assoc, List.singleton_append]
  have hn31 : n = 31 := by rw [← hn]; decide
  have hk : n * MAIN_IMAGE_ERASE_BLOCK_SIZE = 1015808 := by rw [hn31]; decide
  rw [hk, hn31]
  simp only [List.cons_append, List.nil_append]

/-- On the ideal flash: UPDATE and MAIN both hold accepted images, the version test
passes, and the declared total of UPDATE is 0 in 32-bit arithmetic.  MAIN is erased, the
programming function refuses the length 0, and `boot` returns. -/
theorem boot_ideal_apply_zero_size (c : Crypto) (b0 : Bool) (buf : Buf) (mem : Mem)
    (hbu : (readBytes mem UPDATE_IMAGE_START_ADDRESS UPDATE_IMAGE_MAX_SIZE).all
      (fun b => b == ERASED_STATE) = false)
    (hvu : (verify_image c mem UPDATE_IMAGE_START_ADDRESS g_public_key).1 = VERIFY_SUCCESS)
    (hbm : (readBytes mem MAIN_IMAGE_START_ADDRESS UPDATE_IMAGE_MAX_SIZE).all
      (fun b => b == ERASED_STATE) = false)
    (hvm : (verify_image c mem MAIN_IMAGE_START_ADDRESS g_public_key).1 = VERIFY_SUCCESS)
    (hver : rd32 mem (UPDATE_IMAGE_START_ADDRESS + OFFSET_version)
      ≥ rd32 mem (MAIN_IMAGE_START_ADDRESS + OFFSET_version))
    (hsize : wrap32 (rd32 (eraseBytes mem MAIN_IMAGE_START_ADDRESS 1015808)
        (UPDATE_IMAGE_START_ADDRESS + OFFSET_length)
        + SIGNATURE_LEN_BYTES + MAGIC_NUMBER_LEN + 4) = 0) :
    boot ⟨c, idealFlash, b0, buf⟩ ⟨mem, (), []⟩ =
      ⟨⟨eraseBytes mem MAIN_IMAGE_START_ADDRESS 1015808, (),
          [Event.flash_open, Event.flash_blankCheck UPDATE_IMAGE_START_ADDRESS UPDATE_IMAGE_MAX_SIZE,
           Event.flash_close, Event.verify_image UPDATE_IMAGE_START_ADDRESS VERIFY_SUCCESS,
           Event.flash_open, Event.flash_blankCheck MAIN_IMAGE_START_ADDRESS UPDATE_IMAGE_MAX_SIZE,
           Event.flash_close, Event.verify_image MAIN_IMAGE_START_ADDRESS VERIFY_SUCCESS,
           Event.flash_open, Event.flash_erase MAIN_IMAGE_START_ADDRESS 31, Event.flash_close]⟩,
        Outcome.returned, Branch.version_number_good⟩ := by
  have h0 : UPDATE_IMAGE_START_ADDRESS ≠ 0 := by decide
  have h1 : UPDATE_IMAGE_START_ADDRESS < INTERNAL_FLASH_START_ADDRESS + TOTAL_INTERNAL_FLASH_SIZE := by
    decide
  have h2 : MAIN_IMAGE_START_ADDRESS ≠ 0 := by decide
  have h3 : MAIN_IMAGE_START_ADDRESS < INTERNAL_FLASH_START_ADDRESS + TOTAL_INTERNAL_FLASH_SIZE := by
    decide
  unfold boot
  generalize hU : UPDATE_IMAGE_START_ADDRESS = U at *
  generalize hM : MAIN_IMAGE_START_ADDRESS = M at *
  generalize hN : UPDATE_IMAGE_MAX_SIZE = N at *
  generalize hov : OFFSET_version = ov at *
  generalize hol : OFFSET_length = ol at *
  simp only [blank_check_image_area_ideal _ _ _ h0 h1,
    blank_check_image_area_ideal _ _ _ h2 h3, hN, hbu, hbm, call_verify_image, hvu, hvm, if_true,
    hver, ge_iff_le, erase_main_image_area_ideal, hM, hsize, List.nil_append, List.cons_append,
    List.append_assoc]
  unfold flash_main_image_from_update_area
  simp [SSP_ERR_ASSERTION, SSP_SUCCESS]

/-- The same overflow with the declared total wrapping to 0, in the model: UPDATE holds a
header of version 5 with the length field `0xFFFFFFB8` that `verify_image` accepts (on
the device the hash over `0xFFFFFFBC` bytes that this needs does not complete), MAIN a
valid image of version 3.  `boot` takes the apply branch, erases MAIN, asks for 0 bytes to
be programmed, gets `SSP_ERR_ASSERTION` and returns: `boot_main_application` is not called
and MAIN is left erased. -/
theorem boot_apply_wrapped_length :
    (verify_image cryptoAcceptAll mem_wrapped_update UPDATE_IMAGE_START_ADDRESS g_public_key).1
      = VERIFY_SUCCESS ∧
    (verify_image cryptoAcceptAll mem_wrapped_update MAIN_IMAGE_START_ADDRESS g_public_key).1
      = VERIFY_SUCCESS ∧
    rd32 mem_wrapped_update (UPDATE_IMAGE_START_ADDRESS + 72) = 5 ∧
    rd32 mem_wrapped_update (MAIN_IMAGE_START_ADDRESS + 72) = 3 ∧
    (boot env_ideal (worldOf mem_wrapped_update)).branch = Branch.version_number_good ∧
    (boot env_ideal (worldOf mem_wrapped_update)).outcome = Outcome.returned ∧
    Event.boot_main_application ∉ (boot env_ideal (worldOf mem_wrapped_update)).world.trace ∧
    rd8 (boot env_ideal (worldOf mem_wrapped_update)).world.mem MAIN_IMAGE_START_ADDRESS = 0xFF ∧
    rd8 mem_wrapped_update UPDATE_IMAGE_START_ADDRESS = 0x59 := by
  have hvu : (verify_image cryptoAcceptAll mem_wrapped_update UPDATE_IMAGE_START_ADDRESS
      g_public_key).1 = VERIFY_SUCCESS :=
    verify_image_acceptAll _ _ _ (by decide) (by decide)
  have hvm : (verify_image cryptoAcceptAll mem_wrapped_update MAIN_IMAGE_START_ADDRESS
      g_public_key).1 = VERIFY_SUCCESS :=
    verify_image_acceptAll _ _ _ (by decide) (by decide)
  have hbu : (readBytes mem_wrapped_update UPDATE_IMAGE_START_ADDRESS UPDATE_IMAGE_MAX_SIZE).all
      (fun b => b == ERASED_STATE) = false :=
    readBytes_all_false _ _ _ (by decide) (by decide)
  have hbm : (readBytes mem_wrapped_update MAIN_IMAGE_START_ADDRESS UPDATE_IMAGE_MAX_SIZE).all
      (fun b => b == ERASED_STATE) = false :=
    readBytes_all_false _ _ _ (by decide) (by decide)
  have hver : rd32 mem_wrapped_update (UPDATE_IMAGE_START_ADDRESS + OFFSET_version)
      ≥ rd32 mem_wrapped_update (MAIN_IMAGE_START_ADDRESS + OFFSET_version) := by decide
  have hsize : wrap32 (rd32 (eraseBytes mem_wrapped_update MAIN_IMAGE_START_ADDRESS 1015808)
        (UPDATE_IMAGE_START_ADDRESS + OFFSET_length)
        + SIGNATURE_LEN_BYTES + MAGIC_NUMBER_LEN + 4) = 0 := by decide
  have hboot := boot_ideal_apply_zero_size cryptoAcceptAll false (fun _ => 0) mem_wrapped_update
    hbu hvu hbm hvm hver hsize
  have hboot2 : boot env_ideal (worldOf mem_wrapped_update) = _ := hboot
  refine ⟨hvu, hvm, by decide, by decide, ?_, ?_, ?_, ?_, by decide⟩
  · rw [hboot2]
  · rw [hboot2]
  · rw [hboot2]
    decide
  · rw [hboot2]
    decide

/-! ### The apply path on the ideal flash, end to end -/

theorem rd8_eraseBytes (mem : Mem) (address n a : Nat) :
    rd8 (eraseBytes mem address n) a =
      if (wrap32 a + 4294967296 - wrap32 address) % 4294967296 < n then 0xFF else rd8 mem a := by
  have hw : wrap32 (wrap32 a) = wrap32 a := by unfold wrap32; omega
  unfold rd8 eraseBytes
  rw [hw]
  split <;> rfl

theorem readBytes_congr (m1 m2 : Mem) (a b n : Nat)
    (h : ∀ i, i < n → rd8 m2 (b + i) = rd8 m1 (a + i)) : readBytes m2 b n = readBytes m1 a n := by
  unfold readBytes
  apply List.map_congr_left
  intro i hi
  exact h i (List.mem_range.mp hi)

theorem verify_image_success (c : Crypto) (mem : Mem) (p : Nat) (key : List Nat)
    (h : (verify_image c mem p key).1 = VERIFY_SUCCESS) :
    readBytes mem p MAGIC_NUMBER_LEN = MAGIC_NUMBER ∧
    wrap32 (rd32 mem (p + OFFSET_length) + 4 + SIGNATURE_LEN_BYTES + 4) ≤ MAIN_IMAGE_MAX_SIZE := by
  have hne : VERIFY_FAIL ≠ VERIFY_SUCCESS := by decide
  unfold verify_image at h
  by_cases hm : readBytes mem p MAGIC_NUMBER_LEN = MAGIC_NUMBER
  · refine ⟨hm, ?_⟩
    by_contra hlen
    simp only [hm, ne_eq, not_true_eq_false, if_false, gt_iff_lt, not_le.mp hlen, if_true] at h
    exact hne h
  · simp only [ne_eq, hm, not_false_eq_true, if_true] at h
    exact absurd h hne

/-- With both start addresses 4-byte aligned, `sha256_hash` depends on the bytes only. -/
theorem sha256_hash_congr_aligned (hu : HashUpdate) (m1 m2 : Mem) (p1 p2 L : Nat) (tmp : Buf)
    (ph : List Nat) (h1 : p1 &&& 0x03 = 0) (h2 : p2 &&& 0x03 = 0)
    (h : readBytes m2 p2 L = readBytes m1 p1 L) :
    sha256_hash hu m2 p2 L tmp ph = sha256_hash hu m1 p1 L tmp ph := by
  have hdm := Nat.div_add_mod L 64
  have hbth : L / SHA256_BLOCK_SIZE_BYTES * SHA256_BLOCK_SIZE_BYTES ≤ L := Nat.div_mul_le_self _ _
  have hw : readBytes m2 p2 (L / SHA256_BLOCK_SIZE_BYTES * SHA256_BLOCK_SIZE_BYTES)
      = readBytes m1 p1 (L / SHA256_BLOCK_SIZE_BYTES * SHA256_BLOCK_SIZE_BYTES) := by
    rw [← readBytes_take m2 p2 L _ hbth, ← readBytes_take m1 p1 L _ hbth, h]
  have ht : readBytes m2 (wrap32 (p2 + L / SHA256_BLOCK_SIZE_BYTES * SHA256_BLOCK_SIZE_BYTES))
        (L % SHA256_BLOCK_SIZE_BYTES)
      = readBytes m1 (wrap32 (p1 + L / SHA256_BLOCK_SIZE_BYTES * SHA256_BLOCK_SIZE_BYTES))
        (L % SHA256_BLOCK_SIZE_BYTES) := by
    have hsub : L - L / SHA256_BLOCK_SIZE_BYTES * SHA256_BLOCK_SIZE_BYTES
        = L % SHA256_BLOCK_SIZE_BYTES := by
      have : L / SHA256_BLOCK_SIZE_BYTES * SHA256_BLOCK_SIZE_BYTES = 64 * (L / 64) :=
        Nat.mul_comm _ _
      have h64 : L % SHA256_BLOCK_SIZE_BYTES = L % 64 := rfl
      omega
    rw [readBytes_wrap32, readBytes_wrap32, ← hsub, ← readBytes_drop, ← readBytes_drop, h]
  unfold sha256_hash
  simp only [h1, h2, if_true, hw, ht]

/-- The result of `verify_image` depends only on the `length + 72` bytes of the image, for
slots whose length field is 4-byte aligned. -/
theorem verify_image_congr (c : Crypto) (m1 m2 : Mem) (p q : Nat) (key : List Nat)
    (hp : wrap32 (p + OFFSET_length) &&& 0x03 = 0) (hq : wrap32 (q + OFFSET_length) &&& 0x03 = 0)
    (hlen : rd32 m1 (p + OFFSET_length) + 72 ≤ MAIN_IMAGE_MAX_SIZE)
    (h : ∀ i, i < rd32 m1 (p + OFFSET_length) + 72 → rd8 m2 (q + i) = rd8 m1 (p + i)) :
    (verify_image c m2 q key).1 = (verify_image c m1 p key).1 := by
  have hM : MAIN_IMAGE_MAX_SIZE = 1015808 := by decide
  have ho : OFFSET_length = 68 := by decide
  have hos : OFFSET_signature = 4 := rfl
  have hR : 4 * ECC_256_SIGNATURE_R_LENGTH_WORDS = 32 := by decide
  have hS : 4 * ECC_256_SIGNATURE_S_LENGTH_WORDS = 32 := by decide
  have hSB : SIGNATURE_LEN_BYTES = 64 := by decide
  rw [ho] at hp hq hlen h
  have hmag : readBytes m2 q MAGIC_NUMBER_LEN = readBytes m1 p MAGIC_NUMBER_LEN :=
    readBytes_congr _ _ _ _ _ (fun i hi => h i (by have : MAGIC_NUMBER_LEN = 4 := rfl; omega))
  have hl : rd32 m2 (q + 68) = rd32 m1 (p + 68) := by
    unfold rd32
    rw [h 68 (by omega), Nat.add_assoc q, Nat.add_assoc q, Nat.add_assoc q, Nat.add_assoc p,
      Nat.add_assoc p, Nat.add_assoc p, h _ (by omega), h _ (by omega), h _ (by omega)]
  have hr : readBytes m2 (q + 4) 32 = readBytes m1 (p + 4) 32 :=
    readBytes_congr _ _ _ _ _ (fun i hi => by
      rw [Nat.add_assoc, Nat.add_assoc]
      exact h _ (by omega))
  have hs : readBytes m2 (q + 4 + 32) 32 = readBytes m1 (p + 4 + 32) 32 :=
    readBytes_congr _ _ _ _ _ (fun i hi => by
      rw [Nat.add_assoc, Nat.add_assoc, Nat.add_assoc, Nat.add_assoc]
      exact h _ (by omega))
  have hw4 : wrap32 (rd32 m1 (p + 68) + 4) = rd32 m1 (p + 68) + 4 := by
    unfold wrap32; omega
  have hbody : readBytes m2 (wrap32 (q + 68)) (rd32 m1 (p + 68) + 4)
      = readBytes m1 (wrap32 (p + 68)) (rd32 m1 (p + 68) + 4) := by
    rw [readBytes_wrap32, readBytes_wrap32]
    exact readBytes_congr _ _ _ _ _ (fun i hi => by
      rw [Nat.add_assoc, Nat.add_assoc]
      exact h _ (by omega))
  have hsha := sha256_hash_congr_aligned c.hashUpdate m1 m2 (wrap32 (p + 68)) (wrap32 (q + 68))
    (rd32 m1 (p + 68) + 4) c.temp_data c.hash hp hq hbody
  unfold verify_image
  simp only [ho, hos, hR, hS, hSB, hmag, hl, hr, hs, hw4, hsha]
  split_ifs <;> rfl

theorem rd8_readBytes_getD (mem : Mem) (a n i : Nat) (h : i < n) :
    (readBytes mem a n).getD i 0 % 256 = rd8 mem (a + i) := by
  rw [readBytes_getD _ _ _ _ h]
  exact Nat.mod_eq_of_lt (rd8_lt _ _)

/-- Programming MAIN from the UPDATE slot on the ideal flash: the call succeeds, `MAIN[0..N)`
holds the `N` source bytes, and nothing outside the MAIN slot changes. -/
theorem flash_main_image_ideal (buf : Buf) (N : Nat) (m : Mem) (tr : List Event) (hN0 : 0 < N)
    (hN : N ≤ 1015808) :
    (flash_main_image_from_update_area idealFlash buf 1081344 N ⟨m, (), tr⟩).1 = SSP_SUCCESS ∧
    (∀ i, i < N →
      rd8 (flash_main_image_from_update_area idealFlash buf 1081344 N ⟨m, (), tr⟩).2.mem (65536 + i)
        = rd8 m (1081344 + i)) ∧
    (∀ a, a < 4294967296 → ¬ (65536 ≤ a ∧ a < 65536 + 1015808) →
      rd8 (flash_main_image_from_update_area idealFlash buf 1081344 N ⟨m, (), tr⟩).2.mem a
        = rd8 m a) := by
  have hM : MAIN_IMAGE_START_ADDRESS = 65536 := rfl
  have hrlt : N % 128 < 128 := Nat.mod_lt _ (by decide)
  have hdm := Nat.div_add_mod N 128
  unfold flash_main_image_from_update_area
  have h0 : ¬ ((1081344 : Nat) = 0 ∨ N = 0) := by omega
  rw [if_neg h0]
  simp only [call_open_ideal, call_write_ideal, call_close_ideal, ne_eq, not_true_eq_false,
    if_false, if_true, MAIN_FLASH_PROGRAMMING_PAGE_SIZE, hM, gt_iff_lt]
  by_cases hr : N % 128 = 0
  · simp only [hr, not_true_eq_false, if_false, Nat.lt_irrefl]
    refine ⟨trivial, ?_, ?_⟩
    · intro i hi
      rw [rd8_storeBytes, readBytes_length]
      have hoff : (wrap32 (65536 + i) + 4294967296 - wrap32 65536) % 4294967296 = i := by
        unfold wrap32; omega
      rw [hoff, if_pos hi, rd8_readBytes_getD _ _ _ _ hi]
    · intro a ha hout
      rw [rd8_storeBytes, readBytes_length]
      have hoff : ¬ (wrap32 a + 4294967296 - wrap32 65536) % 4294967296 < N := by
        unfold wrap32; omega
      rw [if_neg hoff]
  · have hpage := page_buffer_bytes buf
      (readBytes (storeBytes m 65536 (readBytes m 1081344 (N - N % 128)))
        (wrap32 (1081344 + (N - N % 128))) (N % 128)) (by rw [readBytes_length]; omega)
    rw [readBytes_length] at hpage
    simp only [hr, not_false_eq_true, if_true, Nat.pos_of_ne_zero hr, hpage]
    have hlen2 : (readBytes (storeBytes m 65536 (readBytes m 1081344 (N - N % 128)))
        (wrap32 (1081344 + (N - N % 128))) (N % 128) ++ List.replicate (128 - N % 128) 255).length
        = 128 := by
      simp [readBytes_length]; omega
    refine ⟨trivial, ?_, ?_⟩
    · intro i hi
      rw [rd8_storeBytes, hlen2]
      by_cases hlo : i < N - N % 128
      · have hoff : ¬ (wrap32 (65536 + i) + 4294967296
            - wrap32 (wrap32 (65536 + (N - N % 128)))) % 4294967296 < 128 := by
          unfold wrap32; omega
        rw [if_neg hoff, rd8_storeBytes, readBytes_length]
        have hoff2 : (wrap32 (65536 + i) + 4294967296 - wrap32 65536) % 4294967296 = i := by
          unfold wrap32; omega
        rw [hoff2, if_pos hlo, rd8_readBytes_getD _ _ _ _ hlo]
      · have hoff : (wrap32 (65536 + i) + 4294967296
            - wrap32 (wrap32 (65536 + (N - N % 128)))) % 4294967296 = i - (N - N % 128) := by
          unfold wrap32; omega
        have hi2 : i - (N - N % 128) < N % 128 := by omega
        rw [hoff, if_pos (by omega), List.getD_append _ _ _ _ (by rw [readBytes_length]; exact hi2),
          rd8_readBytes_getD _ _ _ _ hi2, rd8_wrap32_add, rd8_storeBytes, readBytes_length]
        have hoff3 : ¬ (wrap32 (1081344 + (N - N % 128) + (i - (N - N % 128))) + 4294967296
            - wrap32 65536) % 4294967296 < N - N % 128 := by
          unfold wrap32; omega
        rw [if_neg hoff3]
        congr 1
        omega
    · intro a ha hout
      rw [rd8_storeBytes, hlen2]
      have hoff : ¬ (wrap32 a + 4294967296
          - wrap32 (wrap32 (65536 + (N - N % 128)))) % 4294967296 < 128 := by
        unfold wrap32; omega
      rw [if_neg hoff, rd8_storeBytes, readBytes_length]
      have hoff2 : ¬ (wrap32 a + 4294967296 - wrap32 65536) % 4294967296 < N - N % 128 := by
        unfold wrap32; omega
      rw [if_neg hoff2]

theorem magic_not_erased (mem : Mem) (p : Nat)
    (h : readBytes mem p MAGIC_NUMBER_LEN = MAGIC_NUMBER) : rd8 mem p ≠ ERASED_STATE := by
  have h0 := readBytes_getD mem p MAGIC_NUMBER_LEN 0 (by decide)
  rw [h] at h0
  have h1 : rd8 mem p = 0x59 := h0.symm
  rw [h1]
  decide

theorem rd32_congr (m1 m2 : Mem) (a b : Nat) (h : ∀ i, i < 4 → rd8 m2 (b + i) = rd8 m1 (a + i)) :
    rd32 m2 b = rd32 m1 a := by
  have h0 := h 0 (by omega)
  have h1 := h 1 (by omega)
  have h2 := h 2 (by omega)
  have h3 := h 3 (by omega)
  rw [Nat.add_zero, Nat.add_zero] at h0
  unfold rd32
  rw [h0, h1, h2, h3]

/-- The steps of the apply path on the ideal flash, given what each step returns. -/
theorem boot_ideal_apply_steps (c : Crypto) (b0 : Bool) (buf : Buf) (mem : Mem) (S : Nat)
    (FL : Nat × World Unit)
    (hbu : (readBytes mem UPDATE_IMAGE_START_ADDRESS UPDATE_IMAGE_MAX_SIZE).all
      (fun b => b == ERASED_STATE) = false)
    (hvu : (verify_image c mem UPDATE_IMAGE_START_ADDRESS g_public_key).1 = VERIFY_SUCCESS)
    (hbm : (readBytes mem MAIN_IMAGE_START_ADDRESS UPDATE_IMAGE_MAX_SIZE).all
      (fun b => b == ERASED_STATE) = false)
    (hvm : (verify_image c mem MAIN_IMAGE_START_ADDRESS g_public_key).1 = VERIFY_SUCCESS)
    (hver : rd32 mem (UPDATE_IMAGE_START_ADDRESS + OFFSET_version)
      ≥ rd32 mem (MAIN_IMAGE_START_ADDRESS + OFFSET_version))
    (hsize : wrap32 (rd32 (eraseBytes mem MAIN_IMAGE_START_ADDRESS 1015808)
        (UPDATE_IMAGE_START_ADDRESS + OFFSET_length)
        + SIGNATURE_LEN_BYTES + MAGIC_NUMBER_LEN + 4) = S)
    (hFL : flash_main_image_from_update_area idealFlash buf UPDATE_IMAGE_START_ADDRESS S
      ⟨eraseBytes mem MAIN_IMAGE_START_ADDRESS 1015808, (),
        [Event.flash_open, Event.flash_blankCheck UPDATE_IMAGE_START_ADDRESS UPDATE_IMAGE_MAX_SIZE,
         Event.flash_close, Event.verify_image UPDATE_IMAGE_START_ADDRESS VERIFY_SUCCESS,
         Event.flash_open, Event.flash_blankCheck MAIN_IMAGE_START_ADDRESS UPDATE_IMAGE_MAX_SIZE,
         Event.flash_close, Event.verify_image MAIN_IMAGE_START_ADDRESS VERIFY_SUCCESS,
         Event.flash_open, Event.flash_erase MAIN_IMAGE_START_ADDRESS 31, Event.flash_close]⟩ = FL)
    (hfl1 : FL.1 = SSP_SUCCESS)
    (hv2 : (verify_image c FL.2.mem MAIN_IMAGE_START_ADDRESS g_public_key).1 = VERIFY_SUCCESS) :
    boot ⟨c, idealFlash, b0, buf⟩ ⟨mem, (), []⟩ =
      ⟨⟨eraseBytes FL.2.mem UPDATE_IMAGE_START_ADDRESS 1015808, (),
        FL.2.trace ++
          [Event.verify_image MAIN_IMAGE_START_ADDRESS VERIFY_SUCCESS, Event.flash_open,
           Event.flash_erase UPDATE_IMAGE_START_ADDRESS 31, Event.flash_close,
           Event.boot_main_application]⟩,
       Outcome.boot_main_application, Branch.version_number_good⟩ := by
  have h0 : UPDATE_IMAGE_START_ADDRESS ≠ 0 := by decide
  have h1 : UPDATE_IMAGE_START_ADDRESS < INTERNAL_FLASH_START_ADDRESS + TOTAL_INTERNAL_FLASH_SIZE := by
    decide
  have h2 : MAIN_IMAGE_START_ADDRESS ≠ 0 := by decide
  have h3 : MAIN_IMAGE_START_ADDRESS < INTERNAL_FLASH_START_ADDRESS + TOTAL_INTERNAL_FLASH_SIZE := by
    decide
  have heu := fun w : World Unit => erase_update_image_area_ideal w
  unfold boot
  generalize hU : UPDATE_IMAGE_START_ADDRESS = U at *
  generalize hM : MAIN_IMAGE_START_ADDRESS = M at *
  generalize hN : UPDATE_IMAGE_MAX_SIZE = N at *
  generalize hov : OFFSET_version = ov at *
  generalize hol : OFFSET_length = ol at *
  simp only [blank_check_image_area_ideal _ _ _ h0 h1,
    blank_check_image_area_ideal _ _ _ h2 h3, hN, hbu, hbm, call_verify_image, hvu, hvm, if_true,
    hver, ge_iff_le, erase_main_image_area_ideal, hM, hsize, List.nil_append, List.cons_append,
    List.append_assoc, hFL, hfl1, hv2, heu, call_boot_main_application]

/-- The apply path on the ideal flash, end to end: UPDATE accepted with a declared total
`length + 72` within the capacity, MAIN accepted, `UPDATE.version ≥ MAIN.version`.  Then
`boot` ends in `boot_main_application`, `MAIN[0 .. length + 72)` holds the bytes that
UPDATE held, and every byte of the UPDATE slot reads 0xFF. -/
theorem boot_ideal_apply_end_to_end (c : Crypto) (b0 : Bool) (buf : Buf) (mem : Mem)
    (hvu : (verify_image c mem UPDATE_IMAGE_START_ADDRESS g_public_key).1 = VERIFY_SUCCESS)
    (hvm : (verify_image c mem MAIN_IMAGE_START_ADDRESS g_public_key).1 = VERIFY_SUCCESS)
    (hver : rd32 mem (UPDATE_IMAGE_START_ADDRESS + OFFSET_version)
      ≥ rd32 mem (MAIN_IMAGE_START_ADDRESS + OFFSET_version))
    (hlen : rd32 mem (UPDATE_IMAGE_START_ADDRESS + OFFSET_length) + 72 ≤ MAIN_IMAGE_MAX_SIZE) :
    (boot ⟨c, idealFlash, b0, buf⟩ ⟨mem, (), []⟩).outcome = Outcome.boot_main_application ∧
    (∀ i, i < rd32 mem (UPDATE_IMAGE_START_ADDRESS + OFFSET_length) + 72 →
      rd8 (boot ⟨c, idealFlash, b0, buf⟩ ⟨mem, (), []⟩).world.mem (MAIN_IMAGE_START_ADDRESS + i)
        = rd8 mem (UPDATE_IMAGE_START_ADDRESS + i)) ∧
    (∀ i, i < UPDATE_IMAGE_MAX_SIZE →
      rd8 (boot ⟨c, idealFlash, b0, buf⟩ ⟨mem, (), []⟩).world.mem (UPDATE_IMAGE_START_ADDRESS + i)
        = 0xFF) := by
  have hU : UPDATE_IMAGE_START_ADDRESS = 1081344 := by decide
  have hM : MAIN_IMAGE_START_ADDRESS = 65536 := rfl
  have hN : UPDATE_IMAGE_MAX_SIZE = 1015808 := by decide
  have hMAX : MAIN_IMAGE_MAX_SIZE = 1015808 := by decide
  have hol : OFFSET_length = 68 := by decide
  have hSB : SIGNATURE_LEN_BYTES = 64 := by decide
  have hML : MAGIC_NUMBER_LEN = 4 := rfl
  have hbu : (readBytes mem UPDATE_IMAGE_START_ADDRESS UPDATE_IMAGE_MAX_SIZE).all
      (fun b => b == ERASED_STATE) = false :=
    readBytes_all_false _ _ _ (by decide) (magic_not_erased _ _ (verify_image_success _ _ _ _ hvu).1)
  have hbm : (readBytes mem MAIN_IMAGE_START_ADDRESS UPDATE_IMAGE_MAX_SIZE).all
      (fun b => b == ERASED_STATE) = false :=
    readBytes_all_false _ _ _ (by decide) (magic_not_erased _ _ (verify_image_success _ _ _ _ hvm).1)
  -- erasing MAIN leaves the UPDATE slot as it was
  have herase : ∀ i, i < 1015808 →
      rd8 (eraseBytes mem MAIN_IMAGE_START_ADDRESS 1015808) (UPDATE_IMAGE_START_ADDRESS + i)
        = rd8 mem (UPDATE_IMAGE_START_ADDRESS + i) := by
    intro i hi
    rw [rd8_eraseBytes, hU, hM, if_neg (by unfold wrap32; omega)]
  have hL1 : rd32 (eraseBytes mem MAIN_IMAGE_START_ADDRESS 1015808)
      (UPDATE_IMAGE_START_ADDRESS + OFFSET_length)
      = rd32 mem (UPDATE_IMAGE_START_ADDRESS + OFFSET_length) := by
    apply rd32_congr
    intro i hi
    rw [hol, Nat.add_assoc]
    exact herase _ (by omega)
  have hsize : wrap32 (rd32 mem (UPDATE_IMAGE_START_ADDRESS + OFFSET_length)
      + SIGNATURE_LEN_BYTES + MAGIC_NUMBER_LEN + 4)
      = rd32 mem (UPDATE_IMAGE_START_ADDRESS + OFFSET_length) + 72 := by
    rw [hSB, hML]
    unfold wrap32
    omega
  -- the world in which MAIN is programmed
  obtain ⟨hfl1, hfl2, hfl3⟩ := flash_main_image_ideal buf
    (rd32 mem (UPDATE_IMAGE_START_ADDRESS + OFFSET_length) + 72)
    (eraseBytes mem MAIN_IMAGE_START_ADDRESS 1015808)
    [Event.flash_open, Event.flash_blankCheck UPDATE_IMAGE_START_ADDRESS UPDATE_IMAGE_MAX_SIZE,
     Event.flash_close, Event.verify_image UPDATE_IMAGE_START_ADDRESS VERIFY_SUCCESS,
     Event.flash_open, Event.flash_blankCheck MAIN_IMAGE_START_ADDRESS UPDATE_IMAGE_MAX_SIZE,
     Event.flash_close, Event.verify_image MAIN_IMAGE_START_ADDRESS VERIFY_SUCCESS,
     Event.flash_open, Event.flash_erase MAIN_IMAGE_START_ADDRESS 31, Event.flash_close]
    (by omega) (by omega)
  rw [← hU] at hfl1 hfl2 hfl3
  rw [← hM] at hfl2 hfl3
  have hcopy : ∀ i, i < rd32 mem (UPDATE_IMAGE_START_ADDRESS + OFFSET_length) + 72 →
      rd8 (flash_main_image_from_update_area idealFlash buf UPDATE_IMAGE_START_ADDRESS
        (rd32 mem (UPDATE_IMAGE_START_ADDRESS + OFFSET_length) + 72)
        ⟨eraseBytes mem MAIN_IMAGE_START_ADDRESS 1015808, (),
          [Event.flash_open, Event.flash_blankCheck UPDATE_IMAGE_START_ADDRESS UPDATE_IMAGE_MAX_SIZE,
           Event.flash_close, Event.verify_image UPDATE_IMAGE_START_ADDRESS VERIFY_SUCCESS,
           Event.flash_open, Event.flash_blankCheck MAIN_IMAGE_START_ADDRESS UPDATE_IMAGE_MAX_SIZE,
           Event.flash_close, Event.verify_image MAIN_IMAGE_START_ADDRESS VERIFY_SUCCESS,
           Event.flash_open, Event.flash_erase MAIN_IMAGE_START_ADDRESS 31, Event.flash_close]⟩).2.mem
        (MAIN_IMAGE_START_ADDRESS + i) = rd8 mem (UPDATE_IMAGE_START_ADDRESS + i) := by
    intro i hi
    have hi2 : i < 1015808 := by omega
    rw [hfl2 i hi]
    exact herase i hi2
  have hpU : wrap32 (UPDATE_IMAGE_START_ADDRESS + OFFSET_length) &&& 0x03 = 0 := by
    rw [hU, hol]
    rfl
  have hpM : wrap32 (MAIN_IMAGE_START_ADDRESS + OFFSET_length) &&& 0x03 = 0 := by
    rw [hM, hol]
    rfl
  have hv2 := verify_image_congr c mem _ UPDATE_IMAGE_START_ADDRESS MAIN_IMAGE_START_ADDRESS
    g_public_key hpU hpM hlen hcopy
  rw [hvu] at hv2
  have h0 : UPDATE_IMAGE_START_ADDRESS ≠ 0 := by decide
  have h1 : UPDATE_IMAGE_START_ADDRESS < INTERNAL_FLASH_START_ADDRESS + TOTAL_INTERNAL_FLASH_SIZE := by
    decide
  have h2 : MAIN_IMAGE_START_ADDRESS ≠ 0 := by decide
  have h3 : MAIN_IMAGE_START_ADDRESS < INTERNAL_FLASH_START_ADDRESS + TOTAL_INTERNAL_FLASH_SIZE := by
    decide
  have hboot := boot_ideal_apply_steps c b0 buf mem _ _ hbu hvu hbm hvm hver
    (by rw [hL1]; exact hsize) rfl hfl1 hv2
  have hout : (boot ⟨c, idealFlash, b0, buf⟩ ⟨mem, (), []⟩).outcome
      = Outcome.boot_main_application := by rw [hboot]
  have hmem : (boot ⟨c, idealFlash, b0, buf⟩ ⟨mem, (), []⟩).world.mem =
      eraseBytes (flash_main_image_from_update_area idealFlash buf UPDATE_IMAGE_START_ADDRESS
          (rd32 mem (UPDATE_IMAGE_START_ADDRESS + OFFSET_length) + 72)
          ⟨eraseBytes mem MAIN_IMAGE_START_ADDRESS 1015808, (),
            [Event.flash_open, Event.flash_blankCheck UPDATE_IMAGE_START_ADDRESS UPDATE_IMAGE_MAX_SIZE,
             Event.flash_close, Event.verify_image UPDATE_IMAGE_START_ADDRESS VERIFY_SUCCESS,
             Event.flash_open, Event.flash_blankCheck MAIN_IMAGE_START_ADDRESS UPDATE_IMAGE_MAX_SIZE,
             Event.flash_close, Event.verify_image MAIN_IMAGE_START_ADDRESS VERIFY_SUCCESS,
             Event.flash_open, Event.flash_erase MAIN_IMAGE_START_ADDRESS 31,
             Event.flash_close]⟩).2.mem UPDATE_IMAGE_START_ADDRESS 1015808 := by rw [hboot]
  refine ⟨hout, ?_, ?_⟩
  · intro i hi
    rw [hmem, rd8_eraseBytes, hU, hM, if_neg (by unfold wrap32; omega), ← hU, ← hM]
    exact hcopy i hi
  · intro i hi
    rw [hmem, rd8_eraseBytes, hU, if_pos (by unfold wrap32; omega)]

/-- The scenario of the specification: UPDATE holds version 5, MAIN version 3 (images of 80
bytes).  MAIN is booted, it holds the bytes of the update and UPDATE is erased. -/
theorem boot_update5_main3 :
    rd32 mem_update5_main3 (UPDATE_IMAGE_START_ADDRESS + OFFSET_version) = 5 ∧
    rd32 mem_update5_main3 (MAIN_IMAGE_START_ADDRESS + OFFSET_version) = 3 ∧
    (boot env_ideal (worldOf mem_update5_main3)).outcome = Outcome.boot_main_application ∧
    (∀ i, i < 80 →
      rd8 (boot env_ideal (worldOf mem_update5_main3)).world.mem (MAIN_IMAGE_START_ADDRESS + i)
        = rd8 mem_update5_main3 (UPDATE_IMAGE_START_ADDRESS + i)) ∧
    (∀ i, i < UPDATE_IMAGE_MAX_SIZE →
      rd8 (boot env_ideal (worldOf mem_update5_main3)).world.mem (UPDATE_IMAGE_START_ADDRESS + i)
        = 0xFF) := by
  have hL : rd32 mem_update5_main3 (UPDATE_IMAGE_START_ADDRESS + OFFSET_length) = 8 := by decide
  have hvu : (verify_image cryptoAcceptAll mem_update5_main3 UPDATE_IMAGE_START_ADDRESS
      g_public_key).1 = VERIFY_SUCCESS :=
    verify_image_acceptAll _ _ _ (by decide) (by decide)
  have hvm : (verify_image cryptoAcceptAll mem_update5_main3 MAIN_IMAGE_START_ADDRESS
      g_public_key).1 = VERIFY_SUCCESS :=
    verify_image_acceptAll _ _ _ (by decide) (by decide)
  have hver : rd32 mem_update5_main3 (UPDATE_IMAGE_START_ADDRESS + OFFSET_version)
      ≥ rd32 mem_update5_main3 (MAIN_IMAGE_START_ADDRESS + OFFSET_version) := by decide
  have hlen : rd32 mem_update5_main3 (UPDATE_IMAGE_START_ADDRESS + OFFSET_length) + 72
      ≤ MAIN_IMAGE_MAX_SIZE := by rw [hL]; decide
  have h := boot_ideal_apply_end_to_end cryptoAcceptAll false (fun _ => 0) mem_update5_main3
    hvu hvm hver hlen
  rw [hL] at h
  refine ⟨by decide, by decide, ?_⟩
  unfold env_ideal worldOf
  exact h

/-! ### The discard path on the ideal flash -/

/-- The steps of the discard path on the ideal flash: UPDATE and MAIN both accepted,
`UPDATE.version < MAIN.version`.  UPDATE is erased and MAIN is verified again. -/
theorem boot_ideal_discard_steps (c : Crypto) (b0 : Bool) (buf : Buf) (mem : Mem)
    (hbu : (readBytes mem UPDATE_IMAGE_START_ADDRESS UPDATE_IMAGE_MAX_SIZE).all
      (fun b => b == ERASED_STATE) = false)
    (hvu : (verify_image c mem UPDATE_IMAGE_START_ADDRESS g_public_key).1 = VERIFY_SUCCESS)
    (hbm : (readBytes mem MAIN_IMAGE_START_ADDRESS UPDATE_IMAGE_MAX_SIZE).all
      (fun b => b == ERASED_STATE) = false)
    (hvm : (verify_image c mem MAIN_IMAGE_START_ADDRESS g_public_key).1 = VERIFY_SUCCESS)
    (hver : ¬ rd32 mem (MAIN_IMAGE_START_ADDRESS + OFFSET_version)
      ≤ rd32 mem (UPDATE_IMAGE_START_ADDRESS + OFFSET_version)) :
    boot ⟨c, idealFlash, b0, buf⟩ ⟨mem, (), []⟩ =
      boot_verified_main ⟨c, idealFlash, b0, buf⟩ Branch.version_number_bad
        ⟨eraseBytes mem UPDATE_IMAGE_START_ADDRESS 1015808, (),
          [Event.flash_open, Event.flash_blankCheck UPDATE_IMAGE_START_ADDRESS UPDATE_IMAGE_MAX_SIZE,
           Event.flash_close, Event.verify_image UPDATE_IMAGE_START_ADDRESS VERIFY_SUCCESS,
           Event.flash_open, Event.flash_blankCheck MAIN_IMAGE_START_ADDRESS UPDATE_IMAGE_MAX_SIZE,
           Event.flash_close, Event.verify_image MAIN_IMAGE_START_ADDRESS VERIFY_SUCCESS,
           Event.flash_open, Event.flash_erase UPDATE_IMAGE_START_ADDRESS 31,
           Event.flash_close]⟩ := by
  have h0 : UPDATE_IMAGE_START_ADDRESS ≠ 0 := by decide
  have h1 : UPDATE_IMAGE_START_ADDRESS < INTERNAL_FLASH_START_ADDRESS + TOTAL_INTERNAL_FLASH_SIZE := by
    decide
  have h2 : MAIN_IMAGE_START_ADDRESS ≠ 0 := by decide
  have h3 : MAIN_IMAGE_START_ADDRESS < INTERNAL_FLASH_START_ADDRESS + TOTAL_INTERNAL_FLASH_SIZE := by
    decide
  have heu := fun w : World Unit => erase_update_image_area_ideal w
  unfold boot
  generalize hU : UPDATE_IMAGE_START_ADDRESS = U at *
  generalize hM : MAIN_IMAGE_START_ADDRESS = M at *
  generalize hN : UPDATE_IMAGE_MAX_SIZE = N at *
  generalize hov : OFFSET_version = ov at *
  generalize hol : OFFSET_length = ol at *
  simp only [blank_check_image_area_ideal _ _ _ h0 h1,
    blank_check_image_area_ideal _ _ _ h2 h3, hN, hbu, hbm, call_verify_image, hvu, hvm, if_true,
    hver, ge_iff_le, if_false, hM, List.nil_append, List.cons_append,
    List.append_assoc, heu]

theorem boot_verified_main_success (c : Crypto) (fl : flash_api_t σ) (b0 : Bool) (buf : Buf)
    (b : Branch) (m : Mem) (d : σ) (tr : List Event)
    (h : (verify_image c m MAIN_IMAGE_START_ADDRESS g_public_key).1 = VERIFY_SUCCESS) :
    boot_verified_main ⟨c, fl, b0, buf⟩ b ⟨m, d, tr⟩ =
      ⟨⟨m, d, tr ++ [Event.verify_image MAIN_IMAGE_START_ADDRESS VERIFY_SUCCESS,
          Event.boot_main_application]⟩, Outcome.boot_main_application, b⟩ := by
  generalize hM : MAIN_IMAGE_START_ADDRESS = M at *
  simp only [boot_verified_main, call_verify_image, hM, h, if_true, call_boot_main_application,
    List.append_assoc, List.cons_append, List.nil_append]

theorem boot_verified_main_fail (c : Crypto) (fl : flash_api_t σ) (b0 : Bool) (buf : Buf)
    (b : Branch) (m : Mem) (d : σ) (tr : List Event)
    (h : (verify_image c m MAIN_IMAGE_START_ADDRESS g_public_key).1 ≠ VERIFY_SUCCESS) :
    boot_verified_main ⟨c, fl, b0, buf⟩ b ⟨m, d, tr⟩ =
      ⟨⟨m, d, tr ++ [Event.verify_image MAIN_IMAGE_START_ADDRESS
          (verify_image c m MAIN_IMAGE_START_ADDRESS g_public_key).1]⟩, Outcome.halt, b⟩ := by
  generalize hM : MAIN_IMAGE_START_ADDRESS = M at *
  simp only [boot_verified_main, call_verify_image, hM, h, if_false]

/-- The discard path on the ideal flash, end to end: UPDATE accepted, MAIN accepted with a
declared total `length + 72` within the capacity, `UPDATE.version < MAIN.version`.  Then
`boot` erases UPDATE, issues no erase and no program of MAIN, ends in
`boot_main_application`, every byte of MAIN is as before and every byte of the UPDATE slot
reads 0xFF. -/
theorem boot_ideal_discard_end_to_end (c : Crypto) (b0 : Bool) (buf : Buf) (mem : Mem)
    (hvu : (verify_image c mem UPDATE_IMAGE_START_ADDRESS g_public_key).1 = VERIFY_SUCCESS)
    (hvm : (verify_image c mem MAIN_IMAGE_START_ADDRESS g_public_key).1 = VERIFY_SUCCESS)
    (hver : rd32 mem (UPDATE_IMAGE_START_ADDRESS + OFFSET_version)
      < rd32 mem (MAIN_IMAGE_START_ADDRESS + OFFSET_version))
    (hlen : rd32 mem (MAIN_IMAGE_START_ADDRESS + OFFSET_length) + 72 ≤ MAIN_IMAGE_MAX_SIZE) :
    (boot ⟨c, idealFlash, b0, buf⟩ ⟨mem, (), []⟩).outcome = Outcome.boot_main_application ∧
    (boot ⟨c, idealFlash, b0, buf⟩ ⟨mem, (), []⟩).world.trace =
      [Event.flash_open, Event.flash_blankCheck UPDATE_IMAGE_START_ADDRESS UPDATE_IMAGE_MAX_SIZE,
       Event.flash_close, Event.verify_image UPDATE_IMAGE_START_ADDRESS VERIFY_SUCCESS,
       Event.flash_open, Event.flash_blankCheck MAIN_IMAGE_START_ADDRESS UPDATE_IMAGE_MAX_SIZE,
       Event.flash_close, Event.verify_image MAIN_IMAGE_START_ADDRESS VERIFY_SUCCESS,
       Event.flash_open, Event.flash_erase UPDATE_IMAGE_START_ADDRESS 31, Event.flash_close,
       Event.verify_image MAIN_IMAGE_START_ADDRESS VERIFY_SUCCESS,
       Event.boot_main_application] ∧
    (∀ i, i < MAIN_IMAGE_MAX_SIZE →
      rd8 (boot ⟨c, idealFlash, b0, buf⟩ ⟨mem, (), []⟩).world.mem (MAIN_IMAGE_START_ADDRESS + i)
        = rd8 mem (MAIN_IMAGE_START_ADDRESS + i)) ∧
    (∀ i, i < UPDATE_IMAGE_MAX_SIZE →
      rd8 (boot ⟨c, idealFlash, b0, buf⟩ ⟨mem, (), []⟩).world.mem (UPDATE_IMAGE_START_ADDRESS + i)
        = 0xFF) := by
  have hU : UPDATE_IMAGE_START_ADDRESS = 1081344 := by decide
  have hM : MAIN_IMAGE_START_ADDRESS = 65536 := rfl
  have hN : UPDATE_IMAGE_MAX_SIZE = 1015808 := by decide
  have hMAX : MAIN_IMAGE_MAX_SIZE = 1015808 := by decide
  have hol : OFFSET_length = 68 := by decide
  have hbu : (readBytes mem UPDATE_IMAGE_START_ADDRESS UPDATE_IMAGE_MAX_SIZE).all
      (fun b => b == ERASED_STATE) = false :=
    readBytes_all_false _ _ _ (by decide) (magic_not_erased _ _ (verify_image_success _ _ _ _ hvu).1)
  have hbm : (readBytes mem MAIN_IMAGE_START_ADDRESS UPDATE_IMAGE_MAX_SIZE).all
      (fun b => b == ERASED_STATE) = false :=
    readBytes_all_false _ _ _ (by decide) (magic_not_erased _ _ (verify_image_success _ _ _ _ hvm).1)
  -- erasing UPDATE leaves the MAIN slot as it was
  have herase : ∀ i, i < 1015808 →
      rd8 (eraseBytes mem UPDATE_IMAGE_START_ADDRESS 1015808) (MAIN_IMAGE_START_ADDRESS + i)
        = rd8 mem (MAIN_IMAGE_START_ADDRESS + i) := by
    intro i hi
    rw [rd8_eraseBytes, hU, hM, if_neg (by unfold wrap32; omega)]
  have hpM : wrap32 (MAIN_IMAGE_START_ADDRESS + OFFSET_length) &&& 0x03 = 0 := by
    rw [hM, hol]
    rfl
  have hv2 := verify_image_congr c mem (eraseBytes mem UPDATE_IMAGE_START_ADDRESS 1015808)
    MAIN_IMAGE_START_ADDRESS MAIN_IMAGE_START_ADDRESS g_public_key hpM hpM hlen
    (fun i hi => herase i (by omega))
  rw [hvm] at hv2
  have hboot := boot_ideal_discard_steps c b0 buf mem hbu hvu hbm hvm (Nat.not_le.mpr hver)
  have hboot2 : boot ⟨c, idealFlash, b0, buf⟩ ⟨mem, (), []⟩ =
      ⟨⟨eraseBytes mem UPDATE_IMAGE_START_ADDRESS 1015808, (),
        [Event.flash_open, Event.flash_blankCheck UPDATE_IMAGE_START_ADDRESS UPDATE_IMAGE_MAX_SIZE,
         Event.flash_close, Event.verify_image UPDATE_IMAGE_START_ADDRESS VERIFY_SUCCESS,
         Event.flash_open, Event.flash_blankCheck MAIN_IMAGE_START_ADDRESS UPDATE_IMAGE_MAX_SIZE,
         Event.flash_close, Event.verify_image MAIN_IMAGE_START_ADDRESS VERIFY_SUCCESS,
         Event.flash_open, Event.flash_erase UPDATE_IMAGE_START_ADDRESS 31, Event.flash_close,
         Event.verify_image MAIN_IMAGE_START_ADDRESS VERIFY_SUCCESS,
         Event.boot_main_application]⟩,
       Outcome.boot_main_application, Branch.version_number_bad⟩ := by
    rw [hboot, boot_verified_main_success c idealFlash b0 buf _ _ _ _ hv2]
    generalize UPDATE_IMAGE_START_ADDRESS = U
    generalize MAIN_IMAGE_START_ADDRESS = M
    generalize UPDATE_IMAGE_MAX_SIZE = N
    simp only [List.cons_append, List.nil_append]
  have hmem : (boot ⟨c, idealFlash, b0, buf⟩ ⟨mem, (), []⟩).world.mem
      = eraseBytes mem UPDATE_IMAGE_START_ADDRESS 1015808 := by rw [hboot2]
  refine ⟨by rw [hboot2], by rw [hboot2], ?_, ?_⟩
  · intro i hi
    rw [hmem]
    exact herase i (by omega)
  · intro i hi
    rw [hmem, rd8_eraseBytes, hU, if_pos (by unfold wrap32; omega)]

/-- The scenario of the specification: UPDATE holds version 2, MAIN version 3 (images of 80
bytes).  UPDATE is erased, MAIN is untouched and booted. -/
theorem boot_update2_main3 :
    rd32 mem_update2_main3 (UPDATE_IMAGE_START_ADDRESS + OFFSET_version) = 2 ∧
    rd32 mem_update2_main3 (MAIN_IMAGE_START_ADDRESS + OFFSET_version) = 3 ∧
    (boot env_ideal (worldOf mem_update2_main3)).outcome = Outcome.boot_main_application ∧
    (∀ i, i < MAIN_IMAGE_MAX_SIZE →
      rd8 (boot env_ideal (worldOf mem_update2_main3)).world.mem (MAIN_IMAGE_START_ADDRESS + i)
        = rd8 mem_update2_main3 (MAIN_IMAGE_START_ADDRESS + i)) ∧
    (∀ i, i < UPDATE_IMAGE_MAX_SIZE →
      rd8 (boot env_ideal (worldOf mem_update2_main3)).world.mem (UPDATE_IMAGE_START_ADDRESS + i)
        = 0xFF) := by
  have hvu : (verify_image cryptoAcceptAll mem_update2_main3 UPDATE_IMAGE_START_ADDRESS
      g_public_key).1 = VERIFY_SUCCESS :=
    verify_image_acceptAll _ _ _ (by decide) (by decide)
  have hvm : (verify_image cryptoAcceptAll mem_update2_main3 MAIN_IMAGE_START_ADDRESS
      g_public_key).1 = VERIFY_SUCCESS :=
    verify_image_acceptAll _ _ _ (by decide) (by decide)
  have hver : rd32 mem_update2_main3 (UPDATE_IMAGE_START_ADDRESS + OFFSET_version)
      < rd32 mem_update2_main3 (MAIN_IMAGE_START_ADDRESS + OFFSET_version) := by decide
  have hlen : rd32 mem_update2_main3 (MAIN_IMAGE_START_ADDRESS + OFFSET_length) + 72
      ≤ MAIN_IMAGE_MAX_SIZE := by decide
  have h := boot_ideal_discard_end_to_end cryptoAcceptAll false (fun _ => 0) mem_update2_main3
    hvu hvm hver hlen
  refine ⟨by decide, by decide, ?_⟩
  unfold env_ideal worldOf
  exact ⟨h.1, h.2.2.1, h.2.2.2⟩

/-! ### The discard path with a MAIN header whose declared total wraps -/

theorem sha256_hash_padded_getD (m : List Nat) (j : Nat) (h : j < m.length) :
    (sha256_hash_padded m).getD j 0 = m.getD j 0 := by
  unfold sha256_hash_padded
  rw [List.getD_append _ _ _ _ (by simp; omega), List.getD_append _ _ _ _ (by simp; omega),
    List.getD_append _ _ _ _ h]

theorem sha256_hash_padded_length (m : List Nat) :
    (sha256_hash_padded m).length = m.length + 1 + (64 - (m.length + 9) % 64) % 64 + 8 := by
  simp only [sha256_hash_padded, List.length_append, List.length_replicate, List.length_cons,
    List.length_nil, bit_length_bytes_length]

theorem digest_of_getD (mem : Mem) (p j : Nat)
    (h : j < wrap32 (rd32 mem (p + OFFSET_length) + 4)) :
    (digest_of mem p).getD (32 + j) 0 = rd8 mem (wrap32 (p + OFFSET_length) + j) := by
  have hl : sha256_initial_values.length = 32 := by decide
  unfold digest_of
  rw [List.getD_append_right _ _ _ _ (by rw [hl]; omega), hl, Nat.add_sub_cancel_left,
    sha256_hash_padded_getD _ _ (by rw [readBytes_length]; exact h), readBytes_getD _ _ _ _ h]

/-- With the recording hash driver, `verify_image` hands `digest_of` to the signature
service. -/
theorem verify_image_recordingHash (ecc : EccVerify) (tmp : Buf) (h0 : List Nat) (mem : Mem)
    (p : Nat) (key : List Nat)
    (hmagic : readBytes mem p MAGIC_NUMBER_LEN = MAGIC_NUMBER)
    (hlen : wrap32 (rd32 mem (p + OFFSET_length) + 4 + SIGNATURE_LEN_BYTES + 4) ≤ MAIN_IMAGE_MAX_SIZE) :
    (verify_image ⟨recordingHash, ecc, tmp, h0⟩ mem p key).1 =
      if ecc domain generator_point key (digest_of mem p)
          (readBytes mem (p + OFFSET_signature) (4 * ECC_256_SIGNATURE_R_LENGTH_WORDS))
          (readBytes mem (p + OFFSET_signature + 4 * ECC_256_SIGNATURE_R_LENGTH_WORDS)
            (4 * ECC_256_SIGNATURE_S_LENGTH_WORDS)) ≠ SSP_SUCCESS
      then VERIFY_FAIL else VERIFY_SUCCESS := by
  unfold verify_image
  simp only [hmagic, ne_eq, not_true_eq_false, if_false, gt_iff_lt, not_lt.mpr hlen,
    sha256_hash_recordingHash, digest_of]

theorem acceptSigned_eq (a b k digest r s : List Nat) :
    acceptSigned a b k digest r s =
      if digest = digest_of mem_wrapped_main MAIN_IMAGE_START_ADDRESS ∨
          digest = digest_of mem_wrapped_main UPDATE_IMAGE_START_ADDRESS then SSP_SUCCESS
      else 1 := rfl

/-- Erasing UPDATE changes the digest of the wrapped MAIN image: the byte hashed from the
base address of UPDATE was 0x59 and is now 0xFF. -/
theorem digest_of_wrapped_main_erased :
    ¬ (digest_of (eraseBytes mem_wrapped_main UPDATE_IMAGE_START_ADDRESS 1015808)
          MAIN_IMAGE_START_ADDRESS = digest_of mem_wrapped_main MAIN_IMAGE_START_ADDRESS ∨
       digest_of (eraseBytes mem_wrapped_main UPDATE_IMAGE_START_ADDRESS 1015808)
          MAIN_IMAGE_START_ADDRESS = digest_of mem_wrapped_main UPDATE_IMAGE_START_ADDRESS) := by
  have h1 := digest_of_getD (eraseBytes mem_wrapped_main UPDATE_IMAGE_START_ADDRESS 1015808)
    MAIN_IMAGE_START_ADDRESS 1015740 (by decide)
  have h0 := digest_of_getD mem_wrapped_main MAIN_IMAGE_START_ADDRESS 1015740 (by decide)
  have e1 : rd8 (eraseBytes mem_wrapped_main UPDATE_IMAGE_START_ADDRESS 1015808)
      (wrap32 (MAIN_IMAGE_START_ADDRESS + OFFSET_length) + 1015740) = 255 := by decide
  have e0 : rd8 mem_wrapped_main (wrap32 (MAIN_IMAGE_START_ADDRESS + OFFSET_length) + 1015740)
      = 89 := by decide
  rw [e1] at h1
  rw [e0] at h0
  have hlenU : (digest_of mem_wrapped_main UPDATE_IMAGE_START_ADDRESS).length = 96 := by
    have hw : wrap32 (rd32 mem_wrapped_main (UPDATE_IMAGE_START_ADDRESS + OFFSET_length) + 4) = 12 := by
      decide
    have hl : sha256_initial_values.length = 32 := by decide
    unfold digest_of
    rw [List.length_append, sha256_hash_padded_length, readBytes_length, hw, hl]
  have hU := List.getD_eq_default (digest_of mem_wrapped_main UPDATE_IMAGE_START_ADDRESS) 0
    (show (digest_of mem_wrapped_main UPDATE_IMAGE_START_ADDRESS).length ≤ 32 + 1015740 by
      rw [hlenU]; omega)
  rintro (h | h)
  · rw [h, h0] at h1
    omega
  · rw [h, hU] at h1
    omega

/-- A run of the model outside the hashed-range condition of the discard path: UPDATE
holds an accepted image of version 2, MAIN a header of version 3 whose length field is
`0xFFFFFFB8`, so that its declared total wraps to 0 and the range that `verify_image`
hashes for MAIN, `0xFFFFFFBC` bytes, goes round the address space and over the UPDATE slot.
On the total memory of the model the first `verify_image(MAIN)` is evaluated and accepts,
`boot` erases UPDATE, and the second `verify_image(MAIN)` sees another digest and is
rejected.  On the device a hash over that range does not complete, so this run shows only
that the condition cannot be dropped in the model. -/
theorem boot_discard_wrapped_main_length :
    (verify_image cryptoSigned mem_wrapped_main UPDATE_IMAGE_START_ADDRESS g_public_key).1
      = VERIFY_SUCCESS ∧
    (verify_image cryptoSigned mem_wrapped_main MAIN_IMAGE_START_ADDRESS g_public_key).1
      = VERIFY_SUCCESS ∧
    rd32 mem_wrapped_main (UPDATE_IMAGE_START_ADDRESS + 72) = 2 ∧
    rd32 mem_wrapped_main (MAIN_IMAGE_START_ADDRESS + 72) = 3 ∧
    rd32 mem_wrapped_main (MAIN_IMAGE_START_ADDRESS + 68) = 4294967224 ∧
    (boot env_signed (worldOf mem_wrapped_main)).branch = Branch.version_number_bad ∧
    (boot env_signed (worldOf mem_wrapped_main)).outcome = Outcome.halt ∧
    Event.flash_erase UPDATE_IMAGE_START_ADDRESS 31
      ∈ (boot env_signed (worldOf mem_wrapped_main)).world.trace ∧
    Event.boot_main_application ∉ (boot env_signed (worldOf mem_wrapped_main)).world.trace := by
  have hvu : (verify_image cryptoSigned mem_wrapped_main UPDATE_IMAGE_START_ADDRESS
      g_public_key).1 = VERIFY_SUCCESS := by
    unfold cryptoSigned
    rw [verify_image_recordingHash _ _ _ _ _ _ (by decide) (by decide), acceptSigned_eq,
      if_pos (Or.inr rfl), if_neg (fun h => h rfl)]
  have hvm : (verify_image cryptoSigned mem_wrapped_main MAIN_IMAGE_START_ADDRESS
      g_public_key).1 = VERIFY_SUCCESS := by
    unfold cryptoSigned
    rw [verify_image_recordingHash _ _ _ _ _ _ (by decide) (by decide), acceptSigned_eq,
      if_pos (Or.inl rfl), if_neg (fun h => h rfl)]
  have hv2 : (verify_image cryptoSigned
      (eraseBytes mem_wrapped_main UPDATE_IMAGE_START_ADDRESS 1015808) MAIN_IMAGE_START_ADDRESS
      g_public_key).1 = VERIFY_FAIL := by
    unfold cryptoSigned
    rw [verify_image_recordingHash _ _ _ _ _ _ (by decide) (by decide), acceptSigned_eq,
      if_neg digest_of_wrapped_main_erased, if_pos (by decide)]
  have hbu : (readBytes mem_wrapped_main UPDATE_IMAGE_START_ADDRESS UPDATE_IMAGE_MAX_SIZE).all
      (fun b => b == ERASED_STATE) = false :=
    readBytes_all_false _ _ _ (by decide) (by decide)
  have hbm : (readBytes mem_wrapped_main MAIN_IMAGE_START_ADDRESS UPDATE_IMAGE_MAX_SIZE).all
      (fun b => b == ERASED_STATE) = false :=
    readBytes_all_false _ _ _ (by decide) (by decide)
  have hver : ¬ rd32 mem_wrapped_main (MAIN_IMAGE_START_ADDRESS + OFFSET_version)
      ≤ rd32 mem_wrapped_main (UPDATE_IMAGE_START_ADDRESS + OFFSET_version) := by decide
  have hboot := boot_ideal_discard_steps cryptoSigned false (fun _ => 0) mem_wrapped_main
    hbu hvu hbm hvm hver
  have hne : (verify_image cryptoSigned
      (eraseBytes mem_wrapped_main UPDATE_IMAGE_START_ADDRESS 1015808) MAIN_IMAGE_START_ADDRESS
      g_public_key).1 ≠ VERIFY_SUCCESS := by
    rw [hv2]
    decide
  rw [boot_verified_main_fail cryptoSigned idealFlash false _ _ _ _ _ hne, hv2] at hboot
  have hboot2 : boot env_signed (worldOf mem_wrapped_main) = _ := hboot
  refine ⟨hvu, hvm, by decide, by decide, by decide, ?_, ?_, ?_, ?_⟩
  · rw [hboot2]
  · rw [hboot2]
  · rw [hboot2]
    decide
  · rw [hboot2]
    decide

/-! ### `boot`, block by block -/

theorem boot_eq (e : Env σ) (w : World σ) :
    boot e w =
      if (boot_blank_update e w).1 = SSP_SUCCESS then
        if (boot_blank_update e w).2.1 = false then
          if (boot_verify_update e w).1 = VERIFY_SUCCESS then
            if rd32 (boot_main_version e w).2.mem (UPDATE_IMAGE_START_ADDRESS + OFFSET_version)
                ≥ (boot_main_version e w).1 then
              boot_apply e (boot_blank_main e w).2.1 (boot_main_version e w).2
            else boot_discard e Branch.version_number_bad (boot_main_version e w).2
          else boot_discard e Branch.invalid_update_image (boot_verify_update e w).2
        else boot_verified_main e Branch.update_area_blank (boot_blank_update e w).2.2
      else boot_verified_main e Branch.blank_check_failed (boot_blank_update e w).2.2 := rfl

/-! ### Traces of the slot manager and of the blocks of `boot` -/

theorem Extends.refl (P : Event → Prop) (tr : List Event) : Extends P tr tr :=
  ⟨[], by simp, fun _ h => absurd h (List.not_mem_nil _)⟩

theorem Extends.trans {P : Event → Prop} {a b c : List Event} (h1 : Extends P a b)
    (h2 : Extends P b c) : Extends P a c := by
  obtain ⟨e1, rfl, p1⟩ := h1
  obtain ⟨e2, rfl, p2⟩ := h2
  refine ⟨e1 ++ e2, by simp, ?_⟩
  intro ev hev
  rcases List.mem_append.mp hev with h | h
  · exact p1 ev h
  · exact p2 ev h

theorem Extends.mono {P Q : Event → Prop} {a b : List Event} (h : Extends P a b)
    (hPQ : ∀ ev, P ev → Q ev) : Extends Q a b := by
  obtain ⟨e1, rfl, p1⟩ := h
  exact ⟨e1, rfl, fun ev hev => hPQ ev (p1 ev hev)⟩

theorem Extends.one (P : Event → Prop) (tr : List Event) (ev : Event) (h : P ev) :
    Extends P tr (tr ++ [ev]) :=
  ⟨[ev], rfl, fun x hx => by rw [List.mem_singleton.mp hx]; exact h⟩

theorem Extends.mem {P : Event → Prop} {a b : List Event} (h : Extends P a b) (ev : Event)
    (hev : ev ∈ a) : ev ∈ b := by
  obtain ⟨e1, rfl, _⟩ := h
  exact List.mem_append_left _ hev

theorem Extends.drop {P : Event → Prop} {a b : List Event} (h : Extends P a b) :
    ∀ ev, ev ∈ b.drop a.length → P ev := by
  obtain ⟨e1, rfl, p1⟩ := h
  rw [List.drop_left]
  exact p1

theorem call_open_extends (P : Event → Prop) (api : flash_api_t σ) (w : World σ)
    (h : P Event.flash_open) : Extends P w.trace (call_open api w).2.trace :=
  Extends.one P _ _ h

theorem call_close_extends (P : Event → Prop) (api : flash_api_t σ) (w : World σ)
    (h : P Event.flash_close) : Extends P w.trace (call_close api w).2.trace :=
  Extends.one P _ _ h

theorem call_erase_extends (P : Event → Prop) (api : flash_api_t σ) (a n : Nat) (w : World σ)
    (h : P (Event.flash_erase a n)) : Extends P w.trace (call_erase api a n w).2.trace :=
  Extends.one P _ _ h

theorem call_write_extends (P : Event → Prop) (api : flash_api_t σ) (d : List Nat) (a : Nat)
    (w : World σ) (h : P (Event.flash_write d a)) :
    Extends P w.trace (call_write api d a w).2.trace :=
  Extends.one P _ _ h

theorem call_blankCheck_extends (P : Event → Prop) (api : flash_api_t σ) (a n : Nat)
    (w : World σ) (h : P (Event.flash_blankCheck a n)) :
    Extends P w.trace (call_blankCheck api a n w).2.2.trace :=
  Extends.one P _ _ h

theorem call_verify_image_extends (P : Event → Prop) (e : Env σ) (p : Nat) (w : World σ)
    (h : ∀ r, P (Event.verify_image p r)) :
    Extends P w.trace (call_verify_image e p w).2.trace :=
  Extends.one P _ _ (h _)

theorem blank_check_image_area_extends (P : Event → Prop) (api : flash_api_t σ) (a : Nat)
    (b0 : Bool) (w : World σ) (h1 : P Event.flash_open) (h2 : P Event.flash_close)
    (h3 : ∀ n, P (Event.flash_blankCheck a n)) :
    Extends P w.trace (blank_check_image_area api a b0 w).2.2.trace := by
  unfold blank_check_image_area
  generalize UPDATE_IMAGE_MAX_SIZE = N
  dsimp only
  split_ifs
  all_goals first
    | exact Extends.refl _ _
    | exact call_open_extends P api w h1
    | exact ((call_open_extends P api w h1).trans
        (call_blankCheck_extends P api a N _ (h3 N))).trans (call_close_extends P api _ h2)

theorem erase_main_image_area_extends (P : Event → Prop) (api : flash_api_t σ) (w : World σ)
    (h1 : P Event.flash_open) (h2 : P Event.flash_close)
    (h3 : ∀ n, P (Event.flash_erase MAIN_IMAGE_START_ADDRESS n)) :
    Extends P w.trace (erase_main_image_area api w).2.trace := by
  unfold erase_main_image_area
  generalize MAIN_IMAGE_MAX_SIZE / MAIN_IMAGE_ERASE_BLOCK_SIZE = n
  generalize MAIN_IMAGE_START_ADDRESS = M at *
  dsimp only
  split_ifs
  all_goals first
    | exact call_open_extends P api w h1
    | exact ((call_open_extends P api w h1).trans
        (call_erase_extends P api M n _ (h3 n))).trans (call_close_extends P api _ h2)

theorem erase_update_image_area_extends (P : Event → Prop) (api : flash_api_t σ) (a : Nat)
    (w : World σ) (h1 : P Event.flash_open) (h2 : P Event.flash_close)
    (h3 : P (Event.flash_erase a (UPDATE_IMAGE_MAX_SIZE / UPDATE_IMAGE_ERASE_BLOCK_SIZE))) :
    Extends P w.trace (erase_update_image_area api a w).2.trace := by
  unfold erase_update_image_area
  generalize UPDATE_IMAGE_MAX_SIZE / UPDATE_IMAGE_ERASE_BLOCK_SIZE = n at *
  dsimp only
  split_ifs
  all_goals first
    | exact Extends.refl _ _
    | exact call_open_extends P api w h1
    | exact ((call_open_extends P api w h1).trans
        (call_erase_extends P api a n _ h3)).trans (call_close_extends P api _ h2)

theorem flash_main_image_extends (P : Event → Prop) (api : flash_api_t σ) (buf : Buf)
    (a n : Nat) (w : World σ) (h1 : P Event.flash_open) (h2 : P Event.flash_close)
    (h3 : ∀ d dest, P (Event.flash_write d dest)) :
    Extends P w.trace (flash_main_image_from_update_area api buf a n w).2.trace := by
  unfold flash_main_image_from_update_area
  generalize MAIN_FLASH_PROGRAMMING_PAGE_SIZE = pg
  generalize MAIN_IMAGE_START_ADDRESS = M
  dsimp only
  split_ifs
  all_goals first
    | exact Extends.refl _ _
    | exact call_open_extends P api w h1
    | exact (((call_open_extends P api w h1).trans
        (call_write_extends P api _ _ _ (h3 _ _))).trans
        (call_write_extends P api _ _ _ (h3 _ _))).trans (call_close_extends P api _ h2)
    | exact ((call_open_extends P api w h1).trans
        (call_write_extends P api _ _ _ (h3 _ _))).trans (call_close_extends P api _ h2)

theorem boot_blank_update_mem (e : Env σ) (w : World σ) :
    (boot_blank_update e w).2.2.mem = w.mem :=
  blank_check_image_area_mem _ _ _ _

theorem boot_verify_update_mem (e : Env σ) (w : World σ) :
    (boot_verify_update e w).2.mem = w.mem :=
  blank_check_image_area_mem _ _ _ _

theorem boot_verify_update_fst (e : Env σ) (w : World σ) :
    (boot_verify_update e w).1
      = (verify_image e.crypto w.mem UPDATE_IMAGE_START_ADDRESS g_public_key).1 := by
  show (verify_image e.crypto (boot_blank_update e w).2.2.mem _ _).1 = _
  rw [boot_blank_update_mem]

theorem boot_verify_update_trace (e : Env σ) (w : World σ) :
    (boot_verify_update e w).2.trace = (boot_blank_update e w).2.2.trace ++
      [Event.verify_image UPDATE_IMAGE_START_ADDRESS (boot_verify_update e w).1] := rfl

theorem boot_blank_main_mem (e : Env σ) (w : World σ) :
    (boot_blank_main e w).2.2.mem = w.mem :=
  (blank_check_image_area_mem _ _ _ _).trans (boot_verify_update_mem e w)

theorem boot_main_version_mem (e : Env σ) (w : World σ) :
    (boot_main_version e w).2.mem = w.mem := by
  have h := boot_blank_main_mem e w
  unfold boot_main_version
  dsimp only
  split_ifs <;> exact h

theorem boot_blank_update_extends (P : Event → Prop) (e : Env σ) (w : World σ)
    (h1 : P Event.flash_open) (h2 : P Event.flash_close)
    (h3 : ∀ a n, P (Event.flash_blankCheck a n)) :
    Extends P w.trace (boot_blank_update e w).2.2.trace :=
  blank_check_image_area_extends P _ _ _ _ h1 h2 (h3 _)

theorem boot_blank_main_extends (P : Event → Prop) (e : Env σ) (w : World σ)
    (h1 : P Event.flash_open) (h2 : P Event.flash_close)
    (h3 : ∀ a n, P (Event.flash_blankCheck a n)) :
    Extends P (boot_verify_update e w).2.trace (boot_blank_main e w).2.2.trace :=
  blank_check_image_area_extends P _ _ _ _ h1 h2 (h3 _)

theorem boot_main_version_extends (P : Event → Prop) (e : Env σ) (w : World σ)
    (h1 : P Event.flash_open) (h2 : P Event.flash_close)
    (h3 : ∀ a n, P (Event.flash_blankCheck a n))
    (h4 : ∀ r, P (Event.verify_image MAIN_IMAGE_START_ADDRESS r)) :
    Extends P (boot_verify_update e w).2.trace (boot_main_version e w).2.trace := by
  have hb := boot_blank_main_extends P e w h1 h2 h3
  have hv := call_verify_image_extends P e MAIN_IMAGE_START_ADDRESS (boot_blank_main e w).2.2 h4
  unfold boot_main_version
  dsimp only
  split_ifs
  all_goals first
    | exact hb
    | exact hb.trans hv

theorem boot_verified_main_extends (P : Event → Prop) (e : Env σ) (b : Branch) (w : World σ)
    (h4 : ∀ r, P (Event.verify_image MAIN_IMAGE_START_ADDRESS r))
    (h5 : P Event.boot_main_application) :
    Extends P w.trace (boot_verified_main e b w).world.trace := by
  have hv := call_verify_image_extends P e MAIN_IMAGE_START_ADDRESS w h4
  unfold boot_verified_main
  dsimp only
  split_ifs
  · exact hv.trans (Extends.one P _ _ h5)
  · exact hv

theorem boot_discard_extends (P : Event → Prop) (e : Env σ) (b : Branch) (w : World σ)
    (h1 : P Event.flash_open) (h2 : P Event.flash_close)
    (h3 : P (Event.flash_erase UPDATE_IMAGE_START_ADDRESS
      (UPDATE_IMAGE_MAX_SIZE / UPDATE_IMAGE_ERASE_BLOCK_SIZE)))
    (h4 : ∀ r, P (Event.verify_image MAIN_IMAGE_START_ADDRESS r))
    (h5 : P Event.boot_main_application) :
    Extends P w.trace (boot_discard e b w).world.trace :=
  (erase_update_image_area_extends P e.flash _ w h1 h2 h3).trans
    (boot_verified_main_extends P e b _ h4 h5)

theorem boot_erase_main_extends (P : Event → Prop) (e : Env σ) (blank : Bool) (w : World σ)
    (h1 : P Event.flash_open) (h2 : P Event.flash_close)
    (h3 : ∀ n, P (Event.flash_erase MAIN_IMAGE_START_ADDRESS n)) :
    Extends P w.trace (boot_erase_main e blank w).2.trace := by
  unfold boot_erase_main
  split_ifs
  · exact erase_main_image_area_extends P e.flash w h1 h2 h3
  · exact Extends.refl _ _

theorem boot_after_flash_extends (P : Event → Prop) (e : Env σ) (fl : Nat × World σ)
    (h1 : P Event.flash_open) (h2 : P Event.flash_close)
    (h3 : P (Event.flash_erase UPDATE_IMAGE_START_ADDRESS
      (UPDATE_IMAGE_MAX_SIZE / UPDATE_IMAGE_ERASE_BLOCK_SIZE)))
    (h4 : ∀ r, P (Event.verify_image MAIN_IMAGE_START_ADDRESS r))
    (h5 : P Event.boot_main_application) (h6 : P Event.NVIC_SystemReset) :
    Extends P fl.2.trace (boot_after_flash e fl).world.trace := by
  have hv := call_verify_image_extends P e MAIN_IMAGE_START_ADDRESS fl.2 h4
  unfold boot_after_flash
  dsimp only
  split_ifs
  · exact (hv.trans (erase_update_image_area_extends P e.flash _ _ h1 h2 h3)).trans
      (Extends.one P _ _ h5)
  · exact hv.trans (Extends.one P _ _ h6)
  · exact Extends.refl _ _

theorem boot_apply_extends (P : Event → Prop) (e : Env σ) (blank : Bool) (w : World σ)
    (h1 : P Event.flash_open) (h2 : P Event.flash_close)
    (h3 : P (Event.flash_erase UPDATE_IMAGE_START_ADDRESS
      (UPDATE_IMAGE_MAX_SIZE / UPDATE_IMAGE_ERASE_BLOCK_SIZE)))
    (h4 : ∀ r, P (Event.verify_image MAIN_IMAGE_START_ADDRESS r))
    (h5 : P Event.boot_main_application) (h6 : P Event.NVIC_SystemReset)
    (h7 : ∀ n, P (Event.flash_erase MAIN_IMAGE_START_ADDRESS n))
    (h8 : ∀ d dest, P (Event.flash_write d dest)) :
    Extends P w.trace (boot_apply e blank w).world.trace := by
  have he := boot_erase_main_extends P e blank w h1 h2 h7
  unfold boot_apply
  dsimp only
  split_ifs
  · exact (he.trans (flash_main_image_extends P e.flash _ _ _ _ h1 h2 h8)).trans
      (boot_after_flash_extends P e _ h1 h2 h3 h4 h5 h6)
  · exact he

/-! ### UPDATE blank: nothing is changed -/

theorem blank_check_image_area_reads (api : flash_api_t σ) (hdrv : BlankCheckReads api) (a : Nat)
    (b0 : Bool) (w : World σ) (h0 : a ≠ 0)
    (h1 : a < INTERNAL_FLASH_START_ADDRESS + TOTAL_INTERNAL_FLASH_SIZE) :
    (blank_check_image_area api a b0 w).1 = SSP_SUCCESS ∧
    (blank_check_image_area api a b0 w).2.1
      = (readBytes w.mem a UPDATE_IMAGE_MAX_SIZE).all (fun b => b == ERASED_STATE) ∧
    (blank_check_image_area api a b0 w).2.2.trace
      = w.trace ++ [Event.flash_open, Event.flash_blankCheck a UPDATE_IMAGE_MAX_SIZE,
          Event.flash_close] := by
  have hb1 := fun a n s m => (hdrv.2 a n s m).1
  have hb2 := fun a n s m => (hdrv.2 a n s m).2
  unfold blank_check_image_area
  rw [if_neg h0, if_neg (not_not.mpr h1)]
  generalize UPDATE_IMAGE_MAX_SIZE = N
  simp only [call_open, call_blankCheck, call_close, hdrv.1, hb1, hb2, ne_eq, not_true_eq_false,
    if_false, List.append_assoc, List.singleton_append, true_and]
  cases (readBytes w.mem a N).all (fun b => b == ERASED_STATE) <;> simp

theorem readBytes_all_true (mem : Mem) (a n : Nat)
    (h : ∀ i, i < n → rd8 mem (a + i) = ERASED_STATE) :
    (readBytes mem a n).all (fun b => b == ERASED_STATE) = true := by
  rw [List.all_eq_true]
  intro x hx
  unfold readBytes at hx
  obtain ⟨i, hi, rfl⟩ := List.mem_map.mp hx
  rw [h i (List.mem_range.mp hi)]
  rfl

theorem boot_verified_main_boots (e : Env σ) (b : Branch) (w : World σ)
    (h : (verify_image e.crypto w.mem MAIN_IMAGE_START_ADDRESS g_public_key).1 = VERIFY_SUCCESS) :
    (boot_verified_main e b w).outcome = Outcome.boot_main_application ∧
    (boot_verified_main e b w).branch = b ∧
    (boot_verified_main e b w).world.mem = w.mem ∧
    (boot_verified_main e b w).world.trace
      = w.trace ++ [Event.verify_image MAIN_IMAGE_START_ADDRESS VERIFY_SUCCESS,
          Event.boot_main_application] := by
  generalize hM : MAIN_IMAGE_START_ADDRESS = M at *
  simp only [boot_verified_main, call_verify_image, hM, h, if_true, call_boot_main_application,
    List.append_assoc, List.cons_append, List.nil_append, and_self]

theorem boot_verified_main_halts (e : Env σ) (b : Branch) (w : World σ)
    (h : (verify_image e.crypto w.mem MAIN_IMAGE_START_ADDRESS g_public_key).1 ≠ VERIFY_SUCCESS) :
    (boot_verified_main e b w).outcome = Outcome.halt ∧
    (boot_verified_main e b w).branch = b ∧
    (boot_verified_main e b w).world.mem = w.mem ∧
    (boot_verified_main e b w).world.trace
      = w.trace ++ [Event.verify_image MAIN_IMAGE_START_ADDRESS
          (verify_image e.crypto w.mem MAIN_IMAGE_START_ADDRESS g_public_key).1] := by
  generalize hM : MAIN_IMAGE_START_ADDRESS = M at *
  simp only [boot_verified_main, call_verify_image, hM, h, if_false, and_self]

/-- One run of `boot` with UPDATE blank and MAIN accepted, over a driver whose blank check
reads the range. -/
theorem boot_update_blank (e : Env σ) (w : World σ) (hdrv : BlankCheckReads e.flash)
    (hblank : ∀ i, i < UPDATE_IMAGE_MAX_SIZE →
      rd8 w.mem (UPDATE_IMAGE_START_ADDRESS + i) = ERASED_STATE)
    (hvm : (verify_image e.crypto w.mem MAIN_IMAGE_START_ADDRESS g_public_key).1 = VERIFY_SUCCESS) :
    (boot e w).outcome = Outcome.boot_main_application ∧
    (boot e w).branch = Branch.update_area_blank ∧
    (boot e w).world.mem = w.mem ∧
    (boot e w).world.trace = w.trace ++
      [Event.flash_open, Event.flash_blankCheck UPDATE_IMAGE_START_ADDRESS UPDATE_IMAGE_MAX_SIZE,
       Event.flash_close, Event.verify_image MAIN_IMAGE_START_ADDRESS VERIFY_SUCCESS,
       Event.boot_main_application] := by
  have h0 : UPDATE_IMAGE_START_ADDRESS ≠ 0 := by decide
  have h1 : UPDATE_IMAGE_START_ADDRESS < INTERNAL_FLASH_START_ADDRESS + TOTAL_INTERNAL_FLASH_SIZE := by
    decide
  obtain ⟨hb1, hb2, hb3⟩ := blank_check_image_area_reads e.flash hdrv UPDATE_IMAGE_START_ADDRESS
    e.blank_status w h0 h1
  rw [readBytes_all_true _ _ _ hblank] at hb2
  have hmem := boot_blank_update_mem e w
  have hvm2 : (verify_image e.crypto (boot_blank_update e w).2.2.mem MAIN_IMAGE_START_ADDRESS
      g_public_key).1 = VERIFY_SUCCESS := by rw [hmem]; exact hvm
  obtain ⟨k1, k2, k3, k4⟩ := boot_verified_main_boots e Branch.update_area_blank
    (boot_blank_update e w).2.2 hvm2
  have hboot : boot e w = boot_verified_main e Branch.update_area_blank
      (boot_blank_update e w).2.2 := by
    have hb1b : (boot_blank_update e w).1 = SSP_SUCCESS := hb1
    have hb2b : (boot_blank_update e w).2.1 = true := hb2
    rw [boot_eq, if_pos hb1b, if_neg (by rw [hb2b]; simp)]
  rw [hboot]
  refine ⟨k1, k2, k3.trans hmem, ?_⟩
  rw [k4]
  show (blank_check_image_area e.flash UPDATE_IMAGE_START_ADDRESS e.blank_status w).2.2.trace ++ _ = _
  rw [hb3]
  generalize UPDATE_IMAGE_MAX_SIZE = N
  generalize UPDATE_IMAGE_START_ADDRESS = U
  generalize MAIN_IMAGE_START_ADDRESS = M
  simp only [List.append_assoc, List.cons_append, List.nil_append]

theorem run_events_eq (e : Env σ) (w : World σ) (evs : List Event)
    (h : (boot e w).world.trace = w.trace ++ evs) : run_events e w = evs := by
  unfold run_events
  rw [h, List.drop_left]

/-- C12: over a driver whose blank check reads the range, if every byte of UPDATE is 0xFF
and `verify_image` accepts MAIN, then `boot` ends in `boot_main_application` (decision
`BootMain`), no event of the run is an erase or a program call, and memory is unchanged;
a second run from the resulting state ends the same way, again with no erase and no
program call and with memory still equal to the initial one. -/
theorem boot_update_blank_idempotent (e : Env σ) (w : World σ) (hdrv : BlankCheckReads e.flash)
    (hblank : ∀ i, i < UPDATE_IMAGE_MAX_SIZE →
      rd8 w.mem (UPDATE_IMAGE_START_ADDRESS + i) = ERASED_STATE)
    (hvm : (verify_image e.crypto w.mem MAIN_IMAGE_START_ADDRESS g_public_key).1 = VERIFY_SUCCESS) :
    ((boot e w).outcome = Outcome.boot_main_application ∧
      (boot e w).branch.decision = Decision.BootMain ∧
      (∀ ev, ev ∈ run_events e w → ev.isMutation = false) ∧
      (boot e w).world.mem = w.mem) ∧
    ((boot e (boot e w).world).outcome = Outcome.boot_main_application ∧
      (boot e (boot e w).world).branch.decision = Decision.BootMain ∧
      (∀ ev, ev ∈ run_events e (boot e w).world → ev.isMutation = false) ∧
      (boot e (boot e w).world).world.mem = w.mem) := by
  have key : ∀ v : World σ, v.mem = w.mem →
      (boot e v).outcome = Outcome.boot_main_application ∧
      (boot e v).branch.decision = Decision.BootMain ∧
      (∀ ev, ev ∈ run_events e v → ev.isMutation = false) ∧
      (boot e v).world.mem = w.mem := by
    intro v hv
    obtain ⟨k1, k2, k3, k4⟩ := boot_update_blank e v hdrv (by rw [hv]; exact hblank)
      (by rw [hv]; exact hvm)
    refine ⟨k1, by rw [k2]; rfl, ?_, k3.trans hv⟩
    rw [run_events_eq e v _ k4]
    intro ev hev
    simp only [List.mem_cons, List.mem_singleton, List.not_mem_nil, or_false] at hev
    rcases hev with rfl | rfl | rfl | rfl | rfl <;> rfl
  exact ⟨key w rfl, key (boot e w).world (key w rfl).2.2.2⟩

theorem mem_blank_update_main3_blank (i : Nat) (hi : i < UPDATE_IMAGE_MAX_SIZE) :
    rd8 mem_blank_update_main3 (UPDATE_IMAGE_START_ADDRESS + i) = ERASED_STATE := by
  have hU : UPDATE_IMAGE_START_ADDRESS = 1081344 := by decide
  have hM : MAIN_IMAGE_START_ADDRESS = 65536 := rfl
  have hN : UPDATE_IMAGE_MAX_SIZE = 1015808 := by decide
  have hl : (headerBytes 8 3).length = 76 := by decide
  rw [hN] at hi
  unfold rd8 mem_blank_update_main3 memWith
  rw [hU, hM, hl, if_neg (by unfold wrap32; omega)]
  rfl

theorem boot_update_blank_idempotent_witness :
    BlankCheckReads idealFlash ∧
    (∀ i, i < UPDATE_IMAGE_MAX_SIZE →
      rd8 mem_blank_update_main3 (UPDATE_IMAGE_START_ADDRESS + i) = ERASED_STATE) ∧
    (verify_image cryptoAcceptAll mem_blank_update_main3 MAIN_IMAGE_START_ADDRESS g_public_key).1
      = VERIFY_SUCCESS ∧
    (boot env_ideal (worldOf mem_blank_update_main3)).outcome = Outcome.boot_main_application ∧
    (boot env_ideal (boot env_ideal (worldOf mem_blank_update_main3)).world).outcome
      = Outcome.boot_main_application ∧
    (boot env_ideal (boot env_ideal (worldOf mem_blank_update_main3)).world).world.mem
      = mem_blank_update_main3 :=
  ⟨⟨fun _ => rfl, fun _ _ _ _ => ⟨rfl, rfl⟩⟩, mem_blank_update_main3_blank,
    verify_image_acceptAll _ _ _ (by decide) (by decide),
    (boot_update_blank_idempotent env_ideal (worldOf mem_blank_update_main3)
      ⟨fun _ => rfl, fun _ _ _ _ => ⟨rfl, rfl⟩⟩ mem_blank_update_main3_blank
      (verify_image_acceptAll _ _ _ (by decide) (by decide))).1.1,
    (boot_update_blank_idempotent env_ideal (worldOf mem_blank_update_main3)
      ⟨fun _ => rfl, fun _ _ _ _ => ⟨rfl, rfl⟩⟩ mem_blank_update_main3_blank
      (verify_image_acceptAll _ _ _ (by decide) (by decide))).2.1,
    (boot_update_blank_idempotent env_ideal (worldOf mem_blank_update_main3)
      ⟨fun _ => rfl, fun _ _ _ _ => ⟨rfl, rfl⟩⟩ mem_blank_update_main3_blank
      (verify_image_acceptAll _ _ _ (by decide) (by decide))).2.2.2.2⟩

/-! ### Errors of the erase and of the programming of MAIN -/

/-- The events of `boot` up to the version test satisfy `P` when the blank-check and
`verify_image` events do. -/
theorem boot_main_version_extends_start (P : Event → Prop) (e : Env σ) (w : World σ)
    (h1 : P Event.flash_open) (h2 : P Event.flash_close)
    (h3 : ∀ a n, P (Event.flash_blankCheck a n)) (h4 : ∀ p r, P (Event.verify_image p r)) :
    Extends P w.trace (boot_main_version e w).2.trace := by
  have ha := boot_blank_update_extends P e w h1 h2 h3
  have hb : Extends P (boot_blank_update e w).2.2.trace (boot_verify_update e w).2.trace :=
    call_verify_image_extends P e _ _ (h4 _)
  exact (ha.trans hb).trans (boot_main_version_extends P e w h1 h2 h3 (h4 _))

theorem boot_main_version_fst (e : Env σ) (w : World σ) :
    (boot_main_version e w).1 = 0 ∨
    ((boot_main_version e w).1 = rd32 w.mem (MAIN_IMAGE_START_ADDRESS + OFFSET_version) ∧
      (boot_blank_main e w).1 = SSP_SUCCESS ∧ (boot_blank_main e w).2.1 = false ∧
      (verify_image e.crypto w.mem MAIN_IMAGE_START_ADDRESS g_public_key).1 = VERIFY_SUCCESS) := by
  have hm := boot_blank_main_mem e w
  unfold boot_main_version
  dsimp only
  split_ifs with h1 h2 h3
  · right
    rw [call_verify_image_fst, hm] at h3
    exact ⟨by rw [call_verify_image_mem, hm], h1, h2, h3⟩
  · exact Or.inl rfl
  · exact Or.inl rfl
  · exact Or.inl rfl

/-- C13 (what the code does): when `boot` is in the block "version number good" and
`erase_main_image_area` or `flash_main_image_from_update_area` returns an error, `boot`
returns to its caller; neither `NVIC_SystemReset` nor `boot_main_application` is called in
that run. -/
theorem boot_apply_error_returns (e : Env σ) (w : World σ)
    (hbu1 : (boot_blank_update e w).1 = SSP_SUCCESS)
    (hbu2 : (boot_blank_update e w).2.1 = false)
    (hvu : (boot_verify_update e w).1 = VERIFY_SUCCESS)
    (hver : rd32 w.mem (UPDATE_IMAGE_START_ADDRESS + OFFSET_version) ≥ (boot_main_version e w).1)
    (herr : (boot_erase_main e (boot_blank_main e w).2.1 (boot_main_version e w).2).1 ≠ SSP_SUCCESS ∨
      (flash_main_image_from_update_area e.flash e.flash_page_buffer UPDATE_IMAGE_START_ADDRESS
        (update_size (boot_erase_main e (boot_blank_main e w).2.1 (boot_main_version e w).2).2.mem)
        (boot_erase_main e (boot_blank_main e w).2.1 (boot_main_version e w).2).2).1
          ≠ SSP_SUCCESS) :
    (boot e w).branch = Branch.version_number_good ∧
    (boot e w).outcome = Outcome.returned ∧
    Event.NVIC_SystemReset ∉ run_events e w ∧
    Event.boot_main_application ∉ run_events e w := by
  let P : Event → Prop := fun ev => ev ≠ Event.NVIC_SystemReset ∧ ev ≠ Event.boot_main_application
  have hstart : Extends P w.trace (boot_main_version e w).2.trace :=
    boot_main_version_extends_start P e w ⟨by simp, by simp⟩ ⟨by simp, by simp⟩
      (fun _ _ => ⟨by simp, by simp⟩) (fun _ _ => ⟨by simp, by simp⟩)
  have her : Extends P (boot_main_version e w).2.trace
      (boot_erase_main e (boot_blank_main e w).2.1 (boot_main_version e w).2).2.trace :=
    boot_erase_main_extends P e _ _ ⟨by simp, by simp⟩ ⟨by simp, by simp⟩
      (fun _ => ⟨by simp, by simp⟩)
  have hfl : Extends P
      (boot_erase_main e (boot_blank_main e w).2.1 (boot_main_version e w).2).2.trace
      (flash_main_image_from_update_area e.flash e.flash_page_buffer UPDATE_IMAGE_START_ADDRESS
        (update_size (boot_erase_main e (boot_blank_main e w).2.1 (boot_main_version e w).2).2.mem)
        (boot_erase_main e (boot_blank_main e w).2.1 (boot_main_version e w).2).2).2.trace :=
    flash_main_image_extends P e.flash _ _ _ _ ⟨by simp, by simp⟩ ⟨by simp, by simp⟩
      (fun _ _ => ⟨by simp, by simp⟩)
  have hver2 : rd32 (boot_main_version e w).2.mem (UPDATE_IMAGE_START_ADDRESS + OFFSET_version)
      ≥ (boot_main_version e w).1 := by rw [boot_main_version_mem]; exact hver
  have hboot : boot e w = boot_apply e (boot_blank_main e w).2.1 (boot_main_version e w).2 := by
    rw [boot_eq, if_pos hbu1, if_pos hbu2, if_pos hvu, if_pos hver2]
  have hfinal : (boot e w).branch = Branch.version_number_good ∧
      (boot e w).outcome = Outcome.returned ∧ Extends P w.trace (boot e w).world.trace := by
    rw [hboot]
    unfold boot_apply boot_after_flash
    dsimp only
    by_cases h1 : (boot_erase_main e (boot_blank_main e w).2.1 (boot_main_version e w).2).1
        = SSP_SUCCESS
    · have h2 := herr.resolve_left (not_not.mpr h1)
      rw [if_pos h1, if_neg h2]
      exact ⟨rfl, rfl, (hstart.trans her).trans hfl⟩
    · rw [if_neg h1]
      exact ⟨rfl, rfl, hstart.trans her⟩
  refine ⟨hfinal.1, hfinal.2.1, ?_, ?_⟩
  · intro hmem
    exact (hfinal.2.2.drop _ hmem).1 rfl
  · intro hmem
    exact (hfinal.2.2.drop _ hmem).2 rfl

theorem boot_blank_update_reads (e : Env σ) (w : World σ) (hdrv : BlankCheckReads e.flash) :
    (boot_blank_update e w).1 = SSP_SUCCESS ∧
    (boot_blank_update e w).2.1
      = (readBytes w.mem UPDATE_IMAGE_START_ADDRESS UPDATE_IMAGE_MAX_SIZE).all
          (fun b => b == ERASED_STATE) := by
  have h := blank_check_image_area_reads e.flash hdrv UPDATE_IMAGE_START_ADDRESS e.blank_status w
    (by decide) (by decide)
  exact ⟨h.1, h.2.1⟩

theorem boot_blank_main_reads (e : Env σ) (w : World σ) (hdrv : BlankCheckReads e.flash) :
    (boot_blank_main e w).1 = SSP_SUCCESS ∧
    (boot_blank_main e w).2.1
      = (readBytes w.mem MAIN_IMAGE_START_ADDRESS UPDATE_IMAGE_MAX_SIZE).all
          (fun b => b == ERASED_STATE) := by
  have h := blank_check_image_area_reads e.flash hdrv MAIN_IMAGE_START_ADDRESS false
    (boot_verify_update e w).2 (by decide) (by decide)
  rw [boot_verify_update_mem] at h
  exact ⟨h.1, h.2.1⟩

theorem erase_main_image_area_eraseFail (v : World Unit) :
    (erase_main_image_area eraseFailFlash v).1 = 1 := by
  unfold erase_main_image_area
  generalize MAIN_IMAGE_MAX_SIZE / MAIN_IMAGE_ERASE_BLOCK_SIZE = n
  generalize MAIN_IMAGE_START_ADDRESS = M
  rfl

/-- The run of `boot` on the failing erase: UPDATE (version 5) and MAIN (version 3) are
accepted, the version test passes, and `erase_main_image_area` returns an error. -/
theorem env_erase_fails_path :
    (boot_blank_update env_erase_fails (worldOf mem_update5_main3)).1 = SSP_SUCCESS ∧
    (boot_blank_update env_erase_fails (worldOf mem_update5_main3)).2.1 = false ∧
    (boot_verify_update env_erase_fails (worldOf mem_update5_main3)).1 = VERIFY_SUCCESS ∧
    rd32 (worldOf mem_update5_main3).mem (UPDATE_IMAGE_START_ADDRESS + OFFSET_version)
      ≥ (boot_main_version env_erase_fails (worldOf mem_update5_main3)).1 ∧
    (boot_erase_main env_erase_fails
      (boot_blank_main env_erase_fails (worldOf mem_update5_main3)).2.1
      (boot_main_version env_erase_fails (worldOf mem_update5_main3)).2).1 ≠ SSP_SUCCESS := by
  have hdrv : BlankCheckReads env_erase_fails.flash := ⟨fun _ => rfl, fun _ _ _ _ => ⟨rfl, rfl⟩⟩
  have hbu := boot_blank_update_reads env_erase_fails (worldOf mem_update5_main3) hdrv
  have hbm := boot_blank_main_reads env_erase_fails (worldOf mem_update5_main3) hdrv
  have hu : (readBytes (worldOf mem_update5_main3).mem UPDATE_IMAGE_START_ADDRESS
      UPDATE_IMAGE_MAX_SIZE).all (fun b => b == ERASED_STATE) = false :=
    readBytes_all_false _ _ _ (by decide) (by decide)
  have hm : (readBytes (worldOf mem_update5_main3).mem MAIN_IMAGE_START_ADDRESS
      UPDATE_IMAGE_MAX_SIZE).all (fun b => b == ERASED_STATE) = false :=
    readBytes_all_false _ _ _ (by decide) (by decide)
  rw [hu] at hbu
  rw [hm] at hbm
  refine ⟨hbu.1, hbu.2, ?_, ?_, ?_⟩
  · rw [boot_verify_update_fst]
    exact verify_image_acceptAll _ _ _ (by decide) (by decide)
  · rcases boot_main_version_fst env_erase_fails (worldOf mem_update5_main3) with h | h
    · rw [h]
      exact Nat.zero_le _
    · rw [h.1]
      decide
  · rw [hbm.2]
    show (erase_main_image_area eraseFailFlash _).1 ≠ SSP_SUCCESS
    rw [erase_main_image_area_eraseFail]
    decide

theorem boot_apply_error_returns_witness :
    ((boot_blank_update env_erase_fails (worldOf mem_update5_main3)).1 = SSP_SUCCESS ∧
     (boot_blank_update env_erase_fails (worldOf mem_update5_main3)).2.1 = false ∧
     (boot_verify_update env_erase_fails (worldOf mem_update5_main3)).1 = VERIFY_SUCCESS ∧
     rd32 (worldOf mem_update5_main3).mem (UPDATE_IMAGE_START_ADDRESS + OFFSET_version)
       ≥ (boot_main_version env_erase_fails (worldOf mem_update5_main3)).1 ∧
     (boot_erase_main env_erase_fails
       (boot_blank_main env_erase_fails (worldOf mem_update5_main3)).2.1
       (boot_main_version env_erase_fails (worldOf mem_update5_main3)).2).1 ≠ SSP_SUCCESS) ∧
    (boot env_erase_fails (worldOf mem_update5_main3)).outcome = Outcome.returned ∧
    Event.NVIC_SystemReset ∉ run_events env_erase_fails (worldOf mem_update5_main3) :=
  ⟨env_erase_fails_path,
    (boot_apply_error_returns env_erase_fails (worldOf mem_update5_main3)
      env_erase_fails_path.1 env_erase_fails_path.2.1 env_erase_fails_path.2.2.1
      env_erase_fails_path.2.2.2.1 (Or.inl env_erase_fails_path.2.2.2.2)).2.1,
    (boot_apply_error_returns env_erase_fails (worldOf mem_update5_main3)
      env_erase_fails_path.1 env_erase_fails_path.2.1 env_erase_fails_path.2.2.1
      env_erase_fails_path.2.2.2.1 (Or.inl env_erase_fails_path.2.2.2.2)).2.2.1⟩

/-! ### Errors of the blank check -/

theorem blank_check_image_area_error_false (api : flash_api_t σ) (a : Nat) (b0 : Bool)
    (w : World σ) (h0 : a ≠ 0) (h : (blank_check_image_area api a b0 w).1 ≠ SSP_SUCCESS) :
    (blank_check_image_area api a b0 w).2.1 = false := by
  unfold blank_check_image_area at h ⊢
  generalize UPDATE_IMAGE_MAX_SIZE = N at *
  rw [if_neg h0] at h ⊢
  by_cases h1 : ¬ a < INTERNAL_FLASH_START_ADDRESS + TOTAL_INTERNAL_FLASH_SIZE
  · rw [if_pos h1] at h
    exact absurd rfl h
  · rw [if_neg h1] at h ⊢
    dsimp only at h ⊢
    by_cases h2 : (call_open api w).1 ≠ SSP_SUCCESS
    · rw [if_pos h2]
    · rw [if_neg h2] at h ⊢
      have h3 : (call_blankCheck api a N (call_open api w).2).1 ≠ SSP_SUCCESS := h
      show (if _ then false else _) = false
      rw [if_pos h3]

theorem boot_main_version_of_error (e : Env σ) (w : World σ)
    (h : (boot_blank_main e w).1 ≠ SSP_SUCCESS) :
    boot_main_version e w = (0, (boot_blank_main e w).2.2) := by
  unfold boot_main_version
  dsimp only
  rw [if_neg h]

/-- A driver error of the blank check of MAIN: the update is applied, MAIN being taken as
not blank. -/
theorem boot_main_blank_check_error (e : Env σ) (w : World σ)
    (hbu1 : (boot_blank_update e w).1 = SSP_SUCCESS)
    (hbu2 : (boot_blank_update e w).2.1 = false)
    (hvu : (boot_verify_update e w).1 = VERIFY_SUCCESS)
    (hbm : (boot_blank_main e w).1 ≠ SSP_SUCCESS) :
    boot e w = boot_apply e false (boot_blank_main e w).2.2 := by
  have hf : (boot_blank_main e w).2.1 = false :=
    blank_check_image_area_error_false _ _ _ _ (by decide) hbm
  rw [boot_eq, if_pos hbu1, if_pos hbu2, if_pos hvu, boot_main_version_of_error e w hbm, hf]
  exact if_pos (Nat.zero_le _)

theorem boot_apply_outcome (e : Env σ) (blank : Bool) (w : World σ) :
    (boot_apply e blank w).branch = Branch.version_number_good ∧
    (boot_apply e blank w).outcome ≠ Outcome.halt := by
  unfold boot_apply boot_after_flash
  dsimp only
  split_ifs <;> exact ⟨rfl, fun h => Outcome.noConfusion h⟩

theorem boot_verified_main_mem (e : Env σ) (b : Branch) (w : World σ) :
    (boot_verified_main e b w).world.mem = w.mem := by
  unfold boot_verified_main
  dsimp only
  split_ifs <;> rfl

theorem run_events_mem_of_extends {P : Event → Prop} (e : Env σ) (w : World σ)
    (h : Extends P w.trace (boot e w).world.trace) : ∀ ev, ev ∈ run_events e w → P ev :=
  h.drop

/-- What `boot` does on a driver error of a blank check.  On UPDATE: no erase and no
program call is issued, memory is unchanged, and the run ends in `boot_main_application` if
`verify_image(MAIN)` passes and in the halt loop otherwise.  On MAIN (whose blank check is
made only once UPDATE is accepted): the test of line 32 has no else, MAIN is taken as not
blank with version 0, so `boot` goes on with the block "version number good", that is with
`erase_main_image_area` and the programming of MAIN, and does not end in the halt loop. -/
theorem boot_blank_check_error (e : Env σ) (w : World σ) :
    ((boot_blank_update e w).1 ≠ SSP_SUCCESS →
      (boot e w).branch = Branch.blank_check_failed ∧
      (∀ ev, ev ∈ run_events e w → ev.isMutation = false) ∧
      (boot e w).world.mem = w.mem ∧
      (boot e w).outcome =
        if (verify_image e.crypto w.mem MAIN_IMAGE_START_ADDRESS g_public_key).1 = VERIFY_SUCCESS
        then Outcome.boot_main_application else Outcome.halt) ∧
    ((boot_blank_update e w).1 = SSP_SUCCESS → (boot_blank_update e w).2.1 = false →
      (boot_verify_update e w).1 = VERIFY_SUCCESS → (boot_blank_main e w).1 ≠ SSP_SUCCESS →
      boot e w = boot_apply e false (boot_blank_main e w).2.2 ∧
      (boot e w).branch = Branch.version_number_good ∧
      (boot e w).outcome ≠ Outcome.halt) := by
  constructor
  · intro hbu
    have hboot : boot e w = boot_verified_main e Branch.blank_check_failed
        (boot_blank_update e w).2.2 := by
      rw [boot_eq, if_neg hbu]
    have ho := boot_verified_main_outcome e Branch.blank_check_failed (boot_blank_update e w).2.2
    rw [boot_blank_update_mem] at ho
    have hext : Extends (fun ev => ev.isMutation = false) w.trace (boot e w).world.trace := by
      rw [hboot]
      exact (boot_blank_update_extends (fun ev => ev.isMutation = false) e w rfl rfl
        (fun _ _ => rfl)).trans
        (boot_verified_main_extends (fun ev => ev.isMutation = false) e _ _ (fun _ => rfl) rfl)
    refine ⟨by rw [hboot]; exact ho.1, run_events_mem_of_extends e w hext, ?_, by
      rw [hboot]; exact ho.2.1⟩
    rw [hboot, boot_verified_main_mem, boot_blank_update_mem]
  · intro hbu1 hbu2 hvu hbm
    have hboot := boot_main_blank_check_error e w hbu1 hbu2 hvu hbm
    have ho := boot_apply_outcome e false (boot_blank_main e w).2.2
    rw [← hboot] at ho
    exact ⟨hboot, ho.1, ho.2⟩

theorem blank_check_image_area_failAt (addr a : Nat) (b0 : Bool) (v : World Unit) (h0 : a ≠ 0)
    (h1 : a < INTERNAL_FLASH_START_ADDRESS + TOTAL_INTERNAL_FLASH_SIZE) :
    (blank_check_image_area (blankCheckFailAt addr) a b0 v).1
      = (if a = addr then 1 else SSP_SUCCESS) ∧
    (blank_check_image_area (blankCheckFailAt addr) a b0 v).2.1
      = (if a = addr then false
          else (readBytes v.mem a UPDATE_IMAGE_MAX_SIZE).all (fun b => b == ERASED_STATE)) := by
  unfold blank_check_image_area
  rw [if_neg h0, if_neg (not_not.mpr h1)]
  generalize UPDATE_IMAGE_MAX_SIZE = N
  by_cases h : a = addr
  · simp [call_open, call_blankCheck, call_close, blankCheckFailAt, h, SSP_SUCCESS]
  · simp only [call_open, call_blankCheck, call_close, blankCheckFailAt, h, if_false, ne_eq,
      not_true_eq_false, true_and]
    cases (readBytes v.mem a N).all (fun b => b == ERASED_STATE) <;> rfl

theorem run_events_worldOf (e : Env Unit) (m : Mem) :
    run_events e (worldOf m) = (boot e (worldOf m)).world.trace := rfl

theorem erase_main_image_area_event (api : flash_api_t σ) (w : World σ)
    (hopen : ∀ s, (api.flash_open s).1 = SSP_SUCCESS) :
    Event.flash_erase MAIN_IMAGE_START_ADDRESS (MAIN_IMAGE_MAX_SIZE / MAIN_IMAGE_ERASE_BLOCK_SIZE)
      ∈ (erase_main_image_area api w).2.trace := by
  unfold erase_main_image_area
  generalize MAIN_IMAGE_MAX_SIZE / MAIN_IMAGE_ERASE_BLOCK_SIZE = n
  generalize MAIN_IMAGE_START_ADDRESS = M
  simp [call_open, call_erase, call_close, hopen]

theorem boot_apply_extends_erase (e : Env σ) (blank : Bool) (w : World σ) :
    Extends (fun _ => True) (boot_erase_main e blank w).2.trace
      (boot_apply e blank w).world.trace := by
  unfold boot_apply
  dsimp only
  split_ifs
  · exact (flash_main_image_extends _ e.flash _ _ _ _ trivial trivial
      (fun _ _ => trivial)).trans
      (boot_after_flash_extends _ e _ trivial trivial trivial (fun _ => trivial) trivial trivial)
  · exact Extends.refl _ _

theorem boot_erase_main_false (e : Env σ) (w : World σ) :
    boot_erase_main e false w = erase_main_image_area e.flash w := rfl

theorem boot_apply_erases_main (e : Env σ) (w : World σ)
    (hopen : ∀ s, (e.flash.flash_open s).1 = SSP_SUCCESS) :
    Event.flash_erase MAIN_IMAGE_START_ADDRESS (MAIN_IMAGE_MAX_SIZE / MAIN_IMAGE_ERASE_BLOCK_SIZE)
      ∈ (boot_apply e false w).world.trace := by
  have hev := erase_main_image_area_event e.flash w hopen
  rw [← boot_erase_main_false] at hev
  exact (boot_apply_extends_erase e false w).mem _ hev

/-- The run of `boot` when the blank check of MAIN fails: UPDATE (version 5) is found not
blank and is accepted, then the blank check of MAIN returns an error. -/
theorem env_main_blank_check_fails_path :
    (boot_blank_update env_main_blank_check_fails (worldOf mem_update5_main3)).1 = SSP_SUCCESS ∧
    (boot_blank_update env_main_blank_check_fails (worldOf mem_update5_main3)).2.1 = false ∧
    (boot_verify_update env_main_blank_check_fails (worldOf mem_update5_main3)).1
      = VERIFY_SUCCESS ∧
    (boot_blank_main env_main_blank_check_fails (worldOf mem_update5_main3)).1 ≠ SSP_SUCCESS := by
  have hu := blank_check_image_area_failAt MAIN_IMAGE_START_ADDRESS UPDATE_IMAGE_START_ADDRESS
    false (worldOf mem_update5_main3) (by decide) (by decide)
  have hm := blank_check_image_area_failAt MAIN_IMAGE_START_ADDRESS MAIN_IMAGE_START_ADDRESS
    false (boot_verify_update env_main_blank_check_fails (worldOf mem_update5_main3)).2
    (by decide) (by decide)
  rw [if_neg (by decide)] at hu
  rw [if_neg (by decide),
    readBytes_all_false _ _ _ (by decide) (show rd8 (worldOf mem_update5_main3).mem
      UPDATE_IMAGE_START_ADDRESS ≠ ERASED_STATE by decide)] at hu
  rw [if_pos rfl] at hm
  refine ⟨hu.1, hu.2, ?_, ?_⟩
  · rw [boot_verify_update_fst]
    exact verify_image_acceptAll _ _ _ (by decide) (by decide)
  · show (blank_check_image_area (blankCheckFailAt MAIN_IMAGE_START_ADDRESS)
      MAIN_IMAGE_START_ADDRESS false _).1 ≠ SSP_SUCCESS
    rw [hm.1]
    decide

/-- C14, at the failing input: the blank check of MAIN returns a driver error (UPDATE
holds an accepted image of version 5, MAIN one of version 3), and `boot` erases MAIN: the
run is in the block "version number good" and contains the erase call on MAIN, where the
claim has no erase and a decision by `verify_image(MAIN)` alone. -/
theorem boot_main_blank_check_error_erases :
    (boot_blank_main env_main_blank_check_fails (worldOf mem_update5_main3)).1 ≠ SSP_SUCCESS ∧
    (boot env_main_blank_check_fails (worldOf mem_update5_main3)).branch
      = Branch.version_number_good ∧
    Event.flash_erase MAIN_IMAGE_START_ADDRESS 31
      ∈ run_events env_main_blank_check_fails (worldOf mem_update5_main3) := by
  obtain ⟨h1, h2, h3, h4⟩ := env_main_blank_check_fails_path
  have hboot := boot_main_blank_check_error _ _ h1 h2 h3 h4
  have ho := boot_apply_outcome env_main_blank_check_fails false
    (boot_blank_main env_main_blank_check_fails (worldOf mem_update5_main3)).2.2
  rw [← hboot] at ho
  refine ⟨h4, ho.1, ?_⟩
  rw [run_events_worldOf, hboot]
  have hev := boot_apply_erases_main env_main_blank_check_fails
    (boot_blank_main env_main_blank_check_fails (worldOf mem_update5_main3)).2.2 (fun _ => rfl)
  have h31 : MAIN_IMAGE_MAX_SIZE / MAIN_IMAGE_ERASE_BLOCK_SIZE = 31 := by decide
  rw [h31] at hev
  exact hev

theorem env_update_blank_check_fails_path :
    (boot_blank_update env_update_blank_check_fails (worldOf mem_update5_main3)).1
      ≠ SSP_SUCCESS := by
  have hu := blank_check_image_area_failAt UPDATE_IMAGE_START_ADDRESS UPDATE_IMAGE_START_ADDRESS
    false (worldOf mem_update5_main3) (by decide) (by decide)
  rw [if_pos rfl] at hu
  show (blank_check_image_area (blankCheckFailAt UPDATE_IMAGE_START_ADDRESS)
      UPDATE_IMAGE_START_ADDRESS false _).1 ≠ SSP_SUCCESS
  rw [hu.1]
  decide

theorem boot_blank_check_error_witness :
    ((boot_blank_update env_update_blank_check_fails (worldOf mem_update5_main3)).1
        ≠ SSP_SUCCESS ∧
      (boot env_update_blank_check_fails (worldOf mem_update5_main3)).branch
        = Branch.blank_check_failed ∧
      (∀ ev, ev ∈ run_events env_update_blank_check_fails (worldOf mem_update5_main3) →
        ev.isMutation = false)) ∧
    (((boot_blank_update env_main_blank_check_fails (worldOf mem_update5_main3)).1
        = SSP_SUCCESS ∧
      (boot_blank_update env_main_blank_check_fails (worldOf mem_update5_main3)).2.1 = false ∧
      (boot_verify_update env_main_blank_check_fails (worldOf mem_update5_main3)).1
        = VERIFY_SUCCESS ∧
      (boot_blank_main env_main_blank_check_fails (worldOf mem_update5_main3)).1
        ≠ SSP_SUCCESS) ∧
      (boot env_main_blank_check_fails (worldOf mem_update5_main3)).outcome ≠ Outcome.halt) :=
  ⟨⟨env_update_blank_check_fails_path,
      ((boot_blank_check_error env_update_blank_check_fails (worldOf mem_update5_main3)).1
        env_update_blank_check_fails_path).1,
      ((boot_blank_check_error env_update_blank_check_fails (worldOf mem_update5_main3)).1
        env_update_blank_check_fails_path).2.1⟩,
    env_main_blank_check_fails_path,
    ((boot_blank_check_error env_main_blank_check_fails (worldOf mem_update5_main3)).2
      env_main_blank_check_fails_path.1 env_main_blank_check_fails_path.2.1
      env_main_blank_check_fails_path.2.2.1 env_main_blank_check_fails_path.2.2.2).2.2⟩

/-! ### The halt loop -/

theorem verify_image_fst_cases (c : Crypto) (mem : Mem) (p : Nat) (key : List Nat) :
    (verify_image c mem p key).1 = VERIFY_FAIL ∨ (verify_image c mem p key).1 = VERIFY_SUCCESS := by
  unfold verify_image
  dsimp only
  split_ifs
  all_goals first
    | exact Or.inl rfl
    | exact Or.inr rfl

theorem boot_verified_main_halt_last (e : Env σ) (b : Branch) (w : World σ)
    (h : (boot_verified_main e b w).outcome = Outcome.halt) :
    (boot_verified_main e b w).world.trace.getLast?
      = some (Event.verify_image MAIN_IMAGE_START_ADDRESS VERIFY_FAIL) := by
  have ho := (boot_verified_main_outcome e b w).2.1
  by_cases hv : (verify_image e.crypto w.mem MAIN_IMAGE_START_ADDRESS g_public_key).1
      = VERIFY_SUCCESS
  · rw [ho, if_pos hv] at h
    exact Outcome.noConfusion h
  · have hf : (verify_image e.crypto w.mem MAIN_IMAGE_START_ADDRESS g_public_key).1
        = VERIFY_FAIL := (verify_image_fst_cases _ _ _ _).resolve_right hv
    rw [(boot_verified_main_halts e b w hv).2.2.2, hf]
    generalize MAIN_IMAGE_START_ADDRESS = M
    simp

theorem boot_apply_not_halt (e : Env σ) (blank : Bool) (w : World σ) :
    (boot_apply e blank w).outcome ≠ Outcome.halt :=
  (boot_apply_outcome e blank w).2

/-- C15, as the code has it: a run of `boot` that ends in the halt loop ends with a
`verify_image(MAIN)` that returned `VERIFY_FAIL`, and in that run either the blank check of
UPDATE returned a driver error, or UPDATE was reported blank, or `verify_image` rejected
UPDATE, or UPDATE was accepted with a version lower than the one of MAIN, itself accepted
before UPDATE was erased. -/
theorem boot_halt_cases (e : Env σ) (w : World σ) (h : (boot e w).outcome = Outcome.halt) :
    (boot e w).world.trace.getLast?
      = some (Event.verify_image MAIN_IMAGE_START_ADDRESS VERIFY_FAIL) ∧
    ((boot_blank_update e w).1 ≠ SSP_SUCCESS ∨
     ((boot_blank_update e w).1 = SSP_SUCCESS ∧ (boot_blank_update e w).2.1 = true) ∨
     ((boot_blank_update e w).1 = SSP_SUCCESS ∧ (boot_blank_update e w).2.1 = false ∧
       (verify_image e.crypto w.mem UPDATE_IMAGE_START_ADDRESS g_public_key).1 = VERIFY_FAIL) ∨
     ((boot_blank_update e w).1 = SSP_SUCCESS ∧ (boot_blank_update e w).2.1 = false ∧
       (verify_image e.crypto w.mem UPDATE_IMAGE_START_ADDRESS g_public_key).1 = VERIFY_SUCCESS ∧
       (verify_image e.crypto w.mem MAIN_IMAGE_START_ADDRESS g_public_key).1 = VERIFY_SUCCESS ∧
       rd32 w.mem (UPDATE_IMAGE_START_ADDRESS + OFFSET_version)
         < rd32 w.mem (MAIN_IMAGE_START_ADDRESS + OFFSET_version))) := by
  rw [boot_eq] at h ⊢
  by_cases h1 : (boot_blank_update e w).1 = SSP_SUCCESS
  · rw [if_pos h1] at h ⊢
    by_cases h2 : (boot_blank_update e w).2.1 = false
    · rw [if_pos h2] at h ⊢
      by_cases h3 : (boot_verify_update e w).1 = VERIFY_SUCCESS
      · rw [if_pos h3] at h ⊢
        by_cases h4 : rd32 (boot_main_version e w).2.mem
            (UPDATE_IMAGE_START_ADDRESS + OFFSET_version) ≥ (boot_main_version e w).1
        · rw [if_pos h4] at h
          exact absurd h (boot_apply_not_halt _ _ _)
        · rw [if_neg h4] at h ⊢
          refine ⟨boot_verified_main_halt_last _ _ _ h, Or.inr (Or.inr (Or.inr ?_))⟩
          rw [boot_main_version_mem] at h4
          rw [boot_verify_update_fst] at h3
          rcases boot_main_version_fst e w with h0 | h0
          · rw [h0] at h4
            exact absurd (Nat.zero_le _) h4
          · rw [h0.1] at h4
            exact ⟨h1, h2, h3, h0.2.2.2, Nat.not_le.mp h4⟩
      · rw [if_neg h3] at h ⊢
        refine ⟨boot_verified_main_halt_last _ _ _ h, Or.inr (Or.inr (Or.inl ⟨h1, h2, ?_⟩))⟩
        rw [boot_verify_update_fst] at h3
        exact (verify_image_fst_cases _ _ _ _).resolve_right h3
    · rw [if_neg h2] at h ⊢
      refine ⟨boot_verified_main_halt_last _ _ _ h, Or.inr (Or.inl ⟨h1, ?_⟩)⟩
      simpa using h2
  · rw [if_neg h1] at h ⊢
    exact ⟨boot_verified_main_halt_last _ _ _ h, Or.inl h1⟩

theorem boot_update_blank_check_fails_halts :
    (boot env_update_blank_check_fails (worldOf mem_update5_main_invalid)).outcome
      = Outcome.halt := by
  have hu := blank_check_image_area_failAt UPDATE_IMAGE_START_ADDRESS UPDATE_IMAGE_START_ADDRESS
    false (worldOf mem_update5_main_invalid) (by decide) (by decide)
  rw [if_pos rfl] at hu
  have h1 : (boot_blank_update env_update_blank_check_fails
      (worldOf mem_update5_main_invalid)).1 ≠ SSP_SUCCESS := by
    show (blank_check_image_area (blankCheckFailAt UPDATE_IMAGE_START_ADDRESS)
      UPDATE_IMAGE_START_ADDRESS false _).1 ≠ SSP_SUCCESS
    rw [hu.1]
    decide
  have hvm : (verify_image env_update_blank_check_fails.crypto
      (boot_blank_update env_update_blank_check_fails (worldOf mem_update5_main_invalid)).2.2.mem
      MAIN_IMAGE_START_ADDRESS g_public_key).1 ≠ VERIFY_SUCCESS := by
    rw [boot_blank_update_mem]
    unfold verify_image
    rw [if_pos (by decide)]
    decide
  rw [boot_eq, if_neg h1]
  exact (boot_verified_main_halts _ _ _ hvm).1

/-- C15, counterexample to the claim as stated: UPDATE holds an image that `verify_image`
accepts, MAIN holds no image, and the blank check of UPDATE returns a driver error.  The
run ends in the halt loop. -/
theorem boot_halts_with_valid_update :
    (verify_image cryptoAcceptAll mem_update5_main_invalid UPDATE_IMAGE_START_ADDRESS
      g_public_key).1 = VERIFY_SUCCESS ∧
    (boot env_update_blank_check_fails (worldOf mem_update5_main_invalid)).outcome
      = Outcome.halt ∧
    (boot env_update_blank_check_fails (worldOf mem_update5_main_invalid)).branch
      = Branch.blank_check_failed := by
  refine ⟨verify_image_acceptAll _ _ _ (by decide) (by decide),
    boot_update_blank_check_fails_halts, ?_⟩
  have hu := blank_check_image_area_failAt UPDATE_IMAGE_START_ADDRESS UPDATE_IMAGE_START_ADDRESS
    false (worldOf mem_update5_main_invalid) (by decide) (by decide)
  rw [if_pos rfl] at hu
  have h1 : (boot_blank_update env_update_blank_check_fails
      (worldOf mem_update5_main_invalid)).1 ≠ SSP_SUCCESS := by
    show (blank_check_image_area (blankCheckFailAt UPDATE_IMAGE_START_ADDRESS)
      UPDATE_IMAGE_START_ADDRESS false _).1 ≠ SSP_SUCCESS
    rw [hu.1]
    decide
  rw [boot_eq, if_neg h1]
  exact (boot_verified_main_outcome _ _ _).1

theorem boot_halt_cases_witness :
    (boot env_update_blank_check_fails (worldOf mem_update5_main_invalid)).outcome
      = Outcome.halt ∧
    (boot env_update_blank_check_fails (worldOf mem_update5_main_invalid)).world.trace.getLast?
      = some (Event.verify_image MAIN_IMAGE_START_ADDRESS VERIFY_FAIL) :=
  ⟨boot_update_blank_check_fails_halts,
    (boot_halt_cases env_update_blank_check_fails (worldOf mem_update5_main_invalid)
      boot_update_blank_check_fails_halts).1⟩

/-! ### Erase and program calls come after `verify_image(UPDATE)` -/

theorem split_after_marker (s1 s3 pre post : List Event) (v ev : Event)
    (h : s1 ++ v :: s3 = pre ++ ev :: post) (hs1 : ∀ x, x ∈ s1 → x.isMutation = false)
    (hv : v.isMutation = false) (hev : ev.isMutation = true) : v ∈ pre ∧ ev ∈ s3 := by
  rcases List.append_eq_append_iff.mp h with ⟨a, ha1, ha2⟩ | ⟨c, hc1, hc2⟩
  · cases a with
    | nil =>
      simp only [List.nil_append, List.cons.injEq] at ha2
      rw [ha2.1, hev] at hv
      exact absurd hv (by decide)
    | cons x a2 =>
      simp only [List.cons_append, List.cons.injEq] at ha2
      refine ⟨?_, ?_⟩
      · rw [ha1, ha2.1]
        simp
      · rw [ha2.2]
        simp
  · cases c with
    | nil =>
      simp only [List.nil_append, List.cons.injEq] at hc2
      rw [← hc2.1, hev] at hv
      exact absurd hv (by decide)
    | cons x c2 =>
      simp only [List.cons_append, List.cons.injEq] at hc2
      have hx : x ∈ s1 := by rw [hc1]; simp
      have := hs1 x hx
      rw [← hc2.1, hev] at this
      exact absurd this (by decide)

/-- After `verify_image(UPDATE)`: every erase or program call other than the erase of
UPDATE is in a run in which `verify_image(UPDATE)` returned `VERIFY_SUCCESS`. -/
theorem boot_after_verify_update (e : Env σ) (w : World σ)
    (hbu1 : (boot_blank_update e w).1 = SSP_SUCCESS)
    (hbu2 : (boot_blank_update e w).2.1 = false) :
    Extends (fun ev => ev.isMutation = true →
        ev ≠ Event.flash_erase UPDATE_IMAGE_START_ADDRESS 31 →
        (boot_verify_update e w).1 = VERIFY_SUCCESS)
      (boot_verify_update e w).2.trace (boot e w).world.trace := by
  have h31 : UPDATE_IMAGE_MAX_SIZE / UPDATE_IMAGE_ERASE_BLOCK_SIZE = 31 := by decide
  rw [boot_eq, if_pos hbu1, if_pos hbu2]
  by_cases h3 : (boot_verify_update e w).1 = VERIFY_SUCCESS
  · rw [if_pos h3]
    have hmv := boot_main_version_extends (fun ev => ev.isMutation = true →
        ev ≠ Event.flash_erase UPDATE_IMAGE_START_ADDRESS 31 →
        (boot_verify_update e w).1 = VERIFY_SUCCESS) e w (fun _ _ => h3) (fun _ _ => h3)
      (fun _ _ _ _ => h3) (fun _ _ _ => h3)
    split_ifs
    · exact hmv.trans (boot_apply_extends _ e _ _ (fun _ _ => h3) (fun _ _ => h3)
        (fun _ _ => h3) (fun _ _ _ => h3) (fun _ _ => h3) (fun _ _ => h3) (fun _ _ _ => h3)
        (fun _ _ _ _ => h3))
    · exact hmv.trans (boot_discard_extends _ e _ _ (fun _ _ => h3) (fun _ _ => h3)
        (fun _ _ => h3) (fun _ _ _ => h3) (fun _ _ => h3))
  · rw [if_neg h3]
    exact boot_discard_extends _ e _ _ (fun h => absurd h (by decide))
      (fun h => absurd h (by decide)) (fun _ h => absurd (h31 ▸ rfl) h)
      (fun _ h => Bool.noConfusion h) (fun h => absurd h (by decide))

/-- The events of the scenario "UPDATE version 2, MAIN version 3". -/
theorem run_events_update2_main3 :
    run_events env_ideal (worldOf mem_update2_main3) =
      [Event.flash_open, Event.flash_blankCheck UPDATE_IMAGE_START_ADDRESS UPDATE_IMAGE_MAX_SIZE,
       Event.flash_close, Event.verify_image UPDATE_IMAGE_START_ADDRESS VERIFY_SUCCESS,
       Event.flash_open, Event.flash_blankCheck MAIN_IMAGE_START_ADDRESS UPDATE_IMAGE_MAX_SIZE,
       Event.flash_close, Event.verify_image MAIN_IMAGE_START_ADDRESS VERIFY_SUCCESS,
       Event.flash_open] ++ Event.flash_erase UPDATE_IMAGE_START_ADDRESS 31 ::
      [Event.flash_close, Event.verify_image MAIN_IMAGE_START_ADDRESS VERIFY_SUCCESS,
       Event.boot_main_application] := by
  have hvu : (verify_image cryptoAcceptAll mem_update2_main3 UPDATE_IMAGE_START_ADDRESS
      g_public_key).1 = VERIFY_SUCCESS :=
    verify_image_acceptAll _ _ _ (by decide) (by decide)
  have hvm : (verify_image cryptoAcceptAll mem_update2_main3 MAIN_IMAGE_START_ADDRESS
      g_public_key).1 = VERIFY_SUCCESS :=
    verify_image_acceptAll _ _ _ (by decide) (by decide)
  have hver : rd32 mem_update2_main3 (UPDATE_IMAGE_START_ADDRESS + OFFSET_version)
      < rd32 mem_update2_main3 (MAIN_IMAGE_START_ADDRESS + OFFSET_version) := by decide
  have hlen : rd32 mem_update2_main3 (MAIN_IMAGE_START_ADDRESS + OFFSET_length) + 72
      ≤ MAIN_IMAGE_MAX_SIZE := by decide
  have h := (boot_ideal_discard_end_to_end cryptoAcceptAll false (fun _ => 0) mem_update2_main3
    hvu hvm hver hlen).2.1
  rw [run_events_worldOf]
  unfold env_ideal worldOf
  rw [h]
  generalize UPDATE_IMAGE_START_ADDRESS = U
  generalize MAIN_IMAGE_START_ADDRESS = M
  generalize UPDATE_IMAGE_MAX_SIZE = N
  simp only [List.cons_append, List.nil_append]

/-- The runs in which the blank check of UPDATE fails or reports blank issue no erase and no
program call. -/
theorem boot_no_update_quiet (e : Env σ) (w : World σ)
    (h : ¬ ((boot_blank_update e w).1 = SSP_SUCCESS ∧ (boot_blank_update e w).2.1 = false)) :
    Extends (fun ev => ev.isMutation = false) w.trace (boot e w).world.trace := by
  have ha := boot_blank_update_extends (fun ev => ev.isMutation = false) e w rfl rfl
    (fun _ _ => rfl)
  rw [boot_eq]
  by_cases h1 : (boot_blank_update e w).1 = SSP_SUCCESS
  · have h2 : ¬ (boot_blank_update e w).2.1 = false := fun h2 => h ⟨h1, h2⟩
    rw [if_pos h1, if_neg h2]
    exact ha.trans (boot_verified_main_extends (fun ev => ev.isMutation = false) e _ _
      (fun _ => rfl) rfl)
  · rw [if_neg h1]
    exact ha.trans (boot_verified_main_extends (fun ev => ev.isMutation = false) e _ _
      (fun _ => rfl) rfl)

/-- C17: in every run of `boot`, every erase or program call comes after the
`verify_image(UPDATE)` of that run, and every erase or program call other than the erase of
UPDATE (hence every erase and every program of MAIN) is made only if that
`verify_image(UPDATE)` returned `VERIFY_SUCCESS`.  In particular, if `verify_image` does
not accept the content of UPDATE, the only erase or program call a run can issue is the
erase of UPDATE. -/
theorem boot_mutations_after_verify_update (e : Env σ) (w : World σ) :
    (∀ pre ev post, run_events e w = pre ++ ev :: post → ev.isMutation = true →
      Event.verify_image UPDATE_IMAGE_START_ADDRESS
          (verify_image e.crypto w.mem UPDATE_IMAGE_START_ADDRESS g_public_key).1 ∈ pre ∧
      (ev ≠ Event.flash_erase UPDATE_IMAGE_START_ADDRESS 31 →
        (verify_image e.crypto w.mem UPDATE_IMAGE_START_ADDRESS g_public_key).1
          = VERIFY_SUCCESS)) ∧
    ((verify_image e.crypto w.mem UPDATE_IMAGE_START_ADDRESS g_public_key).1 ≠ VERIFY_SUCCESS →
      ∀ ev, ev ∈ run_events e w → ev.isMutation = true →
        ev = Event.flash_erase UPDATE_IMAGE_START_ADDRESS 31) := by
  have first : ∀ pre ev post, run_events e w = pre ++ ev :: post → ev.isMutation = true →
      Event.verify_image UPDATE_IMAGE_START_ADDRESS
          (verify_image e.crypto w.mem UPDATE_IMAGE_START_ADDRESS g_public_key).1 ∈ pre ∧
      (ev ≠ Event.flash_erase UPDATE_IMAGE_START_ADDRESS 31 →
        (verify_image e.crypto w.mem UPDATE_IMAGE_START_ADDRESS g_public_key).1
          = VERIFY_SUCCESS) := by
    intro pre ev post hsplit hev
    by_cases h : (boot_blank_update e w).1 = SSP_SUCCESS ∧ (boot_blank_update e w).2.1 = false
    · obtain ⟨s1, hs1, hq1⟩ := boot_blank_update_extends (fun ev => ev.isMutation = false) e w
        rfl rfl (fun _ _ => rfl)
      obtain ⟨s3, hs3, hq3⟩ := boot_after_verify_update e w h.1 h.2
      rw [boot_verify_update_trace, hs1] at hs3
      have hrun : run_events e w = s1 ++
          Event.verify_image UPDATE_IMAGE_START_ADDRESS (boot_verify_update e w).1 :: s3 := by
        apply run_events_eq
        rw [hs3]
        simp only [List.append_assoc, List.singleton_append]
      rw [hrun] at hsplit
      obtain ⟨k1, k2⟩ := split_after_marker _ _ _ _ _ _ hsplit hq1 rfl hev
      rw [boot_verify_update_fst] at k1
      refine ⟨k1, fun hne => ?_⟩
      have := hq3 ev k2 hev hne
      rwa [boot_verify_update_fst] at this
    · have hq := run_events_mem_of_extends e w (boot_no_update_quiet e w h) ev
        (by rw [hsplit]; simp)
      rw [hev] at hq
      exact absurd hq (by decide)
  refine ⟨first, ?_⟩
  intro hv ev hmem hev
  obtain ⟨pre, post, hsplit⟩ := List.append_of_mem hmem
  by_contra hne
  exact hv ((first pre ev post hsplit hev).2 hne)

theorem boot_mutations_after_verify_update_witness :
    run_events env_ideal (worldOf mem_update2_main3) =
      [Event.flash_open, Event.flash_blankCheck UPDATE_IMAGE_START_ADDRESS UPDATE_IMAGE_MAX_SIZE,
       Event.flash_close, Event.verify_image UPDATE_IMAGE_START_ADDRESS VERIFY_SUCCESS,
       Event.flash_open, Event.flash_blankCheck MAIN_IMAGE_START_ADDRESS UPDATE_IMAGE_MAX_SIZE,
       Event.flash_close, Event.verify_image MAIN_IMAGE_START_ADDRESS VERIFY_SUCCESS,
       Event.flash_open] ++ Event.flash_erase UPDATE_IMAGE_START_ADDRESS 31 ::
      [Event.flash_close, Event.verify_image MAIN_IMAGE_START_ADDRESS VERIFY_SUCCESS,
       Event.boot_main_application] ∧
    (Event.flash_erase UPDATE_IMAGE_START_ADDRESS 31).isMutation = true ∧
    Event.verify_image UPDATE_IMAGE_START_ADDRESS
        (verify_image env_ideal.crypto (worldOf mem_update2_main3).mem UPDATE_IMAGE_START_ADDRESS
          g_public_key).1 ∈
      [Event.flash_open, Event.flash_blankCheck UPDATE_IMAGE_START_ADDRESS UPDATE_IMAGE_MAX_SIZE,
       Event.flash_close, Event.verify_image UPDATE_IMAGE_START_ADDRESS VERIFY_SUCCESS,
       Event.flash_open, Event.flash_blankCheck MAIN_IMAGE_START_ADDRESS UPDATE_IMAGE_MAX_SIZE,
       Event.flash_close, Event.verify_image MAIN_IMAGE_START_ADDRESS VERIFY_SUCCESS,
       Event.flash_open] :=
  ⟨run_events_update2_main3, rfl,
    ((boot_mutations_after_verify_update env_ideal (worldOf mem_update2_main3)).1 _ _ _
      run_events_update2_main3 rfl).1⟩

/-! ### The byte count passed to `flash_main_image_from_update_area` -/

theorem update_size_eq (mem : Mem) :
    update_size mem
      = wrap32 (rd32 mem (UPDATE_IMAGE_START_ADDRESS + OFFSET_length) + 4 + SIGNATURE_LEN_BYTES + 4) := by
  have hSB : SIGNATURE_LEN_BYTES = 64 := by decide
  have hML : MAGIC_NUMBER_LEN = 4 := rfl
  unfold update_size
  rw [hSB, hML]

theorem erase_main_image_area_length (api : flash_api_t σ) (w : World σ)
    (hframe : ∀ s m, rd32 (api.erase MAIN_IMAGE_START_ADDRESS
        (MAIN_IMAGE_MAX_SIZE / MAIN_IMAGE_ERASE_BLOCK_SIZE) s m).2.2
        (UPDATE_IMAGE_START_ADDRESS + OFFSET_length)
      = rd32 m (UPDATE_IMAGE_START_ADDRESS + OFFSET_length)) :
    rd32 (erase_main_image_area api w).2.mem (UPDATE_IMAGE_START_ADDRESS + OFFSET_length)
      = rd32 w.mem (UPDATE_IMAGE_START_ADDRESS + OFFSET_length) := by
  unfold erase_main_image_area
  generalize MAIN_IMAGE_MAX_SIZE / MAIN_IMAGE_ERASE_BLOCK_SIZE = n at *
  generalize MAIN_IMAGE_START_ADDRESS = M at *
  generalize UPDATE_IMAGE_START_ADDRESS + OFFSET_length = a at *
  dsimp only
  split_ifs
  · rfl
  · exact hframe _ _

/-- The driver calls of `flash_main_image_from_update_area` for a byte count within the
capacity: every write is a whole number of pages inside the MAIN slot. -/
theorem flash_main_image_writes_in_main (api : flash_api_t σ) (buf : Buf) (a n : Nat)
    (w : World σ) (hn : n ≤ MAIN_IMAGE_MAX_SIZE) :
    Extends (fun ev => ∀ d dest, ev = Event.flash_write d dest →
        MAIN_IMAGE_START_ADDRESS ≤ dest ∧
        dest + d.length ≤ MAIN_IMAGE_START_ADDRESS + MAIN_IMAGE_MAX_SIZE ∧
        d.length % MAIN_FLASH_PROGRAMMING_PAGE_SIZE = 0)
      w.trace (flash_main_image_from_update_area api buf a n w).2.trace := by
  have hM : MAIN_IMAGE_START_ADDRESS = 65536 := rfl
  have hMAX : MAIN_IMAGE_MAX_SIZE = 1015808 := by decide
  have hP : MAIN_FLASH_PROGRAMMING_PAGE_SIZE = 128 := rfl
  rw [hMAX] at hn
  rw [hM, hMAX, hP]
  have h1 : ∀ d dest, Event.flash_open = Event.flash_write d dest →
      65536 ≤ dest ∧ dest + d.length ≤ 65536 + 1015808 ∧ d.length % 128 = 0 :=
    fun _ _ h => Event.noConfusion h
  have h2 : ∀ d dest, Event.flash_close = Event.flash_write d dest →
      65536 ≤ dest ∧ dest + d.length ≤ 65536 + 1015808 ∧ d.length % 128 = 0 :=
    fun _ _ h => Event.noConfusion h
  unfold flash_main_image_from_update_area
  rw [hM, hP]
  dsimp only
  by_cases h0 : a = 0 ∨ n = 0
  · rw [if_pos h0]
    exact Extends.refl _ _
  · rw [if_neg h0]
    by_cases ho : (call_open api w).1 ≠ SSP_SUCCESS
    · rw [if_pos ho]
      exact call_open_extends _ api w h1
    · rw [if_neg ho]
      have hw1 : ∀ (k : Nat) (m : Mem) (v : World σ), k ≤ 1015808 → k % 128 = 0 →
          Extends (fun ev => ∀ d dest, ev = Event.flash_write d dest →
          65536 ≤ dest ∧ dest + d.length ≤ 65536 + 1015808 ∧ d.length % 128 = 0) v.trace
          (call_write api (readBytes m a k) 65536 v).2.trace := by
        intro k m v hk1 hk2
        apply call_write_extends
        intro d dest h
        injection h with hd hdest
        rw [← hd, ← hdest, readBytes_length]
        omega
      have hw2 : ∀ (k : Nat) (v : World σ) (src : List Nat), k + 128 ≤ 1015808 →
          Extends (fun ev => ∀ d dest, ev = Event.flash_write d dest →
          65536 ≤ dest ∧ dest + d.length ≤ 65536 + 1015808 ∧ d.length % 128 = 0) v.trace
          (call_write api (bufBytes (memcpy (memset buf 0 255 128) 0 src) 128)
            (wrap32 (65536 + k)) v).2.trace := by
        intro k v src hk
        apply call_write_extends
        intro d dest h
        injection h with hd hdest
        rw [← hd, ← hdest, bufBytes_length]
        unfold wrap32
        omega
      split_ifs
      all_goals first
        | exact (((call_open_extends _ api w h1).trans (hw1 _ _ _ (by omega) (by omega))).trans
            (hw2 _ _ _ (by omega))).trans (call_close_extends _ api _ h2)
        | exact ((call_open_extends _ api w h1).trans (hw1 _ _ _ (by omega) (by omega))).trans
            (call_close_extends _ api _ h2)

/-- C18: when `boot` gets to the call of `flash_main_image_from_update_area` (UPDATE found
not blank and accepted, version test passed, MAIN erased without error or found blank),
over a driver whose erase of MAIN leaves the length field of UPDATE as it is: the byte
count passed is the declared total that `verify_image` checked for UPDATE, `length + 72` in
32-bit arithmetic; it is at most `MAIN_IMAGE_MAX_SIZE`; and every write of that call, and
of the whole run, is a whole number of 128-byte pages lying inside
`[MAIN_IMAGE_START_ADDRESS, MAIN_IMAGE_START_ADDRESS + MAIN_IMAGE_MAX_SIZE)`. -/
theorem boot_flash_call_size (e : Env σ) (w : World σ)
    (hbu1 : (boot_blank_update e w).1 = SSP_SUCCESS)
    (hbu2 : (boot_blank_update e w).2.1 = false)
    (hvu : (boot_verify_update e w).1 = VERIFY_SUCCESS)
    (hver : rd32 w.mem (UPDATE_IMAGE_START_ADDRESS + OFFSET_version) ≥ (boot_main_version e w).1)
    (her : (boot_erase_main e (boot_blank_main e w).2.1 (boot_main_version e w).2).1 = SSP_SUCCESS)
    (hframe : ∀ s m, rd32 (e.flash.erase MAIN_IMAGE_START_ADDRESS
        (MAIN_IMAGE_MAX_SIZE / MAIN_IMAGE_ERASE_BLOCK_SIZE) s m).2.2
        (UPDATE_IMAGE_START_ADDRESS + OFFSET_length)
      = rd32 m (UPDATE_IMAGE_START_ADDRESS + OFFSET_length)) :
    let wf := (boot_erase_main e (boot_blank_main e w).2.1 (boot_main_version e w).2).2
    let fl := flash_main_image_from_update_area e.flash e.flash_page_buffer
      UPDATE_IMAGE_START_ADDRESS (update_size wf.mem) wf
    boot e w = boot_after_flash e fl ∧
    update_size wf.mem
      = wrap32 (rd32 w.mem (UPDATE_IMAGE_START_ADDRESS + OFFSET_length) + 4
          + SIGNATURE_LEN_BYTES + 4) ∧
    update_size wf.mem = wrap32 (rd32 w.mem (UPDATE_IMAGE_START_ADDRESS + OFFSET_length) + 72) ∧
    (verify_image e.crypto w.mem UPDATE_IMAGE_START_ADDRESS g_public_key).1 = VERIFY_SUCCESS ∧
    update_size wf.mem ≤ MAIN_IMAGE_MAX_SIZE ∧
    (∀ d dest, Event.flash_write d dest ∈ fl.2.trace.drop wf.trace.length →
      MAIN_IMAGE_START_ADDRESS ≤ dest ∧
      dest + d.length ≤ MAIN_IMAGE_START_ADDRESS + MAIN_IMAGE_MAX_SIZE ∧
      d.length % MAIN_FLASH_PROGRAMMING_PAGE_SIZE = 0) ∧
    (∀ d dest, Event.flash_write d dest ∈ run_events e w →
      MAIN_IMAGE_START_ADDRESS ≤ dest ∧
      dest + d.length ≤ MAIN_IMAGE_START_ADDRESS + MAIN_IMAGE_MAX_SIZE ∧
      d.length % MAIN_FLASH_PROGRAMMING_PAGE_SIZE = 0) := by
  intro wf fl
  have hvu2 : (verify_image e.crypto w.mem UPDATE_IMAGE_START_ADDRESS g_public_key).1
      = VERIFY_SUCCESS := by rw [← boot_verify_update_fst]; exact hvu
  have hver2 : rd32 (boot_main_version e w).2.mem (UPDATE_IMAGE_START_ADDRESS + OFFSET_version)
      ≥ (boot_main_version e w).1 := by rw [boot_main_version_mem]; exact hver
  have hboot : boot e w = boot_after_flash e fl := by
    rw [boot_eq, if_pos hbu1, if_pos hbu2, if_pos hvu, if_pos hver2]
    unfold boot_apply
    dsimp only
    rw [if_pos her]
  have hlen : rd32 wf.mem (UPDATE_IMAGE_START_ADDRESS + OFFSET_length)
      = rd32 w.mem (UPDATE_IMAGE_START_ADDRESS + OFFSET_length) := by
    show rd32 (boot_erase_main e (boot_blank_main e w).2.1 (boot_main_version e w).2).2.mem _ = _
    unfold boot_erase_main
    split_ifs
    · rw [erase_main_image_area_length e.flash _ hframe, boot_main_version_mem]
    · rw [boot_main_version_mem]
  have hsize : update_size wf.mem
      = wrap32 (rd32 w.mem (UPDATE_IMAGE_START_ADDRESS + OFFSET_length) + 4
          + SIGNATURE_LEN_BYTES + 4) := by
    rw [update_size_eq, hlen]
  have hle : update_size wf.mem ≤ MAIN_IMAGE_MAX_SIZE := by
    rw [hsize]
    exact (verify_image_success _ _ _ _ hvu2).2
  have hsize72 : update_size wf.mem
      = wrap32 (rd32 w.mem (UPDATE_IMAGE_START_ADDRESS + OFFSET_length) + 72) := by
    have hSB : SIGNATURE_LEN_BYTES = 64 := by decide
    rw [hsize, hSB]
  have hwr := flash_main_image_writes_in_main e.flash e.flash_page_buffer
    UPDATE_IMAGE_START_ADDRESS (update_size wf.mem) wf hle
  have hrun : Extends (fun ev => ∀ d dest, ev = Event.flash_write d dest →
        MAIN_IMAGE_START_ADDRESS ≤ dest ∧
        dest + d.length ≤ MAIN_IMAGE_START_ADDRESS + MAIN_IMAGE_MAX_SIZE ∧
        d.length % MAIN_FLASH_PROGRAMMING_PAGE_SIZE = 0) w.trace (boot e w).world.trace := by
    rw [hboot]
    exact (((boot_main_version_extends_start _ e w (fun _ _ h => Event.noConfusion h)
      (fun _ _ h => Event.noConfusion h) (fun _ _ _ _ h => Event.noConfusion h)
      (fun _ _ _ _ h => Event.noConfusion h)).trans
      (boot_erase_main_extends _ e _ _ (fun _ _ h => Event.noConfusion h)
        (fun _ _ h => Event.noConfusion h) (fun _ _ _ h => Event.noConfusion h))).trans hwr).trans
      (boot_after_flash_extends _ e fl (fun _ _ h => Event.noConfusion h)
        (fun _ _ h => Event.noConfusion h) (fun _ _ h => Event.noConfusion h)
        (fun _ _ _ h => Event.noConfusion h) (fun _ _ h => Event.noConfusion h)
        (fun _ _ h => Event.noConfusion h))
  exact ⟨hboot, hsize, hsize72, hvu2, hle, fun d dest hmem => hwr.drop _ hmem d dest rfl,
    fun d dest hmem => hrun.drop _ hmem d dest rfl⟩

theorem idealFlash_erase (a n : Nat) (s : Unit) (m : Mem) :
    (idealFlash.erase a n s m).2.2 = eraseBytes m a (n * MAIN_IMAGE_ERASE_BLOCK_SIZE) := rfl

theorem idealFlash_erase_main_frame (s : Unit) (m : Mem) :
    rd32 (idealFlash.erase MAIN_IMAGE_START_ADDRESS
        (MAIN_IMAGE_MAX_SIZE / MAIN_IMAGE_ERASE_BLOCK_SIZE) s m).2.2
        (UPDATE_IMAGE_START_ADDRESS + OFFSET_length)
      = rd32 m (UPDATE_IMAGE_START_ADDRESS + OFFSET_length) := by
  have hU : UPDATE_IMAGE_START_ADDRESS = 1081344 := by decide
  have hM : MAIN_IMAGE_START_ADDRESS = 65536 := rfl
  have hol : OFFSET_length = 68 := by decide
  have hk : MAIN_IMAGE_MAX_SIZE / MAIN_IMAGE_ERASE_BLOCK_SIZE * MAIN_IMAGE_ERASE_BLOCK_SIZE
      = 1015808 := by decide
  rw [idealFlash_erase, hk]
  apply rd32_congr
  intro i hi
  rw [rd8_eraseBytes, hU, hM, hol, if_neg (by unfold wrap32; omega)]

theorem boot_erase_main_ideal_fst (c : Crypto) (b0 : Bool) (buf : Buf) (blank : Bool)
    (v : World Unit) : (boot_erase_main ⟨c, idealFlash, b0, buf⟩ blank v).1 = SSP_SUCCESS := by
  unfold boot_erase_main
  split_ifs
  · show (erase_main_image_area idealFlash v).1 = SSP_SUCCESS
    rw [erase_main_image_area_ideal]
  · rfl

/-- The run of `boot` in the scenario "UPDATE version 5, MAIN version 3" on the ideal
flash gets to the programming of MAIN. -/
theorem env_ideal_apply_path :
    (boot_blank_update env_ideal (worldOf mem_update5_main3)).1 = SSP_SUCCESS ∧
    (boot_blank_update env_ideal (worldOf mem_update5_main3)).2.1 = false ∧
    (boot_verify_update env_ideal (worldOf mem_update5_main3)).1 = VERIFY_SUCCESS ∧
    rd32 (worldOf mem_update5_main3).mem (UPDATE_IMAGE_START_ADDRESS + OFFSET_version)
      ≥ (boot_main_version env_ideal (worldOf mem_update5_main3)).1 ∧
    (boot_erase_main env_ideal
      (boot_blank_main env_ideal (worldOf mem_update5_main3)).2.1
      (boot_main_version env_ideal (worldOf mem_update5_main3)).2).1 = SSP_SUCCESS := by
  have hdrv : BlankCheckReads env_ideal.flash := ⟨fun _ => rfl, fun _ _ _ _ => ⟨rfl, rfl⟩⟩
  have hbu := boot_blank_update_reads env_ideal (worldOf mem_update5_main3) hdrv
  have hu : (readBytes (worldOf mem_update5_main3).mem UPDATE_IMAGE_START_ADDRESS
      UPDATE_IMAGE_MAX_SIZE).all (fun b => b == ERASED_STATE) = false :=
    readBytes_all_false _ _ _ (by decide) (by decide)
  rw [hu] at hbu
  refine ⟨hbu.1, hbu.2, ?_, ?_, boot_erase_main_ideal_fst _ _ _ _ _⟩
  · rw [boot_verify_update_fst]
    exact verify_image_acceptAll _ _ _ (by decide) (by decide)
  · rcases boot_main_version_fst env_ideal (worldOf mem_update5_main3) with h | h
    · rw [h]
      exact Nat.zero_le _
    · rw [h.1]
      decide

theorem boot_flash_call_size_witness :
    ((boot_blank_update env_ideal (worldOf mem_update5_main3)).1 = SSP_SUCCESS ∧
     (boot_blank_update env_ideal (worldOf mem_update5_main3)).2.1 = false ∧
     (boot_verify_update env_ideal (worldOf mem_update5_main3)).1 = VERIFY_SUCCESS ∧
     rd32 (worldOf mem_update5_main3).mem (UPDATE_IMAGE_START_ADDRESS + OFFSET_version)
       ≥ (boot_main_version env_ideal (worldOf mem_update5_main3)).1 ∧
     (boot_erase_main env_ideal
       (boot_blank_main env_ideal (worldOf mem_update5_main3)).2.1
       (boot_main_version env_ideal (worldOf mem_update5_main3)).2).1 = SSP_SUCCESS) ∧
    (∀ s m, rd32 (env_ideal.flash.erase MAIN_IMAGE_START_ADDRESS
        (MAIN_IMAGE_MAX_SIZE / MAIN_IMAGE_ERASE_BLOCK_SIZE) s m).2.2
        (UPDATE_IMAGE_START_ADDRESS + OFFSET_length)
      = rd32 m (UPDATE_IMAGE_START_ADDRESS + OFFSET_length)) ∧
    update_size (boot_erase_main env_ideal
        (boot_blank_main env_ideal (worldOf mem_update5_main3)).2.1
        (boot_main_version env_ideal (worldOf mem_update5_main3)).2).2.mem
      = wrap32 (rd32 (worldOf mem_update5_main3).mem (UPDATE_IMAGE_START_ADDRESS + OFFSET_length)
          + 72) ∧
    update_size (boot_erase_main env_ideal
        (boot_blank_main env_ideal (worldOf mem_update5_main3)).2.1
        (boot_main_version env_ideal (worldOf mem_update5_main3)).2).2.mem
      ≤ MAIN_IMAGE_MAX_SIZE :=
  ⟨env_ideal_apply_path, idealFlash_erase_main_frame,
    (boot_flash_call_size env_ideal (worldOf mem_update5_main3) env_ideal_apply_path.1
      env_ideal_apply_path.2.1 env_ideal_apply_path.2.2.1 env_ideal_apply_path.2.2.2.1
      env_ideal_apply_path.2.2.2.2 idealFlash_erase_main_frame).2.2.1,
    (boot_flash_call_size env_ideal (worldOf mem_update5_main3) env_ideal_apply_path.1
      env_ideal_apply_path.2.1 env_ideal_apply_path.2.2.1 env_ideal_apply_path.2.2.2.1
      env_ideal_apply_path.2.2.2.2 idealFlash_erase_main_frame).2.2.2.2.1⟩

/-! ### The version fields are read after verification -/

/-- On the path where UPDATE is accepted: the reads of `boot_version_reads`, and the value
of `main_application_version`. -/
theorem boot_version_reads_path (e : Env σ) (w : World σ)
    (hbu1 : (boot_blank_update e w).1 = SSP_SUCCESS)
    (hbu2 : (boot_blank_update e w).2.1 = false)
    (hvu : (boot_verify_update e w).1 = VERIFY_SUCCESS) :
    (boot_version_reads e w =
        [(UPDATE_IMAGE_START_ADDRESS,
          rd32 (boot_main_version e w).2.mem (UPDATE_IMAGE_START_ADDRESS + OFFSET_version),
          (boot_main_version e w).2)] ∧
      (boot_main_version e w).1 = 0) ∨
    (boot_version_reads e w =
        [(MAIN_IMAGE_START_ADDRESS, (boot_main_version e w).1,
          (call_verify_image e MAIN_IMAGE_START_ADDRESS (boot_blank_main e w).2.2).2),
         (UPDATE_IMAGE_START_ADDRESS,
          rd32 (boot_main_version e w).2.mem (UPDATE_IMAGE_START_ADDRESS + OFFSET_version),
          (boot_main_version e w).2)] ∧
      (boot_main_version e w).1 = rd32 w.mem (MAIN_IMAGE_START_ADDRESS + OFFSET_version) ∧
      (call_verify_image e MAIN_IMAGE_START_ADDRESS (boot_blank_main e w).2.2).1
        = VERIFY_SUCCESS) := by
  have hm := boot_blank_main_mem e w
  have hmv : (boot_main_version e w).1 =
      (if (boot_blank_main e w).1 = SSP_SUCCESS then
        if (boot_blank_main e w).2.1 = false then
          if (call_verify_image e MAIN_IMAGE_START_ADDRESS (boot_blank_main e w).2.2).1
              = VERIFY_SUCCESS then
            rd32 w.mem (MAIN_IMAGE_START_ADDRESS + OFFSET_version)
          else 0
        else 0
      else 0) := by
    unfold boot_main_version
    dsimp only
    split_ifs
    · show rd32 (boot_blank_main e w).2.2.mem _ = _
      rw [hm]
    · rfl
    · rfl
    · rfl
  unfold boot_version_reads
  rw [if_pos hbu1, if_pos hbu2, if_pos hvu, hmv]
  dsimp only
  by_cases h1 : (boot_blank_main e w).1 = SSP_SUCCESS
  · by_cases h2 : (boot_blank_main e w).2.1 = false
    · by_cases h3 : (call_verify_image e MAIN_IMAGE_START_ADDRESS (boot_blank_main e w).2.2).1
          = VERIFY_SUCCESS
      · right
        simp only [if_pos h1, if_pos h2, if_pos h3]
        refine ⟨?_, trivial, h3⟩
        show [(MAIN_IMAGE_START_ADDRESS, rd32 (boot_blank_main e w).2.2.mem _, _)] ++ _ = _
        rw [hm]
        rfl
      · left
        simp only [if_pos h1, if_pos h2, if_neg h3]
        exact ⟨rfl, trivial⟩
    · left
      simp only [if_pos h1, if_neg h2]
      exact ⟨rfl, trivial⟩
  · left
    simp only [if_neg h1]
    exact ⟨rfl, trivial⟩

theorem boot_update_read_trace (e : Env σ) (w : World σ)
    (hvu : (boot_verify_update e w).1 = VERIFY_SUCCESS) :
    ∃ pre post, (boot_main_version e w).2.trace
        = w.trace ++ (pre ++ Event.verify_image UPDATE_IMAGE_START_ADDRESS VERIFY_SUCCESS :: post) ∧
      ∀ ev, ev ∈ post → ev.isMutation = false := by
  obtain ⟨s1, hs1, _⟩ := boot_blank_update_extends (fun _ => True) e w trivial trivial
    (fun _ _ => trivial)
  obtain ⟨q, hq, hquiet⟩ := boot_main_version_extends (fun ev => ev.isMutation = false) e w
    rfl rfl (fun _ _ => rfl) (fun _ => rfl)
  refine ⟨s1, q, ?_, hquiet⟩
  rw [hq, boot_verify_update_trace, hs1, hvu]
  simp only [List.append_assoc, List.singleton_append]

theorem boot_main_read_trace (e : Env σ) (w : World σ)
    (h3 : (call_verify_image e MAIN_IMAGE_START_ADDRESS (boot_blank_main e w).2.2).1
      = VERIFY_SUCCESS) :
    ∃ pre post, (call_verify_image e MAIN_IMAGE_START_ADDRESS (boot_blank_main e w).2.2).2.trace
        = w.trace ++ (pre ++ Event.verify_image MAIN_IMAGE_START_ADDRESS VERIFY_SUCCESS :: post) ∧
      ∀ ev, ev ∈ post → ev.isMutation = false := by
  obtain ⟨s1, hs1, _⟩ := boot_blank_update_extends (fun _ => True) e w trivial trivial
    (fun _ _ => trivial)
  obtain ⟨s2, hs2, _⟩ := boot_blank_main_extends (fun _ => True) e w trivial trivial
    (fun _ _ => trivial)
  refine ⟨s1 ++ Event.verify_image UPDATE_IMAGE_START_ADDRESS (boot_verify_update e w).1 :: s2,
    [], ?_, fun _ h => absurd h (List.not_mem_nil _)⟩
  have ht : (call_verify_image e MAIN_IMAGE_START_ADDRESS (boot_blank_main e w).2.2).2.trace
      = (boot_blank_main e w).2.2.trace ++ [Event.verify_image MAIN_IMAGE_START_ADDRESS
          (call_verify_image e MAIN_IMAGE_START_ADDRESS (boot_blank_main e w).2.2).1] := rfl
  rw [ht, h3, hs2, boot_verify_update_trace, hs1]
  simp only [List.append_assoc, List.singleton_append, List.cons_append, List.nil_append]

theorem boot_version_reads_nil (e : Env σ) (w : World σ)
    (h : ¬ ((boot_blank_update e w).1 = SSP_SUCCESS ∧ (boot_blank_update e w).2.1 = false ∧
      (boot_verify_update e w).1 = VERIFY_SUCCESS)) :
    boot_version_reads e w = [] := by
  unfold boot_version_reads
  by_cases h1 : (boot_blank_update e w).1 = SSP_SUCCESS
  · by_cases h2 : (boot_blank_update e w).2.1 = false
    · have h3 : ¬ (boot_verify_update e w).1 = VERIFY_SUCCESS := fun h3 => h ⟨h1, h2, h3⟩
      rw [if_pos h1, if_pos h2, if_neg h3]
    · rw [if_pos h1, if_neg h2]
  · rw [if_neg h1]

/-- C16: every read of a `version` field in a run of `boot` is a read of the slot on which
`verify_image` has returned `VERIFY_SUCCESS` earlier in that run, with no erase and no
program call in between, and of memory as `verify_image` saw it.  Where UPDATE is accepted,
the version test compares the version field of UPDATE with `main_application_version`,
which is the version field of MAIN if that field was read (MAIN verified successfully) and
the constant 0 otherwise.  In all other runs no version field is read and no version test is
made. -/
theorem boot_version_reads_verified (e : Env σ) (w : World σ) :
    (∀ p v wr, (p, v, wr) ∈ boot_version_reads e w →
      (∃ pre post,
        wr.trace = w.trace ++ (pre ++ Event.verify_image p VERIFY_SUCCESS :: post) ∧
        ∀ ev, ev ∈ post → ev.isMutation = false) ∧
      wr.mem = w.mem ∧ v = rd32 w.mem (p + OFFSET_version) ∧
      (verify_image e.crypto w.mem p g_public_key).1 = VERIFY_SUCCESS) ∧
    ((boot_blank_update e w).1 = SSP_SUCCESS → (boot_blank_update e w).2.1 = false →
      (boot_verify_update e w).1 = VERIFY_SUCCESS →
      (∃ wr, (UPDATE_IMAGE_START_ADDRESS,
          rd32 w.mem (UPDATE_IMAGE_START_ADDRESS + OFFSET_version), wr)
        ∈ boot_version_reads e w) ∧
      ((∃ wr, (MAIN_IMAGE_START_ADDRESS, (boot_main_version e w).1, wr)
          ∈ boot_version_reads e w) ∨
        ((boot_main_version e w).1 = 0 ∧
          ∀ v wr, (MAIN_IMAGE_START_ADDRESS, v, wr) ∉ boot_version_reads e w)) ∧
      (boot e w).branch =
        if rd32 w.mem (UPDATE_IMAGE_START_ADDRESS + OFFSET_version) ≥ (boot_main_version e w).1
        then Branch.version_number_good else Branch.version_number_bad) ∧
    (¬ ((boot_blank_update e w).1 = SSP_SUCCESS ∧ (boot_blank_update e w).2.1 = false ∧
        (boot_verify_update e w).1 = VERIFY_SUCCESS) →
      boot_version_reads e w = [] ∧
      (boot e w).branch ≠ Branch.version_number_good ∧
      (boot e w).branch ≠ Branch.version_number_bad) := by
  have hUM : MAIN_IMAGE_START_ADDRESS ≠ UPDATE_IMAGE_START_ADDRESS := by decide
  refine ⟨?_, ?_, ?_⟩
  · intro p v wr hmem
    by_cases hp : (boot_blank_update e w).1 = SSP_SUCCESS ∧ (boot_blank_update e w).2.1 = false ∧
        (boot_verify_update e w).1 = VERIFY_SUCCESS
    · obtain ⟨hbu1, hbu2, hvu⟩ := hp
      have hvu2 : (verify_image e.crypto w.mem UPDATE_IMAGE_START_ADDRESS g_public_key).1
          = VERIFY_SUCCESS := by rw [← boot_verify_update_fst]; exact hvu
      have hup : (∃ pre post, (boot_main_version e w).2.trace
            = w.trace ++ (pre ++ Event.verify_image UPDATE_IMAGE_START_ADDRESS VERIFY_SUCCESS
                :: post) ∧ ∀ ev, ev ∈ post → ev.isMutation = false) ∧
          (boot_main_version e w).2.mem = w.mem ∧
          rd32 (boot_main_version e w).2.mem (UPDATE_IMAGE_START_ADDRESS + OFFSET_version)
            = rd32 w.mem (UPDATE_IMAGE_START_ADDRESS + OFFSET_version) ∧
          (verify_image e.crypto w.mem UPDATE_IMAGE_START_ADDRESS g_public_key).1
            = VERIFY_SUCCESS :=
        ⟨boot_update_read_trace e w hvu, boot_main_version_mem e w,
          by rw [boot_main_version_mem], hvu2⟩
      rcases boot_version_reads_path e w hbu1 hbu2 hvu with ⟨hr, _⟩ | ⟨hr, hmv, h3⟩
      · rw [hr, List.mem_singleton] at hmem
        injection hmem with e1 e2
        injection e2 with e2 e3
        rw [e1, e2, e3]
        exact hup
      · rw [hr] at hmem
        simp only [List.mem_cons, List.mem_singleton, List.not_mem_nil, or_false] at hmem
        rcases hmem with hmem | hmem
        · injection hmem with e1 e2
          injection e2 with e2 e3
          rw [e1, e2, e3]
          refine ⟨boot_main_read_trace e w h3, boot_blank_main_mem e w, hmv, ?_⟩
          rw [call_verify_image_fst, boot_blank_main_mem] at h3
          exact h3
        · injection hmem with e1 e2
          injection e2 with e2 e3
          rw [e1, e2, e3]
          exact hup
    · rw [boot_version_reads_nil e w hp] at hmem
      exact absurd hmem (List.not_mem_nil _)
  · intro hbu1 hbu2 hvu
    have hbr : (boot e w).branch =
        if rd32 w.mem (UPDATE_IMAGE_START_ADDRESS + OFFSET_version) ≥ (boot_main_version e w).1
        then Branch.version_number_good else Branch.version_number_bad := by
      rw [boot_eq, if_pos hbu1, if_pos hbu2, if_pos hvu, boot_main_version_mem]
      split_ifs
      · exact (boot_apply_outcome _ _ _).1
      · exact (boot_verified_main_outcome _ _ _).1
    rcases boot_version_reads_path e w hbu1 hbu2 hvu with ⟨hr, hmv⟩ | ⟨hr, hmv, h3⟩
    · refine ⟨⟨(boot_main_version e w).2, ?_⟩, Or.inr ⟨hmv, ?_⟩, hbr⟩
      · rw [hr, boot_main_version_mem]
        exact List.mem_singleton.mpr rfl
      · intro v wr hmem
        rw [hr, List.mem_singleton] at hmem
        injection hmem with e1 _
        exact hUM e1
    · refine ⟨⟨(boot_main_version e w).2, ?_⟩,
        Or.inl ⟨(call_verify_image e MAIN_IMAGE_START_ADDRESS (boot_blank_main e w).2.2).2, ?_⟩,
        hbr⟩
      · rw [hr, boot_main_version_mem]
        simp
      · rw [hr]
        simp
  · intro hp
    refine ⟨boot_version_reads_nil e w hp, ?_⟩
    rw [boot_eq]
    by_cases h1 : (boot_blank_update e w).1 = SSP_SUCCESS
    · by_cases h2 : (boot_blank_update e w).2.1 = false
      · have h3 : ¬ (boot_verify_update e w).1 = VERIFY_SUCCESS := fun h3 => hp ⟨h1, h2, h3⟩
        rw [if_pos h1, if_pos h2, if_neg h3]
        show (boot_verified_main e _ _).branch ≠ _ ∧ (boot_verified_main e _ _).branch ≠ _
        rw [(boot_verified_main_outcome _ _ _).1]
        exact ⟨by decide, by decide⟩
      · rw [if_pos h1, if_neg h2, (boot_verified_main_outcome _ _ _).1]
        exact ⟨by decide, by decide⟩
    · rw [if_neg h1, (boot_verified_main_outcome _ _ _).1]
      exact ⟨by decide, by decide⟩

theorem boot_version_reads_verified_witness :
    ((boot_blank_update env_ideal (worldOf mem_update5_main3)).1 = SSP_SUCCESS ∧
      (boot_blank_update env_ideal (worldOf mem_update5_main3)).2.1 = false ∧
      (boot_verify_update env_ideal (worldOf mem_update5_main3)).1 = VERIFY_SUCCESS) ∧
    (boot env_ideal (worldOf mem_update5_main3)).branch =
      (if rd32 (worldOf mem_update5_main3).mem (UPDATE_IMAGE_START_ADDRESS + OFFSET_version)
          ≥ (boot_main_version env_ideal (worldOf mem_update5_main3)).1
        then Branch.version_number_good else Branch.version_number_bad) ∧
    ¬ ((boot_blank_update env_update_blank_check_fails (worldOf mem_update5_main3)).1
          = SSP_SUCCESS ∧
        (boot_blank_update env_update_blank_check_fails (worldOf mem_update5_main3)).2.1 = false ∧
        (boot_verify_update env_update_blank_check_fails (worldOf mem_update5_main3)).1
          = VERIFY_SUCCESS) ∧
    boot_version_reads env_update_blank_check_fails (worldOf mem_update5_main3) = [] :=
  ⟨⟨env_ideal_apply_path.1, env_ideal_apply_path.2.1, env_ideal_apply_path.2.2.1⟩,
    ((boot_version_reads_verified env_ideal (worldOf mem_update5_main3)).2.1
      env_ideal_apply_path.1 env_ideal_apply_path.2.1 env_ideal_apply_path.2.2.1).2.2,
    fun h => env_update_blank_check_fails_path h.1,
    ((boot_version_reads_verified env_update_blank_check_fails
      (worldOf mem_update5_main3)).2.2 (fun h => env_update_blank_check_fails_path h.1)).1⟩

/-! ### `erase_update_image_area` on the QSPI flash -/

set_option maxRecDepth 100000 in
/-- C19, at the failing input: the QSPI driver returns an error from the `statusGet` call
that follows the erase of block 0, and succeeds in every other call.  The `break` leaves
the `while` loop only: the next driver call is the erase of block 1, all 62 blocks are
erased, and `erase_update_image_area` returns `SSP_SUCCESS`, not the error. -/
theorem erase_update_image_area_status_error_goes_on :
    (qspiFirstPollFails.statusGet 0).1 ≠ SSP_SUCCESS ∧
    (QSPI.erase_update_image_area (flashStub Nat) qspiFirstPollFails 1
        QSPI.UPDATE_IMAGE_START_ADDRESS ⟨mem_zero, 0, []⟩).map (fun r => r.1)
      = some SSP_SUCCESS ∧
    (QSPI.erase_update_image_area (flashStub Nat) qspiFirstPollFails 1
        QSPI.UPDATE_IMAGE_START_ADDRESS ⟨mem_zero, 0, []⟩).map (fun r => r.2.trace.take 6)
      = some [QEvent.qspi_open,
          QEvent.qspi_erase QSPI.UPDATE_IMAGE_START_ADDRESS QSPI.UPDATE_IMAGE_ERASE_BLOCK_SIZE,
          QEvent.qspi_statusGet,
          QEvent.qspi_erase (QSPI.UPDATE_IMAGE_START_ADDRESS + QSPI.UPDATE_IMAGE_ERASE_BLOCK_SIZE)
            QSPI.UPDATE_IMAGE_ERASE_BLOCK_SIZE,
          QEvent.qspi_statusGet,
          QEvent.qspi_erase
            (QSPI.UPDATE_IMAGE_START_ADDRESS + 2 * QSPI.UPDATE_IMAGE_ERASE_BLOCK_SIZE)
            QSPI.UPDATE_IMAGE_ERASE_BLOCK_SIZE] ∧
    (QSPI.erase_update_image_area (flashStub Nat) qspiFirstPollFails 1
        QSPI.UPDATE_IMAGE_START_ADDRESS ⟨mem_zero, 0, []⟩).map
        (fun r => qspi_erase_count r.2.trace)
      = some 62 := by
  refine ⟨by decide, by decide, by decide, by decide⟩

/-- The erase half of the claim: when the erase call of the block the `for` loop is at
returns an error, the loop ends there with that error, and no further block is erased. -/
theorem erase_blocks_erase_error (qspi : qspi_api_t σ) (fuel n p err : Nat) (w : QWorld σ)
    (h : (QSPI.call_qspi_erase qspi p QSPI.UPDATE_IMAGE_ERASE_BLOCK_SIZE w).1 ≠ SSP_SUCCESS) :
    QSPI.erase_blocks qspi fuel (n + 1) p err w
      = some (QSPI.call_qspi_erase qspi p QSPI.UPDATE_IMAGE_ERASE_BLOCK_SIZE w) := by
  generalize hB : QSPI.UPDATE_IMAGE_ERASE_BLOCK_SIZE = B at *
  simp only [QSPI.erase_blocks, hB, h, ne_eq, not_false_eq_true, if_true]

/-- The `statusGet` half, as the code has it: when the first poll after the erase of a block
returns an error, the `for` loop goes on with the next block. -/
theorem erase_blocks_status_error (qspi : qspi_api_t σ) (fuel n p err : Nat) (w : QWorld σ)
    (h1 : (QSPI.call_qspi_erase qspi p QSPI.UPDATE_IMAGE_ERASE_BLOCK_SIZE w).1 = SSP_SUCCESS)
    (h2 : (QSPI.call_statusGet qspi
      (QSPI.call_qspi_erase qspi p QSPI.UPDATE_IMAGE_ERASE_BLOCK_SIZE w).2).1 ≠ SSP_SUCCESS) :
    QSPI.erase_blocks qspi (fuel + 1) (n + 1) p err w
      = QSPI.erase_blocks qspi (fuel + 1) n (wrap32 (p + QSPI.UPDATE_IMAGE_ERASE_BLOCK_SIZE))
          (QSPI.call_statusGet qspi
            (QSPI.call_qspi_erase qspi p QSPI.UPDATE_IMAGE_ERASE_BLOCK_SIZE w).2).1
          (QSPI.call_statusGet qspi
            (QSPI.call_qspi_erase qspi p QSPI.UPDATE_IMAGE_ERASE_BLOCK_SIZE w).2).2.2 := by
  generalize hB : QSPI.UPDATE_IMAGE_ERASE_BLOCK_SIZE = B at *
  simp only [QSPI.erase_blocks, hB, h1, ne_eq, not_true_eq_false, if_false, QSPI.wait_erase, h2,
    not_false_eq_true, if_true]

set_option maxRecDepth 100000 in
/-- The erase half at a concrete input: the erase of block 1 returns an error; blocks 0 and
1 are the only ones for which an erase is issued, and the error is returned. -/
theorem erase_update_image_area_erase_error_aborts :
    (QSPI.erase_update_image_area (flashStub Unit)
        (qspiEraseFailsAt (QSPI.UPDATE_IMAGE_START_ADDRESS + QSPI.UPDATE_IMAGE_ERASE_BLOCK_SIZE)) 1
        QSPI.UPDATE_IMAGE_START_ADDRESS ⟨mem_zero, (), []⟩).map (fun r => (r.1, r.2.trace))
      = some (1, [QEvent.qspi_open,
          QEvent.qspi_erase QSPI.UPDATE_IMAGE_START_ADDRESS QSPI.UPDATE_IMAGE_ERASE_BLOCK_SIZE,
          QEvent.qspi_statusGet,
          QEvent.qspi_erase (QSPI.UPDATE_IMAGE_START_ADDRESS + QSPI.UPDATE_IMAGE_ERASE_BLOCK_SIZE)
            QSPI.UPDATE_IMAGE_ERASE_BLOCK_SIZE,
          QEvent.qspi_close]) := by
  decide

/-! ### `blank_check_image_area` in both builds -/

theorem blank_scan_iff (mem : Mem) (n p : Nat) :
    QSPI.blank_scan mem n p = true ↔ ∀ i, i < n → rd8 mem (p + i) = ERASED_STATE := by
  induction n generalizing p with
  | zero =>
    constructor
    · intro _ i hi
      exact absurd hi (Nat.not_lt_zero _)
    · intro _
      rfl
  | succ k ih =>
    unfold QSPI.blank_scan
    by_cases h : rd8 mem p = ERASED_STATE
    · rw [if_neg (not_not.mpr h), ih]
      constructor
      · intro hk i hi
        cases i with
        | zero => exact h
        | succ j =>
          have := hk j (by omega)
          rw [rd8_wrap32_add] at this
          rw [← this]
          congr 1
          omega
      · intro hk i hi
        have := hk (i + 1) (by omega)
        rw [rd8_wrap32_add, ← this]
        congr 1
        omega
    · rw [if_pos h]
      constructor
      · intro hf
        exact absurd hf (by decide)
      · intro hk
        exact absurd (hk 0 (by omega)) h

/-- The internal medium, build without the QSPI flash: the flag, the error code and the
driver calls. -/
theorem blank_check_image_area_internal (api : flash_api_t σ) (a : Nat) (b0 : Bool)
    (w : World σ) (h0 : a ≠ 0)
    (h1 : a < INTERNAL_FLASH_START_ADDRESS + TOTAL_INTERNAL_FLASH_SIZE) :
    ((blank_check_image_area api a b0 w).2.1 = true ↔
      (api.flash_open w.drv).1 = SSP_SUCCESS ∧
      (api.blankCheck a UPDATE_IMAGE_MAX_SIZE (api.flash_open w.drv).2 w.mem).1 = SSP_SUCCESS ∧
      (api.blankCheck a UPDATE_IMAGE_MAX_SIZE (api.flash_open w.drv).2 w.mem).2.2 = true) ∧
    ((api.flash_open w.drv).1 = SSP_SUCCESS →
      (blank_check_image_area api a b0 w).2.2.trace
        = w.trace ++ [Event.flash_open, Event.flash_blankCheck a UPDATE_IMAGE_MAX_SIZE,
            Event.flash_close]) := by
  unfold blank_check_image_area
  rw [if_neg h0, if_neg (not_not.mpr h1)]
  generalize UPDATE_IMAGE_MAX_SIZE = N
  by_cases ho : (api.flash_open w.drv).1 = SSP_SUCCESS
  · by_cases hb : (api.blankCheck a N (api.flash_open w.drv).2 w.mem).1 = SSP_SUCCESS
    · cases hr : (api.blankCheck a N (api.flash_open w.drv).2 w.mem).2.2 <;>
        simp [call_open, call_blankCheck, call_close, ho, hb, hr]
    · simp [call_open, call_blankCheck, call_close, ho, hb]
  · simp [call_open, call_blankCheck, call_close, ho]

/-- The internal medium, build with the QSPI flash. -/
theorem blank_check_image_area_qspi_internal (api : flash_api_t σ) (a : Nat) (b0 : Bool)
    (w : World σ) (h0 : a ≠ 0)
    (h1 : a < INTERNAL_FLASH_START_ADDRESS + TOTAL_INTERNAL_FLASH_SIZE) :
    ((QSPI.blank_check_image_area api a (some b0) w).2.1 = some true ↔
      (api.flash_open w.drv).1 = SSP_SUCCESS ∧
      (api.blankCheck a QSPI.UPDATE_IMAGE_MAX_SIZE (api.flash_open w.drv).2 w.mem).1
        = SSP_SUCCESS ∧
      (api.blankCheck a QSPI.UPDATE_IMAGE_MAX_SIZE (api.flash_open w.drv).2 w.mem).2.2 = true) ∧
    ((api.flash_open w.drv).1 = SSP_SUCCESS →
      (QSPI.blank_check_image_area api a (some b0) w).2.2.trace
        = w.trace ++ [Event.flash_open, Event.flash_blankCheck a QSPI.UPDATE_IMAGE_MAX_SIZE,
            Event.flash_close]) ∧
    ((QSPI.blank_check_image_area api a (some b0) w).1 ≠ SSP_SUCCESS →
      (QSPI.blank_check_image_area api a (some b0) w).2.1 = some false) := by
  unfold QSPI.blank_check_image_area
  dsimp only
  rw [if_neg h0, if_neg (not_not.mpr h1)]
  generalize QSPI.UPDATE_IMAGE_MAX_SIZE = N
  by_cases ho : (api.flash_open w.drv).1 = SSP_SUCCESS
  · by_cases hb : (api.blankCheck a N (api.flash_open w.drv).2 w.mem).1 = SSP_SUCCESS
    · cases hr : (api.blankCheck a N (api.flash_open w.drv).2 w.mem).2.2 <;>
        simp [call_open, call_blankCheck, call_close, ho, hb, hr]
    · simp [call_open, call_blankCheck, call_close, ho, hb]
  · simp [call_open, call_blankCheck, call_close, ho]

/-- The external medium, build with the QSPI flash. -/
theorem blank_check_image_area_qspi_external (api : flash_api_t σ) (a : Nat) (b0 : Bool)
    (w : World σ) (h0 : a ≠ 0)
    (h1 : ¬ a < INTERNAL_FLASH_START_ADDRESS + TOTAL_INTERNAL_FLASH_SIZE) :
    QSPI.blank_check_image_area api a (some b0) w
      = (SSP_SUCCESS, some (QSPI.blank_scan w.mem QSPI.UPDATE_IMAGE_MAX_SIZE a), w) := by
  unfold QSPI.blank_check_image_area
  dsimp only
  rw [if_neg h0, if_pos h1]

/-- C20: `blank_check_image_area`, in the build without and in the build with
`UPDATE_USES_QSPI_FLASH`.  A `NULL` result pointer or the address 0 gives
`SSP_ERR_ASSERTION`, with nothing written and no driver call.  On the internal medium the
flag is `true` exactly when the open call and the one `blankCheck` call over
`UPDATE_IMAGE_MAX_SIZE` bytes from the given address succeed and the driver answers
`FLASH_RESULT_BLANK`.  On the external medium (build with the QSPI flash) the function
returns `SSP_SUCCESS` without any driver call and the flag is `true` exactly when all
`UPDATE_IMAGE_MAX_SIZE` bytes from the given address read 0xFF.  Whenever an error is
returned for a non-zero address and a non-`NULL` pointer, the flag is `false`. -/
theorem blank_check_image_area_reports (api : flash_api_t σ) (a : Nat) (b0 : Bool)
    (w : World σ) :
    (blank_check_image_area_ptr api a none w = (SSP_ERR_ASSERTION, none, w) ∧
      QSPI.blank_check_image_area api a none w = (SSP_ERR_ASSERTION, none, w) ∧
      blank_check_image_area_ptr api 0 (some b0) w = (SSP_ERR_ASSERTION, some b0, w) ∧
      QSPI.blank_check_image_area api 0 (some b0) w = (SSP_ERR_ASSERTION, some b0, w)) ∧
    (a ≠ 0 → a < INTERNAL_FLASH_START_ADDRESS + TOTAL_INTERNAL_FLASH_SIZE →
      ((blank_check_image_area_ptr api a (some b0) w).2.1 = some true ↔
        (api.flash_open w.drv).1 = SSP_SUCCESS ∧
        (api.blankCheck a UPDATE_IMAGE_MAX_SIZE (api.flash_open w.drv).2 w.mem).1 = SSP_SUCCESS ∧
        (api.blankCheck a UPDATE_IMAGE_MAX_SIZE (api.flash_open w.drv).2 w.mem).2.2 = true) ∧
      ((api.flash_open w.drv).1 = SSP_SUCCESS →
        (blank_check_image_area_ptr api a (some b0) w).2.2.trace
          = w.trace ++ [Event.flash_open, Event.flash_blankCheck a UPDATE_IMAGE_MAX_SIZE,
              Event.flash_close]) ∧
      ((QSPI.blank_check_image_area api a (some b0) w).2.1 = some true ↔
        (api.flash_open w.drv).1 = SSP_SUCCESS ∧
        (api.blankCheck a QSPI.UPDATE_IMAGE_MAX_SIZE (api.flash_open w.drv).2 w.mem).1
          = SSP_SUCCESS ∧
        (api.blankCheck a QSPI.UPDATE_IMAGE_MAX_SIZE (api.flash_open w.drv).2 w.mem).2.2
          = true) ∧
      ((api.flash_open w.drv).1 = SSP_SUCCESS →
        (QSPI.blank_check_image_area api a (some b0) w).2.2.trace
          = w.trace ++ [Event.flash_open, Event.flash_blankCheck a QSPI.UPDATE_IMAGE_MAX_SIZE,
              Event.flash_close])) ∧
    (a ≠ 0 → ¬ a < INTERNAL_FLASH_START_ADDRESS + TOTAL_INTERNAL_FLASH_SIZE →
      (QSPI.blank_check_image_area api a (some b0) w).1 = SSP_SUCCESS ∧
      ((QSPI.blank_check_image_area api a (some b0) w).2.1 = some true ↔
        ∀ i, i < QSPI.UPDATE_IMAGE_MAX_SIZE → rd8 w.mem (a + i) = ERASED_STATE) ∧
      ((QSPI.blank_check_image_area api a (some b0) w).2.1 = some true ∨
        (QSPI.blank_check_image_area api a (some b0) w).2.1 = some false) ∧
      (QSPI.blank_check_image_area api a (some b0) w).2.2 = w) ∧
    (a ≠ 0 →
      ((blank_check_image_area_ptr api a (some b0) w).1 ≠ SSP_SUCCESS →
        (blank_check_image_area_ptr api a (some b0) w).2.1 = some false) ∧
      ((QSPI.blank_check_image_area api a (some b0) w).1 ≠ SSP_SUCCESS →
        (QSPI.blank_check_image_area api a (some b0) w).2.1 = some false)) := by
  refine ⟨⟨rfl, rfl, rfl, rfl⟩, ?_, ?_, ?_⟩
  · intro h0 h1
    have hi := blank_check_image_area_internal api a b0 w h0 h1
    have hq := blank_check_image_area_qspi_internal api a b0 w h0 h1
    refine ⟨?_, hi.2, hq.1, hq.2.1⟩
    rw [← hi.1]
    show some (blank_check_image_area api a b0 w).2.1 = some true ↔ _
    rw [Option.some.injEq]
  · intro h0 h1
    rw [blank_check_image_area_qspi_external api a b0 w h0 h1]
    refine ⟨rfl, ?_, ?_, rfl⟩
    · show some (QSPI.blank_scan w.mem QSPI.UPDATE_IMAGE_MAX_SIZE a) = some true ↔ _
      rw [Option.some.injEq, blank_scan_iff]
    · show some (QSPI.blank_scan w.mem QSPI.UPDATE_IMAGE_MAX_SIZE a) = some true ∨
        some (QSPI.blank_scan w.mem QSPI.UPDATE_IMAGE_MAX_SIZE a) = some false
      cases QSPI.blank_scan w.mem QSPI.UPDATE_IMAGE_MAX_SIZE a
      · exact Or.inr rfl
      · exact Or.inl rfl
  · intro h0
    constructor
    · intro herr
      show some (blank_check_image_area api a b0 w).2.1 = some false
      rw [blank_check_image_area_error_false api a b0 w h0 herr]
    · intro herr
      by_cases h1 : a < INTERNAL_FLASH_START_ADDRESS + TOTAL_INTERNAL_FLASH_SIZE
      · exact (blank_check_image_area_qspi_internal api a b0 w h0 h1).2.2 herr
      · rw [blank_check_image_area_qspi_external api a b0 w h0 h1] at herr
        exact absurd rfl herr

theorem blank_check_image_area_reports_witness :
    (UPDATE_IMAGE_START_ADDRESS ≠ 0 ∧
      UPDATE_IMAGE_START_ADDRESS < INTERNAL_FLASH_START_ADDRESS + TOTAL_INTERNAL_FLASH_SIZE ∧
      ((blank_check_image_area_ptr idealFlash UPDATE_IMAGE_START_ADDRESS (some false)
          (worldOf mem_blank_update_main3)).2.1 = some true ↔
        (idealFlash.flash_open (worldOf mem_blank_update_main3).drv).1 = SSP_SUCCESS ∧
        (idealFlash.blankCheck UPDATE_IMAGE_START_ADDRESS UPDATE_IMAGE_MAX_SIZE
          (idealFlash.flash_open (worldOf mem_blank_update_main3).drv).2
          (worldOf mem_blank_update_main3).mem).1 = SSP_SUCCESS ∧
        (idealFlash.blankCheck UPDATE_IMAGE_START_ADDRESS UPDATE_IMAGE_MAX_SIZE
          (idealFlash.flash_open (worldOf mem_blank_update_main3).drv).2
          (worldOf mem_blank_update_main3).mem).2.2 = true)) ∧
    (QSPI.UPDATE_IMAGE_START_ADDRESS ≠ 0 ∧
      ¬ QSPI.UPDATE_IMAGE_START_ADDRESS < INTERNAL_FLASH_START_ADDRESS + TOTAL_INTERNAL_FLASH_SIZE ∧
      (QSPI.blank_check_image_area idealFlash QSPI.UPDATE_IMAGE_START_ADDRESS (some false)
        (worldOf mem_blank_update_main3)).1 = SSP_SUCCESS) :=
  ⟨⟨by decide, by decide,
      ((blank_check_image_area_reports idealFlash UPDATE_IMAGE_START_ADDRESS false
        (worldOf mem_blank_update_main3)).2.1 (by decide) (by decide)).1⟩,
    by decide, by decide,
    ((blank_check_image_area_reports idealFlash QSPI.UPDATE_IMAGE_START_ADDRESS false
      (worldOf mem_blank_update_main3)).2.2.1 (by decide) (by decide)).1⟩

/-! ### `verify_image` when the hash driver fails -/

/-- When `sha256_hash` returns an error, the output buffer is as it was before the call. -/
theorem sha256_hash_error_keeps_buffer (hu : HashUpdate) (mem : Mem) (p L : Nat) (tmp : Buf)
    (ph : List Nat) (h : (sha256_hash hu mem p L tmp ph).1 ≠ SSP_SUCCESS) :
    (sha256_hash hu mem p L tmp ph).2 = ph := by
  revert h
  unfold sha256_hash
  lift_lets
  intro v1 v2 v3 v4 v5 v6 v7 v8 v9 v10 v11 v12 v13 v14 v15 v16 hne
  split_ifs at hne ⊢
  all_goals first
    | exact absurd rfl hne
    | rfl

/-- What `verify_image` returns when `sha256_hash` returns an error: the answer of the
signature service on the content that the local `hash` had before the call. -/
theorem verify_image_hash_error (c : Crypto) (mem : Mem) (p : Nat) (key : List Nat)
    (hmagic : readBytes mem p MAGIC_NUMBER_LEN = MAGIC_NUMBER)
    (hlen : wrap32 (rd32 mem (p + OFFSET_length) + 4 + SIGNATURE_LEN_BYTES + 4) ≤ MAIN_IMAGE_MAX_SIZE)
    (herr : (sha256_hash c.hashUpdate mem (wrap32 (p + OFFSET_length))
      (wrap32 (rd32 mem (p + OFFSET_length) + 4)) c.temp_data c.hash).1 ≠ SSP_SUCCESS) :
    (verify_image c mem p key).1 =
      if c.eccVerify domain generator_point key c.hash
          (readBytes mem (p + OFFSET_signature) (4 * ECC_256_SIGNATURE_R_LENGTH_WORDS))
          (readBytes mem (p + OFFSET_signature + 4 * ECC_256_SIGNATURE_R_LENGTH_WORDS)
            (4 * ECC_256_SIGNATURE_S_LENGTH_WORDS)) ≠ SSP_SUCCESS
      then VERIFY_FAIL else VERIFY_SUCCESS := by
  have hb := sha256_hash_error_keeps_buffer _ _ _ _ _ _ herr
  unfold verify_image
  simp only [hmagic, ne_eq, not_true_eq_false, if_false, gt_iff_lt, not_lt.mpr hlen, hb]

set_option maxRecDepth 100000 in
/-- C25, at the failing input: the hash driver fails at its first call, `sha256_hash`
returns the error and leaves the digest buffer as it was, and `verify_image`, which does not
look at the value returned by `sha256_hash`, hands that buffer to the signature service;
the service accepts it and `verify_image` returns `VERIFY_SUCCESS`. -/
theorem verify_image_ignores_hash_error :
    (sha256_hash cryptoHashFails.hashUpdate mem_small_main
      (wrap32 (MAIN_IMAGE_START_ADDRESS + OFFSET_length))
      (wrap32 (rd32 mem_small_main (MAIN_IMAGE_START_ADDRESS + OFFSET_length) + 4))
      cryptoHashFails.temp_data cryptoHashFails.hash) = (1, stale_digest) ∧
    (verify_image cryptoHashFails mem_small_main MAIN_IMAGE_START_ADDRESS g_public_key).2
      = [ServiceCall.sha256_hash (wrap32 (MAIN_IMAGE_START_ADDRESS + OFFSET_length)) 12,
         ServiceCall.ecc_verify stale_digest
           (readBytes mem_small_main (MAIN_IMAGE_START_ADDRESS + 4) 32)
           (readBytes mem_small_main (MAIN_IMAGE_START_ADDRESS + 36) 32)] ∧
    (verify_image cryptoHashFails mem_small_main MAIN_IMAGE_START_ADDRESS g_public_key).1
      = VERIFY_SUCCESS := by
  refine ⟨by decide, by decide, by decide⟩

/-! ### The configured slots -/

/-- C28: with the constants of `port.h`, in the build without and in the build with
`UPDATE_USES_QSPI_FLASH`: the MAIN range ends where or before the UPDATE range starts,
MAIN lies inside the internal flash, neither range wraps round the 32-bit address space,
the capacity is a whole number of 32 KiB erase blocks and of 128-byte programming pages, and
`(capacity / block size) * block size = capacity`.  Hence an erase of the blocks of one slot
sets every byte of that slot to 0xFF and leaves every byte of the other slot as it is. -/
theorem slot_ranges_disjoint_and_aligned :
    (MAIN_IMAGE_START_ADDRESS + MAIN_IMAGE_MAX_SIZE ≤ UPDATE_IMAGE_START_ADDRESS ∧
      INTERNAL_FLASH_START_ADDRESS ≤ MAIN_IMAGE_START_ADDRESS ∧
      MAIN_IMAGE_START_ADDRESS + MAIN_IMAGE_MAX_SIZE
        ≤ INTERNAL_FLASH_START_ADDRESS + TOTAL_INTERNAL_FLASH_SIZE ∧
      UPDATE_IMAGE_START_ADDRESS + UPDATE_IMAGE_MAX_SIZE ≤ 4294967296 ∧
      MAIN_IMAGE_ERASE_BLOCK_SIZE = 32768 ∧ UPDATE_IMAGE_ERASE_BLOCK_SIZE = 32768 ∧
      MAIN_FLASH_PROGRAMMING_PAGE_SIZE = 128 ∧
      MAIN_IMAGE_MAX_SIZE % MAIN_IMAGE_ERASE_BLOCK_SIZE = 0 ∧
      UPDATE_IMAGE_MAX_SIZE % UPDATE_IMAGE_ERASE_BLOCK_SIZE = 0 ∧
      MAIN_IMAGE_MAX_SIZE % MAIN_FLASH_PROGRAMMING_PAGE_SIZE = 0 ∧
      MAIN_IMAGE_MAX_SIZE / MAIN_IMAGE_ERASE_BLOCK_SIZE * MAIN_IMAGE_ERASE_BLOCK_SIZE
        = MAIN_IMAGE_MAX_SIZE ∧
      UPDATE_IMAGE_MAX_SIZE / UPDATE_IMAGE_ERASE_BLOCK_SIZE * UPDATE_IMAGE_ERASE_BLOCK_SIZE
        = UPDATE_IMAGE_MAX_SIZE) ∧
    (MAIN_IMAGE_START_ADDRESS + QSPI.MAIN_IMAGE_MAX_SIZE ≤ QSPI.UPDATE_IMAGE_START_ADDRESS ∧
      MAIN_IMAGE_START_ADDRESS + QSPI.MAIN_IMAGE_MAX_SIZE
        ≤ INTERNAL_FLASH_START_ADDRESS + TOTAL_INTERNAL_FLASH_SIZE ∧
      QSPI.UPDATE_IMAGE_START_ADDRESS + QSPI.UPDATE_IMAGE_MAX_SIZE ≤ 4294967296 ∧
      QSPI.UPDATE_IMAGE_ERASE_BLOCK_SIZE = 32768 ∧
      QSPI.MAIN_IMAGE_MAX_SIZE % MAIN_IMAGE_ERASE_BLOCK_SIZE = 0 ∧
      QSPI.UPDATE_IMAGE_MAX_SIZE % QSPI.UPDATE_IMAGE_ERASE_BLOCK_SIZE = 0 ∧
      QSPI.MAIN_IMAGE_MAX_SIZE % MAIN_FLASH_PROGRAMMING_PAGE_SIZE = 0 ∧
      QSPI.MAIN_IMAGE_MAX_SIZE / MAIN_IMAGE_ERASE_BLOCK_SIZE * MAIN_IMAGE_ERASE_BLOCK_SIZE
        = QSPI.MAIN_IMAGE_MAX_SIZE ∧
      QSPI.UPDATE_IMAGE_MAX_SIZE / QSPI.UPDATE_IMAGE_ERASE_BLOCK_SIZE
        * QSPI.UPDATE_IMAGE_ERASE_BLOCK_SIZE = QSPI.UPDATE_IMAGE_MAX_SIZE) ∧
    (∀ (m : Mem) (i : Nat), i < MAIN_IMAGE_MAX_SIZE →
      rd8 (eraseBytes m MAIN_IMAGE_START_ADDRESS
          (MAIN_IMAGE_MAX_SIZE / MAIN_IMAGE_ERASE_BLOCK_SIZE * MAIN_IMAGE_ERASE_BLOCK_SIZE))
        (MAIN_IMAGE_START_ADDRESS + i) = ERASED_STATE ∧
      rd8 (eraseBytes m MAIN_IMAGE_START_ADDRESS
          (MAIN_IMAGE_MAX_SIZE / MAIN_IMAGE_ERASE_BLOCK_SIZE * MAIN_IMAGE_ERASE_BLOCK_SIZE))
        (UPDATE_IMAGE_START_ADDRESS + i) = rd8 m (UPDATE_IMAGE_START_ADDRESS + i) ∧
      rd8 (eraseBytes m UPDATE_IMAGE_START_ADDRESS
          (UPDATE_IMAGE_MAX_SIZE / UPDATE_IMAGE_ERASE_BLOCK_SIZE * UPDATE_IMAGE_ERASE_BLOCK_SIZE))
        (UPDATE_IMAGE_START_ADDRESS + i) = ERASED_STATE ∧
      rd8 (eraseBytes m UPDATE_IMAGE_START_ADDRESS
          (UPDATE_IMAGE_MAX_SIZE / UPDATE_IMAGE_ERASE_BLOCK_SIZE * UPDATE_IMAGE_ERASE_BLOCK_SIZE))
        (MAIN_IMAGE_START_ADDRESS + i) = rd8 m (MAIN_IMAGE_START_ADDRESS + i)) ∧
    (∀ (m : Mem) (i : Nat), i < QSPI.MAIN_IMAGE_MAX_SIZE →
      rd8 (eraseBytes m MAIN_IMAGE_START_ADDRESS
          (QSPI.MAIN_IMAGE_MAX_SIZE / MAIN_IMAGE_ERASE_BLOCK_SIZE * MAIN_IMAGE_ERASE_BLOCK_SIZE))
        (MAIN_IMAGE_START_ADDRESS + i) = ERASED_STATE ∧
      rd8 (eraseBytes m MAIN_IMAGE_START_ADDRESS
          (QSPI.MAIN_IMAGE_MAX_SIZE / MAIN_IMAGE_ERASE_BLOCK_SIZE * MAIN_IMAGE_ERASE_BLOCK_SIZE))
        (QSPI.UPDATE_IMAGE_START_ADDRESS + i) = rd8 m (QSPI.UPDATE_IMAGE_START_ADDRESS + i) ∧
      rd8 (eraseBytes m QSPI.UPDATE_IMAGE_START_ADDRESS
          (QSPI.UPDATE_IMAGE_MAX_SIZE / QSPI.UPDATE_IMAGE_ERASE_BLOCK_SIZE
            * QSPI.UPDATE_IMAGE_ERASE_BLOCK_SIZE))
        (QSPI.UPDATE_IMAGE_START_ADDRESS + i) = ERASED_STATE ∧
      rd8 (eraseBytes m QSPI.UPDATE_IMAGE_START_ADDRESS
          (QSPI.UPDATE_IMAGE_MAX_SIZE / QSPI.UPDATE_IMAGE_ERASE_BLOCK_SIZE
            * QSPI.UPDATE_IMAGE_ERASE_BLOCK_SIZE))
        (MAIN_IMAGE_START_ADDRESS + i) = rd8 m (MAIN_IMAGE_START_ADDRESS + i)) := by
  have hM : MAIN_IMAGE_START_ADDRESS = 65536 := rfl
  have hU : UPDATE_IMAGE_START_ADDRESS = 1081344 := by decide
  have hN : MAIN_IMAGE_MAX_SIZE = 1015808 := by decide
  have hk : MAIN_IMAGE_MAX_SIZE / MAIN_IMAGE_ERASE_BLOCK_SIZE * MAIN_IMAGE_ERASE_BLOCK_SIZE
      = 1015808 := by decide
  have hku : UPDATE_IMAGE_MAX_SIZE / UPDATE_IMAGE_ERASE_BLOCK_SIZE * UPDATE_IMAGE_ERASE_BLOCK_SIZE
      = 1015808 := by decide
  have hQU : QSPI.UPDATE_IMAGE_START_ADDRESS = 1610612736 := by decide
  have hQN : QSPI.MAIN_IMAGE_MAX_SIZE = 2031616 := by decide
  have hQk : QSPI.MAIN_IMAGE_MAX_SIZE / MAIN_IMAGE_ERASE_BLOCK_SIZE * MAIN_IMAGE_ERASE_BLOCK_SIZE
      = 2031616 := by decide
  have hQku : QSPI.UPDATE_IMAGE_MAX_SIZE / QSPI.UPDATE_IMAGE_ERASE_BLOCK_SIZE
      * QSPI.UPDATE_IMAGE_ERASE_BLOCK_SIZE = 2031616 := by decide
  have hE : ERASED_STATE = 255 := rfl
  refine ⟨by decide, by decide, ?_, ?_⟩
  · intro m i hi
    rw [hN] at hi
    rw [hk, hku, hM, hU, hE]
    simp only [rd8_eraseBytes]
    refine ⟨?_, ?_, ?_, ?_⟩
    · rw [if_pos (by unfold wrap32; omega)]
    · rw [if_neg (by unfold wrap32; omega)]
    · rw [if_pos (by unfold wrap32; omega)]
    · rw [if_neg (by unfold wrap32; omega)]
  · intro m i hi
    rw [hQN] at hi
    rw [hQk, hQku, hM, hQU, hE]
    simp only [rd8_eraseBytes]
    refine ⟨?_, ?_, ?_, ?_⟩
    · rw [if_pos (by unfold wrap32; omega)]
    · rw [if_neg (by unfold wrap32; omega)]
    · rw [if_pos (by unfold wrap32; omega)]
    · rw [if_neg (by unfold wrap32; omega)]

theorem slot_ranges_disjoint_and_aligned_witness :
    (0 < MAIN_IMAGE_MAX_SIZE) ∧
    rd8 (eraseBytes mem_update5_main3 MAIN_IMAGE_START_ADDRESS
        (MAIN_IMAGE_MAX_SIZE / MAIN_IMAGE_ERASE_BLOCK_SIZE * MAIN_IMAGE_ERASE_BLOCK_SIZE))
      (UPDATE_IMAGE_START_ADDRESS + 0) = rd8 mem_update5_main3 (UPDATE_IMAGE_START_ADDRESS + 0) :=
  ⟨by decide, (slot_ranges_disjoint_and_aligned.2.2.1 mem_update5_main3 0 (by decide)).2.1⟩

/-! ### What the signature covers -/

theorem rd32_lt (mem : Mem) (a : Nat) : rd32 mem a < 4294967296 := by
  have h0 := rd8_lt mem a
  have h1 := rd8_lt mem (a + 1)
  have h2 := rd8_lt mem (a + 2)
  have h3 := rd8_lt mem (a + 3)
  unfold rd32
  omega

/-- The service calls of an accepting `verify_image`: the hash of `signed_bytes`, then the
signature check. -/
theorem verify_image_calls (c : Crypto) (mem : Mem) (p : Nat) (key : List Nat)
    (h : (verify_image c mem p key).1 = VERIFY_SUCCESS) :
    ∃ digest r s, (verify_image c mem p key).2 =
      [ServiceCall.sha256_hash (wrap32 (p + OFFSET_length))
          (wrap32 (rd32 mem (p + OFFSET_length) + 4)),
        ServiceCall.ecc_verify digest r s] ∧
      digest = (sha256_hash c.hashUpdate mem (wrap32 (p + OFFSET_length))
        (wrap32 (rd32 mem (p + OFFSET_length) + 4)) c.temp_data c.hash).2 := by
  obtain ⟨hm, hl⟩ := verify_image_success c mem p key h
  unfold verify_image
  simp only [hm, ne_eq, not_true_eq_false, if_false, gt_iff_lt, not_lt.mpr hl]
  exact ⟨_, _, _, rfl, rfl⟩

/-- The bytes of `signed_bytes`, by offset in the image. -/
theorem signed_bytes_getD (mem : Mem) (p k : Nat)
    (hk : OFFSET_length + k < OFFSET_length + wrap32 (rd32 mem (p + OFFSET_length) + 4)) :
    (signed_bytes mem p).getD k 0 = rd8 mem (p + (OFFSET_length + k)) := by
  unfold signed_bytes
  rw [readBytes_getD _ _ _ _ (by omega), rd8_wrap32_add, Nat.add_assoc]

/-- C23, with the bounds it needs: for every header that `verify_image` accepts, the hash
is taken over `signed_bytes`, the `length + 4` bytes (in 32-bit arithmetic) from offset 68
on; the version field, bytes 72..75, lies inside that range exactly when the length field
is at least 4 and at most `0xFFFFFFFB`, and then the four bytes hashed at positions 4..7 are
the bytes of the version field. -/
theorem verify_image_version_signed (c : Crypto) (mem : Mem) (p : Nat) (key : List Nat)
    (h : (verify_image c mem p key).1 = VERIFY_SUCCESS) :
    (∃ r s, (verify_image c mem p key).2 =
      [ServiceCall.sha256_hash (wrap32 (p + OFFSET_length)) (signed_bytes mem p).length,
        ServiceCall.ecc_verify
          (sha256_hash c.hashUpdate mem (wrap32 (p + OFFSET_length)) (signed_bytes mem p).length
            c.temp_data c.hash).2 r s]) ∧
    ((OFFSET_length ≤ OFFSET_version ∧
        OFFSET_version + 4 ≤ OFFSET_length + (signed_bytes mem p).length) ↔
      (4 ≤ rd32 mem (p + OFFSET_length) ∧ rd32 mem (p + OFFSET_length) ≤ 4294967291)) ∧
    (4 ≤ rd32 mem (p + OFFSET_length) → rd32 mem (p + OFFSET_length) ≤ 4294967291 →
      ∀ i, i < 4 →
        (signed_bytes mem p).getD (OFFSET_version - OFFSET_length + i) 0
          = rd8 mem (p + OFFSET_version + i)) := by
  have hlen : (signed_bytes mem p).length = wrap32 (rd32 mem (p + OFFSET_length) + 4) := by
    unfold signed_bytes
    rw [readBytes_length]
  have hol : OFFSET_length = 68 := by decide
  have hov : OFFSET_version = 72 := by decide
  have hL := rd32_lt mem (p + OFFSET_length)
  refine ⟨?_, ?_, ?_⟩
  · obtain ⟨d, r, s, hc, hd⟩ := verify_image_calls c mem p key h
    rw [hlen, ← hd]
    exact ⟨r, s, hc⟩
  · rw [hlen, hol, hov]
    rw [hol] at hL
    unfold wrap32
    constructor
    · intro hh
      omega
    · intro hh
      omega
  · intro h4 hmax i hi
    have hw : wrap32 (rd32 mem (p + OFFSET_length) + 4) = rd32 mem (p + OFFSET_length) + 4 := by
      unfold wrap32
      omega
    have hk := signed_bytes_getD mem p (OFFSET_version - OFFSET_length + i) (by
      rw [hw, hol, hov]
      rw [hol] at h4
      omega)
    rw [hk]
    congr 1
    rw [hol, hov]
    omega

set_option maxRecDepth 100000 in
/-- C23, counterexample to the claim as stated: a header with the length field 0 that
`verify_image` accepts.  The hash is taken over the four bytes of the length field only, so
the version field is outside the range covered by the signature: the same header with
another version gets the same answer from `verify_image`, whatever the hash driver and the
signature service. -/
theorem verify_image_version_outside_signed_range :
    (verify_image cryptoAcceptAll (mem_length0 1) MAIN_IMAGE_START_ADDRESS g_public_key).1
      = VERIFY_SUCCESS ∧
    (signed_bytes (mem_length0 1) MAIN_IMAGE_START_ADDRESS).length = 4 ∧
    ¬ (OFFSET_version + 4
      ≤ OFFSET_length + (signed_bytes (mem_length0 1) MAIN_IMAGE_START_ADDRESS).length) ∧
    rd32 (mem_length0 1) (MAIN_IMAGE_START_ADDRESS + OFFSET_version) = 1 ∧
    rd32 (mem_length0 7) (MAIN_IMAGE_START_ADDRESS + OFFSET_version) = 7 ∧
    (∀ (c : Crypto) (key : List Nat),
      (verify_image c (mem_length0 7) MAIN_IMAGE_START_ADDRESS key).1
        = (verify_image c (mem_length0 1) MAIN_IMAGE_START_ADDRESS key).1) := by
  have hL : rd32 (mem_length0 1) (MAIN_IMAGE_START_ADDRESS + OFFSET_length) = 0 := by decide
  have hlen : (signed_bytes (mem_length0 1) MAIN_IMAGE_START_ADDRESS).length = 4 := by
    unfold signed_bytes
    rw [readBytes_length, hL]
    rfl
  have hbytes : ∀ i, i < 72 →
      rd8 (mem_length0 7) (MAIN_IMAGE_START_ADDRESS + i)
        = rd8 (mem_length0 1) (MAIN_IMAGE_START_ADDRESS + i) := by decide
  refine ⟨verify_image_acceptAll _ _ _ (by decide) (by decide), hlen, ?_, by decide, by decide,
    ?_⟩
  · rw [hlen]
    decide
  · intro c key
    apply verify_image_congr c (mem_length0 1) (mem_length0 7) MAIN_IMAGE_START_ADDRESS
      MAIN_IMAGE_START_ADDRESS key (by decide) (by decide)
    · rw [hL]
      decide
    · rw [hL]
      intro i hi
      exact hbytes i (by omega)

theorem verify_image_version_signed_witness :
    (verify_image cryptoAcceptAll mem_small_main MAIN_IMAGE_START_ADDRESS g_public_key).1
      = VERIFY_SUCCESS ∧
    ((OFFSET_length ≤ OFFSET_version ∧
        OFFSET_version + 4
          ≤ OFFSET_length + (signed_bytes mem_small_main MAIN_IMAGE_START_ADDRESS).length) ↔
      (4 ≤ rd32 mem_small_main (MAIN_IMAGE_START_ADDRESS + OFFSET_length) ∧
        rd32 mem_small_main (MAIN_IMAGE_START_ADDRESS + OFFSET_length) ≤ 4294967291)) :=
  ⟨verify_image_acceptAll _ _ _ (by decide) (by decide),
    (verify_image_version_signed cryptoAcceptAll mem_small_main MAIN_IMAGE_START_ADDRESS
      g_public_key (verify_image_acceptAll _ _ _ (by decide) (by decide))).2.1⟩


/-- C27, with the bounds it needs: for every image that `verify_image` accepts, the two
words that `boot_main_application` loads, at image offsets `0x100..0x107`, lie inside the
range covered by the signature exactly when the length field is at least 192 and at most
`0xFFFFFFFB`, and then the hashed bytes at positions `0x100 - 68 ..` are the bytes of those
two words. -/
theorem verify_image_vectors_signed (c : Crypto) (mem : Mem) (key : List Nat)
    (h : (verify_image c mem MAIN_IMAGE_START_ADDRESS key).1 = VERIFY_SUCCESS) :
    (∃ r s, (verify_image c mem MAIN_IMAGE_START_ADDRESS key).2 =
      [ServiceCall.sha256_hash (wrap32 (MAIN_IMAGE_START_ADDRESS + OFFSET_length))
          (signed_bytes mem MAIN_IMAGE_START_ADDRESS).length,
        ServiceCall.ecc_verify
          (sha256_hash c.hashUpdate mem (wrap32 (MAIN_IMAGE_START_ADDRESS + OFFSET_length))
            (signed_bytes mem MAIN_IMAGE_START_ADDRESS).length c.temp_data c.hash).2 r s]) ∧
    ((∀ a, a ∈ boot_main_application_loads →
        MAIN_IMAGE_START_ADDRESS + OFFSET_length ≤ a ∧
          a + 4 ≤ MAIN_IMAGE_START_ADDRESS + OFFSET_length
            + (signed_bytes mem MAIN_IMAGE_START_ADDRESS).length) ↔
      (192 ≤ rd32 mem (MAIN_IMAGE_START_ADDRESS + OFFSET_length) ∧
        rd32 mem (MAIN_IMAGE_START_ADDRESS + OFFSET_length) ≤ 4294967291)) ∧
    (192 ≤ rd32 mem (MAIN_IMAGE_START_ADDRESS + OFFSET_length) →
      rd32 mem (MAIN_IMAGE_START_ADDRESS + OFFSET_length) ≤ 4294967291 →
      ∀ i, i < 8 →
        (signed_bytes mem MAIN_IMAGE_START_ADDRESS).getD (IMAGE_HEADER_SIZE - OFFSET_length + i) 0
          = rd8 mem (MAIN_IMAGE_START_ADDRESS + IMAGE_HEADER_SIZE + i)) := by
  have hlen : (signed_bytes mem MAIN_IMAGE_START_ADDRESS).length
      = wrap32 (rd32 mem (MAIN_IMAGE_START_ADDRESS + OFFSET_length) + 4) := by
    unfold signed_bytes
    rw [readBytes_length]
  have hol : OFFSET_length = 68 := by decide
  have hih : IMAGE_HEADER_SIZE = 256 := by decide
  have hL := rd32_lt mem (MAIN_IMAGE_START_ADDRESS + OFFSET_length)
  refine ⟨?_, ?_, ?_⟩
  · obtain ⟨d, r, s, hc, hd⟩ := verify_image_calls c mem MAIN_IMAGE_START_ADDRESS key h
    rw [hlen, ← hd]
    exact ⟨r, s, hc⟩
  · rw [hlen]
    unfold boot_main_application_loads
    simp only [List.mem_cons, List.mem_singleton, List.not_mem_nil, or_false, forall_eq_or_imp,
      forall_eq]
    rw [hol, hih]
    rw [hol] at hL
    generalize MAIN_IMAGE_START_ADDRESS = M at *
    unfold wrap32
    constructor
    · intro hh
      omega
    · intro hh
      omega
  · intro h4 hmax i hi
    have hw : wrap32 (rd32 mem (MAIN_IMAGE_START_ADDRESS + OFFSET_length) + 4)
        = rd32 mem (MAIN_IMAGE_START_ADDRESS + OFFSET_length) + 4 := by
      unfold wrap32
      omega
    have hk := signed_bytes_getD mem MAIN_IMAGE_START_ADDRESS
      (IMAGE_HEADER_SIZE - OFFSET_length + i) (by
        rw [hw, hol, hih]
        rw [hol] at h4
        omega)
    rw [hk]
    congr 1
    rw [hol, hih]
    omega

set_option maxRecDepth 100000 in
/-- C27, counterexample to the claim as stated: a MAIN image with the length field 8 that
`verify_image` accepts.  The hash is taken over image bytes 68..79, so the words at
`0x100..0x107` are outside the range covered by the signature: the same image with another
byte at offset `0x100` gets the same answer from `verify_image`, whatever the hash driver
and the signature service. -/
theorem verify_image_vectors_outside_signed_range :
    (verify_image cryptoAcceptAll mem_small_main MAIN_IMAGE_START_ADDRESS g_public_key).1
      = VERIFY_SUCCESS ∧
    (signed_bytes mem_small_main MAIN_IMAGE_START_ADDRESS).length = 12 ∧
    (∀ a, a ∈ boot_main_application_loads →
      ¬ (a + 4 ≤ MAIN_IMAGE_START_ADDRESS + OFFSET_length
        + (signed_bytes mem_small_main MAIN_IMAGE_START_ADDRESS).length)) ∧
    rd32 mem_small_main (MAIN_IMAGE_START_ADDRESS + IMAGE_HEADER_SIZE) = 0 ∧
    rd32 mem_small_main_other_vector (MAIN_IMAGE_START_ADDRESS + IMAGE_HEADER_SIZE) = 0x42 ∧
    (∀ (c : Crypto) (key : List Nat),
      (verify_image c mem_small_main_other_vector MAIN_IMAGE_START_ADDRESS key).1
        = (verify_image c mem_small_main MAIN_IMAGE_START_ADDRESS key).1) := by
  have hL : rd32 mem_small_main (MAIN_IMAGE_START_ADDRESS + OFFSET_length) = 8 := by decide
  have hlen : (signed_bytes mem_small_main MAIN_IMAGE_START_ADDRESS).length = 12 := by
    unfold signed_bytes
    rw [readBytes_length, hL]
    rfl
  have hbytes : ∀ i, i < 80 →
      rd8 mem_small_main_other_vector (MAIN_IMAGE_START_ADDRESS + i)
        = rd8 mem_small_main (MAIN_IMAGE_START_ADDRESS + i) := by decide
  refine ⟨verify_image_acceptAll _ _ _ (by decide) (by decide), hlen, ?_, by decide, by decide,
    ?_⟩
  · rw [hlen]
    decide
  · intro c key
    apply verify_image_congr c mem_small_main mem_small_main_other_vector
      MAIN_IMAGE_START_ADDRESS MAIN_IMAGE_START_ADDRESS key (by decide) (by decide)
    · rw [hL]
      decide
    · rw [hL]
      intro i hi
      exact hbytes i (by omega)

theorem verify_image_vectors_signed_witness :
    (verify_image cryptoAcceptAll mem_small_main MAIN_IMAGE_START_ADDRESS g_public_key).1
      = VERIFY_SUCCESS ∧
    ((∀ a, a ∈ boot_main_application_loads →
        MAIN_IMAGE_START_ADDRESS + OFFSET_length ≤ a ∧
          a + 4 ≤ MAIN_IMAGE_START_ADDRESS + OFFSET_length
            + (signed_bytes mem_small_main MAIN_IMAGE_START_ADDRESS).length) ↔
      (192 ≤ rd32 mem_small_main (MAIN_IMAGE_START_ADDRESS + OFFSET_length) ∧
        rd32 mem_small_main (MAIN_IMAGE_START_ADDRESS + OFFSET_length) ≤ 4294967291)) :=
  ⟨verify_image_acceptAll _ _ _ (by decide) (by decide),
    (verify_image_vectors_signed cryptoAcceptAll mem_small_main g_public_key
      (verify_image_acceptAll _ _ _ (by decide) (by decide))).2.1⟩

/-! ### The end of the apply path -/

theorem boot_apply_eq (e : Env σ) (blank : Bool) (w : World σ) :
    boot_apply e blank w =
      if (boot_erase_main e blank w).1 = SSP_SUCCESS then
        boot_after_flash e (boot_flash_main e blank w)
      else ⟨(boot_erase_main e blank w).2, Outcome.returned, Branch.version_number_good⟩ := rfl

theorem boot_after_flash_success (e : Env σ) (fl : Nat × World σ) (h1 : fl.1 = SSP_SUCCESS)
    (hv : (verify_image e.crypto fl.2.mem MAIN_IMAGE_START_ADDRESS g_public_key).1
      = VERIFY_SUCCESS) :
    (boot_after_flash e fl).outcome = Outcome.boot_main_application ∧
    (boot_after_flash e fl).world.trace =
      (erase_update_image_area e.flash UPDATE_IMAGE_START_ADDRESS
        ⟨fl.2.mem, fl.2.drv,
          fl.2.trace ++ [Event.verify_image MAIN_IMAGE_START_ADDRESS VERIFY_SUCCESS]⟩).2.trace
        ++ [Event.boot_main_application] := by
  generalize hM : MAIN_IMAGE_START_ADDRESS = M at *
  simp only [boot_after_flash, call_verify_image, hM, h1, hv, if_true,
    call_boot_main_application, and_self]

theorem boot_after_flash_fail (e : Env σ) (fl : Nat × World σ) (h1 : fl.1 = SSP_SUCCESS)
    (hv : (verify_image e.crypto fl.2.mem MAIN_IMAGE_START_ADDRESS g_public_key).1
      ≠ VERIFY_SUCCESS) :
    (boot_after_flash e fl).outcome = Outcome.NVIC_SystemReset ∧
    (boot_after_flash e fl).world.mem = fl.2.mem ∧
    (boot_after_flash e fl).world.trace =
      fl.2.trace ++ [Event.verify_image MAIN_IMAGE_START_ADDRESS
        (verify_image e.crypto fl.2.mem MAIN_IMAGE_START_ADDRESS g_public_key).1,
        Event.NVIC_SystemReset] := by
  generalize hM : MAIN_IMAGE_START_ADDRESS = M at *
  simp only [boot_after_flash, call_verify_image, hM, h1, hv, if_true, if_false,
    call_NVIC_SystemReset, List.append_assoc, List.cons_append, List.nil_append, and_self]

theorem boot_after_flash_error (e : Env σ) (fl : Nat × World σ) (h1 : fl.1 ≠ SSP_SUCCESS) :
    boot_after_flash e fl = ⟨fl.2, Outcome.returned, Branch.version_number_good⟩ := by
  unfold boot_after_flash
  rw [if_neg h1]

/-- On the ideal flash the erase step of the apply path leaves the UPDATE slot as it was. -/
theorem boot_erase_main_ideal_frame (c : Crypto) (b0 : Bool) (buf : Buf) (blank : Bool)
    (v : World Unit) (i : Nat) (hi : i < 1015808) :
    rd8 (boot_erase_main ⟨c, idealFlash, b0, buf⟩ blank v).2.mem (UPDATE_IMAGE_START_ADDRESS + i)
      = rd8 v.mem (UPDATE_IMAGE_START_ADDRESS + i) := by
  have hU : UPDATE_IMAGE_START_ADDRESS = 1081344 := by decide
  have hM : MAIN_IMAGE_START_ADDRESS = 65536 := rfl
  have hmem : (erase_main_image_area idealFlash v).2.mem
      = eraseBytes v.mem MAIN_IMAGE_START_ADDRESS 1015808 := by
    rw [erase_main_image_area_ideal]
  unfold boot_erase_main
  split_ifs
  · show rd8 (erase_main_image_area idealFlash v).2.mem (UPDATE_IMAGE_START_ADDRESS + i) = _
    rw [hmem, rd8_eraseBytes, hU, hM, if_neg (by unfold wrap32; omega)]
  · rfl

/-- Programming MAIN on the ideal flash, in the apply path: the call succeeds and
`MAIN[0 .. length + 72)` holds the bytes of UPDATE. -/
theorem boot_flash_main_ideal (c : Crypto) (b0 : Bool) (buf : Buf) (blank : Bool)
    (v : World Unit)
    (hlen : rd32 v.mem (UPDATE_IMAGE_START_ADDRESS + OFFSET_length) + 72 ≤ MAIN_IMAGE_MAX_SIZE) :
    (boot_flash_main ⟨c, idealFlash, b0, buf⟩ blank v).1 = SSP_SUCCESS ∧
    (∀ i, i < rd32 v.mem (UPDATE_IMAGE_START_ADDRESS + OFFSET_length) + 72 →
      rd8 (boot_flash_main ⟨c, idealFlash, b0, buf⟩ blank v).2.mem (MAIN_IMAGE_START_ADDRESS + i)
        = rd8 v.mem (UPDATE_IMAGE_START_ADDRESS + i)) := by
  have hU : UPDATE_IMAGE_START_ADDRESS = 1081344 := by decide
  have hM : MAIN_IMAGE_START_ADDRESS = 65536 := rfl
  have hMAX : MAIN_IMAGE_MAX_SIZE = 1015808 := by decide
  have hol : OFFSET_length = 68 := by decide
  have hSB : SIGNATURE_LEN_BYTES = 64 := by decide
  have hML : MAGIC_NUMBER_LEN = 4 := rfl
  have hfr := boot_erase_main_ideal_frame c b0 buf blank v
  have hL : rd32 (boot_erase_main ⟨c, idealFlash, b0, buf⟩ blank v).2.mem
      (UPDATE_IMAGE_START_ADDRESS + OFFSET_length)
      = rd32 v.mem (UPDATE_IMAGE_START_ADDRESS + OFFSET_length) := by
    apply rd32_congr
    intro i hi
    rw [hol, Nat.add_assoc]
    exact hfr _ (by omega)
  have hsize : update_size (boot_erase_main ⟨c, idealFlash, b0, buf⟩ blank v).2.mem
      = rd32 v.mem (UPDATE_IMAGE_START_ADDRESS + OFFSET_length) + 72 := by
    unfold update_size
    rw [hL, hSB, hML]
    unfold wrap32
    omega
  unfold boot_flash_main
  rw [hsize]
  generalize boot_erase_main ⟨c, idealFlash, b0, buf⟩ blank v = ER at hfr ⊢
  obtain ⟨r, m1, ⟨⟩, tr1⟩ := ER
  obtain ⟨hfl1, hfl2, _⟩ := flash_main_image_ideal buf
    (rd32 v.mem (UPDATE_IMAGE_START_ADDRESS + OFFSET_length) + 72) m1 tr1 (by omega) (by omega)
  rw [← hU] at hfl1 hfl2
  rw [← hM] at hfl2
  refine ⟨hfl1, ?_⟩
  intro i hi
  have h1 := hfl2 i hi
  have h2 : rd8 m1 (UPDATE_IMAGE_START_ADDRESS + i) = rd8 v.mem (UPDATE_IMAGE_START_ADDRESS + i) :=
    hfr i (by omega)
  rw [← h2]
  exact h1

theorem boot_flash_main_extends (P : Event → Prop) (e : Env σ) (blank : Bool) (w : World σ)
    (h1 : P Event.flash_open) (h2 : P Event.flash_close)
    (h3 : ∀ d dest, P (Event.flash_write d dest)) :
    Extends P (boot_erase_main e blank w).2.trace (boot_flash_main e blank w).2.trace :=
  flash_main_image_extends P e.flash e.flash_page_buffer UPDATE_IMAGE_START_ADDRESS
    (update_size (boot_erase_main e blank w).2.mem) (boot_erase_main e blank w).2 h1 h2 h3

/-- C26: on the ideal flash (erase sets the range to 0xFF, write stores the bytes, every
driver call succeeds; the hash driver and the signature service are functions of their
arguments), for every UPDATE image that `verify_image` accepts, with
`length ≤ MAIN_IMAGE_MAX_SIZE - 72` and the version test passed: `boot` gets to the
programming of MAIN, the call succeeds, `MAIN[0 .. length + 72)` holds the bytes of UPDATE,
the hashed range ends inside the copied range, `verify_image(MAIN)` returns
`VERIFY_SUCCESS`, and the run ends in `boot_main_application` with no
`NVIC_SystemReset`. -/
theorem boot_ideal_reverification (e : Env Unit) (w : World Unit) (hflash : e.flash = idealFlash)
    (hvu : (verify_image e.crypto w.mem UPDATE_IMAGE_START_ADDRESS g_public_key).1
      = VERIFY_SUCCESS)
    (hlen : rd32 w.mem (UPDATE_IMAGE_START_ADDRESS + OFFSET_length) ≤ MAIN_IMAGE_MAX_SIZE - 72)
    (hver : rd32 w.mem (UPDATE_IMAGE_START_ADDRESS + OFFSET_version)
      ≥ (boot_main_version e w).1) :
    boot e w = boot_after_flash e
      (boot_flash_main e (boot_blank_main e w).2.1 (boot_main_version e w).2) ∧
    (boot_flash_main e (boot_blank_main e w).2.1 (boot_main_version e w).2).1 = SSP_SUCCESS ∧
    (∀ i, i < rd32 w.mem (UPDATE_IMAGE_START_ADDRESS + OFFSET_length) + 72 →
      rd8 (boot_flash_main e (boot_blank_main e w).2.1 (boot_main_version e w).2).2.mem
          (MAIN_IMAGE_START_ADDRESS + i)
        = rd8 w.mem (UPDATE_IMAGE_START_ADDRESS + i)) ∧
    OFFSET_length + (signed_bytes w.mem UPDATE_IMAGE_START_ADDRESS).length
      ≤ rd32 w.mem (UPDATE_IMAGE_START_ADDRESS + OFFSET_length) + 72 ∧
    (verify_image e.crypto
      (boot_flash_main e (boot_blank_main e w).2.1 (boot_main_version e w).2).2.mem
      MAIN_IMAGE_START_ADDRESS g_public_key).1 = VERIFY_SUCCESS ∧
    (boot e w).outcome = Outcome.boot_main_application ∧
    Event.verify_image MAIN_IMAGE_START_ADDRESS VERIFY_SUCCESS ∈ run_events e w ∧
    Event.NVIC_SystemReset ∉ run_events e w := by
  obtain ⟨c, fl, b0, buf⟩ := e
  have hflash2 : fl = idealFlash := hflash
  subst hflash2
  have hU : UPDATE_IMAGE_START_ADDRESS = 1081344 := by decide
  have hM : MAIN_IMAGE_START_ADDRESS = 65536 := rfl
  have hMAX : MAIN_IMAGE_MAX_SIZE = 1015808 := by decide
  have hol : OFFSET_length = 68 := by decide
  have hlen2 : rd32 w.mem (UPDATE_IMAGE_START_ADDRESS + OFFSET_length) + 72
      ≤ MAIN_IMAGE_MAX_SIZE := by
    rw [hMAX] at hlen ⊢
    omega
  have hdrv : BlankCheckReads (⟨c, idealFlash, b0, buf⟩ : Env Unit).flash :=
    ⟨fun _ => rfl, fun _ _ _ _ => ⟨rfl, rfl⟩⟩
  have hbu := boot_blank_update_reads _ w hdrv
  have hu : (readBytes w.mem UPDATE_IMAGE_START_ADDRESS UPDATE_IMAGE_MAX_SIZE).all
      (fun b => b == ERASED_STATE) = false :=
    readBytes_all_false _ _ _ (by decide)
      (magic_not_erased _ _ (verify_image_success _ _ _ _ hvu).1)
  rw [hu] at hbu
  have hvu2 : (boot_verify_update ⟨c, idealFlash, b0, buf⟩ w).1 = VERIFY_SUCCESS := by
    rw [boot_verify_update_fst]
    exact hvu
  have hmv := boot_main_version_mem ⟨c, idealFlash, b0, buf⟩ w
  have her := boot_erase_main_ideal_fst c b0 buf
    (boot_blank_main ⟨c, idealFlash, b0, buf⟩ w).2.1 (boot_main_version ⟨c, idealFlash, b0, buf⟩ w).2
  have hboot : boot ⟨c, idealFlash, b0, buf⟩ w = boot_after_flash ⟨c, idealFlash, b0, buf⟩
      (boot_flash_main ⟨c, idealFlash, b0, buf⟩ (boot_blank_main ⟨c, idealFlash, b0, buf⟩ w).2.1
        (boot_main_version ⟨c, idealFlash, b0, buf⟩ w).2) := by
    rw [boot_eq, if_pos hbu.1, if_pos hbu.2, if_pos hvu2, if_pos (by rw [hmv]; exact hver),
      boot_apply_eq, if_pos her]
  obtain ⟨hfl1, hfl2⟩ := boot_flash_main_ideal c b0 buf
    (boot_blank_main ⟨c, idealFlash, b0, buf⟩ w).2.1 (boot_main_version ⟨c, idealFlash, b0, buf⟩ w).2
    (by rw [hmv]; exact hlen2)
  rw [hmv] at hfl2
  have hpU : wrap32 (UPDATE_IMAGE_START_ADDRESS + OFFSET_length) &&& 0x03 = 0 := by
    rw [hU, hol]
    rfl
  have hpM : wrap32 (MAIN_IMAGE_START_ADDRESS + OFFSET_length) &&& 0x03 = 0 := by
    rw [hM, hol]
    rfl
  have hv2 := verify_image_congr c w.mem _ UPDATE_IMAGE_START_ADDRESS MAIN_IMAGE_START_ADDRESS
    g_public_key hpU hpM hlen2 hfl2
  rw [hvu] at hv2
  obtain ⟨hout, htr⟩ := boot_after_flash_success ⟨c, idealFlash, b0, buf⟩ _ hfl1 hv2
  have hrange : OFFSET_length + (signed_bytes w.mem UPDATE_IMAGE_START_ADDRESS).length
      ≤ rd32 w.mem (UPDATE_IMAGE_START_ADDRESS + OFFSET_length) + 72 := by
    unfold signed_bytes
    rw [readBytes_length, hol]
    rw [hol, hMAX] at hlen2
    unfold wrap32
    omega
  -- the events of the run
  have hx1 := boot_main_version_extends_start (fun ev => ev ≠ Event.NVIC_SystemReset)
    ⟨c, idealFlash, b0, buf⟩ w (fun h => Event.noConfusion h) (fun h => Event.noConfusion h)
    (fun _ _ h => Event.noConfusion h) (fun _ _ h => Event.noConfusion h)
  have hx2 := boot_erase_main_extends (fun ev => ev ≠ Event.NVIC_SystemReset)
    ⟨c, idealFlash, b0, buf⟩ (boot_blank_main ⟨c, idealFlash, b0, buf⟩ w).2.1
    (boot_main_version ⟨c, idealFlash, b0, buf⟩ w).2
    (fun h => Event.noConfusion h) (fun h => Event.noConfusion h)
    (fun _ h => Event.noConfusion h)
  have hx3 : Extends (fun ev => ev ≠ Event.NVIC_SystemReset)
      (boot_erase_main ⟨c, idealFlash, b0, buf⟩ (boot_blank_main ⟨c, idealFlash, b0, buf⟩ w).2.1
        (boot_main_version ⟨c, idealFlash, b0, buf⟩ w).2).2.trace
      (boot_flash_main ⟨c, idealFlash, b0, buf⟩ (boot_blank_main ⟨c, idealFlash, b0, buf⟩ w).2.1
        (boot_main_version ⟨c, idealFlash, b0, buf⟩ w).2).2.trace :=
    boot_flash_main_extends _ _ _ _ (fun h => Event.noConfusion h)
      (fun h => Event.noConfusion h) (fun _ _ h => Event.noConfusion h)
  have hx4 := Extends.one (fun ev => ev ≠ Event.NVIC_SystemReset)
    (boot_flash_main ⟨c, idealFlash, b0, buf⟩ (boot_blank_main ⟨c, idealFlash, b0, buf⟩ w).2.1
      (boot_main_version ⟨c, idealFlash, b0, buf⟩ w).2).2.trace
    (Event.verify_image MAIN_IMAGE_START_ADDRESS VERIFY_SUCCESS) (fun h => Event.noConfusion h)
  have hx5 := erase_update_image_area_extends (fun ev => ev ≠ Event.NVIC_SystemReset)
    idealFlash UPDATE_IMAGE_START_ADDRESS
    ⟨(boot_flash_main ⟨c, idealFlash, b0, buf⟩ (boot_blank_main ⟨c, idealFlash, b0, buf⟩ w).2.1
        (boot_main_version ⟨c, idealFlash, b0, buf⟩ w).2).2.mem,
      (boot_flash_main ⟨c, idealFlash, b0, buf⟩ (boot_blank_main ⟨c, idealFlash, b0, buf⟩ w).2.1
        (boot_main_version ⟨c, idealFlash, b0, buf⟩ w).2).2.drv,
      (boot_flash_main ⟨c, idealFlash, b0, buf⟩ (boot_blank_main ⟨c, idealFlash, b0, buf⟩ w).2.1
        (boot_main_version ⟨c, idealFlash, b0, buf⟩ w).2).2.trace
        ++ [Event.verify_image MAIN_IMAGE_START_ADDRESS VERIFY_SUCCESS]⟩
    (fun h => Event.noConfusion h) (fun h => Event.noConfusion h) (fun h => Event.noConfusion h)
  have hx6 := Extends.one (fun ev => ev ≠ Event.NVIC_SystemReset) _ Event.boot_main_application
    (fun h => Event.noConfusion h) |> (((((hx1.trans hx2).trans hx3).trans hx4).trans hx5).trans)
  rw [← htr, ← hboot] at hx6
  have hin : Event.verify_image MAIN_IMAGE_START_ADDRESS VERIFY_SUCCESS
      ∈ run_events ⟨c, idealFlash, b0, buf⟩ w := by
    obtain ⟨evs, hevs, _⟩ := ((hx1.trans hx2).trans hx3)
    obtain ⟨evs5, hevs5, _⟩ := hx5
    have htot : (boot ⟨c, idealFlash, b0, buf⟩ w).world.trace
        = w.trace ++ (evs ++ [Event.verify_image MAIN_IMAGE_START_ADDRESS VERIFY_SUCCESS]
            ++ evs5 ++ [Event.boot_main_application]) := by
      rw [hboot, htr, hevs5, hevs]
      simp only [List.append_assoc]
    rw [run_events_eq _ _ _ htot]
    simp
  refine ⟨hboot, hfl1, hfl2, hrange, hv2, ?_, hin, ?_⟩
  · rw [hboot]
    exact hout
  · intro hmem
    exact run_events_mem_of_extends _ w hx6 _ hmem rfl

set_option maxRecDepth 100000 in
theorem boot_ideal_reverification_witness :
    (verify_image env_ideal.crypto (worldOf mem_update5_main3).mem UPDATE_IMAGE_START_ADDRESS
      g_public_key).1 = VERIFY_SUCCESS ∧
    rd32 (worldOf mem_update5_main3).mem (UPDATE_IMAGE_START_ADDRESS + OFFSET_length)
      ≤ MAIN_IMAGE_MAX_SIZE - 72 ∧
    (boot env_ideal (worldOf mem_update5_main3)).outcome = Outcome.boot_main_application ∧
    Event.NVIC_SystemReset ∉ run_events env_ideal (worldOf mem_update5_main3) :=
  ⟨verify_image_acceptAll _ _ _ (by decide) (by decide), by decide,
    (boot_ideal_reverification env_ideal (worldOf mem_update5_main3) rfl
      (verify_image_acceptAll _ _ _ (by decide) (by decide)) (by decide)
      env_ideal_apply_path.2.2.2.1).2.2.2.2.2.1,
    (boot_ideal_reverification env_ideal (worldOf mem_update5_main3) rfl
      (verify_image_acceptAll _ _ _ (by decide) (by decide)) (by decide)
      env_ideal_apply_path.2.2.2.1).2.2.2.2.2.2.2⟩

/-! ### `boot_main_application` comes right after a successful verification of MAIN -/

theorem split_last (l pre post : List Event) (x : Event) (hx : x ∉ l)
    (h : l ++ [x] = pre ++ x :: post) : pre = l ∧ post = [] := by
  rcases List.append_eq_append_iff.mp h with ⟨a, h1, h2⟩ | ⟨c, h1, h2⟩
  · cases a with
    | nil =>
      simp only [List.nil_append, List.cons.injEq, true_and] at h2
      rw [h1, List.append_nil]
      exact ⟨rfl, h2.symm⟩
    | cons y a1 =>
      have hl := congrArg List.length h2
      simp only [List.length_cons, List.length_nil, List.length_append] at hl
      omega
  · cases c with
    | nil =>
      simp only [List.nil_append, List.cons.injEq, true_and] at h2
      rw [h1, List.append_nil]
      exact ⟨rfl, h2⟩
    | cons y c1 =>
      simp only [List.cons_append, List.cons.injEq] at h2
      exfalso
      apply hx
      rw [h1, h2.1]
      exact List.mem_append_right _ (List.mem_cons_self _ _)

theorem boot_verified_main_shape (e : Env σ) (b : Branch) (tr0 : List Event) (v : World σ)
    (h : Extends (fun ev => ev ≠ Event.boot_main_application) tr0 v.trace) :
    BootsVerified ((boot_verified_main e b v).world.trace.drop tr0.length) := by
  obtain ⟨evs, hevs, hp⟩ := h
  by_cases hv : (verify_image e.crypto v.mem MAIN_IMAGE_START_ADDRESS g_public_key).1
      = VERIFY_SUCCESS
  · have ht := (boot_verified_main_boots e b v hv).2.2.2
    rw [ht, hevs, List.append_assoc, List.drop_left]
    exact Or.inr ⟨evs, [], rfl, fun hmem => hp _ hmem rfl,
      fun ev hev => absurd hev (List.not_mem_nil _)⟩
  · have ht := (boot_verified_main_halts e b v hv).2.2.2
    rw [ht, hevs, List.append_assoc, List.drop_left]
    refine Or.inl (fun hmem => ?_)
    rcases List.mem_append.mp hmem with h1 | h1
    · exact hp _ h1 rfl
    · exact Event.noConfusion (List.mem_singleton.mp h1)

theorem boot_discard_shape (e : Env σ) (b : Branch) (tr0 : List Event) (v : World σ)
    (h : Extends (fun ev => ev ≠ Event.boot_main_application) tr0 v.trace) :
    BootsVerified ((boot_discard e b v).world.trace.drop tr0.length) :=
  boot_verified_main_shape e b tr0 _
    (h.trans (erase_update_image_area_extends _ e.flash UPDATE_IMAGE_START_ADDRESS v
      (fun h => Event.noConfusion h) (fun h => Event.noConfusion h)
      (fun h => Event.noConfusion h)))

theorem boot_after_flash_shape (e : Env σ) (tr0 : List Event) (fl : Nat × World σ)
    (h : Extends (fun ev => ev ≠ Event.boot_main_application) tr0 fl.2.trace) :
    BootsVerified ((boot_after_flash e fl).world.trace.drop tr0.length) := by
  obtain ⟨evs, hevs, hp⟩ := h
  by_cases h1 : fl.1 = SSP_SUCCESS
  · by_cases hv : (verify_image e.crypto fl.2.mem MAIN_IMAGE_START_ADDRESS g_public_key).1
        = VERIFY_SUCCESS
    · have ht := (boot_after_flash_success e fl h1 hv).2
      obtain ⟨evs5, hevs5, hp5⟩ := erase_update_image_area_extends
        (fun ev => ev = Event.flash_open ∨ ev = Event.flash_close ∨
          ev = Event.flash_erase UPDATE_IMAGE_START_ADDRESS
            (UPDATE_IMAGE_MAX_SIZE / UPDATE_IMAGE_ERASE_BLOCK_SIZE))
        e.flash UPDATE_IMAGE_START_ADDRESS
        ⟨fl.2.mem, fl.2.drv,
          fl.2.trace ++ [Event.verify_image MAIN_IMAGE_START_ADDRESS VERIFY_SUCCESS]⟩
        (Or.inl rfl) (Or.inr (Or.inl rfl)) (Or.inr (Or.inr rfl))
      rw [ht, hevs5, hevs]
      simp only [List.append_assoc, List.drop_left, List.singleton_append]
      exact Or.inr ⟨evs, evs5, rfl, fun hmem => hp _ hmem rfl, hp5⟩
    · have ht := (boot_after_flash_fail e fl h1 hv).2.2
      rw [ht, hevs, List.append_assoc, List.drop_left]
      refine Or.inl (fun hmem => ?_)
      rcases List.mem_append.mp hmem with h2 | h2
      · exact hp _ h2 rfl
      · rcases List.mem_cons.mp h2 with h3 | h3
        · exact Event.noConfusion h3
        · exact Event.noConfusion (List.mem_singleton.mp h3)
  · rw [boot_after_flash_error e fl h1, hevs, List.drop_left]
    exact Or.inl (fun hmem => hp _ hmem rfl)

theorem boot_apply_shape (e : Env σ) (blank : Bool) (tr0 : List Event) (v : World σ)
    (h : Extends (fun ev => ev ≠ Event.boot_main_application) tr0 v.trace) :
    BootsVerified ((boot_apply e blank v).world.trace.drop tr0.length) := by
  have he := h.trans (boot_erase_main_extends _ e blank v (fun h => Event.noConfusion h)
    (fun h => Event.noConfusion h) (fun _ h => Event.noConfusion h))
  rw [boot_apply_eq]
  split_ifs
  · exact boot_after_flash_shape e tr0 _
      (he.trans (boot_flash_main_extends _ e blank v (fun h => Event.noConfusion h)
        (fun h => Event.noConfusion h) (fun _ _ h => Event.noConfusion h)))
  · exact Or.inl (fun hmem => he.drop _ hmem rfl)

theorem boot_shape (e : Env σ) (w : World σ) : BootsVerified (run_events e w) := by
  have hbu := boot_blank_update_extends (fun ev => ev ≠ Event.boot_main_application) e w
    (fun h => Event.noConfusion h) (fun h => Event.noConfusion h)
    (fun _ _ h => Event.noConfusion h)
  have hvu : Extends (fun ev => ev ≠ Event.boot_main_application) w.trace
      (boot_verify_update e w).2.trace := by
    rw [boot_verify_update_trace]
    exact hbu.trans (Extends.one _ _ _ (fun h => Event.noConfusion h))
  have hmv := boot_main_version_extends_start (fun ev => ev ≠ Event.boot_main_application) e w
    (fun h => Event.noConfusion h) (fun h => Event.noConfusion h)
    (fun _ _ h => Event.noConfusion h) (fun _ _ h => Event.noConfusion h)
  unfold run_events
  rw [boot_eq]
  split_ifs
  · exact boot_apply_shape e _ _ _ hmv
  · exact boot_discard_shape e _ _ _ hmv
  · exact boot_discard_shape e _ _ _ hvu
  · exact boot_verified_main_shape e _ _ _ hbu
  · exact boot_verified_main_shape e _ _ _ hbu

/-- C24: in every run of `boot`, wherever `boot_main_application` occurs among the events
of the run, it is the last event, and before it there is a `verify_image(MAIN)` that
returned `VERIFY_SUCCESS` with nothing in between but the calls that erase UPDATE: no
other `verify_image`, no erase of MAIN and no programming. -/
theorem boot_main_application_after_verify (e : Env σ) (w : World σ) (pre post : List Event)
    (h : run_events e w = pre ++ Event.boot_main_application :: post) :
    post = [] ∧
    ∃ pre1 mid, pre = pre1 ++ Event.verify_image MAIN_IMAGE_START_ADDRESS VERIFY_SUCCESS :: mid ∧
      (∀ ev, ev ∈ mid → ev = Event.flash_open ∨ ev = Event.flash_close ∨
        ev = Event.flash_erase UPDATE_IMAGE_START_ADDRESS
          (UPDATE_IMAGE_MAX_SIZE / UPDATE_IMAGE_ERASE_BLOCK_SIZE)) ∧
      (∀ ev, ev ∈ mid → (∀ p r, ev ≠ Event.verify_image p r) ∧
        (∀ n, ev ≠ Event.flash_erase MAIN_IMAGE_START_ADDRESS n) ∧
        (∀ d dest, ev ≠ Event.flash_write d dest)) := by
  have hUM : UPDATE_IMAGE_START_ADDRESS ≠ MAIN_IMAGE_START_ADDRESS := by decide
  rcases boot_shape e w with hno | ⟨pre1, mid, hrun, hpre1, hmid⟩
  · exfalso
    apply hno
    rw [h]
    exact List.mem_append_right _ (List.mem_cons_self _ _)
  · rw [hrun] at h
    have h2 : (pre1 ++ Event.verify_image MAIN_IMAGE_START_ADDRESS VERIFY_SUCCESS :: mid)
        ++ [Event.boot_main_application] = pre ++ Event.boot_main_application :: post := by
      rw [← h]
      simp only [List.append_assoc, List.cons_append]
    have hx : Event.boot_main_application
        ∉ pre1 ++ Event.verify_image MAIN_IMAGE_START_ADDRESS VERIFY_SUCCESS :: mid := by
      intro hmem
      rcases List.mem_append.mp hmem with h3 | h3
      · exact hpre1 h3
      · rcases List.mem_cons.mp h3 with h4 | h4
        · exact Event.noConfusion h4
        · rcases hmid _ h4 with h5 | h5 | h5
          · exact Event.noConfusion h5
          · exact Event.noConfusion h5
          · exact Event.noConfusion h5
    obtain ⟨hpre, hpost⟩ := split_last _ _ _ _ hx h2
    refine ⟨hpost, pre1, mid, hpre, hmid, ?_⟩
    intro ev hev
    rcases hmid ev hev with h5 | h5 | h5
    · rw [h5]
      exact ⟨fun _ _ h => Event.noConfusion h, fun _ h => Event.noConfusion h,
        fun _ _ h => Event.noConfusion h⟩
    · rw [h5]
      exact ⟨fun _ _ h => Event.noConfusion h, fun _ h => Event.noConfusion h,
        fun _ _ h => Event.noConfusion h⟩
    · rw [h5]
      refine ⟨fun _ _ h => Event.noConfusion h, fun n h => ?_, fun _ _ h => Event.noConfusion h⟩
      injection h with h6 h7
      exact hUM h6

theorem boot_main_application_after_verify_witness :
    run_events env_ideal (worldOf mem_update2_main3) =
      ([Event.flash_open, Event.flash_blankCheck UPDATE_IMAGE_START_ADDRESS UPDATE_IMAGE_MAX_SIZE,
       Event.flash_close, Event.verify_image UPDATE_IMAGE_START_ADDRESS VERIFY_SUCCESS,
       Event.flash_open, Event.flash_blankCheck MAIN_IMAGE_START_ADDRESS UPDATE_IMAGE_MAX_SIZE,
       Event.flash_close, Event.verify_image MAIN_IMAGE_START_ADDRESS VERIFY_SUCCESS,
       Event.flash_open] ++ Event.flash_erase UPDATE_IMAGE_START_ADDRESS 31 ::
      [Event.flash_close, Event.verify_image MAIN_IMAGE_START_ADDRESS VERIFY_SUCCESS])
        ++ Event.boot_main_application :: [] ∧
    ∃ pre1 mid,
      [Event.flash_open, Event.flash_blankCheck UPDATE_IMAGE_START_ADDRESS UPDATE_IMAGE_MAX_SIZE,
       Event.flash_close, Event.verify_image UPDATE_IMAGE_START_ADDRESS VERIFY_SUCCESS,
       Event.flash_open, Event.flash_blankCheck MAIN_IMAGE_START_ADDRESS UPDATE_IMAGE_MAX_SIZE,
       Event.flash_close, Event.verify_image MAIN_IMAGE_START_ADDRESS VERIFY_SUCCESS,
       Event.flash_open] ++ Event.flash_erase UPDATE_IMAGE_START_ADDRESS 31 ::
      [Event.flash_close, Event.verify_image MAIN_IMAGE_START_ADDRESS VERIFY_SUCCESS]
        = pre1 ++ Event.verify_image MAIN_IMAGE_START_ADDRESS VERIFY_SUCCESS :: mid ∧
      ∀ ev, ev ∈ mid → ev = Event.flash_open ∨ ev = Event.flash_close ∨
        ev = Event.flash_erase UPDATE_IMAGE_START_ADDRESS
          (UPDATE_IMAGE_MAX_SIZE / UPDATE_IMAGE_ERASE_BLOCK_SIZE) :=
  ⟨run_events_update2_main3.trans rfl,
    (boot_main_application_after_verify env_ideal (worldOf mem_update2_main3)
      ([Event.flash_open, Event.flash_blankCheck UPDATE_IMAGE_START_ADDRESS UPDATE_IMAGE_MAX_SIZE,
       Event.flash_close, Event.verify_image UPDATE_IMAGE_START_ADDRESS VERIFY_SUCCESS,
       Event.flash_open, Event.flash_blankCheck MAIN_IMAGE_START_ADDRESS UPDATE_IMAGE_MAX_SIZE,
       Event.flash_close, Event.verify_image MAIN_IMAGE_START_ADDRESS VERIFY_SUCCESS,
       Event.flash_open] ++ Event.flash_erase UPDATE_IMAGE_START_ADDRESS 31 ::
      [Event.flash_close, Event.verify_image MAIN_IMAGE_START_ADDRESS VERIFY_SUCCESS]) []
      (run_events_update2_main3.trans rfl)).2.elim
      (fun pre1 h => h.elim (fun mid hm => ⟨pre1, mid, hm.1, hm.2.1⟩))⟩

/-! ### Which slots are handed to `verify_image` -/

theorem readBytes_all_false_byte (mem : Mem) (a n : Nat)
    (h : (readBytes mem a n).all (fun b => b == ERASED_STATE) = false) :
    ∃ i, i < n ∧ rd8 mem (a + i) ≠ ERASED_STATE := by
  by_contra hno
  have hall : ∀ i, i < n → rd8 mem (a + i) = ERASED_STATE := by
    intro i hi
    by_contra hne
    exact hno ⟨i, hi, hne⟩
  rw [readBytes_all_true mem a n hall] at h
  exact Bool.noConfusion h

theorem boot_verified_main_verifies (e : Env σ) (b : Branch) (tr0 : List Event) (v : World σ)
    (h : Extends (fun _ => True) tr0 v.trace) :
    ∃ r, Event.verify_image MAIN_IMAGE_START_ADDRESS r
      ∈ (boot_verified_main e b v).world.trace.drop tr0.length := by
  obtain ⟨evs, hevs, _⟩ := h
  by_cases hv : (verify_image e.crypto v.mem MAIN_IMAGE_START_ADDRESS g_public_key).1
      = VERIFY_SUCCESS
  · have ht := (boot_verified_main_boots e b v hv).2.2.2
    rw [ht, hevs, List.append_assoc, List.drop_left]
    exact ⟨_, List.mem_append_right _ (List.mem_cons_self _ _)⟩
  · have ht := (boot_verified_main_halts e b v hv).2.2.2
    rw [ht, hevs, List.append_assoc, List.drop_left]
    exact ⟨_, List.mem_append_right _ (List.mem_cons_self _ _)⟩

/-- The run when UPDATE is not examined further: blank check error, UPDATE blank, or UPDATE
rejected.  MAIN is verified and its blank check is never called. -/
theorem boot_unguarded_main (e : Env σ) (w : World σ)
    (h : ¬ ((boot_blank_update e w).1 = SSP_SUCCESS ∧ (boot_blank_update e w).2.1 = false ∧
      (boot_verify_update e w).1 = VERIFY_SUCCESS)) :
    (∃ r, Event.verify_image MAIN_IMAGE_START_ADDRESS r ∈ run_events e w) ∧
    ∀ n, Event.flash_blankCheck MAIN_IMAGE_START_ADDRESS n ∉ run_events e w := by
  have hUM : UPDATE_IMAGE_START_ADDRESS ≠ MAIN_IMAGE_START_ADDRESS := by decide
  have hbuT := boot_blank_update_extends (fun _ => True) e w trivial trivial
    (fun _ _ => trivial)
  have hbu : Extends (fun ev => ∀ n, ev ≠ Event.flash_blankCheck MAIN_IMAGE_START_ADDRESS n)
      w.trace (boot_blank_update e w).2.2.trace :=
    blank_check_image_area_extends _ e.flash UPDATE_IMAGE_START_ADDRESS e.blank_status w
      (fun _ h => Event.noConfusion h) (fun _ h => Event.noConfusion h)
      (fun _ _ h => by
        injection h with h1 h2
        exact hUM h1)
  have hvm := fun (b : Branch) (v : World σ) =>
    boot_verified_main_extends
      (fun ev => ∀ n, ev ≠ Event.flash_blankCheck MAIN_IMAGE_START_ADDRESS n) e b v
      (fun _ _ h => Event.noConfusion h) (fun _ h => Event.noConfusion h)
  have hvuT : Extends (fun _ => True) w.trace (boot_verify_update e w).2.trace := by
    rw [boot_verify_update_trace]
    exact hbuT.trans (Extends.one _ _ _ trivial)
  have hvu : Extends (fun ev => ∀ n, ev ≠ Event.flash_blankCheck MAIN_IMAGE_START_ADDRESS n)
      w.trace (boot_verify_update e w).2.trace := by
    rw [boot_verify_update_trace]
    exact hbu.trans (Extends.one _ _ _ (fun _ h => Event.noConfusion h))
  have heuT := erase_update_image_area_extends (fun _ => True) e.flash
    UPDATE_IMAGE_START_ADDRESS (boot_verify_update e w).2 trivial trivial trivial
  have heu := erase_update_image_area_extends
    (fun ev => ∀ n, ev ≠ Event.flash_blankCheck MAIN_IMAGE_START_ADDRESS n) e.flash
    UPDATE_IMAGE_START_ADDRESS (boot_verify_update e w).2
    (fun _ h => Event.noConfusion h) (fun _ h => Event.noConfusion h)
    (fun _ h => Event.noConfusion h)
  unfold run_events
  rw [boot_eq]
  by_cases h1 : (boot_blank_update e w).1 = SSP_SUCCESS
  · by_cases h2 : (boot_blank_update e w).2.1 = false
    · have h3 : ¬ (boot_verify_update e w).1 = VERIFY_SUCCESS := fun h3 => h ⟨h1, h2, h3⟩
      rw [if_pos h1, if_pos h2, if_neg h3]
      exact ⟨boot_verified_main_verifies e _ _ _ (hvuT.trans heuT),
        fun n hmem => ((hvu.trans heu).trans (hvm _ _)).drop _ hmem n rfl⟩
    · rw [if_pos h1, if_neg h2]
      exact ⟨boot_verified_main_verifies e _ _ _ hbuT,
        fun n hmem => (hbu.trans (hvm _ _)).drop _ hmem n rfl⟩
  · rw [if_neg h1]
    exact ⟨boot_verified_main_verifies e _ _ _ hbuT,
      fun n hmem => (hbu.trans (hvm _ _)).drop _ hmem n rfl⟩

/-- Without a successful blank check of UPDATE that reports "not blank", the run has no
`verify_image(UPDATE)`. -/
theorem boot_no_verify_update (e : Env σ) (w : World σ)
    (h : ¬ ((boot_blank_update e w).1 = SSP_SUCCESS ∧ (boot_blank_update e w).2.1 = false)) :
    ∀ r, Event.verify_image UPDATE_IMAGE_START_ADDRESS r ∉ run_events e w := by
  have hUM : MAIN_IMAGE_START_ADDRESS ≠ UPDATE_IMAGE_START_ADDRESS := by decide
  have hbu := boot_blank_update_extends
    (fun ev => ∀ r, ev ≠ Event.verify_image UPDATE_IMAGE_START_ADDRESS r) e w
    (fun _ h => Event.noConfusion h) (fun _ h => Event.noConfusion h)
    (fun _ _ _ h => Event.noConfusion h)
  have hvm := fun (b : Branch) (v : World σ) =>
    boot_verified_main_extends
      (fun ev => ∀ r, ev ≠ Event.verify_image UPDATE_IMAGE_START_ADDRESS r) e b v
      (fun _ _ h => by
        injection h with h1 h2
        exact hUM h1) (fun _ h => Event.noConfusion h)
  intro r hmem
  unfold run_events at hmem
  rw [boot_eq] at hmem
  by_cases h1 : (boot_blank_update e w).1 = SSP_SUCCESS
  · have h2 : ¬ (boot_blank_update e w).2.1 = false := fun h2 => h ⟨h1, h2⟩
    rw [if_pos h1, if_neg h2] at hmem
    exact (hbu.trans (hvm _ _)).drop _ hmem r rfl
  · rw [if_neg h1] at hmem
    exact (hbu.trans (hvm _ _)).drop _ hmem r rfl

/-- C22, as the code has it: `verify_image` is invoked on UPDATE only after the blank check
of UPDATE succeeded and reported "not blank" (over a driver whose blank check reads the
range, UPDATE then holds a byte other than 0xFF); the verification of MAIN that reads its
version is skipped when the blank check of MAIN fails or reports "blank"; but when the
blank check of UPDATE fails, UPDATE is blank or UPDATE is rejected, MAIN is handed to
`verify_image` with no blank check of MAIN in the run. -/
theorem boot_verify_image_guard (e : Env σ) (w : World σ) :
    (∀ r, Event.verify_image UPDATE_IMAGE_START_ADDRESS r ∈ run_events e w →
      (boot_blank_update e w).1 = SSP_SUCCESS ∧ (boot_blank_update e w).2.1 = false ∧
      (BlankCheckReads e.flash →
        ∃ i, i < UPDATE_IMAGE_MAX_SIZE ∧
          rd8 w.mem (UPDATE_IMAGE_START_ADDRESS + i) ≠ ERASED_STATE)) ∧
    (((boot_blank_main e w).1 ≠ SSP_SUCCESS ∨ (boot_blank_main e w).2.1 = true) →
      boot_main_version e w = (0, (boot_blank_main e w).2.2)) ∧
    (¬ ((boot_blank_update e w).1 = SSP_SUCCESS ∧ (boot_blank_update e w).2.1 = false ∧
        (boot_verify_update e w).1 = VERIFY_SUCCESS) →
      (∃ r, Event.verify_image MAIN_IMAGE_START_ADDRESS r ∈ run_events e w) ∧
      ∀ n, Event.flash_blankCheck MAIN_IMAGE_START_ADDRESS n ∉ run_events e w) := by
  refine ⟨?_, ?_, boot_unguarded_main e w⟩
  · intro r hmem
    by_cases h : (boot_blank_update e w).1 = SSP_SUCCESS ∧ (boot_blank_update e w).2.1 = false
    · refine ⟨h.1, h.2, fun hdrv => ?_⟩
      have hb := (boot_blank_update_reads e w hdrv).2
      rw [h.2] at hb
      exact readBytes_all_false_byte _ _ _ hb.symm
    · exact absurd hmem (boot_no_verify_update e w h r)
  · intro h
    unfold boot_main_version
    dsimp only
    rcases h with h | h
    · rw [if_neg h]
    · have h2 : ¬ (boot_blank_main e w).2.1 = false := by
        rw [h]
        exact fun hh => Bool.noConfusion hh
      rw [if_neg h2]
      split_ifs <;> rfl

/-- C22, counterexample to the claim as stated: both slots erased, on the ideal flash.  The
run is the blank check of UPDATE followed by `verify_image(MAIN)`, which fails: the blank
MAIN slot is handed to `verify_image`. -/
theorem boot_verifies_blank_main :
    (∀ i, i < MAIN_IMAGE_MAX_SIZE →
      rd8 mem_all_erased (MAIN_IMAGE_START_ADDRESS + i) = ERASED_STATE) ∧
    (readBytes mem_all_erased MAIN_IMAGE_START_ADDRESS MAIN_IMAGE_MAX_SIZE).all
      (fun b => b == ERASED_STATE) = true ∧
    run_events env_ideal (worldOf mem_all_erased) =
      [Event.flash_open, Event.flash_blankCheck UPDATE_IMAGE_START_ADDRESS UPDATE_IMAGE_MAX_SIZE,
       Event.flash_close, Event.verify_image MAIN_IMAGE_START_ADDRESS VERIFY_FAIL] ∧
    (boot env_ideal (worldOf mem_all_erased)).outcome = Outcome.halt := by
  have hrd : ∀ a, rd8 mem_all_erased a = ERASED_STATE := fun _ => rfl
  have hdrv : BlankCheckReads env_ideal.flash := ⟨fun _ => rfl, fun _ _ _ _ => ⟨rfl, rfl⟩⟩
  have hbu := boot_blank_update_reads env_ideal (worldOf mem_all_erased) hdrv
  have hall : (readBytes (worldOf mem_all_erased).mem UPDATE_IMAGE_START_ADDRESS
      UPDATE_IMAGE_MAX_SIZE).all (fun b => b == ERASED_STATE) = true :=
    readBytes_all_true _ _ _ (fun i _ => hrd _)
  rw [hall] at hbu
  have h2 : ¬ (boot_blank_update env_ideal (worldOf mem_all_erased)).2.1 = false := by
    rw [hbu.2]
    exact fun hh => Bool.noConfusion hh
  have htr := (blank_check_image_area_reads env_ideal.flash hdrv UPDATE_IMAGE_START_ADDRESS
    env_ideal.blank_status (worldOf mem_all_erased) (by decide) (by decide)).2.2
  have htr2 : (boot_blank_update env_ideal (worldOf mem_all_erased)).2.2.trace
      = (worldOf mem_all_erased).trace ++ [Event.flash_open,
          Event.flash_blankCheck UPDATE_IMAGE_START_ADDRESS UPDATE_IMAGE_MAX_SIZE,
          Event.flash_close] := htr
  have hvm : (verify_image env_ideal.crypto
      (boot_blank_update env_ideal (worldOf mem_all_erased)).2.2.mem
      MAIN_IMAGE_START_ADDRESS g_public_key).1 ≠ VERIFY_SUCCESS := by
    rw [boot_blank_update_mem]
    intro hs
    exact absurd (verify_image_success _ _ _ _ hs).1 (by decide)
  have hfail : (verify_image env_ideal.crypto
      (boot_blank_update env_ideal (worldOf mem_all_erased)).2.2.mem
      MAIN_IMAGE_START_ADDRESS g_public_key).1 = VERIFY_FAIL := by
    rcases verify_image_fst_cases env_ideal.crypto
      (boot_blank_update env_ideal (worldOf mem_all_erased)).2.2.mem
      MAIN_IMAGE_START_ADDRESS g_public_key with h | h
    · exact h
    · exact absurd h hvm
  have hboot : boot env_ideal (worldOf mem_all_erased)
      = boot_verified_main env_ideal Branch.update_area_blank
          (boot_blank_update env_ideal (worldOf mem_all_erased)).2.2 := by
    rw [boot_eq, if_pos hbu.1, if_neg h2]
  obtain ⟨ho, _, _, ht⟩ := boot_verified_main_halts env_ideal Branch.update_area_blank _ hvm
  rw [hfail, htr2, List.append_assoc] at ht
  rw [← hboot] at ho ht
  exact ⟨fun i _ => hrd _, readBytes_all_true _ _ _ (fun i _ => hrd _),
    run_events_eq _ _ _ ht, ho⟩

theorem boot_verify_image_guard_witness :
    ¬ ((boot_blank_update env_ideal (worldOf mem_all_erased)).1 = SSP_SUCCESS ∧
      (boot_blank_update env_ideal (worldOf mem_all_erased)).2.1 = false ∧
      (boot_verify_update env_ideal (worldOf mem_all_erased)).1 = VERIFY_SUCCESS) ∧
    ((∃ r, Event.verify_image MAIN_IMAGE_START_ADDRESS r
        ∈ run_events env_ideal (worldOf mem_all_erased)) ∧
      ∀ n, Event.flash_blankCheck MAIN_IMAGE_START_ADDRESS n
        ∉ run_events env_ideal (worldOf mem_all_erased)) :=
  have hnot : ¬ ((boot_blank_update env_ideal (worldOf mem_all_erased)).1 = SSP_SUCCESS ∧
      (boot_blank_update env_ideal (worldOf mem_all_erased)).2.1 = false ∧
      (boot_verify_update env_ideal (worldOf mem_all_erased)).1 = VERIFY_SUCCESS) := by
    intro h
    have hb := (boot_blank_update_reads env_ideal (worldOf mem_all_erased)
      ⟨fun _ => rfl, fun _ _ _ _ => ⟨rfl, rfl⟩⟩).2
    rw [readBytes_all_true (worldOf mem_all_erased).mem UPDATE_IMAGE_START_ADDRESS
      UPDATE_IMAGE_MAX_SIZE (fun i _ => rfl), h.2.1] at hb
    exact Bool.noConfusion hb
  ⟨hnot, (boot_verify_image_guard env_ideal (worldOf mem_all_erased)).2.2 hnot⟩

/-! ### The steps of the block "version number good" -/

theorem boot_apply_path (e : Env σ) (w : World σ)
    (hbu1 : (boot_blank_update e w).1 = SSP_SUCCESS)
    (hbu2 : (boot_blank_update e w).2.1 = false)
    (hvu : (boot_verify_update e w).1 = VERIFY_SUCCESS)
    (hver : rd32 w.mem (UPDATE_IMAGE_START_ADDRESS + OFFSET_version)
      ≥ (boot_main_version e w).1) :
    boot e w = boot_apply e (boot_blank_main e w).2.1 (boot_main_version e w).2 := by
  have hver2 : rd32 (boot_main_version e w).2.mem (UPDATE_IMAGE_START_ADDRESS + OFFSET_version)
      ≥ (boot_main_version e w).1 := by
    rw [boot_main_version_mem]
    exact hver
  rw [boot_eq, if_pos hbu1, if_pos hbu2, if_pos hvu, if_pos hver2]

theorem boot_erase_error (e : Env σ) (w : World σ)
    (hbu1 : (boot_blank_update e w).1 = SSP_SUCCESS)
    (hbu2 : (boot_blank_update e w).2.1 = false)
    (hvu : (boot_verify_update e w).1 = VERIFY_SUCCESS)
    (hver : rd32 w.mem (UPDATE_IMAGE_START_ADDRESS + OFFSET_version)
      ≥ (boot_main_version e w).1)
    (herr : (boot_erase_main e (boot_blank_main e w).2.1 (boot_main_version e w).2).1
      ≠ SSP_SUCCESS) :
    boot e w = ⟨(boot_erase_main e (boot_blank_main e w).2.1 (boot_main_version e w).2).2,
      Outcome.returned, Branch.version_number_good⟩ := by
  rw [boot_apply_path e w hbu1 hbu2 hvu hver, boot_apply_eq, if_neg herr]

theorem boot_erase_error_trace (e : Env σ) (w : World σ)
    (hbu1 : (boot_blank_update e w).1 = SSP_SUCCESS)
    (hbu2 : (boot_blank_update e w).2.1 = false)
    (hvu : (boot_verify_update e w).1 = VERIFY_SUCCESS)
    (hver : rd32 w.mem (UPDATE_IMAGE_START_ADDRESS + OFFSET_version)
      ≥ (boot_main_version e w).1)
    (herr : (boot_erase_main e (boot_blank_main e w).2.1 (boot_main_version e w).2).1
      ≠ SSP_SUCCESS) :
    (boot e w).world.trace
      = (boot_erase_main e (boot_blank_main e w).2.1 (boot_main_version e w).2).2.trace ∧
    (boot e w).outcome = Outcome.returned := by
  rw [boot_erase_error e w hbu1 hbu2 hvu hver herr]
  exact ⟨rfl, rfl⟩

theorem boot_flash_main_eq (e : Env σ) (blank : Bool) (v : World σ) :
    boot_flash_main e blank v =
      flash_main_image_from_update_area e.flash e.flash_page_buffer UPDATE_IMAGE_START_ADDRESS
        (wrap32 (rd32 (boot_erase_main e blank v).2.mem
          (UPDATE_IMAGE_START_ADDRESS + OFFSET_length) + 72))
        (boot_erase_main e blank v).2 := by
  have hSB : SIGNATURE_LEN_BYTES = 64 := by decide
  have h72 : ∀ x : Nat, x + 4 + 64 + 4 = x + 72 := fun x => by omega
  unfold boot_flash_main
  rw [update_size_eq, hSB, h72]

/-- C21, what the code does.  When UPDATE is accepted and the version test passes:
`erase_main_image_area` is called if and only if the blank status of MAIN is `false`; then
`flash_main_image_from_update_area` is called on the UPDATE base with `length + 72` as
`boot` computes it; then `verify_image(MAIN)` is called on the programmed memory; if it
passes, `erase_update_image_area` is called and then `boot_main_application`; if it fails,
`NVIC_SystemReset` follows at once, with no erase of UPDATE.  The sequence is cut short
where the defect of lines 94 and 100 shows: when the erase step or the programming step
returns an error, the missing else makes `boot` return with the remaining steps undone. -/
theorem boot_apply_sequence (e : Env σ) (w : World σ)
    (hbu1 : (boot_blank_update e w).1 = SSP_SUCCESS)
    (hbu2 : (boot_blank_update e w).2.1 = false)
    (hvu : (boot_verify_update e w).1 = VERIFY_SUCCESS)
    (hver : rd32 w.mem (UPDATE_IMAGE_START_ADDRESS + OFFSET_version)
      ≥ (boot_main_version e w).1) :
    ((boot_blank_main e w).2.1 = false →
      boot_erase_main e (boot_blank_main e w).2.1 (boot_main_version e w).2
        = erase_main_image_area e.flash (boot_main_version e w).2) ∧
    ((boot_blank_main e w).2.1 = true →
      boot_erase_main e (boot_blank_main e w).2.1 (boot_main_version e w).2
        = (SSP_SUCCESS, (boot_main_version e w).2)) ∧
    ((boot_erase_main e (boot_blank_main e w).2.1 (boot_main_version e w).2).1 ≠ SSP_SUCCESS →
      boot e w = ⟨(boot_erase_main e (boot_blank_main e w).2.1 (boot_main_version e w).2).2,
        Outcome.returned, Branch.version_number_good⟩) ∧
    boot_flash_main e (boot_blank_main e w).2.1 (boot_main_version e w).2 =
      flash_main_image_from_update_area e.flash e.flash_page_buffer UPDATE_IMAGE_START_ADDRESS
        (wrap32 (rd32 (boot_erase_main e (boot_blank_main e w).2.1 (boot_main_version e w).2).2.mem
          (UPDATE_IMAGE_START_ADDRESS + OFFSET_length) + 72))
        (boot_erase_main e (boot_blank_main e w).2.1 (boot_main_version e w).2).2 ∧
    ((boot_erase_main e (boot_blank_main e w).2.1 (boot_main_version e w).2).1 = SSP_SUCCESS →
      ((boot_flash_main e (boot_blank_main e w).2.1 (boot_main_version e w).2).1 ≠ SSP_SUCCESS →
        boot e w = ⟨(boot_flash_main e (boot_blank_main e w).2.1 (boot_main_version e w).2).2,
          Outcome.returned, Branch.version_number_good⟩) ∧
      ((boot_flash_main e (boot_blank_main e w).2.1 (boot_main_version e w).2).1 = SSP_SUCCESS →
        ((verify_image e.crypto
            (boot_flash_main e (boot_blank_main e w).2.1 (boot_main_version e w).2).2.mem
            MAIN_IMAGE_START_ADDRESS g_public_key).1 = VERIFY_SUCCESS →
          (boot e w).outcome = Outcome.boot_main_application ∧
          (boot e w).world.trace =
            (erase_update_image_area e.flash UPDATE_IMAGE_START_ADDRESS
              ⟨(boot_flash_main e (boot_blank_main e w).2.1 (boot_main_version e w).2).2.mem,
                (boot_flash_main e (boot_blank_main e w).2.1 (boot_main_version e w).2).2.drv,
                (boot_flash_main e (boot_blank_main e w).2.1 (boot_main_version e w).2).2.trace
                  ++ [Event.verify_image MAIN_IMAGE_START_ADDRESS VERIFY_SUCCESS]⟩).2.trace
              ++ [Event.boot_main_application]) ∧
        ((verify_image e.crypto
            (boot_flash_main e (boot_blank_main e w).2.1 (boot_main_version e w).2).2.mem
            MAIN_IMAGE_START_ADDRESS g_public_key).1 ≠ VERIFY_SUCCESS →
          (boot e w).outcome = Outcome.NVIC_SystemReset ∧
          (boot e w).world.mem
            = (boot_flash_main e (boot_blank_main e w).2.1 (boot_main_version e w).2).2.mem ∧
          (boot e w).world.trace =
            (boot_flash_main e (boot_blank_main e w).2.1 (boot_main_version e w).2).2.trace
              ++ [Event.verify_image MAIN_IMAGE_START_ADDRESS
                  (verify_image e.crypto
                    (boot_flash_main e (boot_blank_main e w).2.1 (boot_main_version e w).2).2.mem
                    MAIN_IMAGE_START_ADDRESS g_public_key).1,
                Event.NVIC_SystemReset]))) := by
  have hboot := boot_apply_path e w hbu1 hbu2 hvu hver
  refine ⟨?_, ?_, boot_erase_error e w hbu1 hbu2 hvu hver, boot_flash_main_eq e _ _, ?_⟩
  · intro h
    unfold boot_erase_main
    rw [if_pos h]
  · intro h
    have h2 : ¬ (boot_blank_main e w).2.1 = false := by
      rw [h]
      exact fun hh => Bool.noConfusion hh
    unfold boot_erase_main
    rw [if_neg h2]
  · intro her
    have hboot2 : boot e w = boot_after_flash e
        (boot_flash_main e (boot_blank_main e w).2.1 (boot_main_version e w).2) := by
      rw [hboot, boot_apply_eq, if_pos her]
    refine ⟨fun hfl => ?_, fun hfl => ⟨fun hv => ?_, fun hv => ?_⟩⟩
    · rw [hboot2, boot_after_flash_error e _ hfl]
    · rw [hboot2]
      exact boot_after_flash_success e _ hfl hv
    · rw [hboot2]
      exact boot_after_flash_fail e _ hfl hv

/-- C21, at the failing input: UPDATE (version 5) and MAIN (version 3) are accepted and the
version test passes, MAIN is not blank, and the erase of MAIN returns an error.
`erase_main_image_area` is called, but `flash_main_image_from_update_area` is not: the run
has no write, and `boot` returns. -/
theorem boot_erase_error_skips_programming :
    (verify_image env_erase_fails.crypto mem_update5_main3 UPDATE_IMAGE_START_ADDRESS
      g_public_key).1 = VERIFY_SUCCESS ∧
    rd32 mem_update5_main3 (UPDATE_IMAGE_START_ADDRESS + OFFSET_version)
      ≥ rd32 mem_update5_main3 (MAIN_IMAGE_START_ADDRESS + OFFSET_version) ∧
    (boot_blank_main env_erase_fails (worldOf mem_update5_main3)).2.1 = false ∧
    Event.flash_erase MAIN_IMAGE_START_ADDRESS (MAIN_IMAGE_MAX_SIZE / MAIN_IMAGE_ERASE_BLOCK_SIZE)
      ∈ run_events env_erase_fails (worldOf mem_update5_main3) ∧
    (∀ d dest, Event.flash_write d dest ∉ run_events env_erase_fails (worldOf mem_update5_main3)) ∧
    (boot env_erase_fails (worldOf mem_update5_main3)).outcome = Outcome.returned := by
  obtain ⟨p1, p2, p3, p4, p5⟩ := env_erase_fails_path
  have hdrv : BlankCheckReads env_erase_fails.flash := ⟨fun _ => rfl, fun _ _ _ _ => ⟨rfl, rfl⟩⟩
  have hbm := (boot_blank_main_reads env_erase_fails (worldOf mem_update5_main3) hdrv).2
  have hm : (readBytes (worldOf mem_update5_main3).mem MAIN_IMAGE_START_ADDRESS
      UPDATE_IMAGE_MAX_SIZE).all (fun b => b == ERASED_STATE) = false :=
    readBytes_all_false _ _ _ (by decide) (by decide)
  rw [hm] at hbm
  obtain ⟨htr, hout⟩ :=
    boot_erase_error_trace env_erase_fails (worldOf mem_update5_main3) p1 p2 p3 p4 p5
  have hx1 := boot_main_version_extends_start (fun ev => ∀ d dest, ev ≠ Event.flash_write d dest)
    env_erase_fails (worldOf mem_update5_main3) (fun _ _ h => Event.noConfusion h)
    (fun _ _ h => Event.noConfusion h) (fun _ _ _ _ h => Event.noConfusion h)
    (fun _ _ _ _ h => Event.noConfusion h)
  have hx2 := boot_erase_main_extends (fun ev => ∀ d dest, ev ≠ Event.flash_write d dest)
    env_erase_fails (boot_blank_main env_erase_fails (worldOf mem_update5_main3)).2.1
    (boot_main_version env_erase_fails (worldOf mem_update5_main3)).2
    (fun _ _ h => Event.noConfusion h) (fun _ _ h => Event.noConfusion h)
    (fun _ _ _ h => Event.noConfusion h)
  have hx := hx1.trans hx2
  rw [← htr] at hx
  have hin : Event.flash_erase MAIN_IMAGE_START_ADDRESS
      (MAIN_IMAGE_MAX_SIZE / MAIN_IMAGE_ERASE_BLOCK_SIZE)
      ∈ (boot env_erase_fails (worldOf mem_update5_main3)).world.trace := by
    rw [htr, hbm, boot_erase_main_false]
    exact erase_main_image_area_event _ _ (fun _ => rfl)
  refine ⟨?_, by decide, hbm, ?_, ?_, hout⟩
  · exact verify_image_acceptAll _ _ _ (by decide) (by decide)
  · rw [run_events_worldOf]
    exact hin
  · intro d dest hmem
    exact run_events_mem_of_extends _ _ hx _ hmem d dest rfl

theorem boot_apply_sequence_witness :
    ((boot_blank_update env_ideal (worldOf mem_update5_main3)).1 = SSP_SUCCESS ∧
     (boot_blank_update env_ideal (worldOf mem_update5_main3)).2.1 = false ∧
     (boot_verify_update env_ideal (worldOf mem_update5_main3)).1 = VERIFY_SUCCESS ∧
     rd32 (worldOf mem_update5_main3).mem (UPDATE_IMAGE_START_ADDRESS + OFFSET_version)
       ≥ (boot_main_version env_ideal (worldOf mem_update5_main3)).1 ∧
     (boot_erase_main env_ideal
       (boot_blank_main env_ideal (worldOf mem_update5_main3)).2.1
       (boot_main_version env_ideal (worldOf mem_update5_main3)).2).1 = SSP_SUCCESS) ∧
    boot_flash_main env_ideal (boot_blank_main env_ideal (worldOf mem_update5_main3)).2.1
        (boot_main_version env_ideal (worldOf mem_update5_main3)).2 =
      flash_main_image_from_update_area env_ideal.flash env_ideal.flash_page_buffer
        UPDATE_IMAGE_START_ADDRESS
        (wrap32 (rd32 (boot_erase_main env_ideal
            (boot_blank_main env_ideal (worldOf mem_update5_main3)).2.1
            (boot_main_version env_ideal (worldOf mem_update5_main3)).2).2.mem
          (UPDATE_IMAGE_START_ADDRESS + OFFSET_length) + 72))
        (boot_erase_main env_ideal
          (boot_blank_main env_ideal (worldOf mem_update5_main3)).2.1
          (boot_main_version env_ideal (worldOf mem_update5_main3)).2).2 :=
  ⟨env_ideal_apply_path,
    (boot_apply_sequence env_ideal (worldOf mem_update5_main3) env_ideal_apply_path.1
      env_ideal_apply_path.2.1 env_ideal_apply_path.2.2.1 env_ideal_apply_path.2.2.2.1).2.2.2.1⟩

/-! ### `verify_image` and the digest of the image -/

set_option maxRecDepth 100000 in
/-- C2, at the failing inputs.  First input: the magic is right and `L + 72` is within the
capacity, but the hash driver fails; `sha256_hash` returns the error and computes no digest
of the `L + 4` bytes, the signature service accepts nothing but the stale content of the
local buffer, and `verify_image` returns `VERIFY_SUCCESS`.  Second input: the magic is right
and `L + 72` exceeds the capacity (`L = 0xFFFFFFB8`), which is one of the other cases, and
`verify_image` returns `VERIFY_SUCCESS`. -/
theorem verify_image_not_iff_signature :
    (readBytes mem_small_main MAIN_IMAGE_START_ADDRESS 4 = MAGIC_NUMBER ∧
      rd32 mem_small_main (MAIN_IMAGE_START_ADDRESS + 68) + 72 ≤ MAIN_IMAGE_MAX_SIZE ∧
      (sha256_hash cryptoHashFails.hashUpdate mem_small_main
        (wrap32 (MAIN_IMAGE_START_ADDRESS + 68))
        (rd32 mem_small_main (MAIN_IMAGE_START_ADDRESS + 68) + 4)
        cryptoHashFails.temp_data cryptoHashFails.hash) = (1, stale_digest) ∧
      (∀ digest r s, digest ≠ stale_digest →
        cryptoHashFails.eccVerify domain generator_point g_public_key digest r s
          ≠ SSP_SUCCESS) ∧
      (verify_image cryptoHashFails mem_small_main MAIN_IMAGE_START_ADDRESS g_public_key).1
        = VERIFY_SUCCESS) ∧
    (readBytes mem_overflow UPDATE_IMAGE_START_ADDRESS 4 = MAGIC_NUMBER ∧
      ¬ (rd32 mem_overflow (UPDATE_IMAGE_START_ADDRESS + 68) + 72 ≤ MAIN_IMAGE_MAX_SIZE) ∧
      (verify_image cryptoAcceptAll mem_overflow UPDATE_IMAGE_START_ADDRESS g_public_key).1
        = VERIFY_SUCCESS) := by
  refine ⟨⟨by decide, by decide, by decide, ?_, by decide⟩, by decide, by decide,
    verify_image_acceptAll _ _ _ (by decide) (by decide)⟩
  intro digest r s hd
  show (if digest = stale_digest then SSP_SUCCESS else 1) ≠ SSP_SUCCESS
  rw [if_neg hd]
  decide

/-! ### The discard path, for every MAIN image whose hashed range is inside the slot -/

/-- The result of `verify_image` depends only on the 72 bytes of the header and on the
bytes of the hashed range, for slots whose length field is 4-byte aligned. -/
theorem verify_image_congr_range (c : Crypto) (m1 m2 : Mem) (p q : Nat) (key : List Nat)
    (hp : wrap32 (p + OFFSET_length) &&& 0x03 = 0) (hq : wrap32 (q + OFFSET_length) &&& 0x03 = 0)
    (h : ∀ i, i < 72 ∨ i < OFFSET_length + wrap32 (rd32 m1 (p + OFFSET_length) + 4) →
      rd8 m2 (q + i) = rd8 m1 (p + i)) :
    (verify_image c m2 q key).1 = (verify_image c m1 p key).1 := by
  have ho : OFFSET_length = 68 := by decide
  have hos : OFFSET_signature = 4 := rfl
  have hR : 4 * ECC_256_SIGNATURE_R_LENGTH_WORDS = 32 := by decide
  have hS : 4 * ECC_256_SIGNATURE_S_LENGTH_WORDS = 32 := by decide
  have hSB : SIGNATURE_LEN_BYTES = 64 := by decide
  rw [ho] at hp hq h
  have hmag : readBytes m2 q MAGIC_NUMBER_LEN = readBytes m1 p MAGIC_NUMBER_LEN :=
    readBytes_congr _ _ _ _ _ (fun i hi =>
      h i (Or.inl (by have : MAGIC_NUMBER_LEN = 4 := rfl; omega)))
  have hl : rd32 m2 (q + 68) = rd32 m1 (p + 68) := by
    unfold rd32
    rw [h 68 (Or.inl (by omega)), Nat.add_assoc q, Nat.add_assoc q, Nat.add_assoc q,
      Nat.add_assoc p, Nat.add_assoc p, Nat.add_assoc p, h _ (Or.inl (by omega)),
      h _ (Or.inl (by omega)), h _ (Or.inl (by omega))]
  have hr : readBytes m2 (q + 4) 32 = readBytes m1 (p + 4) 32 :=
    readBytes_congr _ _ _ _ _ (fun i hi => by
      rw [Nat.add_assoc, Nat.add_assoc]
      exact h _ (Or.inl (by omega)))
  have hs : readBytes m2 (q + 4 + 32) 32 = readBytes m1 (p + 4 + 32) 32 :=
    readBytes_congr _ _ _ _ _ (fun i hi => by
      rw [Nat.add_assoc, Nat.add_assoc, Nat.add_assoc, Nat.add_assoc]
      exact h _ (Or.inl (by omega)))
  have hbody : readBytes m2 (wrap32 (q + 68)) (wrap32 (rd32 m1 (p + 68) + 4))
      = readBytes m1 (wrap32 (p + 68)) (wrap32 (rd32 m1 (p + 68) + 4)) := by
    rw [readBytes_wrap32, readBytes_wrap32]
    exact readBytes_congr _ _ _ _ _ (fun i hi => by
      rw [Nat.add_assoc, Nat.add_assoc]
      exact h _ (Or.inr (by omega)))
  have hsha := sha256_hash_congr_aligned c.hashUpdate m1 m2 (wrap32 (p + 68)) (wrap32 (q + 68))
    (wrap32 (rd32 m1 (p + 68) + 4)) c.temp_data c.hash hp hq hbody
  unfold verify_image
  simp only [ho, hos, hR, hS, hSB, hmag, hl, hr, hs, hsha]
  split_ifs <;> rfl

/-- For an accepted header, the hashed range ends inside the slot unless the length field
is one of `0xFFFFFFB8 .. 0xFFFFFFFB`. -/
theorem signed_bytes_in_slot_iff (c : Crypto) (mem : Mem) (p : Nat) (key : List Nat)
    (h : (verify_image c mem p key).1 = VERIFY_SUCCESS) :
    OFFSET_length + (signed_bytes mem p).length ≤ MAIN_IMAGE_MAX_SIZE ↔
      ¬ (4294967224 ≤ rd32 mem (p + OFFSET_length) ∧ rd32 mem (p + OFFSET_length) ≤ 4294967291) := by
  have hMAX : MAIN_IMAGE_MAX_SIZE = 1015808 := by decide
  have hol : OFFSET_length = 68 := by decide
  have hSB : SIGNATURE_LEN_BYTES = 64 := by decide
  have hL := rd32_lt mem (p + OFFSET_length)
  have hacc := (verify_image_success c mem p key h).2
  unfold signed_bytes
  rw [readBytes_length]
  rw [hMAX, hSB] at hacc
  rw [hMAX]
  generalize rd32 mem (p + OFFSET_length) = L at *
  rw [hol]
  unfold wrap32 at hacc ⊢
  constructor
  · intro hh
    omega
  · intro hh
    omega

/-- C11: on the ideal flash (erase sets the range to 0xFF, write stores the bytes, every
driver call succeeds), for every hash driver and signature service, every UPDATE image
accepted by `verify_image` and every MAIN image accepted by `verify_image` whose hashed
range `[68, 68 + length + 4)` ends inside the slot, with `UPDATE.version < MAIN.version`:
the calls of `boot` are the two blank checks and verifications, one erase, of UPDATE,
`verify_image(MAIN)` and `boot_main_application`; no erase or program of MAIN is issued,
every byte of MAIN is as before and every byte of UPDATE reads 0xFF.  For an accepted MAIN
header the condition on the hashed range excludes the length fields
`0xFFFFFFB8 .. 0xFFFFFFFB` only. -/
theorem boot_ideal_discard (c : Crypto) (b0 : Bool) (buf : Buf) (mem : Mem)
    (hvu : (verify_image c mem UPDATE_IMAGE_START_ADDRESS g_public_key).1 = VERIFY_SUCCESS)
    (hvm : (verify_image c mem MAIN_IMAGE_START_ADDRESS g_public_key).1 = VERIFY_SUCCESS)
    (hver : rd32 mem (UPDATE_IMAGE_START_ADDRESS + OFFSET_version)
      < rd32 mem (MAIN_IMAGE_START_ADDRESS + OFFSET_version))
    (hrange : OFFSET_length + (signed_bytes mem MAIN_IMAGE_START_ADDRESS).length
      ≤ MAIN_IMAGE_MAX_SIZE) :
    ¬ (4294967224 ≤ rd32 mem (MAIN_IMAGE_START_ADDRESS + OFFSET_length) ∧
      rd32 mem (MAIN_IMAGE_START_ADDRESS + OFFSET_length) ≤ 4294967291) ∧
    (boot ⟨c, idealFlash, b0, buf⟩ ⟨mem, (), []⟩).outcome = Outcome.boot_main_application ∧
    (boot ⟨c, idealFlash, b0, buf⟩ ⟨mem, (), []⟩).branch = Branch.version_number_bad ∧
    (boot ⟨c, idealFlash, b0, buf⟩ ⟨mem, (), []⟩).world.trace =
      [Event.flash_open, Event.flash_blankCheck UPDATE_IMAGE_START_ADDRESS UPDATE_IMAGE_MAX_SIZE,
       Event.flash_close, Event.verify_image UPDATE_IMAGE_START_ADDRESS VERIFY_SUCCESS,
       Event.flash_open, Event.flash_blankCheck MAIN_IMAGE_START_ADDRESS UPDATE_IMAGE_MAX_SIZE,
       Event.flash_close, Event.verify_image MAIN_IMAGE_START_ADDRESS VERIFY_SUCCESS,
       Event.flash_open, Event.flash_erase UPDATE_IMAGE_START_ADDRESS 31, Event.flash_close,
       Event.verify_image MAIN_IMAGE_START_ADDRESS VERIFY_SUCCESS,
       Event.boot_main_application] ∧
    (∀ i, i < MAIN_IMAGE_MAX_SIZE →
      rd8 (boot ⟨c, idealFlash, b0, buf⟩ ⟨mem, (), []⟩).world.mem (MAIN_IMAGE_START_ADDRESS + i)
        = rd8 mem (MAIN_IMAGE_START_ADDRESS + i)) ∧
    (∀ i, i < UPDATE_IMAGE_MAX_SIZE →
      rd8 (boot ⟨c, idealFlash, b0, buf⟩ ⟨mem, (), []⟩).world.mem (UPDATE_IMAGE_START_ADDRESS + i)
        = 0xFF) := by
  have hU : UPDATE_IMAGE_START_ADDRESS = 1081344 := by decide
  have hM : MAIN_IMAGE_START_ADDRESS = 65536 := rfl
  have hN : UPDATE_IMAGE_MAX_SIZE = 1015808 := by decide
  have hMAX : MAIN_IMAGE_MAX_SIZE = 1015808 := by decide
  have hol : OFFSET_length = 68 := by decide
  have hbu : (readBytes mem UPDATE_IMAGE_START_ADDRESS UPDATE_IMAGE_MAX_SIZE).all
      (fun b => b == ERASED_STATE) = false :=
    readBytes_all_false _ _ _ (by decide) (magic_not_erased _ _ (verify_image_success _ _ _ _ hvu).1)
  have hbm : (readBytes mem MAIN_IMAGE_START_ADDRESS UPDATE_IMAGE_MAX_SIZE).all
      (fun b => b == ERASED_STATE) = false :=
    readBytes_all_false _ _ _ (by decide) (magic_not_erased _ _ (verify_image_success _ _ _ _ hvm).1)
  have hlen : OFFSET_length + wrap32 (rd32 mem (MAIN_IMAGE_START_ADDRESS + OFFSET_length) + 4)
      ≤ 1015808 := by
    have h := hrange
    unfold signed_bytes at h
    rw [readBytes_length, hMAX] at h
    exact h
  -- erasing UPDATE leaves the MAIN slot as it was
  have herase : ∀ i, i < 1015808 →
      rd8 (eraseBytes mem UPDATE_IMAGE_START_ADDRESS 1015808) (MAIN_IMAGE_START_ADDRESS + i)
        = rd8 mem (MAIN_IMAGE_START_ADDRESS + i) := by
    intro i hi
    rw [rd8_eraseBytes, hU, hM, if_neg (by unfold wrap32; omega)]
  have hpM : wrap32 (MAIN_IMAGE_START_ADDRESS + OFFSET_length) &&& 0x03 = 0 := by
    rw [hM, hol]
    rfl
  have hv2 := verify_image_congr_range c mem (eraseBytes mem UPDATE_IMAGE_START_ADDRESS 1015808)
    MAIN_IMAGE_START_ADDRESS MAIN_IMAGE_START_ADDRESS g_public_key hpM hpM
    (fun i hi => herase i (by
      rcases hi with h1 | h1
      · omega
      · omega))
  rw [hvm] at hv2
  have hboot := boot_ideal_discard_steps c b0 buf mem hbu hvu hbm hvm (Nat.not_le.mpr hver)
  have hboot2 : boot ⟨c, idealFlash, b0, buf⟩ ⟨mem, (), []⟩ =
      ⟨⟨eraseBytes mem UPDATE_IMAGE_START_ADDRESS 1015808, (),
        [Event.flash_open, Event.flash_blankCheck UPDATE_IMAGE_START_ADDRESS UPDATE_IMAGE_MAX_SIZE,
         Event.flash_close, Event.verify_image UPDATE_IMAGE_START_ADDRESS VERIFY_SUCCESS,
         Event.flash_open, Event.flash_blankCheck MAIN_IMAGE_START_ADDRESS UPDATE_IMAGE_MAX_SIZE,
         Event.flash_close, Event.verify_image MAIN_IMAGE_START_ADDRESS VERIFY_SUCCESS,
         Event.flash_open, Event.flash_erase UPDATE_IMAGE_START_ADDRESS 31, Event.flash_close,
         Event.verify_image MAIN_IMAGE_START_ADDRESS VERIFY_SUCCESS,
         Event.boot_main_application]⟩,
       Outcome.boot_main_application, Branch.version_number_bad⟩ := by
    rw [hboot, boot_verified_main_success c idealFlash b0 buf _ _ _ _ hv2]
    generalize UPDATE_IMAGE_START_ADDRESS = U
    generalize MAIN_IMAGE_START_ADDRESS = M
    generalize UPDATE_IMAGE_MAX_SIZE = N
    simp only [List.cons_append, List.nil_append]
  have hmem : (boot ⟨c, idealFlash, b0, buf⟩ ⟨mem, (), []⟩).world.mem
      = eraseBytes mem UPDATE_IMAGE_START_ADDRESS 1015808 := by rw [hboot2]
  refine ⟨(signed_bytes_in_slot_iff c mem MAIN_IMAGE_START_ADDRESS g_public_key hvm).mp hrange,
    by rw [hboot2], by rw [hboot2], by rw [hboot2], ?_, ?_⟩
  · intro i hi
    rw [hmem]
    exact herase i (by omega)
  · intro i hi
    rw [hmem, rd8_eraseBytes, hU, if_pos (by unfold wrap32; omega)]

set_option maxRecDepth 100000 in
theorem boot_ideal_discard_witness :
    ((verify_image cryptoAcceptAll mem_update2_main3 UPDATE_IMAGE_START_ADDRESS g_public_key).1
        = VERIFY_SUCCESS ∧
      (verify_image cryptoAcceptAll mem_update2_main3 MAIN_IMAGE_START_ADDRESS g_public_key).1
        = VERIFY_SUCCESS ∧
      rd32 mem_update2_main3 (UPDATE_IMAGE_START_ADDRESS + OFFSET_version)
        < rd32 mem_update2_main3 (MAIN_IMAGE_START_ADDRESS + OFFSET_version) ∧
      OFFSET_length + (signed_bytes mem_update2_main3 MAIN_IMAGE_START_ADDRESS).length
        ≤ MAIN_IMAGE_MAX_SIZE) ∧
    (boot ⟨cryptoAcceptAll, idealFlash, false, fun _ => 0⟩ ⟨mem_update2_main3, (), []⟩).outcome
      = Outcome.boot_main_application ∧
    (∀ i, i < MAIN_IMAGE_MAX_SIZE →
      rd8 (boot ⟨cryptoAcceptAll, idealFlash, false, fun _ => 0⟩
          ⟨mem_update2_main3, (), []⟩).world.mem (MAIN_IMAGE_START_ADDRESS + i)
        = rd8 mem_update2_main3 (MAIN_IMAGE_START_ADDRESS + i)) :=
  ⟨⟨verify_image_acceptAll _ _ _ (by decide) (by decide),
      verify_image_acceptAll _ _ _ (by decide) (by decide), by decide, by decide⟩,
    (boot_ideal_discard cryptoAcceptAll false (fun _ => 0) mem_update2_main3
      (verify_image_acceptAll _ _ _ (by decide) (by decide))
      (verify_image_acceptAll _ _ _ (by decide) (by decide)) (by decide) (by decide)).2.1,
    (boot_ideal_discard cryptoAcceptAll false (fun _ => 0) mem_update2_main3
      (verify_image_acceptAll _ _ _ (by decide) (by decide))
      (verify_image_acceptAll _ _ _ (by decide) (by decide)) (by decide) (by decide)).2.2.2.2.1⟩

/-! ### A blank check error on MAIN lets an older update through -/

/-- The run of `boot` when the blank check of MAIN fails, with UPDATE of version 2 and MAIN
of version 3: UPDATE is found not blank and is accepted, then the blank check of MAIN
returns an error. -/
theorem env_main_blank_check_fails_path_older :
    (boot_blank_update env_main_blank_check_fails (worldOf mem_update2_main3)).1 = SSP_SUCCESS ∧
    (boot_blank_update env_main_blank_check_fails (worldOf mem_update2_main3)).2.1 = false ∧
    (boot_verify_update env_main_blank_check_fails (worldOf mem_update2_main3)).1
      = VERIFY_SUCCESS ∧
    (boot_blank_main env_main_blank_check_fails (worldOf mem_update2_main3)).1 ≠ SSP_SUCCESS := by
  have hu := blank_check_image_area_failAt MAIN_IMAGE_START_ADDRESS UPDATE_IMAGE_START_ADDRESS
    false (worldOf mem_update2_main3) (by decide) (by decide)
  have hm := blank_check_image_area_failAt MAIN_IMAGE_START_ADDRESS MAIN_IMAGE_START_ADDRESS
    false (boot_verify_update env_main_blank_check_fails (worldOf mem_update2_main3)).2
    (by decide) (by decide)
  rw [if_neg (by decide)] at hu
  rw [if_neg (by decide),
    readBytes_all_false _ _ _ (by decide) (show rd8 (worldOf mem_update2_main3).mem
      UPDATE_IMAGE_START_ADDRESS ≠ ERASED_STATE by decide)] at hu
  rw [if_pos rfl] at hm
  refine ⟨hu.1, hu.2, ?_, ?_⟩
  · rw [boot_verify_update_fst]
    exact verify_image_acceptAll _ _ _ (by decide) (by decide)
  · show (blank_check_image_area (blankCheckFailAt MAIN_IMAGE_START_ADDRESS)
      MAIN_IMAGE_START_ADDRESS false _).1 ≠ SSP_SUCCESS
    rw [hm.1]
    decide

/-- The same driver error with an older update: UPDATE holds an accepted image of version
2, MAIN an accepted image of version 3.  Without the error `boot` discards the update;
with the blank check of MAIN failing, the run is in the block "version number good" and
contains the erase call on MAIN. -/
theorem boot_main_blank_check_error_older_update :
    rd32 mem_update2_main3 (UPDATE_IMAGE_START_ADDRESS + OFFSET_version) = 2 ∧
    rd32 mem_update2_main3 (MAIN_IMAGE_START_ADDRESS + OFFSET_version) = 3 ∧
    (verify_image env_main_blank_check_fails.crypto mem_update2_main3 MAIN_IMAGE_START_ADDRESS
      g_public_key).1 = VERIFY_SUCCESS ∧
    Event.flash_erase MAIN_IMAGE_START_ADDRESS 31
      ∉ run_events env_ideal (worldOf mem_update2_main3) ∧
    (boot_blank_main env_main_blank_check_fails (worldOf mem_update2_main3)).1 ≠ SSP_SUCCESS ∧
    (boot env_main_blank_check_fails (worldOf mem_update2_main3)).branch
      = Branch.version_number_good ∧
    Event.flash_erase MAIN_IMAGE_START_ADDRESS 31
      ∈ run_events env_main_blank_check_fails (worldOf mem_update2_main3) := by
  obtain ⟨h1, h2, h3, h4⟩ := env_main_blank_check_fails_path_older
  have hboot := boot_main_blank_check_error _ _ h1 h2 h3 h4
  have ho := boot_apply_outcome env_main_blank_check_fails false
    (boot_blank_main env_main_blank_check_fails (worldOf mem_update2_main3)).2.2
  rw [← hboot] at ho
  have hvm : (verify_image cryptoAcceptAll mem_update2_main3 MAIN_IMAGE_START_ADDRESS
      g_public_key).1 = VERIFY_SUCCESS :=
    verify_image_acceptAll _ _ _ (by decide) (by decide)
  have hno : Event.flash_erase MAIN_IMAGE_START_ADDRESS 31
      ∉ run_events env_ideal (worldOf mem_update2_main3) := by
    rw [run_events_update2_main3]
    decide
  refine ⟨by decide, by decide, hvm, hno, h4, ho.1, ?_⟩
  rw [run_events_worldOf, hboot]
  have hev := boot_apply_erases_main env_main_blank_check_fails
    (boot_blank_main env_main_blank_check_fails (worldOf mem_update2_main3)).2.2 (fun _ => rfl)
  have h31 : MAIN_IMAGE_MAX_SIZE / MAIN_IMAGE_ERASE_BLOCK_SIZE = 31 := by decide
  rw [h31] at hev
  exact hev

/-! ### The apply path with an UPDATE header whose declared total wraps to 68 -/

/-- Programming MAIN from the UPDATE slot on the ideal flash, when the length is not a whole
number of pages: the rest of the last page is written as 0xFF. -/
theorem flash_main_image_ideal_pad (buf : Buf) (N : Nat) (m : Mem) (tr : List Event)
    (hN0 : 0 < N) (hN : N ≤ 1015808) (hr : N % 128 ≠ 0) (i : Nat) (hi1 : N ≤ i)
    (hi2 : i < N - N % 128 + 128) :
    rd8 (flash_main_image_from_update_area idealFlash buf 1081344 N ⟨m, (), tr⟩).2.mem (65536 + i)
      = 0xFF := by
  have hM : MAIN_IMAGE_START_ADDRESS = 65536 := rfl
  have hrlt : N % 128 < 128 := Nat.mod_lt _ (by decide)
  have hdm := Nat.div_add_mod N 128
  unfold flash_main_image_from_update_area
  have h0 : ¬ ((1081344 : Nat) = 0 ∨ N = 0) := by omega
  rw [if_neg h0]
  simp only [call_open_ideal, call_write_ideal, call_close_ideal, ne_eq, not_true_eq_false,
    if_false, if_true, MAIN_FLASH_PROGRAMMING_PAGE_SIZE, hM, gt_iff_lt]
  have hpage := page_buffer_bytes buf
    (readBytes (storeBytes m 65536 (readBytes m 1081344 (N - N % 128)))
      (wrap32 (1081344 + (N - N % 128))) (N % 128)) (by rw [readBytes_length]; omega)
  rw [readBytes_length] at hpage
  simp only [hr, not_false_eq_true, if_true, Nat.pos_of_ne_zero hr, hpage]
  have hlen2 : (readBytes (storeBytes m 65536 (readBytes m 1081344 (N - N % 128)))
      (wrap32 (1081344 + (N - N % 128))) (N % 128) ++ List.replicate (128 - N % 128) 255).length
      = 128 := by
    simp [readBytes_length]; omega
  rw [rd8_storeBytes, hlen2]
  have hoff : (wrap32 (65536 + i) + 4294967296
      - wrap32 (wrap32 (65536 + (N - N % 128)))) % 4294967296 = i - (N - N % 128) := by
    unfold wrap32; omega
  rw [hoff, if_pos (by omega),
    List.getD_append_right _ _ _ _ (by rw [readBytes_length]; omega), readBytes_length,
    getD_replicate_lt _ _ _ _ (by omega)]

/-- Programming MAIN on the ideal flash, in the apply path, when the length field of UPDATE
is `0xFFFFFFFC`: `boot` asks for 68 bytes; the call succeeds, `MAIN[0 .. 68)` holds the
bytes of UPDATE, `MAIN[68 .. 128)` reads 0xFF and UPDATE is as before. -/
theorem boot_flash_main_ideal_short (c : Crypto) (b0 : Bool) (buf : Buf) (blank : Bool)
    (v : World Unit)
    (hL : rd32 v.mem (UPDATE_IMAGE_START_ADDRESS + OFFSET_length) = 4294967292) :
    (boot_flash_main ⟨c, idealFlash, b0, buf⟩ blank v).1 = SSP_SUCCESS ∧
    (∀ i, i < 68 →
      rd8 (boot_flash_main ⟨c, idealFlash, b0, buf⟩ blank v).2.mem (MAIN_IMAGE_START_ADDRESS + i)
        = rd8 v.mem (UPDATE_IMAGE_START_ADDRESS + i)) ∧
    (∀ i, 68 ≤ i → i < 128 →
      rd8 (boot_flash_main ⟨c, idealFlash, b0, buf⟩ blank v).2.mem (MAIN_IMAGE_START_ADDRESS + i)
        = 0xFF) ∧
    (∀ i, i < 1015808 →
      rd8 (boot_flash_main ⟨c, idealFlash, b0, buf⟩ blank v).2.mem
          (UPDATE_IMAGE_START_ADDRESS + i)
        = rd8 v.mem (UPDATE_IMAGE_START_ADDRESS + i)) := by
  have hU : UPDATE_IMAGE_START_ADDRESS = 1081344 := by decide
  have hM : MAIN_IMAGE_START_ADDRESS = 65536 := rfl
  have hol : OFFSET_length = 68 := by decide
  have hSB : SIGNATURE_LEN_BYTES = 64 := by decide
  have hML : MAGIC_NUMBER_LEN = 4 := rfl
  have hfr := boot_erase_main_ideal_frame c b0 buf blank v
  have hL2 : rd32 (boot_erase_main ⟨c, idealFlash, b0, buf⟩ blank v).2.mem
      (UPDATE_IMAGE_START_ADDRESS + OFFSET_length) = 4294967292 := by
    rw [← hL]
    apply rd32_congr
    intro i hi
    rw [hol, Nat.add_assoc]
    exact hfr _ (by omega)
  have hsize : update_size (boot_erase_main ⟨c, idealFlash, b0, buf⟩ blank v).2.mem = 68 := by
    unfold update_size
    rw [hL2, hSB, hML]
    rfl
  unfold boot_flash_main
  rw [hsize]
  generalize boot_erase_main ⟨c, idealFlash, b0, buf⟩ blank v = ER at hfr ⊢
  obtain ⟨r, m1, ⟨⟩, tr1⟩ := ER
  obtain ⟨hfl1, hfl2, hfl3⟩ := flash_main_image_ideal buf 68 m1 tr1 (by omega) (by omega)
  have hpad := flash_main_image_ideal_pad buf 68 m1 tr1 (by omega) (by omega) (by decide)
  rw [← hU] at hfl1 hfl2 hfl3 hpad
  rw [← hM] at hfl2 hpad
  refine ⟨hfl1, ?_, ?_, ?_⟩
  · intro i hi
    have h1 := hfl2 i hi
    have h2 : rd8 m1 (UPDATE_IMAGE_START_ADDRESS + i) = rd8 v.mem (UPDATE_IMAGE_START_ADDRESS + i) :=
      hfr i (by omega)
    rw [← h2]
    exact h1
  · intro i hi1 hi2
    exact hpad i hi1 (by omega)
  · intro i hi
    have h1 := hfl3 (UPDATE_IMAGE_START_ADDRESS + i) (by rw [hU]; omega) (by rw [hU]; omega)
    have h2 : rd8 m1 (UPDATE_IMAGE_START_ADDRESS + i) = rd8 v.mem (UPDATE_IMAGE_START_ADDRESS + i) :=
      hfr i hi
    rw [← h2]
    exact h1

theorem acceptStored_eq (a b k digest r s : List Nat) :
    acceptStored a b k digest r s =
      if digest = digest_of mem_short_update MAIN_IMAGE_START_ADDRESS ∨
          digest = digest_of mem_short_update UPDATE_IMAGE_START_ADDRESS then SSP_SUCCESS
      else 1 := rfl

set_option maxRecDepth 100000 in
/-- A MAIN slot programmed with the 68 header bytes of `mem_short_update` and 0xFF up to the
end of the page: its length field reads `0xFFFFFFFF`, `verify_image` hashes the three
bytes 0xFF that follow, and the signature service, which accepts the two stored images
only, rejects. -/
theorem verify_image_short_programmed (m : Mem)
    (h1 : ∀ i, i < 68 →
      rd8 m (MAIN_IMAGE_START_ADDRESS + i) = rd8 mem_short_update (UPDATE_IMAGE_START_ADDRESS + i))
    (h2 : ∀ i, 68 ≤ i → i < 128 → rd8 m (MAIN_IMAGE_START_ADDRESS + i) = 0xFF) :
    rd32 m (MAIN_IMAGE_START_ADDRESS + OFFSET_length) = 4294967295 ∧
    (verify_image cryptoStored m MAIN_IMAGE_START_ADDRESS g_public_key).1 = VERIFY_FAIL := by
  have hol : OFFSET_length = 68 := by decide
  have hSB : SIGNATURE_LEN_BYTES = 64 := by decide
  have hL2 : rd32 m (MAIN_IMAGE_START_ADDRESS + OFFSET_length) = 4294967295 := by
    rw [hol]
    unfold rd32
    rw [Nat.add_assoc MAIN_IMAGE_START_ADDRESS, Nat.add_assoc MAIN_IMAGE_START_ADDRESS,
      Nat.add_assoc MAIN_IMAGE_START_ADDRESS, h2 68 (by omega) (by omega),
      h2 (68 + 1) (by omega) (by omega), h2 (68 + 2) (by omega) (by omega),
      h2 (68 + 3) (by omega) (by omega)]
  have hmagic : readBytes m MAIN_IMAGE_START_ADDRESS MAGIC_NUMBER_LEN = MAGIC_NUMBER := by
    have h0 : readBytes mem_short_update UPDATE_IMAGE_START_ADDRESS MAGIC_NUMBER_LEN
        = MAGIC_NUMBER := by decide
    rw [← h0]
    exact readBytes_congr _ _ _ _ _ (fun i hi =>
      h1 i (by have : MAGIC_NUMBER_LEN = 4 := rfl; omega))
  have hlen : wrap32 (rd32 m (MAIN_IMAGE_START_ADDRESS + OFFSET_length) + 4
      + SIGNATURE_LEN_BYTES + 4) ≤ MAIN_IMAGE_MAX_SIZE := by
    rw [hL2, hSB]
    decide
  have hg := digest_of_getD m MAIN_IMAGE_START_ADDRESS 0 (by rw [hL2]; decide)
  rw [rd8_wrap32_add, Nat.add_zero, hol, h2 68 (by omega) (by omega)] at hg
  have hg0 : (digest_of mem_short_update MAIN_IMAGE_START_ADDRESS).getD (32 + 0) 0 = 8 := by
    decide
  have hgU : (digest_of mem_short_update UPDATE_IMAGE_START_ADDRESS).getD (32 + 0) 0 = 128 := by
    decide
  have hdig : ¬ (digest_of m MAIN_IMAGE_START_ADDRESS
        = digest_of mem_short_update MAIN_IMAGE_START_ADDRESS ∨
      digest_of m MAIN_IMAGE_START_ADDRESS
        = digest_of mem_short_update UPDATE_IMAGE_START_ADDRESS) := by
    rintro (h | h)
    · rw [h, hg0] at hg
      omega
    · rw [h, hgU] at hg
      omega
  refine ⟨hL2, ?_⟩
  unfold cryptoStored
  rw [verify_image_recordingHash _ _ _ _ _ _ hmagic hlen, acceptStored_eq, if_neg hdig,
    if_pos (by decide)]

/-- One run of `boot` on the ideal flash from any memory whose UPDATE slot holds the header
of `mem_short_update`, when the version test passes: MAIN is erased, 68 bytes are
programmed, the re-verification fails and the run ends in `NVIC_SystemReset`; UPDATE is as
before and MAIN is left with a header that `verify_image` rejects. -/
theorem boot_short_update_resets (e : Env Unit) (hflash : e.flash = idealFlash)
    (hcrypto : e.crypto = cryptoStored) (m : Mem)
    (hU : ∀ i, i < 1015808 →
      rd8 m (UPDATE_IMAGE_START_ADDRESS + i) = rd8 mem_short_update (UPDATE_IMAGE_START_ADDRESS + i))
    (hver : rd32 (worldOf m).mem (UPDATE_IMAGE_START_ADDRESS + OFFSET_version)
      ≥ (boot_main_version e (worldOf m)).1) :
    (boot e (worldOf m)).outcome = Outcome.NVIC_SystemReset ∧
    Event.boot_main_application ∉ run_events e (worldOf m) ∧
    (∀ i, i < 1015808 →
      rd8 (boot e (worldOf m)).world.mem (UPDATE_IMAGE_START_ADDRESS + i)
        = rd8 mem_short_update (UPDATE_IMAGE_START_ADDRESS + i)) ∧
    rd32 (boot e (worldOf m)).world.mem (MAIN_IMAGE_START_ADDRESS + OFFSET_length)
      = 4294967295 ∧
    (verify_image cryptoStored (boot e (worldOf m)).world.mem MAIN_IMAGE_START_ADDRESS
      g_public_key).1 = VERIFY_FAIL := by
  obtain ⟨c, fl, b0, buf⟩ := e
  have hflash2 : fl = idealFlash := hflash
  have hcrypto2 : c = cryptoStored := hcrypto
  subst hflash2 hcrypto2
  have hUa : UPDATE_IMAGE_START_ADDRESS = 1081344 := by decide
  have hol : OFFSET_length = 68 := by decide
  have hpU : wrap32 (UPDATE_IMAGE_START_ADDRESS + OFFSET_length) &&& 0x03 = 0 := by
    rw [hUa, hol]
    rfl
  have hw : wrap32 (rd32 mem_short_update (UPDATE_IMAGE_START_ADDRESS + OFFSET_length) + 4)
      = 0 := by decide
  have hvu0 : (verify_image cryptoStored mem_short_update UPDATE_IMAGE_START_ADDRESS
      g_public_key).1 = VERIFY_SUCCESS := by
    unfold cryptoStored
    rw [verify_image_recordingHash _ _ _ _ _ _ (by decide) (by decide), acceptStored_eq,
      if_pos (Or.inr rfl), if_neg (fun h => h rfl)]
  have hvu : (verify_image cryptoStored m UPDATE_IMAGE_START_ADDRESS g_public_key).1
      = VERIFY_SUCCESS := by
    rw [verify_image_congr_range cryptoStored mem_short_update m UPDATE_IMAGE_START_ADDRESS
      UPDATE_IMAGE_START_ADDRESS g_public_key hpU hpU (fun i hi => hU i (by
        rw [hw, hol] at hi
        omega))]
    exact hvu0
  have hL : rd32 m (UPDATE_IMAGE_START_ADDRESS + OFFSET_length) = 4294967292 := by
    have h0 : rd32 mem_short_update (UPDATE_IMAGE_START_ADDRESS + OFFSET_length)
        = 4294967292 := by decide
    rw [← h0]
    apply rd32_congr
    intro i hi
    rw [hol, Nat.add_assoc]
    exact hU _ (by omega)
  have hdrv : BlankCheckReads (⟨cryptoStored, idealFlash, b0, buf⟩ : Env Unit).flash := ⟨fun _ => rfl, fun _ _ _ _ => ⟨rfl, rfl⟩⟩
  have hbu := boot_blank_update_reads ⟨cryptoStored, idealFlash, b0, buf⟩ (worldOf m) hdrv
  have hnb : (readBytes (worldOf m).mem UPDATE_IMAGE_START_ADDRESS UPDATE_IMAGE_MAX_SIZE).all
      (fun b => b == ERASED_STATE) = false :=
    readBytes_all_false _ _ _ (by decide)
      (magic_not_erased _ _ (verify_image_success _ _ _ _ hvu).1)
  rw [hnb] at hbu
  have hvu2 : (boot_verify_update ⟨cryptoStored, idealFlash, b0, buf⟩ (worldOf m)).1 = VERIFY_SUCCESS := by
    rw [boot_verify_update_fst]
    exact hvu
  have hboot := boot_apply_path ⟨cryptoStored, idealFlash, b0, buf⟩ (worldOf m) hbu.1 hbu.2 hvu2 hver
  have her : (boot_erase_main ⟨cryptoStored, idealFlash, b0, buf⟩ (boot_blank_main ⟨cryptoStored, idealFlash, b0, buf⟩ (worldOf m)).2.1
      (boot_main_version ⟨cryptoStored, idealFlash, b0, buf⟩ (worldOf m)).2).1 = SSP_SUCCESS :=
    boot_erase_main_ideal_fst cryptoStored b0 buf _ _
  have hb2 : boot ⟨cryptoStored, idealFlash, b0, buf⟩ (worldOf m) = boot_after_flash ⟨cryptoStored, idealFlash, b0, buf⟩
      (boot_flash_main ⟨cryptoStored, idealFlash, b0, buf⟩ (boot_blank_main ⟨cryptoStored, idealFlash, b0, buf⟩ (worldOf m)).2.1
        (boot_main_version ⟨cryptoStored, idealFlash, b0, buf⟩ (worldOf m)).2) := by
    rw [hboot, boot_apply_eq, if_pos her]
  have hmv : (boot_main_version ⟨cryptoStored, idealFlash, b0, buf⟩ (worldOf m)).2.mem = m :=
    boot_main_version_mem ⟨cryptoStored, idealFlash, b0, buf⟩ (worldOf m)
  have hfl : (boot_flash_main ⟨cryptoStored, idealFlash, b0, buf⟩ (boot_blank_main ⟨cryptoStored, idealFlash, b0, buf⟩ (worldOf m)).2.1
        (boot_main_version ⟨cryptoStored, idealFlash, b0, buf⟩ (worldOf m)).2).1 = SSP_SUCCESS ∧
      (∀ i, i < 68 →
        rd8 (boot_flash_main ⟨cryptoStored, idealFlash, b0, buf⟩ (boot_blank_main ⟨cryptoStored, idealFlash, b0, buf⟩ (worldOf m)).2.1
            (boot_main_version ⟨cryptoStored, idealFlash, b0, buf⟩ (worldOf m)).2).2.mem (MAIN_IMAGE_START_ADDRESS + i)
          = rd8 (boot_main_version ⟨cryptoStored, idealFlash, b0, buf⟩ (worldOf m)).2.mem
              (UPDATE_IMAGE_START_ADDRESS + i)) ∧
      (∀ i, 68 ≤ i → i < 128 →
        rd8 (boot_flash_main ⟨cryptoStored, idealFlash, b0, buf⟩ (boot_blank_main ⟨cryptoStored, idealFlash, b0, buf⟩ (worldOf m)).2.1
            (boot_main_version ⟨cryptoStored, idealFlash, b0, buf⟩ (worldOf m)).2).2.mem (MAIN_IMAGE_START_ADDRESS + i)
          = 0xFF) ∧
      (∀ i, i < 1015808 →
        rd8 (boot_flash_main ⟨cryptoStored, idealFlash, b0, buf⟩ (boot_blank_main ⟨cryptoStored, idealFlash, b0, buf⟩ (worldOf m)).2.1
            (boot_main_version ⟨cryptoStored, idealFlash, b0, buf⟩ (worldOf m)).2).2.mem (UPDATE_IMAGE_START_ADDRESS + i)
          = rd8 (boot_main_version ⟨cryptoStored, idealFlash, b0, buf⟩ (worldOf m)).2.mem
              (UPDATE_IMAGE_START_ADDRESS + i)) :=
    boot_flash_main_ideal_short cryptoStored b0 buf _ _ (by rw [hmv]; exact hL)
  obtain ⟨hfl1, hc1, hc2, hc3⟩ := hfl
  rw [hmv] at hc1 hc3
  obtain ⟨hLm, hv2⟩ := verify_image_short_programmed _
    (fun i hi => (hc1 i hi).trans (hU i (by omega))) hc2
  have hne : (verify_image cryptoStored
      (boot_flash_main ⟨cryptoStored, idealFlash, b0, buf⟩ (boot_blank_main ⟨cryptoStored, idealFlash, b0, buf⟩ (worldOf m)).2.1
        (boot_main_version ⟨cryptoStored, idealFlash, b0, buf⟩ (worldOf m)).2).2.mem MAIN_IMAGE_START_ADDRESS
      g_public_key).1 ≠ VERIFY_SUCCESS := by
    rw [hv2]
    decide
  obtain ⟨ho, hm, ht⟩ := boot_after_flash_fail ⟨cryptoStored, idealFlash, b0, buf⟩ _ hfl1 hne
  rw [← hb2] at ho hm ht
  have hx1 := boot_main_version_extends_start (fun ev => ev ≠ Event.boot_main_application)
    ⟨cryptoStored, idealFlash, b0, buf⟩ (worldOf m) (fun h => Event.noConfusion h) (fun h => Event.noConfusion h)
    (fun _ _ h => Event.noConfusion h) (fun _ _ h => Event.noConfusion h)
  have hx2 := boot_erase_main_extends (fun ev => ev ≠ Event.boot_main_application)
    ⟨cryptoStored, idealFlash, b0, buf⟩ (boot_blank_main ⟨cryptoStored, idealFlash, b0, buf⟩ (worldOf m)).2.1
    (boot_main_version ⟨cryptoStored, idealFlash, b0, buf⟩ (worldOf m)).2
    (fun h => Event.noConfusion h) (fun h => Event.noConfusion h)
    (fun _ h => Event.noConfusion h)
  have hx3 := boot_flash_main_extends (fun ev => ev ≠ Event.boot_main_application)
    ⟨cryptoStored, idealFlash, b0, buf⟩ (boot_blank_main ⟨cryptoStored, idealFlash, b0, buf⟩ (worldOf m)).2.1
    (boot_main_version ⟨cryptoStored, idealFlash, b0, buf⟩ (worldOf m)).2
    (fun h => Event.noConfusion h) (fun h => Event.noConfusion h)
    (fun _ _ h => Event.noConfusion h)
  have hx4 : Extends (fun ev => ev ≠ Event.boot_main_application)
      (boot_flash_main ⟨cryptoStored, idealFlash, b0, buf⟩ (boot_blank_main ⟨cryptoStored, idealFlash, b0, buf⟩ (worldOf m)).2.1
        (boot_main_version ⟨cryptoStored, idealFlash, b0, buf⟩ (worldOf m)).2).2.trace
      (boot ⟨cryptoStored, idealFlash, b0, buf⟩ (worldOf m)).world.trace := by
    rw [ht]
    refine ⟨_, rfl, ?_⟩
    intro ev hev
    rcases List.mem_cons.mp hev with h | h
    · rw [h]
      exact fun hh => Event.noConfusion hh
    · rw [List.mem_singleton.mp h]
      exact fun hh => Event.noConfusion hh
  have hx := ((hx1.trans hx2).trans hx3).trans hx4
  refine ⟨ho, fun hmem => run_events_mem_of_extends _ _ hx _ hmem rfl, ?_, ?_, ?_⟩
  · intro i hi
    rw [hm, hc3 i hi]
    exact hU i hi
  · rw [hm]
    exact hLm
  · rw [hm]
    exact hv2

/-- The run after the reset: from the memory left by such a run, `boot` ends in
`NVIC_SystemReset` again. -/
theorem boot_short_update_resets_again (e : Env Unit) (hflash : e.flash = idealFlash)
    (hcrypto : e.crypto = cryptoStored) (m : Mem)
    (hU : ∀ i, i < 1015808 →
      rd8 m (UPDATE_IMAGE_START_ADDRESS + i) = rd8 mem_short_update (UPDATE_IMAGE_START_ADDRESS + i))
    (hver : rd32 (worldOf m).mem (UPDATE_IMAGE_START_ADDRESS + OFFSET_version)
      ≥ (boot_main_version e (worldOf m)).1) :
    (boot e (worldOf (boot e (worldOf m)).world.mem)).outcome = Outcome.NVIC_SystemReset ∧
    rd8 (boot e (worldOf m)).world.mem UPDATE_IMAGE_START_ADDRESS
      = rd8 mem_short_update UPDATE_IMAGE_START_ADDRESS := by
  obtain ⟨-, -, hu1, -, hv1⟩ := boot_short_update_resets e hflash hcrypto m hU hver
  generalize (boot e (worldOf m)).world.mem = m1 at hu1 hv1 ⊢
  have hver2 : rd32 (worldOf m1).mem (UPDATE_IMAGE_START_ADDRESS + OFFSET_version)
      ≥ (boot_main_version e (worldOf m1)).1 := by
    rcases boot_main_version_fst e (worldOf m1) with h | h
    · rw [h]
      exact Nat.zero_le _
    · exfalso
      have h4 := h.2.2.2
      rw [hcrypto] at h4
      have h5 : (verify_image cryptoStored m1 MAIN_IMAGE_START_ADDRESS g_public_key).1
          = VERIFY_SUCCESS := h4
      rw [hv1] at h5
      exact absurd h5 (by decide)
  refine ⟨(boot_short_update_resets e hflash hcrypto m1 hu1 hver2).1, ?_⟩
  have h := hu1 0 (by omega)
  rw [Nat.add_zero] at h
  exact h

set_option maxRecDepth 100000 in
/-- C10, at a failing input that the device can process: UPDATE holds an accepted header
of version 5 with the length field `0xFFFFFFFC` (its declared total wraps to 68 and the
hash is over 0 bytes), MAIN an accepted image of version 3.  `boot` erases MAIN, programs
68 bytes, finds the length field `0xFFFFFFFF` in the programmed header, rejects it and
ends in `NVIC_SystemReset`: `boot_main_application` is not called.  UPDATE is not erased,
and the next run of `boot`, from the memory left by the first, ends in `NVIC_SystemReset`
again. -/
theorem boot_apply_short_update :
    rd32 mem_short_update (UPDATE_IMAGE_START_ADDRESS + OFFSET_length) = 4294967292 ∧
    (signed_bytes mem_short_update UPDATE_IMAGE_START_ADDRESS).length = 0 ∧
    (verify_image cryptoStored mem_short_update UPDATE_IMAGE_START_ADDRESS g_public_key).1
      = VERIFY_SUCCESS ∧
    (verify_image cryptoStored mem_short_update MAIN_IMAGE_START_ADDRESS g_public_key).1
      = VERIFY_SUCCESS ∧
    rd32 mem_short_update (UPDATE_IMAGE_START_ADDRESS + OFFSET_version) = 5 ∧
    rd32 mem_short_update (MAIN_IMAGE_START_ADDRESS + OFFSET_version) = 3 ∧
    (boot env_stored (worldOf mem_short_update)).outcome = Outcome.NVIC_SystemReset ∧
    Event.boot_main_application ∉ run_events env_stored (worldOf mem_short_update) ∧
    rd8 (boot env_stored (worldOf mem_short_update)).world.mem UPDATE_IMAGE_START_ADDRESS
      = rd8 mem_short_update UPDATE_IMAGE_START_ADDRESS ∧
    rd8 mem_short_update UPDATE_IMAGE_START_ADDRESS = 0x59 ∧
    rd32 (boot env_stored (worldOf mem_short_update)).world.mem
      (MAIN_IMAGE_START_ADDRESS + OFFSET_length) = 4294967295 ∧
    (verify_image cryptoStored (boot env_stored (worldOf mem_short_update)).world.mem
      MAIN_IMAGE_START_ADDRESS g_public_key).1 = VERIFY_FAIL ∧
    (boot env_stored (worldOf (boot env_stored (worldOf mem_short_update)).world.mem)).outcome
      = Outcome.NVIC_SystemReset := by
  have hvu0 : (verify_image cryptoStored mem_short_update UPDATE_IMAGE_START_ADDRESS
      g_public_key).1 = VERIFY_SUCCESS := by
    unfold cryptoStored
    rw [verify_image_recordingHash _ _ _ _ _ _ (by decide) (by decide), acceptStored_eq,
      if_pos (Or.inr rfl), if_neg (fun h => h rfl)]
  have hvm0 : (verify_image cryptoStored mem_short_update MAIN_IMAGE_START_ADDRESS
      g_public_key).1 = VERIFY_SUCCESS := by
    unfold cryptoStored
    rw [verify_image_recordingHash _ _ _ _ _ _ (by decide) (by decide), acceptStored_eq,
      if_pos (Or.inl rfl), if_neg (fun h => h rfl)]
  have hlen0 : (signed_bytes mem_short_update UPDATE_IMAGE_START_ADDRESS).length = 0 := by
    unfold signed_bytes
    rw [readBytes_length]
    decide
  have hver1 : rd32 (worldOf mem_short_update).mem (UPDATE_IMAGE_START_ADDRESS + OFFSET_version)
      ≥ (boot_main_version env_stored (worldOf mem_short_update)).1 := by
    rcases boot_main_version_fst env_stored (worldOf mem_short_update) with h | h
    · rw [h]
      exact Nat.zero_le _
    · rw [h.1]
      decide
  have h1 := boot_short_update_resets env_stored rfl rfl mem_short_update (fun _ _ => rfl) hver1
  have h2 := boot_short_update_resets_again env_stored rfl rfl mem_short_update
    (fun _ _ => rfl) hver1
  exact ⟨by decide, hlen0, hvu0, hvm0, by decide, by decide, h1.1, h1.2.1, h2.2, by decide,
    h1.2.2.2.1, h1.2.2.2.2, h2.1⟩

end YASB
